import Mathlib

/-!
# Completion-queue engine of the mlx5 provider (src/mlx5/cq.c)

A shallow embedding of the completion-queue code of src/mlx5/cq.c, followed by
theorems about it.

Conventions of the embedding.

* Machine integers are natural numbers; arithmetic that can wrap is reduced
  explicitly (the consumer index and the work-queue tails are 32-bit unsigned).
* Words that the device writes in big-endian order have their own types
  (Be16, Be32, Be64); the code converts them with be16toh / be32toh / be64toh
  and the embedding does so at the same places.
* Pointers to driver objects (queue-pairs, shared receive queues, ...) are
  addresses, natural numbers with 0 for NULL; the objects live in the stores of
  the World. Pointers to ring slots are ring positions (none for NULL).
* Enumerators and masks that cq.c takes from headers which are not part of
  src/ are the fields of Hdr, a parameter of every function that uses them.
* Functions that cq.c calls and that are defined elsewhere are collaborator
  services: each call is recorded in the call log of the World, and a result
  that the caller uses comes from Ext.
-/

namespace Mlx5

/-! ## Definitions -/

/-- Enumerators, masks and build switches that cq.c uses and that are declared
in headers outside src/ (mlx5dv.h, mlx5.h, wqe.h, infiniband/verbs.h, errno.h).
They are a parameter of the embedding. -/
structure Hdr where
  MLX5_DEBUG : Bool
  ENOENT : Nat
  EINVAL : Nat
  MLX5_CQE_OWNER_MASK : Nat
  MLX5_INLINE_SCATTER_32 : Nat
  MLX5_INLINE_SCATTER_64 : Nat
  MLX5_CQE_REQ : Nat
  MLX5_CQE_RESP_WR_IMM : Nat
  MLX5_CQE_RESP_SEND : Nat
  MLX5_CQE_RESP_SEND_IMM : Nat
  MLX5_CQE_RESP_SEND_INV : Nat
  MLX5_CQE_RESIZE_CQ : Nat
  MLX5_CQE_NO_PACKET : Nat
  MLX5_CQE_SIG_ERR : Nat
  MLX5_CQE_REQ_ERR : Nat
  MLX5_CQE_RESP_ERR : Nat
  MLX5_CQE_INVALID : Nat
  MLX5_CQE_SYNDROME_LOCAL_LENGTH_ERR : Nat
  MLX5_CQE_SYNDROME_LOCAL_QP_OP_ERR : Nat
  MLX5_CQE_SYNDROME_LOCAL_PROT_ERR : Nat
  MLX5_CQE_SYNDROME_WR_FLUSH_ERR : Nat
  MLX5_CQE_SYNDROME_MW_BIND_ERR : Nat
  MLX5_CQE_SYNDROME_BAD_RESP_ERR : Nat
  MLX5_CQE_SYNDROME_LOCAL_ACCESS_ERR : Nat
  MLX5_CQE_SYNDROME_REMOTE_INVAL_REQ_ERR : Nat
  MLX5_CQE_SYNDROME_REMOTE_ACCESS_ERR : Nat
  MLX5_CQE_SYNDROME_REMOTE_OP_ERR : Nat
  MLX5_CQE_SYNDROME_TRANSPORT_RETRY_EXC_ERR : Nat
  MLX5_CQE_SYNDROME_RNR_RETRY_EXC_ERR : Nat
  MLX5_CQE_SYNDROME_REMOTE_ABORTED_ERR : Nat
  MLX5_CQE_VENDOR_SYNDROME_ODP_PFAULT : Nat
  MLX5_CQE_L4_OK : Nat
  MLX5_CQE_L3_OK : Nat
  MLX5_CQE_L3_HDR_TYPE_IPV4 : Nat
  MLX5_OPCODE_NOP : Nat
  MLX5_OPCODE_SEND_INVAL : Nat
  MLX5_OPCODE_RDMA_WRITE : Nat
  MLX5_OPCODE_RDMA_WRITE_IMM : Nat
  MLX5_OPCODE_SEND : Nat
  MLX5_OPCODE_SEND_IMM : Nat
  MLX5_OPCODE_TSO : Nat
  MLX5_OPCODE_RDMA_READ : Nat
  MLX5_OPCODE_ATOMIC_CS : Nat
  MLX5_OPCODE_ATOMIC_FA : Nat
  MLX5_OPCODE_UMR : Nat
  MLX5_OPCODE_SET_PSV : Nat
  MLX5_OPCODE_MMO : Nat
  MLX5_CQ_SET_CI : Nat
  MLX5_CQ_ARM_DB : Nat
  MLX5_CQ_FLAGS_RX_CSUM_VALID : Nat
  MLX5_CQ_FLAGS_EMPTY_DURING_POLL : Nat
  MLX5_CQ_FLAGS_FOUND_CQES : Nat
  MLX5_CQ_FLAGS_SINGLE_THREADED : Nat
  MLX5_CQ_FLAGS_DV_OWNED : Nat
  MLX5_CQ_FLAGS_TM_SYNC_REQ : Nat
  MLX5_CQ_FLAGS_RAW_WQE : Nat
  MLX5_RX_CSUM_VALID : Nat
  MLX5_RSC_TYPE_QP : Nat
  MLX5_RSC_TYPE_XSRQ : Nat
  MLX5_RSC_TYPE_RWQ : Nat
  MLX5_TMC_SUCCESS : Nat
  IBV_WC_SUCCESS : Nat
  IBV_WC_LOC_LEN_ERR : Nat
  IBV_WC_LOC_QP_OP_ERR : Nat
  IBV_WC_LOC_PROT_ERR : Nat
  IBV_WC_WR_FLUSH_ERR : Nat
  IBV_WC_MW_BIND_ERR : Nat
  IBV_WC_BAD_RESP_ERR : Nat
  IBV_WC_LOC_ACCESS_ERR : Nat
  IBV_WC_REM_INV_REQ_ERR : Nat
  IBV_WC_REM_ACCESS_ERR : Nat
  IBV_WC_REM_OP_ERR : Nat
  IBV_WC_RETRY_EXC_ERR : Nat
  IBV_WC_RNR_RETRY_EXC_ERR : Nat
  IBV_WC_REM_ABORT_ERR : Nat
  IBV_WC_GENERAL_ERR : Nat
  IBV_WC_TM_ERR : Nat
  IBV_WC_TM_RNDV_INCOMPLETE : Nat
  IBV_WC_SEND : Nat
  IBV_WC_RDMA_WRITE : Nat
  IBV_WC_RDMA_READ : Nat
  IBV_WC_COMP_SWAP : Nat
  IBV_WC_FETCH_ADD : Nat
  IBV_WC_TSO : Nat
  IBV_WC_RECV : Nat
  IBV_WC_RECV_RDMA_WITH_IMM : Nat
  IBV_WC_TM_ADD : Nat
  IBV_WC_TM_DEL : Nat
  IBV_WC_TM_SYNC : Nat
  IBV_WC_TM_RECV : Nat
  IBV_WC_TM_NO_TAG : Nat
  IBV_WC_DRIVER2 : Nat
  IBV_WC_GRH : Nat
  IBV_WC_WITH_IMM : Nat
  IBV_WC_IP_CSUM_OK_SHIFT : Nat
  IBV_WC_WITH_INV : Nat
  IBV_WC_TM_SYNC_REQ : Nat
  IBV_WC_TM_MATCH : Nat
  IBV_WC_TM_DATA_VALID : Nat

/-- A 16-bit word in big-endian byte order, given by the number it encodes. -/
structure Be16 where
  val : Nat
deriving DecidableEq, Repr

/-- A 32-bit word in big-endian byte order, given by the number it encodes. -/
structure Be32 where
  val : Nat
deriving DecidableEq, Repr

/-- A 64-bit word in big-endian byte order, given by the number it encodes. -/
structure Be64 where
  val : Nat
deriving DecidableEq, Repr

/-- The host value of a big-endian 16-bit word. -/
def be16toh (x : Be16) : Nat := x.val % 2 ^ 16

/-- The host value of a big-endian 32-bit word. -/
def be32toh (x : Be32) : Nat := x.val % 2 ^ 32

/-- The host value of a big-endian 64-bit word. -/
def be64toh (x : Be64) : Nat := x.val % 2 ^ 64

/-- The big-endian encoding of a 32-bit host value. -/
def htobe32 (x : Nat) : Be32 := ⟨x % 2 ^ 32⟩

/-- The operand of `&= ~m` on a 32-bit word: the complement of m. -/
def not32 (m : Nat) : Nat := 2 ^ 32 - 1 - m % 2 ^ 32

/-- Pointwise update of a store or an array. -/
def upd {α : Type} (f : Nat → α) (a : Nat) (v : α) : Nat → α :=
  fun x => if x = a then v else f x

/-- The result codes of cq.c (its first enum); CQ_POLL_NODATA is ENOENT. -/
def CQ_OK : Int := 0

/-- Result code: the ring has no software-visible slot. -/
def CQ_EMPTY : Int := -1

/-- Result code: protocol violation. -/
def CQ_POLL_ERR : Int := -2

/-- Result code: the polled slot was handled internally. -/
def CQ_POLL_NODATA (K : Hdr) : Int := (K.ENOENT : Int)

/-- The constant MLX5_CQE_APP_TAG_MATCHING of cq.c. -/
def MLX5_CQE_APP_TAG_MATCHING : Nat := 1

/-- Tag-matching sub-opcode of cq.c. -/
def MLX5_CQE_APP_OP_TM_CONSUMED : Nat := 0x1

/-- Tag-matching sub-opcode of cq.c. -/
def MLX5_CQE_APP_OP_TM_EXPECTED : Nat := 0x2

/-- Tag-matching sub-opcode of cq.c. -/
def MLX5_CQE_APP_OP_TM_UNEXPECTED : Nat := 0x3

/-- Tag-matching sub-opcode of cq.c. -/
def MLX5_CQE_APP_OP_TM_NO_TAG : Nat := 0x4

/-- Tag-matching sub-opcode of cq.c. -/
def MLX5_CQE_APP_OP_TM_APPEND : Nat := 0x5

/-- Tag-matching sub-opcode of cq.c. -/
def MLX5_CQE_APP_OP_TM_REMOVE : Nat := 0x6

/-- Tag-matching sub-opcode of cq.c. -/
def MLX5_CQE_APP_OP_TM_NOOP : Nat := 0x7

/-- Tag-matching sub-opcode of cq.c. -/
def MLX5_CQE_APP_OP_TM_CONSUMED_SW_RDNV : Nat := 0x9

/-- Tag-matching sub-opcode of cq.c. -/
def MLX5_CQE_APP_OP_TM_CONSUMED_MSG : Nat := 0xA

/-- Tag-matching sub-opcode of cq.c. -/
def MLX5_CQE_APP_OP_TM_CONSUMED_MSG_SW_RDNV : Nat := 0xB

/-- Tag-matching sub-opcode of cq.c. -/
def MLX5_CQE_APP_OP_TM_MSG_COMPLETION_CANCELED : Nat := 0xC

/-- The function mlx5_cqe_app_op_tm_is_complete of cq.c. -/
def mlx5_cqe_app_op_tm_is_complete (op : Nat) : Bool :=
  op != MLX5_CQE_APP_OP_TM_CONSUMED && op != MLX5_CQE_APP_OP_TM_CONSUMED_SW_RDNV

/-- The enumerator MLX5_CQ_LAZY_FLAGS of cq.c. -/
def MLX5_CQ_LAZY_FLAGS (K : Hdr) : Nat :=
  K.MLX5_CQ_FLAGS_RX_CSUM_VALID ||| K.MLX5_CQ_FLAGS_TM_SYNC_REQ ||| K.MLX5_CQ_FLAGS_RAW_WQE

/-- The enumerator MLX5_TM_MAX_SYNC_DIFF of cq.c. -/
def MLX5_TM_MAX_SYNC_DIFF : Nat := 0x3fff

/-- The 64-byte completion record (struct mlx5_cqe64) with the fields cq.c
reads. The error view (struct mlx5_err_cqe: syndrome, vendor_err_synd) and the
signature-error view (struct mlx5_sigerr_cqe: the sig_ fields) of the same
bytes are kept as fields of their own. -/
structure Cqe64 where
  op_own : Nat
  sop_drop_qpn : Be32
  srqn_uidx : Be32
  byte_cnt : Be32
  wqe_counter : Be16
  imm_inval_pkey : Be32
  flags_rqpn : Be32
  slid : Be16
  ml_path : Nat
  hds_ip_ext : Nat
  l4_hdr_type_etc : Nat
  app : Nat
  app_op : Nat
  app_info : Be16
  tm_cqe_success : Be32
  tm_cqe_hw_phase_cnt : Be16
  tmh_tag : Be64
  tmh_app_ctx : Be32
  timestamp : Be64
  vlan_info : Be16
  syndrome : Nat
  vendor_err_synd : Nat
  sig_expected_trans_sig : Be32
  sig_actual_trans_sig : Be32
  sig_expected_ref_tag : Be32
  sig_actual_ref_tag : Be32
  sig_syndrome : Be16
  sig_type : Nat
  sig_domain : Nat
  sig_mkey : Be32
  sig_err_offset : Be64

/-- One ring slot: the completion record, and the bytes that lie in the ring
right before the record (what `cqe64 - 1` points to: the first half of a
128-byte slot), byte i at offset i. -/
structure Slot where
  cqe64 : Cqe64
  scatter64 : Nat → Nat

/-- The completion queue (struct mlx5_cq) with the fields cq.c uses. The field
cqe is verbs_cq.cq.cqe (the ring mask), wr_id and status are the fields of
verbs_cq.cq_ex, dbrec is the doorbell record, cqe64 is the currently decoded
slot of the lazy protocol. The delay stall_cycles is an int: a value from -2^31
to 2^31 - 1. -/
structure Cq where
  active_buf : Nat → Slot
  resize_buf : Nat → Slot
  cqe : Nat
  cqe_sz : Nat
  active_cqes : Nat
  resize_cqes : Nat
  resize_cqe_sz : Nat
  cons_index : Nat
  dbrec : Nat → Be32
  flags : Nat
  cqe64 : Option Nat
  cached_opcode : Nat
  cur_rsc : Nat
  cur_srq : Nat
  wr_id : Nat
  status : Nat
  stall_enable : Nat
  stall_adaptive_enable : Nat
  stall_next_poll : Nat
  stall_last_count : Nat
  stall_cycles : Int
  arm_sn : Nat
  cqn : Nat
  lock : Bool

/-- Modelled from the spec: mlx5dv_get_cqe_opcode is an inline accessor of
mlx5dv.h, which is not under src/; it yields the opcode field of the slot,
which cq.c itself reads as op_own >> 4 (handle_responder,
mlx5_cq_resize_copy_cqes) and writes as opcode << 4 (mlx5_alloc_cq_buf). -/
def mlx5dv_get_cqe_opcode (cqe : Cqe64) : Nat := cqe.op_own >>> 4

/-- The function get_cqe of cq.c: the slot at ring position n. The byte offset
n * cqe_sz is the position n of the ring of slots. -/
def get_cqe (cq : Cq) (n : Nat) : Slot := cq.active_buf n

/-- The function get_sw_cqe of cq.c. The result is the ring position of the
slot, none for NULL. The record cqe64 is the slot itself for 64-byte slots and
its second half for 128-byte slots; Slot.cqe64 is that record in both cases.
The index n is the bit pattern of the int argument. -/
def get_sw_cqe (K : Hdr) (cq : Cq) (n : Nat) : Option Nat :=
  let cqe64 := (get_cqe cq (n &&& cq.cqe)).cqe64
  if mlx5dv_get_cqe_opcode cqe64 ≠ K.MLX5_CQE_INVALID ∧
      ((cqe64.op_own &&& K.MLX5_CQE_OWNER_MASK) ^^^
        (if n &&& (cq.cqe + 1) ≠ 0 then 1 else 0)) = 0 then
    some (n &&& cq.cqe)
  else
    none

/-- The function next_cqe_sw of cq.c. -/
def next_cqe_sw (K : Hdr) (cq : Cq) : Option Nat := get_sw_cqe K cq cq.cons_index

/-- The function update_cons_index of cq.c. -/
def update_cons_index (K : Hdr) (cq : Cq) : Cq :=
  { cq with dbrec := upd cq.dbrec K.MLX5_CQ_SET_CI (htobe32 (cq.cons_index &&& 0xffffff)) }

/-- The function mlx5_get_next_cqe of cq.c: the result code, the queue, and the
slot stored through pcqe64 and pcqe (none when nothing is stored). -/
def mlx5_get_next_cqe (K : Hdr) (cq : Cq) : Int × Cq × Option Nat :=
  match next_cqe_sw K cq with
  | none => (CQ_EMPTY, cq, none)
  | some cqe => (CQ_OK, { cq with cons_index := (cq.cons_index + 1) % 2 ^ 32 }, some cqe)

/-- A work queue (struct mlx5_wq) with the fields cq.c uses; the arrays wrid,
wqe_head and wr_data are indexed by slot. -/
structure Wq where
  wqe_cnt : Nat
  tail : Nat
  wrid : Nat → Nat
  wqe_head : Nat → Nat
  wr_data : Nat → Nat

/-- The resource header (struct mlx5_resource) that starts every queue-pair,
shared receive queue and receive work queue. -/
structure Rsc where
  type : Nat
  rsn : Nat

/-- A queue-pair (struct mlx5_qp) with the fields cq.c uses; srq is
verbs_qp.qp.srq, the address of its shared receive queue or 0. -/
structure Qp where
  sq : Wq
  rq : Wq
  srq : Nat
  qp_cap_cache : Nat

/-- A receive work queue (struct mlx5_rwq) with the field cq.c uses. -/
structure Rwq where
  rq : Wq

/-- One entry of the tag table of a shared receive queue
(struct mlx5_tag_entry); ptr is the address of the destination buffer. -/
structure TagEntry where
  expect_cqe : Nat
  wr_id : Nat
  phase_cnt : Nat
  ptr : Nat
  size : Nat

/-- One entry of the operation log of a shared receive queue
(struct mlx5_srq_op); tag is the index of its tag in the tag table, none for a
NULL tag pointer. -/
structure SrqOp where
  tag : Option Nat
  wqe_head : Nat
  wr_id : Nat

/-- A shared receive queue (struct mlx5_srq) with the fields cq.c uses; cmd_qp
is the address of the command queue-pair. -/
structure Srq where
  srqn : Nat
  wrid : Nat → Nat
  tm_list : Nat → TagEntry
  op : Nat → SrqOp
  op_head : Nat
  op_tail : Nat
  unexp_in : Int
  unexp_out : Int
  cmd_qp : Nat
  lock : Bool

/-- The detail of a signature error (struct mlx5_sig_err). -/
structure SigErr where
  syndrome : Nat
  expected : Nat
  actual : Nat
  offset : Nat
  sig_type : Nat
  domain : Nat

/-- The signature record of a memory key (what mkey->sig points to). -/
structure SigCtx where
  err_exists : Bool
  err_count : Nat
  err_count_updated : Bool
  err_info : SigErr

/-- A memory key (struct mlx5_mkey). -/
structure Mkey where
  sig : SigCtx

/-- The source pointer handed to an inline-scatter copy, relative to the slot
at ring position pos. -/
inductive CopySrc where
  | cqe64 (pos : Nat)
  | cqe64_minus_1 (pos : Nat)
  | cqe (pos : Nat)
  | cqe_minus_1 (pos : Nat)
deriving DecidableEq, Repr

/-- Modelled from the spec: the services that cq.c calls and that are defined
outside src/ (mlx5_free_srq_wqe, mlx5_tm_release_tag, mlx5_complete_odp_fault,
mlx5_copy_to_recv_srq, mlx5_copy_to_recv_wqe, mlx5_copy_to_send_wqe). The spec
gives them by the interface the core needs (free_slot(counter), release the
tag, copy inline payload); a call is recorded with its arguments: the address
of the queue, then the slot counter or tag index, the source and the size. -/
inductive ExtCall where
  | free_srq_wqe (srq : Nat) (ind : Nat)
  | tm_release_tag (srq : Nat) (tag : Nat)
  | complete_odp_fault (srq : Nat) (ind : Nat)
  | copy_to_recv_srq (srq : Nat) (idx : Nat) (buf : CopySrc) (size : Nat)
  | copy_to_recv_wqe (qp : Nat) (idx : Nat) (buf : CopySrc) (size : Nat)
  | copy_to_send_wqe (qp : Nat) (idx : Nat) (buf : CopySrc) (size : Nat)
deriving DecidableEq, Repr

/-- Modelled from the spec: the results of collaborator services defined
outside src/ that cq.c uses: the status returned by the three inline-scatter
copy functions, the status of mlx5dv_get_clock_info, and the cycle counter: the
function mlx5_get_cycles of cq.c stores the value of get_cycles, or leaves the
cell as it is on a machine without the counter; the field gives the content of
the cell after the call from its content before. -/
structure Ext where
  mlx5_copy_to_recv_srq : Nat → Nat → CopySrc → Nat → Nat
  mlx5_copy_to_recv_wqe : Nat → Nat → CopySrc → Nat → Nat
  mlx5_copy_to_send_wqe : Nat → Nat → CopySrc → Nat → Nat
  mlx5_get_cycles : Nat → Nat
  mlx5dv_get_clock_info : Nat

/-- The driver context and the objects the completion queue refers to:
the lookup tables, the stores of objects by address, the user memory by byte
address, the debug switch mlx5_freeze_on_error_cqe, the stall tunables (global
variables of cq.c, of type int: values from -2^31 to 2^31 - 1), and the log of
calls to collaborator services. -/
structure World where
  cqe_version : Nat
  mlx5_freeze_on_error_cqe : Nat
  mlx5_stall_cq_poll_min : Int
  mlx5_stall_cq_poll_max : Int
  mlx5_stall_cq_inc_step : Int
  mlx5_stall_cq_dec_step : Int
  qp_table : Nat → Nat
  uidx_table : Nat → Nat
  srq_table : Nat → Nat
  mkey_table : Nat → Nat
  rsc : Nat → Rsc
  qp : Nat → Qp
  rwq : Nat → Rwq
  srq : Nat → Srq
  mkey : Nat → Mkey
  mkey_table_mutex : Bool
  mem : Nat → Nat
  log : List ExtCall

/-- A work completion (struct ibv_wc); imm_data and invalidated_rkey, the two
members of its union, are fields of their own. -/
structure Wc where
  wr_id : Nat
  status : Nat
  opcode : Nat
  vendor_err : Nat
  byte_len : Nat
  imm_data : Be32
  invalidated_rkey : Nat
  qp_num : Nat
  src_qp : Nat
  wc_flags : Nat
  pkey_index : Nat
  slid : Nat
  sl : Nat
  dlid_path_bits : Nat

/-- Modelled from the spec: mlx5_find_qp is defined outside src/; the spec
gives it as lookup(identifier) -> handle. The handle is the address of the
queue-pair, 0 when there is none. -/
def mlx5_find_qp (w : World) (qpn : Nat) : Nat := w.qp_table qpn

/-- Modelled from the spec: mlx5_find_uidx is defined outside src/; the spec
gives it as lookup(identifier) -> handle, 0 when there is none. -/
def mlx5_find_uidx (w : World) (uidx : Nat) : Nat := w.uidx_table uidx

/-- Modelled from the spec: mlx5_find_srq is defined outside src/; the spec
gives it as lookup(identifier) -> handle, 0 when there is none. -/
def mlx5_find_srq (w : World) (srqn : Nat) : Nat := w.srq_table srqn

/-- Modelled from the spec: mlx5_find_mkey is defined outside src/; the spec
gives it as lookup(key) -> handle, 0 when there is none. -/
def mlx5_find_mkey (w : World) (key : Nat) : Nat := w.mkey_table key

/-- Record a call to a collaborator service. -/
def World.call (w : World) (c : ExtCall) : World := { w with log := w.log ++ [c] }

/-- Store a queue-pair at an address. -/
def World.setQp (w : World) (a : Nat) (q : Qp) : World := { w with qp := upd w.qp a q }

/-- Store a receive work queue at an address. -/
def World.setRwq (w : World) (a : Nat) (q : Rwq) : World := { w with rwq := upd w.rwq a q }

/-- Store a shared receive queue at an address. -/
def World.setSrq (w : World) (a : Nat) (s : Srq) : World := { w with srq := upd w.srq a s }

/-- Modelled from the spec: mlx5_spin_lock and mlx5_spin_unlock are defined
outside src/; the lock of a shared receive queue is held or free. -/
def World.srqLock (w : World) (a : Nat) (held : Bool) : World :=
  w.setSrq a { w.srq a with lock := held }

/-- The C function memcpy on the user memory: n bytes from src to address dst. -/
def World.memcpy (w : World) (dst : Nat) (src : Nat → Nat) (n : Nat) : World :=
  { w with mem := fun a => if dst ≤ a ∧ a < dst + n then src (a - dst) else w.mem a }

/-- The value of `x - 1` for an unsigned 32-bit x. -/
def decr32 (x : Nat) : Nat := (x + (2 ^ 32 - 1)) % 2 ^ 32

/-- The function get_cqe_l3_hdr_type of cq.c. -/
def get_cqe_l3_hdr_type (cqe : Cqe64) : Nat := (cqe.l4_hdr_type_etc >>> 2) &&& 0x3

/-- The function handle_good_req of cq.c. The chain of tests is the switch; its
case labels are distinct constants. -/
def handle_good_req (K : Hdr) (wc : Wc) (cqe : Cqe64) (wq : Wq) (idx : Nat) : Wc :=
  let op := be32toh cqe.sop_drop_qpn >>> 24
  let wc1 : Wc :=
    if op = K.MLX5_OPCODE_RDMA_WRITE_IMM then
      { wc with wc_flags := wc.wc_flags ||| K.IBV_WC_WITH_IMM, opcode := K.IBV_WC_RDMA_WRITE }
    else if op = K.MLX5_OPCODE_RDMA_WRITE then
      { wc with opcode := K.IBV_WC_RDMA_WRITE }
    else if op = K.MLX5_OPCODE_SEND_IMM then
      { wc with wc_flags := wc.wc_flags ||| K.IBV_WC_WITH_IMM, opcode := K.IBV_WC_SEND }
    else if op = K.MLX5_OPCODE_SEND ∨ op = K.MLX5_OPCODE_SEND_INVAL then
      { wc with opcode := K.IBV_WC_SEND }
    else if op = K.MLX5_OPCODE_RDMA_READ then
      { wc with opcode := K.IBV_WC_RDMA_READ, byte_len := be32toh cqe.byte_cnt }
    else if op = K.MLX5_OPCODE_ATOMIC_CS then
      { wc with opcode := K.IBV_WC_COMP_SWAP, byte_len := 8 }
    else if op = K.MLX5_OPCODE_ATOMIC_FA then
      { wc with opcode := K.IBV_WC_FETCH_ADD, byte_len := 8 }
    else if op = K.MLX5_OPCODE_UMR ∨ op = K.MLX5_OPCODE_SET_PSV ∨
        op = K.MLX5_OPCODE_NOP ∨ op = K.MLX5_OPCODE_MMO then
      { wc with opcode := wq.wr_data idx }
    else if op = K.MLX5_OPCODE_TSO then
      { wc with opcode := K.IBV_WC_TSO }
    else wc
  if wq.wr_data idx = K.IBV_WC_DRIVER2 then { wc1 with opcode := K.IBV_WC_DRIVER2 } else wc1

/-- The inline-scatter tail of handle_responder and handle_responder_lazy for
a shared receive queue: the copy chosen by the scatter bits of op_own, with
its status (err when no bit is set). -/
def scatter_recv_srq (K : Hdr) (E : Ext) (w : World) (cqe : Cqe64) (pos : Nat)
    (srq : Nat) (wqe_ctr : Nat) (size : Nat) (err : Nat) : Nat × World :=
  if cqe.op_own &&& K.MLX5_INLINE_SCATTER_32 ≠ 0 then
    (E.mlx5_copy_to_recv_srq srq wqe_ctr (CopySrc.cqe64 pos) size,
      w.call (ExtCall.copy_to_recv_srq srq wqe_ctr (CopySrc.cqe64 pos) size))
  else if cqe.op_own &&& K.MLX5_INLINE_SCATTER_64 ≠ 0 then
    (E.mlx5_copy_to_recv_srq srq wqe_ctr (CopySrc.cqe64_minus_1 pos) size,
      w.call (ExtCall.copy_to_recv_srq srq wqe_ctr (CopySrc.cqe64_minus_1 pos) size))
  else (err, w)

/-- The inline-scatter tail of handle_responder and handle_responder_lazy for
a receive queue of its own. -/
def scatter_recv_wqe (K : Hdr) (E : Ext) (w : World) (cqe : Cqe64) (pos : Nat)
    (qp : Nat) (wqe_ctr : Nat) (size : Nat) (err : Nat) : Nat × World :=
  if cqe.op_own &&& K.MLX5_INLINE_SCATTER_32 ≠ 0 then
    (E.mlx5_copy_to_recv_wqe qp wqe_ctr (CopySrc.cqe64 pos) size,
      w.call (ExtCall.copy_to_recv_wqe qp wqe_ctr (CopySrc.cqe64 pos) size))
  else if cqe.op_own &&& K.MLX5_INLINE_SCATTER_64 ≠ 0 then
    (E.mlx5_copy_to_recv_wqe qp wqe_ctr (CopySrc.cqe64_minus_1 pos) size,
      w.call (ExtCall.copy_to_recv_wqe qp wqe_ctr (CopySrc.cqe64_minus_1 pos) size))
  else (err, w)

/-- The receive queue that handle_responder and handle_responder_lazy take for
a resource without shared receive queue: qp->rq for a queue-pair, else the rq
of the receive work queue at the same address. -/
def resp_wq (K : Hdr) (w : World) (cur_rsc : Nat) : Wq :=
  if (w.rsc cur_rsc).type = K.MLX5_RSC_TYPE_QP then (w.qp cur_rsc).rq else (w.rwq cur_rsc).rq

/-- The statement ++wq->tail on the receive queue chosen by resp_wq. -/
def resp_wq_advance (K : Hdr) (w : World) (cur_rsc : Nat) : World :=
  if (w.rsc cur_rsc).type = K.MLX5_RSC_TYPE_QP then
    w.setQp cur_rsc { w.qp cur_rsc with
      rq := { (w.qp cur_rsc).rq with tail := ((w.qp cur_rsc).rq.tail + 1) % 2 ^ 32 } }
  else
    w.setRwq cur_rsc { w.rwq cur_rsc with
      rq := { (w.rwq cur_rsc).rq with tail := ((w.rwq cur_rsc).rq.tail + 1) % 2 ^ 32 } }

/-- The function handle_responder_lazy of cq.c; pos is the ring position of
cqe, srq is 0 for NULL. The local wqe_ctr is a uint16_t. -/
def handle_responder_lazy (K : Hdr) (E : Ext) (cq : Cq) (w : World) (cqe : Cqe64)
    (pos : Nat) (cur_rsc : Nat) (srq : Nat) : Nat × Cq × World :=
  if srq ≠ 0 then
    let wqe_ctr := be16toh cqe.wqe_counter
    let cq1 := { cq with wr_id := (w.srq srq).wrid wqe_ctr }
    let w1 := w.call (ExtCall.free_srq_wqe srq wqe_ctr)
    let r := scatter_recv_srq K E w1 cqe pos srq wqe_ctr (be32toh cqe.byte_cnt) K.IBV_WC_SUCCESS
    (r.1, cq1, r.2)
  else
    let cq1 :=
      if (w.rsc cur_rsc).type = K.MLX5_RSC_TYPE_QP ∧
          (w.qp cur_rsc).qp_cap_cache &&& K.MLX5_RX_CSUM_VALID ≠ 0 then
        { cq with flags := cq.flags ||| K.MLX5_CQ_FLAGS_RX_CSUM_VALID }
      else cq
    let wq := resp_wq K w cur_rsc
    let wqe_ctr := (wq.tail &&& decr32 wq.wqe_cnt) % 2 ^ 16
    let cq2 := { cq1 with wr_id := wq.wrid wqe_ctr }
    let w1 := resp_wq_advance K w cur_rsc
    let r := scatter_recv_wqe K E w1 cqe pos cur_rsc wqe_ctr (be32toh cqe.byte_cnt)
      K.IBV_WC_SUCCESS
    (r.1, cq2, r.2)

/-- The function get_csum_ok of cq.c. -/
def get_csum_ok (K : Hdr) (cqe : Cqe64) : Nat :=
  ((if cqe.hds_ip_ext &&& (K.MLX5_CQE_L4_OK ||| K.MLX5_CQE_L3_OK) =
        (K.MLX5_CQE_L4_OK ||| K.MLX5_CQE_L3_OK) then 1 else 0) &&&
    (if get_cqe_l3_hdr_type cqe = K.MLX5_CQE_L3_HDR_TYPE_IPV4 then 1 else 0))
    <<< K.IBV_WC_IP_CSUM_OK_SHIFT

/-- The function handle_responder of cq.c; pos is the ring position of cqe,
srq is 0 for NULL. The local wqe_ctr is a uint16_t. -/
def handle_responder (K : Hdr) (E : Ext) (wc : Wc) (w : World) (cqe : Cqe64)
    (pos : Nat) (cur_rsc : Nat) (srq : Nat) : Nat × Wc × World :=
  let wc0 := { wc with byte_len := be32toh cqe.byte_cnt }
  let r : Nat × Wc × World :=
    if srq ≠ 0 then
      let wqe_ctr := be16toh cqe.wqe_counter
      let wc1 := { wc0 with wr_id := (w.srq srq).wrid wqe_ctr }
      let w1 := w.call (ExtCall.free_srq_wqe srq wqe_ctr)
      let c := scatter_recv_srq K E w1 cqe pos srq wqe_ctr wc1.byte_len 0
      (c.1, wc1, c.2)
    else
      let wc1 :=
        if (w.rsc cur_rsc).type = K.MLX5_RSC_TYPE_QP ∧
            (w.qp cur_rsc).qp_cap_cache &&& K.MLX5_RX_CSUM_VALID ≠ 0 then
          { wc0 with wc_flags := wc0.wc_flags ||| get_csum_ok K cqe }
        else wc0
      let wq := resp_wq K w cur_rsc
      let wqe_ctr := (wq.tail &&& decr32 wq.wqe_cnt) % 2 ^ 16
      let wc2 := { wc1 with wr_id := wq.wrid wqe_ctr }
      let w1 := resp_wq_advance K w cur_rsc
      let c := scatter_recv_wqe K E w1 cqe pos cur_rsc wqe_ctr wc2.byte_len 0
      (c.1, wc2, c.2)
  let err := r.1
  let wc3 := r.2.1
  let w3 := r.2.2
  if err ≠ 0 then (err, wc3, w3)
  else
    let op := cqe.op_own >>> 4
    let wc4 : Wc :=
      if op = K.MLX5_CQE_RESP_WR_IMM then
        { wc3 with opcode := K.IBV_WC_RECV_RDMA_WITH_IMM,
                   wc_flags := wc3.wc_flags ||| K.IBV_WC_WITH_IMM,
                   imm_data := cqe.imm_inval_pkey }
      else if op = K.MLX5_CQE_RESP_SEND then
        { wc3 with opcode := K.IBV_WC_RECV }
      else if op = K.MLX5_CQE_RESP_SEND_IMM then
        { wc3 with opcode := K.IBV_WC_RECV,
                   wc_flags := wc3.wc_flags ||| K.IBV_WC_WITH_IMM,
                   imm_data := cqe.imm_inval_pkey }
      else if op = K.MLX5_CQE_RESP_SEND_INV then
        { wc3 with opcode := K.IBV_WC_RECV,
                   wc_flags := wc3.wc_flags ||| K.IBV_WC_WITH_INV,
                   invalidated_rkey := be32toh cqe.imm_inval_pkey }
      else wc3
    let g := (be32toh cqe.flags_rqpn >>> 28) &&& 3
    let wc5 : Wc :=
      { wc4 with slid := be16toh cqe.slid,
                 sl := (be32toh cqe.flags_rqpn >>> 24) &&& 0xf,
                 src_qp := be32toh cqe.flags_rqpn &&& 0xffffff,
                 dlid_path_bits := cqe.ml_path &&& 0x7f,
                 wc_flags := wc4.wc_flags ||| (if g ≠ 0 then K.IBV_WC_GRH else 0),
                 pkey_index := be32toh cqe.imm_inval_pkey &&& 0xffff }
    (K.IBV_WC_SUCCESS, wc5, w3)

/-- The function mlx5_handle_error_cqe of cq.c, on the syndrome of the slot. -/
def mlx5_handle_error_cqe (K : Hdr) (cqe : Cqe64) : Nat :=
  if cqe.syndrome = K.MLX5_CQE_SYNDROME_LOCAL_LENGTH_ERR then K.IBV_WC_LOC_LEN_ERR
  else if cqe.syndrome = K.MLX5_CQE_SYNDROME_LOCAL_QP_OP_ERR then K.IBV_WC_LOC_QP_OP_ERR
  else if cqe.syndrome = K.MLX5_CQE_SYNDROME_LOCAL_PROT_ERR then K.IBV_WC_LOC_PROT_ERR
  else if cqe.syndrome = K.MLX5_CQE_SYNDROME_WR_FLUSH_ERR then K.IBV_WC_WR_FLUSH_ERR
  else if cqe.syndrome = K.MLX5_CQE_SYNDROME_MW_BIND_ERR then K.IBV_WC_MW_BIND_ERR
  else if cqe.syndrome = K.MLX5_CQE_SYNDROME_BAD_RESP_ERR then K.IBV_WC_BAD_RESP_ERR
  else if cqe.syndrome = K.MLX5_CQE_SYNDROME_LOCAL_ACCESS_ERR then K.IBV_WC_LOC_ACCESS_ERR
  else if cqe.syndrome = K.MLX5_CQE_SYNDROME_REMOTE_INVAL_REQ_ERR then
    K.IBV_WC_REM_INV_REQ_ERR
  else if cqe.syndrome = K.MLX5_CQE_SYNDROME_REMOTE_ACCESS_ERR then K.IBV_WC_REM_ACCESS_ERR
  else if cqe.syndrome = K.MLX5_CQE_SYNDROME_REMOTE_OP_ERR then K.IBV_WC_REM_OP_ERR
  else if cqe.syndrome = K.MLX5_CQE_SYNDROME_TRANSPORT_RETRY_EXC_ERR then
    K.IBV_WC_RETRY_EXC_ERR
  else if cqe.syndrome = K.MLX5_CQE_SYNDROME_RNR_RETRY_EXC_ERR then
    K.IBV_WC_RNR_RETRY_EXC_ERR
  else if cqe.syndrome = K.MLX5_CQE_SYNDROME_REMOTE_ABORTED_ERR then K.IBV_WC_REM_ABORT_ERR
  else K.IBV_WC_GENERAL_ERR

/-- The function get_req_context of cq.c: the new value of the cache cell
cur_rsc, which is also the queue-pair it returns (rsc_to_mqp is a cast of the
same address), 0 for NULL. -/
def get_req_context (w : World) (cur_rsc : Nat) (rsn : Nat) (cqe_ver : Nat) : Nat :=
  if cur_rsc = 0 ∨ rsn ≠ (w.rsc cur_rsc).rsn then
    (if cqe_ver ≠ 0 then mlx5_find_uidx w rsn else mlx5_find_qp w rsn)
  else cur_rsc

/-- The cache cells of a decode (the locals rsc and srq of poll_cq, or the
fields cur_rsc and cur_srq of the queue) and the flag is_srq. -/
structure RscCtx where
  cur_rsc : Nat
  cur_srq : Nat
  is_srq : Nat

/-- The switch on the resource type in get_resp_ctx_v1 of cq.c. -/
def get_resp_ctx_v1_switch (K : Hdr) (w : World) (c : RscCtx) : Int × RscCtx :=
  if (w.rsc c.cur_rsc).type = K.MLX5_RSC_TYPE_QP then
    if (w.qp c.cur_rsc).srq ≠ 0 then
      (CQ_OK, { c with cur_srq := (w.qp c.cur_rsc).srq, is_srq := 1 })
    else (CQ_OK, c)
  else if (w.rsc c.cur_rsc).type = K.MLX5_RSC_TYPE_XSRQ then
    (CQ_OK, { c with cur_srq := c.cur_rsc, is_srq := 1 })
  else if (w.rsc c.cur_rsc).type = K.MLX5_RSC_TYPE_RWQ then
    (CQ_OK, c)
  else (CQ_POLL_ERR, c)

/-- The function get_resp_ctx_v1 of cq.c. -/
def get_resp_ctx_v1 (K : Hdr) (w : World) (c : RscCtx) (uidx : Nat) : Int × RscCtx :=
  if c.cur_rsc = 0 ∨ uidx ≠ (w.rsc c.cur_rsc).rsn then
    if mlx5_find_uidx w uidx = 0 then
      (CQ_POLL_ERR, { c with cur_rsc := mlx5_find_uidx w uidx })
    else get_resp_ctx_v1_switch K w { c with cur_rsc := mlx5_find_uidx w uidx }
  else get_resp_ctx_v1_switch K w c

/-- The function get_qp_ctx of cq.c. -/
def get_qp_ctx (w : World) (c : RscCtx) (qpn : Nat) : Int × RscCtx :=
  if c.cur_rsc = 0 ∨ qpn ≠ (w.rsc c.cur_rsc).rsn then
    if mlx5_find_qp w qpn = 0 then (CQ_POLL_ERR, { c with cur_rsc := mlx5_find_qp w qpn })
    else (CQ_OK, { c with cur_rsc := mlx5_find_qp w qpn })
  else (CQ_OK, c)

/-- The function get_srq_ctx of cq.c. -/
def get_srq_ctx (w : World) (c : RscCtx) (srqn : Nat) : Int × RscCtx :=
  if c.cur_srq = 0 ∨ srqn ≠ (w.srq c.cur_srq).srqn then
    if mlx5_find_srq w srqn = 0 then (CQ_POLL_ERR, { c with cur_srq := mlx5_find_srq w srqn })
    else (CQ_OK, { c with cur_srq := mlx5_find_srq w srqn })
  else (CQ_OK, c)

/-- The function get_cur_rsc of cq.c. -/
def get_cur_rsc (K : Hdr) (w : World) (cqe_ver : Nat) (qpn : Nat) (srqn_uidx : Nat)
    (c : RscCtx) : Int × RscCtx :=
  if cqe_ver ≠ 0 then get_resp_ctx_v1 K w c srqn_uidx
  else if srqn_uidx ≠ 0 then get_srq_ctx w { c with is_srq := 1 } srqn_uidx
  else get_qp_ctx w c qpn

/-- The function handle_tag_matching of cq.c on the slot at ring position pos
and the shared receive queue at address srq. The chain of tests is the switch
on app_op. The block under MLX5_DEBUG is compiled when K.MLX5_DEBUG is set. -/
def handle_tag_matching (K : Hdr) (E : Ext) (cq : Cq) (w : World) (slot : Slot)
    (pos : Nat) (srq : Nat) : Int × Cq × World :=
  let cqe64 := slot.cqe64
  let cq0 := { cq with status := K.IBV_WC_SUCCESS }
  let op := cqe64.app_op
  if op = MLX5_CQE_APP_OP_TM_CONSUMED_MSG_SW_RDNV ∨ op = MLX5_CQE_APP_OP_TM_CONSUMED_SW_RDNV ∨
      op = MLX5_CQE_APP_OP_TM_MSG_COMPLETION_CANCELED ∨ op = MLX5_CQE_APP_OP_TM_CONSUMED_MSG ∨
      op = MLX5_CQE_APP_OP_TM_CONSUMED ∨ op = MLX5_CQE_APP_OP_TM_EXPECTED then
    let cq1 :=
      if op = MLX5_CQE_APP_OP_TM_CONSUMED_MSG_SW_RDNV ∨
          op = MLX5_CQE_APP_OP_TM_CONSUMED_SW_RDNV ∨
          op = MLX5_CQE_APP_OP_TM_MSG_COMPLETION_CANCELED then
        { cq0 with status := K.IBV_WC_TM_RNDV_INCOMPLETE }
      else cq0
    let w1 := w.srqLock srq true
    let ti := be16toh cqe64.app_info
    let tag := (w1.srq srq).tm_list ti
    if tag.expect_cqe = 0 then
      (CQ_OK, { cq1 with status := K.IBV_WC_GENERAL_ERR }, w1.srqLock srq false)
    else
      let cq2 := { cq1 with wr_id := tag.wr_id }
      let w2 := if mlx5_cqe_app_op_tm_is_complete op then
          w1.call (ExtCall.tm_release_tag srq ti)
        else w1
      if cqe64.op_own &&& K.MLX5_INLINE_SCATTER_64 ≠ 0 then
        if be32toh cqe64.byte_cnt > tag.size then
          (CQ_OK, { cq2 with status := K.IBV_WC_LOC_LEN_ERR }, w2.srqLock srq false)
        else
          (CQ_OK, cq2,
            (w2.memcpy tag.ptr slot.scatter64 (be32toh cqe64.byte_cnt)).srqLock srq false)
      else (CQ_OK, cq2, w2.srqLock srq false)
  else if op = MLX5_CQE_APP_OP_TM_REMOVE ∨ op = MLX5_CQE_APP_OP_TM_APPEND ∨
      op = MLX5_CQE_APP_OP_TM_NOOP then
    let cq1 :=
      if op = MLX5_CQE_APP_OP_TM_REMOVE ∧
          be32toh cqe64.tm_cqe_success &&& K.MLX5_TMC_SUCCESS = 0 then
        { cq0 with status := K.IBV_WC_TM_ERR }
      else cq0
    let w1 := w.srqLock srq true
    if K.MLX5_DEBUG = true ∧ (w1.srq srq).op_tail = (w1.srq srq).op_head then
      (CQ_OK, { cq1 with status := K.IBV_WC_GENERAL_ERR }, w1.srqLock srq false)
    else
      let s := w1.srq srq
      let cmd := s.cmd_qp
      let o := s.op (s.op_head &&& decr32 (w1.qp cmd).sq.wqe_cnt)
      let w2 := w1.setSrq srq { s with op_head := (s.op_head + 1) % 2 ^ 32 }
      let r : Cq × World :=
        match o.tag with
        | none => (cq1, w2)
        | some t =>
          let w3 := w2.call (ExtCall.tm_release_tag srq t)
          let w4 := if op = MLX5_CQE_APP_OP_TM_REMOVE ∧ cq1.status = K.IBV_WC_SUCCESS then
              w3.call (ExtCall.tm_release_tag srq t)
            else w3
          if be16toh cqe64.tm_cqe_hw_phase_cnt ≠ ((w4.srq srq).tm_list t).phase_cnt then
            ({ cq1 with flags := cq1.flags ||| K.MLX5_CQ_FLAGS_TM_SYNC_REQ }, w4)
          else (cq1, w4)
      let w5 := r.2.setQp cmd { r.2.qp cmd with
        sq := { (r.2.qp cmd).sq with tail := (o.wqe_head + 1) % 2 ^ 32 } }
      (CQ_OK, { r.1 with wr_id := o.wr_id }, w5.srqLock srq false)
  else if op = MLX5_CQE_APP_OP_TM_UNEXPECTED ∨ op = MLX5_CQE_APP_OP_TM_NO_TAG then
    let r : Cq × World :=
      if op = MLX5_CQE_APP_OP_TM_UNEXPECTED then
        let s := w.srq srq
        let w1 := w.setSrq srq { s with unexp_in := s.unexp_in + 1 }
        if s.unexp_in + 1 - s.unexp_out > (MLX5_TM_MAX_SYNC_DIFF : Int) then
          ({ cq0 with flags := cq0.flags ||| K.MLX5_CQ_FLAGS_TM_SYNC_REQ }, w1)
        else (cq0, w1)
      else (cq0, w)
    let wqe_ctr := be16toh cqe64.wqe_counter
    let cq2 := { r.1 with wr_id := (r.2.srq srq).wrid wqe_ctr }
    let w2 := r.2.call (ExtCall.free_srq_wqe srq wqe_ctr)
    if cqe64.op_own &&& K.MLX5_INLINE_SCATTER_32 ≠ 0 then
      ((E.mlx5_copy_to_recv_srq srq wqe_ctr (CopySrc.cqe64 pos) (be32toh cqe64.byte_cnt) : Int),
        cq2,
        w2.call (ExtCall.copy_to_recv_srq srq wqe_ctr (CopySrc.cqe64 pos)
          (be32toh cqe64.byte_cnt)))
    else if cqe64.op_own &&& K.MLX5_INLINE_SCATTER_64 ≠ 0 then
      ((E.mlx5_copy_to_recv_srq srq wqe_ctr (CopySrc.cqe64_minus_1 pos)
          (be32toh cqe64.byte_cnt) : Int),
        cq2,
        w2.call (ExtCall.copy_to_recv_srq srq wqe_ctr (CopySrc.cqe64_minus_1 pos)
          (be32toh cqe64.byte_cnt)))
    else (CQ_OK, cq2, w2)
  else (CQ_OK, cq0, w)

/-- The function get_sig_err_info of cq.c. -/
def get_sig_err_info (cqe : Cqe64) : SigErr :=
  { syndrome := be16toh cqe.sig_syndrome,
    expected := (be32toh cqe.sig_expected_trans_sig <<< 32) ||| be32toh cqe.sig_expected_ref_tag,
    actual := (be32toh cqe.sig_actual_trans_sig <<< 32) ||| be32toh cqe.sig_actual_ref_tag,
    offset := be64toh cqe.sig_err_offset,
    sig_type := cqe.sig_type,
    domain := cqe.sig_domain }

/-- The function is_odp_pfault_err of cq.c. -/
def is_odp_pfault_err (K : Hdr) (ecqe : Cqe64) : Bool :=
  ecqe.syndrome = K.MLX5_CQE_SYNDROME_REMOTE_ABORTED_ERR ∧
    ecqe.vendor_err_synd = K.MLX5_CQE_VENDOR_SYNDROME_ODP_PFAULT

/-- The state a decode works on: the queue, the context, the two cache cells
and the work completion that immediate mode fills. -/
structure PState where
  cq : Cq
  w : World
  cur_rsc : Nat
  cur_srq : Nat
  wc : Wc

/-- How a call ends: it returns a code, or the thread parks for ever in the
freeze loop `while (1) sleep(10)`, or the bound on loop iterations of the
embedding was too small (starved). -/
inductive Res (σ : Type) where
  | ret (code : Int) (st : σ)
  | freeze (st : σ)
  | starved

/-- One pass through the body of mlx5_parse_cqe, from the label again to a
return, to the freeze loop, or to `goto again` with the next slot. -/
inductive Step where
  | ret (code : Int) (st : PState)
  | freeze (st : PState)
  | again (st : PState) (pos : Nat)

/-- The re-fetch that ends an absorbed slot in mlx5_parse_cqe:
mlx5_get_next_cqe, then CQ_POLL_NODATA if the ring is empty, else goto again. -/
def refetch (K : Hdr) (st : PState) : Step :=
  match mlx5_get_next_cqe K st.cq with
  | (_, cq1, some p) => Step.again { st with cq := cq1 } p
  | (_, cq1, none) => Step.ret (CQ_POLL_NODATA K) { st with cq := cq1 }

/-- The inline-scatter copy of the case MLX5_CQE_REQ of mlx5_parse_cqe: the
copy chosen by the scatter bits of op_own and its status (err when no bit is
set). The source pointers are the void pointer cqe and cqe - 1. -/
def scatter_send_wqe (K : Hdr) (E : Ext) (w : World) (cqe64 : Cqe64) (pos : Nat)
    (mqp : Nat) (wqe_ctr : Nat) (size : Nat) (err : Nat) : Nat × World :=
  if cqe64.op_own &&& K.MLX5_INLINE_SCATTER_32 ≠ 0 then
    (E.mlx5_copy_to_send_wqe mqp wqe_ctr (CopySrc.cqe pos) size,
      w.call (ExtCall.copy_to_send_wqe mqp wqe_ctr (CopySrc.cqe pos) size))
  else if cqe64.op_own &&& K.MLX5_INLINE_SCATTER_64 ≠ 0 then
    (E.mlx5_copy_to_send_wqe mqp wqe_ctr (CopySrc.cqe_minus_1 pos) size,
      w.call (ExtCall.copy_to_send_wqe mqp wqe_ctr (CopySrc.cqe_minus_1 pos) size))
  else (err, w)

/-- The statement wq->tail = wq->wqe_head[idx] + 1 on the send queue of the
queue-pair at address mqp. -/
def sq_set_tail (w : World) (mqp : Nat) (idx : Nat) : World :=
  w.setQp mqp { w.qp mqp with
    sq := { (w.qp mqp).sq with tail := ((w.qp mqp).sq.wqe_head idx + 1) % 2 ^ 32 } }

/-- The case MLX5_CQE_REQ of mlx5_parse_cqe. -/
def parse_req (K : Hdr) (E : Ext) (st : PState) (pos : Nat) (cqe_ver : Nat) (lazy : Nat) :
    Step :=
  let cqe64 := (get_cqe st.cq pos).cqe64
  let qpn := be32toh cqe64.sop_drop_qpn &&& 0xffffff
  let mqp := get_req_context st.w st.cur_rsc
    (if cqe_ver ≠ 0 then be32toh cqe64.srqn_uidx &&& 0xffffff else qpn) cqe_ver
  let st1 := { st with cur_rsc := mqp }
  if mqp = 0 then Step.ret CQ_POLL_ERR st1
  else
    let wq := (st1.w.qp mqp).sq
    let wqe_ctr := be16toh cqe64.wqe_counter
    let idx := wqe_ctr &&& decr32 wq.wqe_cnt
    let hw := be32toh cqe64.sop_drop_qpn >>> 24
    if lazy ≠ 0 then
      let cq1 :=
        if hw = K.MLX5_OPCODE_UMR ∨ hw = K.MLX5_OPCODE_SET_PSV ∨ hw = K.MLX5_OPCODE_NOP ∨
            hw = K.MLX5_OPCODE_MMO then
          { st1.cq with cached_opcode := wq.wr_data idx }
        else st1.cq
      let r : Nat × World :=
        if hw = K.MLX5_OPCODE_UMR ∨ hw = K.MLX5_OPCODE_SET_PSV ∨ hw = K.MLX5_OPCODE_NOP ∨
            hw = K.MLX5_OPCODE_MMO then (0, st1.w)
        else if hw = K.MLX5_OPCODE_RDMA_READ then
          scatter_send_wqe K E st1.w cqe64 pos mqp wqe_ctr (be32toh cqe64.byte_cnt) 0
        else if hw = K.MLX5_OPCODE_ATOMIC_CS ∨ hw = K.MLX5_OPCODE_ATOMIC_FA then
          scatter_send_wqe K E st1.w cqe64 pos mqp wqe_ctr 8 0
        else (0, st1.w)
      let cq2 := { cq1 with wr_id := wq.wrid idx, status := r.1 }
      let cq3 := if wq.wr_data idx = K.IBV_WC_DRIVER2 then
          { cq2 with flags := cq2.flags ||| K.MLX5_CQ_FLAGS_RAW_WQE }
        else cq2
      Step.ret CQ_OK { st1 with cq := cq3, w := sq_set_tail r.2 mqp idx }
    else
      let wc1 := handle_good_req K st1.wc cqe64 wq idx
      let r := scatter_send_wqe K E st1.w cqe64 pos mqp wqe_ctr wc1.byte_len 0
      let wc2 := { wc1 with wr_id := wq.wrid idx, status := r.1 }
      Step.ret CQ_OK { st1 with wc := wc2, w := sq_set_tail r.2 mqp idx }

/-- The case of the four receive opcodes (MLX5_CQE_RESP_WR_IMM, RESP_SEND,
RESP_SEND_IMM, RESP_SEND_INV) of mlx5_parse_cqe. -/
def parse_resp (K : Hdr) (E : Ext) (st : PState) (pos : Nat) (cqe_ver : Nat) (lazy : Nat) :
    Step :=
  let slot := get_cqe st.cq pos
  let cqe64 := slot.cqe64
  let qpn := be32toh cqe64.sop_drop_qpn &&& 0xffffff
  let srqn_uidx := be32toh cqe64.srqn_uidx &&& 0xffffff
  let r := get_cur_rsc K st.w cqe_ver qpn srqn_uidx
    { cur_rsc := st.cur_rsc, cur_srq := st.cur_srq, is_srq := 0 }
  let st1 := { st with cur_rsc := r.2.cur_rsc, cur_srq := r.2.cur_srq }
  if r.1 ≠ 0 then Step.ret CQ_POLL_ERR st1
  else if lazy ≠ 0 then
    if cqe64.app ≠ MLX5_CQE_APP_TAG_MATCHING then
      let h := handle_responder_lazy K E st1.cq st1.w cqe64 pos st1.cur_rsc
        (if r.2.is_srq ≠ 0 then st1.cur_srq else 0)
      Step.ret CQ_OK { st1 with cq := { h.2.1 with status := h.1 }, w := h.2.2 }
    else if r.2.is_srq = 0 then Step.ret CQ_POLL_ERR st1
    else
      let h := handle_tag_matching K E st1.cq st1.w slot pos st1.cur_srq
      if h.1 ≠ 0 then Step.ret CQ_POLL_ERR { st1 with cq := h.2.1, w := h.2.2 }
      else Step.ret CQ_OK { st1 with cq := h.2.1, w := h.2.2 }
  else
    let h := handle_responder K E st1.wc st1.w cqe64 pos st1.cur_rsc
      (if r.2.is_srq ≠ 0 then st1.cur_srq else 0)
    Step.ret CQ_OK { st1 with wc := { h.2.1 with status := h.1 }, w := h.2.2 }

/-- The case MLX5_CQE_NO_PACKET of mlx5_parse_cqe. -/
def parse_no_packet (K : Hdr) (E : Ext) (st : PState) (pos : Nat) (cqe_ver : Nat) : Step :=
  let slot := get_cqe st.cq pos
  let cqe64 := slot.cqe64
  let qpn := be32toh cqe64.sop_drop_qpn &&& 0xffffff
  if cqe64.app ≠ MLX5_CQE_APP_TAG_MATCHING then Step.ret CQ_POLL_ERR st
  else
    let srqn_uidx := be32toh cqe64.srqn_uidx &&& 0xffffff
    let r := get_cur_rsc K st.w cqe_ver qpn srqn_uidx
      { cur_rsc := st.cur_rsc, cur_srq := st.cur_srq, is_srq := 0 }
    let st1 := { st with cur_rsc := r.2.cur_rsc, cur_srq := r.2.cur_srq }
    if r.1 ≠ 0 ∨ r.2.is_srq = 0 then Step.ret CQ_POLL_ERR st1
    else
      let h := handle_tag_matching K E st1.cq st1.w slot pos st1.cur_srq
      if h.1 ≠ 0 then Step.ret CQ_POLL_ERR { st1 with cq := h.2.1, w := h.2.2 }
      else Step.ret CQ_OK { st1 with cq := h.2.1, w := h.2.2 }

/-- The case MLX5_CQE_SIG_ERR of mlx5_parse_cqe. -/
def parse_sig_err (K : Hdr) (st : PState) (pos : Nat) : Step :=
  let cqe64 := (get_cqe st.cq pos).cqe64
  let w1 := { st.w with mkey_table_mutex := true }
  let mkey := mlx5_find_mkey w1 (be32toh cqe64.sig_mkey >>> 8)
  if mkey = 0 then
    Step.ret CQ_POLL_ERR { st with w := { w1 with mkey_table_mutex := false } }
  else
    let m := w1.mkey mkey
    let sig : SigCtx :=
      { err_exists := true,
        err_count := (m.sig.err_count + 1) % 2 ^ 32,
        err_count_updated := true,
        err_info := get_sig_err_info cqe64 }
    let w2 := { w1 with mkey := upd w1.mkey mkey { m with sig := sig } }
    refetch K { st with w := { w2 with mkey_table_mutex := false } }

/-- The cases MLX5_CQE_REQ_ERR and MLX5_CQE_RESP_ERR of mlx5_parse_cqe. -/
def parse_err (K : Hdr) (st : PState) (pos : Nat) (cqe_ver : Nat) (lazy : Nat) : Step :=
  let cqe64 := (get_cqe st.cq pos).cqe64
  let opcode := mlx5dv_get_cqe_opcode cqe64
  let qpn := be32toh cqe64.sop_drop_qpn &&& 0xffffff
  let srqn_uidx := be32toh cqe64.srqn_uidx &&& 0xffffff
  let st1 : PState :=
    if lazy ≠ 0 then { st with cq := { st.cq with status := mlx5_handle_error_cqe K cqe64 } }
    else { st with wc := { st.wc with status := mlx5_handle_error_cqe K cqe64,
                                      vendor_err := cqe64.vendor_err_synd } }
  if cqe64.syndrome ≠ K.MLX5_CQE_SYNDROME_WR_FLUSH_ERR ∧
      cqe64.syndrome ≠ K.MLX5_CQE_SYNDROME_TRANSPORT_RETRY_EXC_ERR ∧
      is_odp_pfault_err K cqe64 = false ∧ st1.w.mlx5_freeze_on_error_cqe ≠ 0 then
    Step.freeze st1
  else if opcode = K.MLX5_CQE_REQ_ERR then
    let mqp := get_req_context st1.w st1.cur_rsc (if cqe_ver ≠ 0 then srqn_uidx else qpn)
      cqe_ver
    let st2 := { st1 with cur_rsc := mqp }
    if mqp = 0 then Step.ret CQ_POLL_ERR st2
    else
      let wq := (st2.w.qp mqp).sq
      let wqe_ctr := be16toh cqe64.wqe_counter
      let idx := wqe_ctr &&& decr32 wq.wqe_cnt
      let st3 : PState :=
        if lazy ≠ 0 then { st2 with cq := { st2.cq with wr_id := wq.wrid idx } }
        else { st2 with wc := { st2.wc with wr_id := wq.wrid idx } }
      Step.ret CQ_OK { st3 with w := sq_set_tail st3.w mqp idx }
  else
    let r := get_cur_rsc K st1.w cqe_ver qpn srqn_uidx
      { cur_rsc := st1.cur_rsc, cur_srq := st1.cur_srq, is_srq := 0 }
    let st2 := { st1 with cur_rsc := r.2.cur_rsc, cur_srq := r.2.cur_srq }
    if r.1 ≠ 0 then Step.ret CQ_POLL_ERR st2
    else if r.2.is_srq ≠ 0 then
      let wqe_ctr := be16toh cqe64.wqe_counter
      if is_odp_pfault_err K cqe64 = true then
        refetch K { st2 with w := st2.w.call (ExtCall.complete_odp_fault st2.cur_srq wqe_ctr) }
      else
        let st3 : PState :=
          if lazy ≠ 0 then
            { st2 with cq := { st2.cq with wr_id := (st2.w.srq st2.cur_srq).wrid wqe_ctr } }
          else { st2 with wc := { st2.wc with wr_id := (st2.w.srq st2.cur_srq).wrid wqe_ctr } }
        Step.ret CQ_OK { st3 with w := st3.w.call (ExtCall.free_srq_wqe st2.cur_srq wqe_ctr) }
    else
      let rwq := decide ((st2.w.rsc st2.cur_rsc).type = K.MLX5_RSC_TYPE_RWQ)
      let wq := if rwq then (st2.w.rwq st2.cur_rsc).rq else (st2.w.qp st2.cur_rsc).rq
      let id := wq.wrid (wq.tail &&& decr32 wq.wqe_cnt)
      let st3 : PState :=
        if lazy ≠ 0 then { st2 with cq := { st2.cq with wr_id := id } }
        else { st2 with wc := { st2.wc with wr_id := id } }
      let w3 :=
        if rwq then
          st3.w.setRwq st2.cur_rsc { st3.w.rwq st2.cur_rsc with
            rq := { wq with tail := (wq.tail + 1) % 2 ^ 32 } }
        else
          st3.w.setQp st2.cur_rsc { st3.w.qp st2.cur_rsc with
            rq := { wq with tail := (wq.tail + 1) % 2 ^ 32 } }
      Step.ret CQ_OK { st3 with w := w3 }

/-- The first statements of a pass of mlx5_parse_cqe (from the label again to
the switch): lazy mode records the slot and clears the sticky flags, immediate
mode clears wc_flags and stores the queue number. -/
def parse_init (K : Hdr) (st : PState) (pos : Nat) (lazy : Nat) : PState :=
  let cqe64 := (get_cqe st.cq pos).cqe64
  let qpn := be32toh cqe64.sop_drop_qpn &&& 0xffffff
  if lazy ≠ 0 then
    { st with cq := { st.cq with cqe64 := some pos,
                                 flags := st.cq.flags &&& not32 (MLX5_CQ_LAZY_FLAGS K) } }
  else { st with wc := { st.wc with wc_flags := 0, qp_num := qpn } }

/-- One pass through the body of mlx5_parse_cqe of cq.c, on the slot at ring
position pos (the arguments cqe64 and cqe). The chain of tests is the switch
on the opcode; its case labels are distinct constants. -/
def parse_step (K : Hdr) (E : Ext) (st : PState) (pos : Nat) (cqe_ver : Nat) (lazy : Nat) :
    Step :=
  let st0 := parse_init K st pos lazy
  let opcode := mlx5dv_get_cqe_opcode (get_cqe st.cq pos).cqe64
  if opcode = K.MLX5_CQE_REQ then parse_req K E st0 pos cqe_ver lazy
  else if opcode = K.MLX5_CQE_RESP_WR_IMM ∨ opcode = K.MLX5_CQE_RESP_SEND ∨
      opcode = K.MLX5_CQE_RESP_SEND_IMM ∨ opcode = K.MLX5_CQE_RESP_SEND_INV then
    parse_resp K E st0 pos cqe_ver lazy
  else if opcode = K.MLX5_CQE_NO_PACKET then parse_no_packet K E st0 pos cqe_ver
  else if opcode = K.MLX5_CQE_SIG_ERR then parse_sig_err K st0 pos
  else if opcode = K.MLX5_CQE_RESIZE_CQ then Step.ret CQ_OK st0
  else if opcode = K.MLX5_CQE_REQ_ERR ∨ opcode = K.MLX5_CQE_RESP_ERR then
    parse_err K st0 pos cqe_ver lazy
  else Step.ret CQ_OK st0

/-- The function mlx5_parse_cqe of cq.c: passes through its body, repeated at
each `goto again`; the first argument bounds the number of passes. -/
def mlx5_parse_cqe_loop (K : Hdr) (E : Ext) (cqe_ver : Nat) (lazy : Nat) :
    Nat → PState → Nat → Res PState
  | 0, _, _ => Res.starved
  | fuel + 1, st, pos =>
    match parse_step K E st pos cqe_ver lazy with
    | Step.ret code st1 => Res.ret code st1
    | Step.freeze st1 => Res.freeze st1
    | Step.again st1 pos1 => mlx5_parse_cqe_loop K E cqe_ver lazy fuel st1 pos1

/-- The function mlx5_parse_cqe of cq.c. Every `goto again` follows a fetch
that advanced the consumer index over a software-visible slot, so a ring of
cqe + 1 slots allows at most cqe + 1 of them after the first pass. -/
def mlx5_parse_cqe (K : Hdr) (E : Ext) (st : PState) (pos : Nat) (cqe_ver : Nat)
    (lazy : Nat) : Res PState :=
  mlx5_parse_cqe_loop K E cqe_ver lazy (st.cq.cqe + 2) st pos

/-- The function mlx5_parse_lazy_cqe of cq.c: the cache cells are the fields
cur_rsc and cur_srq of the queue, and no work completion is passed. -/
def mlx5_parse_lazy_cqe (K : Hdr) (E : Ext) (cq : Cq) (w : World) (wc : Wc) (pos : Nat)
    (cqe_ver : Nat) : Res PState :=
  match mlx5_parse_cqe K E
      { cq := cq, w := w, cur_rsc := cq.cur_rsc, cur_srq := cq.cur_srq, wc := wc }
      pos cqe_ver 1 with
  | Res.ret code st =>
    Res.ret code { st with cq := { st.cq with cur_rsc := st.cur_rsc, cur_srq := st.cur_srq } }
  | Res.freeze st =>
    Res.freeze { st with cq := { st.cq with cur_rsc := st.cur_rsc, cur_srq := st.cur_srq } }
  | Res.starved => Res.starved

/-- The function mlx5_poll_one of cq.c. -/
def mlx5_poll_one (K : Hdr) (E : Ext) (st : PState) (cqe_ver : Nat) : Res PState :=
  match mlx5_get_next_cqe K st.cq with
  | (err, cq1, none) => Res.ret err { st with cq := cq1 }
  | (_, cq1, some pos) => mlx5_parse_cqe K E { st with cq := cq1 } pos cqe_ver 0

/-- The state of poll_cq: the queue, the context, the locals rsc and srq, and
the array wc of the caller. -/
structure PollSt where
  cq : Cq
  w : World
  rsc : Nat
  srq : Nat
  wc : Nat → Wc

/-- The loop of poll_cq of cq.c, with k iterations left before npolled reaches
ne: the code is err, the state holds npolled. -/
def poll_cq_loop (K : Hdr) (E : Ext) (cqe_ver : Nat) : Nat → Nat → PollSt → Res (Nat × PollSt)
  | 0, npolled, s => Res.ret CQ_OK (npolled, s)
  | k + 1, npolled, s =>
    match mlx5_poll_one K E
        { cq := s.cq, w := s.w, cur_rsc := s.rsc, cur_srq := s.srq, wc := s.wc npolled }
        cqe_ver with
    | Res.starved => Res.starved
    | Res.freeze st =>
      Res.freeze (npolled,
        { cq := st.cq, w := st.w, rsc := st.cur_rsc, srq := st.cur_srq,
          wc := upd s.wc npolled st.wc })
    | Res.ret err st =>
      let s1 : PollSt :=
        { cq := st.cq, w := st.w, rsc := st.cur_rsc, srq := st.cur_srq,
          wc := upd s.wc npolled st.wc }
      if err ≠ CQ_OK then Res.ret err (npolled, s1)
      else poll_cq_loop K E cqe_ver k (npolled + 1) s1

/-- The value that an int holds after an addition or a subtraction whose exact
result is x: x reduced to 32 bits in two's complement. Where x is not
representable the C standard leaves the behaviour undefined; the model takes
the wrapped value that the machine instruction gives. -/
def int32 (x : Int) : Int := (x + 2147483648) % 4294967296 - 2147483648

/-- The stall update that ends poll_cq of cq.c. The delay stall_cycles and the
four tunables are int: the sum and the difference are computed in int. -/
def poll_cq_stall (E : Ext) (w : World) (cq : Cq) (ne : Nat) (npolled : Nat) (err : Int) : Cq :=
  if cq.stall_enable ≠ 0 then
    if cq.stall_adaptive_enable ≠ 0 then
      if npolled = 0 then
        { cq with
          stall_cycles := max (int32 (cq.stall_cycles - w.mlx5_stall_cq_dec_step))
            w.mlx5_stall_cq_poll_min,
          stall_last_count := E.mlx5_get_cycles cq.stall_last_count }
      else if npolled < ne then
        { cq with
          stall_cycles := min (int32 (cq.stall_cycles + w.mlx5_stall_cq_inc_step))
            w.mlx5_stall_cq_poll_max,
          stall_last_count := E.mlx5_get_cycles cq.stall_last_count }
      else
        { cq with
          stall_cycles := max (int32 (cq.stall_cycles - w.mlx5_stall_cq_dec_step))
            w.mlx5_stall_cq_poll_min,
          stall_last_count := 0 }
    else if err = CQ_EMPTY then { cq with stall_next_poll := 1 }
    else cq
  else cq

/-- The function poll_cq of cq.c, for ne >= 0 (a negative ne behaves as 0). The
busy waits mlx5_stall_cycles_poll_cq and mlx5_stall_poll_cq change no state.
The code of the result is the value returned; the locals rsc and srq start as
NULL. -/
def poll_cq (K : Hdr) (E : Ext) (cq : Cq) (w : World) (ne : Nat) (wc : Nat → Wc)
    (cqe_ver : Nat) : Res PollSt :=
  let cq1 :=
    if cq.stall_enable ≠ 0 ∧ cq.stall_adaptive_enable = 0 ∧ cq.stall_next_poll ≠ 0 then
      { cq with stall_next_poll := 0 }
    else cq
  let cq2 := { cq1 with lock := true }
  match poll_cq_loop K E cqe_ver ne 0 { cq := cq2, w := w, rsc := 0, srq := 0, wc := wc } with
  | Res.starved => Res.starved
  | Res.freeze (_, s) => Res.freeze s
  | Res.ret err (npolled, s) =>
    let cq3 := update_cons_index K s.cq
    let cq4 := { cq3 with lock := false }
    let cq5 := poll_cq_stall E s.w cq4 ne npolled err
    Res.ret (if err = CQ_POLL_ERR then err else (npolled : Int)) { s with cq := cq5 }

/-- The enumerator POLLING_MODE_NO_STALL of cq.c. -/
def POLLING_MODE_NO_STALL : Nat := 0

/-- The enumerator POLLING_MODE_STALL of cq.c. -/
def POLLING_MODE_STALL : Nat := 1

/-- The enumerator POLLING_MODE_STALL_ADAPTIVE of cq.c. -/
def POLLING_MODE_STALL_ADAPTIVE : Nat := 2

/-- The function _mlx5_end_poll of cq.c. The sum and the difference of the
stall update are computed in int. -/
def _mlx5_end_poll (K : Hdr) (E : Ext) (cq : Cq) (w : World) (lock : Nat) (stall : Nat) : Cq :=
  let cq1 := update_cons_index K cq
  let cq2 := if lock ≠ 0 then { cq1 with lock := false } else cq1
  if stall ≠ 0 then
    let cq3 :=
      if stall = POLLING_MODE_STALL_ADAPTIVE then
        if cq2.flags &&& K.MLX5_CQ_FLAGS_FOUND_CQES = 0 then
          { cq2 with
            stall_cycles := max (int32 (cq2.stall_cycles - w.mlx5_stall_cq_dec_step))
              w.mlx5_stall_cq_poll_min,
            stall_last_count := E.mlx5_get_cycles cq2.stall_last_count }
        else if cq2.flags &&& K.MLX5_CQ_FLAGS_EMPTY_DURING_POLL ≠ 0 then
          { cq2 with
            stall_cycles := min (int32 (cq2.stall_cycles + w.mlx5_stall_cq_inc_step))
              w.mlx5_stall_cq_poll_max,
            stall_last_count := E.mlx5_get_cycles cq2.stall_last_count }
        else
          { cq2 with
            stall_cycles := max (int32 (cq2.stall_cycles - w.mlx5_stall_cq_dec_step))
              w.mlx5_stall_cq_poll_min,
            stall_last_count := 0 }
      else if cq2.flags &&& K.MLX5_CQ_FLAGS_FOUND_CQES = 0 then
        { cq2 with stall_next_poll := 1 }
      else cq2
    let clr := not32 (K.MLX5_CQ_FLAGS_FOUND_CQES ||| K.MLX5_CQ_FLAGS_EMPTY_DURING_POLL)
    { cq3 with flags := cq3.flags &&& clr }
  else cq2

/-- The function mlx5_start_poll of cq.c; comp_mask is attr->comp_mask. The
busy waits change no state. The work completion wc stands for the NULL that
lazy decoding passes and never reads. The difference of the stall update is
computed in int. -/
def mlx5_start_poll (K : Hdr) (E : Ext) (cq : Cq) (w : World) (wc : Wc) (comp_mask : Nat)
    (lock : Nat) (stall : Nat) (cqe_version : Nat) (clock_update : Nat) : Res PState :=
  let st0 : PState := { cq := cq, w := w, cur_rsc := cq.cur_rsc, cur_srq := cq.cur_srq, wc := wc }
  if comp_mask ≠ 0 then Res.ret (K.EINVAL : Int) st0
  else
    let cq1 :=
      if stall ≠ 0 ∧ stall ≠ POLLING_MODE_STALL_ADAPTIVE ∧ cq.stall_next_poll ≠ 0 then
        { cq with stall_next_poll := 0 }
      else cq
    let cq2 := if lock ≠ 0 then { cq1 with lock := true } else cq1
    let cq3 := { cq2 with cur_rsc := 0, cur_srq := 0 }
    match mlx5_get_next_cqe K cq3 with
    | (_, cq4, none) =>
      let cq5 := if lock ≠ 0 then { cq4 with lock := false } else cq4
      let cq6 :=
        if stall ≠ 0 then
          if stall = POLLING_MODE_STALL_ADAPTIVE then
            { cq5 with
              stall_cycles := max (int32 (cq5.stall_cycles - w.mlx5_stall_cq_dec_step))
                w.mlx5_stall_cq_poll_min,
              stall_last_count := E.mlx5_get_cycles cq5.stall_last_count }
          else { cq5 with stall_next_poll := 1 }
        else cq5
      Res.ret (K.ENOENT : Int) { st0 with cq := cq6, cur_rsc := 0, cur_srq := 0 }
    | (_, cq4, some pos) =>
      let cq5 := if stall ≠ 0 then { cq4 with flags := cq4.flags ||| K.MLX5_CQ_FLAGS_FOUND_CQES }
        else cq4
      match mlx5_parse_lazy_cqe K E cq5 w wc pos cqe_version with
      | Res.starved => Res.starved
      | Res.freeze st => Res.freeze st
      | Res.ret err st =>
        let cq6 := if lock ≠ 0 ∧ err ≠ 0 then { st.cq with lock := false } else st.cq
        if stall ≠ 0 ∧ err = CQ_POLL_ERR then
          let cq7 :=
            if stall = POLLING_MODE_STALL_ADAPTIVE then
              { cq6 with
                stall_cycles := max (int32 (cq6.stall_cycles - st.w.mlx5_stall_cq_dec_step))
                  st.w.mlx5_stall_cq_poll_min,
                stall_last_count := 0 }
            else cq6
          let clr := not32 K.MLX5_CQ_FLAGS_FOUND_CQES
          Res.ret err { st with cq := { cq7 with flags := cq7.flags &&& clr } }
        else if clock_update ≠ 0 ∧ err = 0 then
          Res.ret (E.mlx5dv_get_clock_info : Int) { st with cq := cq6 }
        else Res.ret err { st with cq := cq6 }

/-- The function mlx5_next_poll of cq.c. -/
def mlx5_next_poll (K : Hdr) (E : Ext) (cq : Cq) (w : World) (wc : Wc) (stall : Nat)
    (cqe_version : Nat) : Res PState :=
  match mlx5_get_next_cqe K cq with
  | (_, cq1, none) =>
    let cq2 := if stall = POLLING_MODE_STALL_ADAPTIVE then
        { cq1 with flags := cq1.flags ||| K.MLX5_CQ_FLAGS_EMPTY_DURING_POLL }
      else cq1
    Res.ret (K.ENOENT : Int)
      { cq := cq2, w := w, cur_rsc := cq2.cur_rsc, cur_srq := cq2.cur_srq, wc := wc }
  | (_, cq1, some pos) => mlx5_parse_lazy_cqe K E cq1 w wc pos cqe_version

/-- The function mlx5_cq_read_wc_byte_len of cq.c: the raw byte count of the
currently decoded slot; none when cq->cqe64 is NULL. -/
def mlx5_cq_read_wc_byte_len (cq : Cq) : Option Nat :=
  match cq.cqe64 with
  | none => none
  | some pos => some (be32toh (get_cqe cq pos).cqe64.byte_cnt)

/-- The function is_equal_rsn of cq.c. -/
def is_equal_rsn (cqe64 : Cqe64) (rsn : Nat) : Bool :=
  rsn = (be32toh cqe64.sop_drop_qpn &&& 0xffffff)

/-- The function is_equal_uidx of cq.c. -/
def is_equal_uidx (cqe64 : Cqe64) (uidx : Nat) : Bool :=
  uidx = (be32toh cqe64.srqn_uidx &&& 0xffffff)

/-- The function is_responder of cq.c. -/
def is_responder (K : Hdr) (opcode : Nat) : Bool :=
  opcode = K.MLX5_CQE_RESP_WR_IMM ∨ opcode = K.MLX5_CQE_RESP_SEND ∨
    opcode = K.MLX5_CQE_RESP_SEND_IMM ∨ opcode = K.MLX5_CQE_RESP_SEND_INV ∨
    opcode = K.MLX5_CQE_RESP_ERR

/-- The function free_res_cqe of cq.c: whether the slot belongs to the
resource, and the context after the release of its receive slot; srq is 0 for
NULL. -/
def free_res_cqe (K : Hdr) (w : World) (cqe64 : Cqe64) (rsn : Nat) (srq : Nat)
    (cqe_version : Nat) : Bool × World :=
  if cqe_version ≠ 0 then
    if is_equal_uidx cqe64 rsn = true then
      (true,
        if srq ≠ 0 ∧ is_responder K (mlx5dv_get_cqe_opcode cqe64) = true then
          w.call (ExtCall.free_srq_wqe srq (be16toh cqe64.wqe_counter))
        else w)
    else (false, w)
  else
    if is_equal_rsn cqe64 rsn = true then
      (true,
        if srq ≠ 0 ∧ be32toh cqe64.srqn_uidx &&& 0xffffff ≠ 0 then
          w.call (ExtCall.free_srq_wqe srq (be16toh cqe64.wqe_counter))
        else w)
    else (false, w)

/-- The first loop of __mlx5_cq_clean of cq.c, from prod_index on: the value of
prod_index when the loop ends. The first argument bounds the iterations; the
loop breaks at the latest at cons_index + cqe, after cqe + 1 of them. -/
def clean_find_prod (K : Hdr) (cq : Cq) : Nat → Nat → Nat
  | 0, prod_index => prod_index
  | fuel + 1, prod_index =>
    if get_sw_cqe K cq prod_index = none then prod_index
    else if prod_index = (cq.cons_index + cq.cqe) % 2 ^ 32 then prod_index
    else clean_find_prod K cq fuel ((prod_index + 1) % 2 ^ 32)

/-- The test `(int)a - (int)b >= 0` of the sweep of __mlx5_cq_clean, the
difference taken in 32-bit two's-complement arithmetic. -/
def int_diff_nonneg (a b : Nat) : Bool := (a + 2 ^ 32 - b % 2 ^ 32) % 2 ^ 32 < 2 ^ 31

/-- The state of the sweep of __mlx5_cq_clean. -/
structure CleanSt where
  cq : Cq
  w : World
  nfreed : Nat

/-- The body of the sweep of __mlx5_cq_clean of cq.c at prod_index. The copy
memcpy(dest, cqe, cq->cqe_sz) copies the whole slot; op_own is a byte. -/
def clean_body (K : Hdr) (s : CleanSt) (rsn : Nat) (srq : Nat) (cqe_version : Nat)
    (prod_index : Nat) : CleanSt :=
  let cqe := get_cqe s.cq (prod_index &&& s.cq.cqe)
  let r := free_res_cqe K s.w cqe.cqe64 rsn srq cqe_version
  if r.1 = true then { s with w := r.2, nfreed := s.nfreed + 1 }
  else if s.nfreed ≠ 0 then
    let d := ((prod_index + s.nfreed) % 2 ^ 32) &&& s.cq.cqe
    let owner_bit := (get_cqe s.cq d).cqe64.op_own &&& K.MLX5_CQE_OWNER_MASK
    let dest : Slot :=
      { cqe with cqe64 := { cqe.cqe64 with
          op_own := (owner_bit ||| (cqe.cqe64.op_own &&& not32 K.MLX5_CQE_OWNER_MASK)) % 256 } }
    { s with w := r.2, cq := { s.cq with active_buf := upd s.cq.active_buf d dest } }
  else { s with w := r.2 }

/-- The sweep of __mlx5_cq_clean of cq.c, from prod_index down. The first
argument bounds the iterations. -/
def clean_sweep (K : Hdr) (rsn : Nat) (srq : Nat) (cqe_version : Nat) :
    Nat → Nat → CleanSt → CleanSt
  | 0, _, s => s
  | fuel + 1, prod_index, s =>
    if int_diff_nonneg (decr32 prod_index) s.cq.cons_index = true then
      clean_sweep K rsn srq cqe_version fuel (decr32 prod_index)
        (clean_body K s rsn srq cqe_version (decr32 prod_index))
    else s

/-- The function __mlx5_cq_clean of cq.c on a queue that is not NULL. The first
loop makes at most cqe + 1 iterations and the sweep at most as many. -/
def __mlx5_cq_clean (K : Hdr) (cq : Cq) (w : World) (rsn : Nat) (srq : Nat) : Cq × World :=
  if cq.flags &&& K.MLX5_CQ_FLAGS_DV_OWNED ≠ 0 then (cq, w)
  else
    let prod_index := clean_find_prod K cq (cq.cqe + 1) cq.cons_index
    let s := clean_sweep K rsn srq w.cqe_version (cq.cqe + 1) prod_index
      { cq := cq, w := w, nfreed := 0 }
    if s.nfreed ≠ 0 then
      (update_cons_index K { s.cq with cons_index := (s.cq.cons_index + s.nfreed) % 2 ^ 32 },
        s.w)
    else (s.cq, s.w)

/-- The values that the headers of rdma-core (mlx5dv.h, mlx5.h, wqe.h,
infiniband/verbs.h) and errno.h give the constants of Hdr, in a build without
MLX5_DEBUG; the concrete examples below use them. -/
def hdr : Hdr :=
  { MLX5_DEBUG := false,
    ENOENT := 2,
    EINVAL := 22,
    MLX5_CQE_OWNER_MASK := 1,
    MLX5_INLINE_SCATTER_32 := 0x4,
    MLX5_INLINE_SCATTER_64 := 0x8,
    MLX5_CQE_REQ := 0,
    MLX5_CQE_RESP_WR_IMM := 1,
    MLX5_CQE_RESP_SEND := 2,
    MLX5_CQE_RESP_SEND_IMM := 3,
    MLX5_CQE_RESP_SEND_INV := 4,
    MLX5_CQE_RESIZE_CQ := 5,
    MLX5_CQE_NO_PACKET := 6,
    MLX5_CQE_SIG_ERR := 12,
    MLX5_CQE_REQ_ERR := 13,
    MLX5_CQE_RESP_ERR := 14,
    MLX5_CQE_INVALID := 15,
    MLX5_CQE_SYNDROME_LOCAL_LENGTH_ERR := 0x01,
    MLX5_CQE_SYNDROME_LOCAL_QP_OP_ERR := 0x02,
    MLX5_CQE_SYNDROME_LOCAL_PROT_ERR := 0x04,
    MLX5_CQE_SYNDROME_WR_FLUSH_ERR := 0x05,
    MLX5_CQE_SYNDROME_MW_BIND_ERR := 0x06,
    MLX5_CQE_SYNDROME_BAD_RESP_ERR := 0x10,
    MLX5_CQE_SYNDROME_LOCAL_ACCESS_ERR := 0x11,
    MLX5_CQE_SYNDROME_REMOTE_INVAL_REQ_ERR := 0x12,
    MLX5_CQE_SYNDROME_REMOTE_ACCESS_ERR := 0x13,
    MLX5_CQE_SYNDROME_REMOTE_OP_ERR := 0x14,
    MLX5_CQE_SYNDROME_TRANSPORT_RETRY_EXC_ERR := 0x15,
    MLX5_CQE_SYNDROME_RNR_RETRY_EXC_ERR := 0x16,
    MLX5_CQE_SYNDROME_REMOTE_ABORTED_ERR := 0x22,
    MLX5_CQE_VENDOR_SYNDROME_ODP_PFAULT := 0x93,
    MLX5_CQE_L4_OK := 4,
    MLX5_CQE_L3_OK := 2,
    MLX5_CQE_L3_HDR_TYPE_IPV4 := 2,
    MLX5_OPCODE_NOP := 0x00,
    MLX5_OPCODE_SEND_INVAL := 0x01,
    MLX5_OPCODE_RDMA_WRITE := 0x08,
    MLX5_OPCODE_RDMA_WRITE_IMM := 0x09,
    MLX5_OPCODE_SEND := 0x0a,
    MLX5_OPCODE_SEND_IMM := 0x0b,
    MLX5_OPCODE_TSO := 0x0e,
    MLX5_OPCODE_RDMA_READ := 0x10,
    MLX5_OPCODE_ATOMIC_CS := 0x11,
    MLX5_OPCODE_ATOMIC_FA := 0x12,
    MLX5_OPCODE_UMR := 0x25,
    MLX5_OPCODE_SET_PSV := 0x20,
    MLX5_OPCODE_MMO := 0x2f,
    MLX5_CQ_SET_CI := 0,
    MLX5_CQ_ARM_DB := 1,
    MLX5_CQ_FLAGS_RX_CSUM_VALID := 1,
    MLX5_CQ_FLAGS_EMPTY_DURING_POLL := 2,
    MLX5_CQ_FLAGS_FOUND_CQES := 4,
    MLX5_CQ_FLAGS_SINGLE_THREADED := 16,
    MLX5_CQ_FLAGS_DV_OWNED := 32,
    MLX5_CQ_FLAGS_TM_SYNC_REQ := 64,
    MLX5_CQ_FLAGS_RAW_WQE := 128,
    MLX5_RX_CSUM_VALID := 65536,
    MLX5_RSC_TYPE_QP := 0,
    MLX5_RSC_TYPE_XSRQ := 1,
    MLX5_RSC_TYPE_RWQ := 3,
    MLX5_TMC_SUCCESS := 0x80000000,
    IBV_WC_SUCCESS := 0,
    IBV_WC_LOC_LEN_ERR := 1,
    IBV_WC_LOC_QP_OP_ERR := 2,
    IBV_WC_LOC_PROT_ERR := 4,
    IBV_WC_WR_FLUSH_ERR := 5,
    IBV_WC_MW_BIND_ERR := 6,
    IBV_WC_BAD_RESP_ERR := 7,
    IBV_WC_LOC_ACCESS_ERR := 8,
    IBV_WC_REM_INV_REQ_ERR := 9,
    IBV_WC_REM_ACCESS_ERR := 10,
    IBV_WC_REM_OP_ERR := 11,
    IBV_WC_RETRY_EXC_ERR := 12,
    IBV_WC_RNR_RETRY_EXC_ERR := 13,
    IBV_WC_REM_ABORT_ERR := 16,
    IBV_WC_GENERAL_ERR := 21,
    IBV_WC_TM_ERR := 22,
    IBV_WC_TM_RNDV_INCOMPLETE := 23,
    IBV_WC_SEND := 0,
    IBV_WC_RDMA_WRITE := 1,
    IBV_WC_RDMA_READ := 2,
    IBV_WC_COMP_SWAP := 3,
    IBV_WC_FETCH_ADD := 4,
    IBV_WC_TSO := 7,
    IBV_WC_RECV := 128,
    IBV_WC_RECV_RDMA_WITH_IMM := 129,
    IBV_WC_TM_ADD := 130,
    IBV_WC_TM_DEL := 131,
    IBV_WC_TM_SYNC := 132,
    IBV_WC_TM_RECV := 133,
    IBV_WC_TM_NO_TAG := 134,
    IBV_WC_DRIVER2 := 136,
    IBV_WC_GRH := 1,
    IBV_WC_WITH_IMM := 2,
    IBV_WC_IP_CSUM_OK_SHIFT := 2,
    IBV_WC_WITH_INV := 8,
    IBV_WC_TM_SYNC_REQ := 16,
    IBV_WC_TM_MATCH := 32,
    IBV_WC_TM_DATA_VALID := 64 }

/-- A completion record with every field zero. -/
def Cqe64.zero : Cqe64 :=
  { op_own := 0, sop_drop_qpn := ⟨0⟩, srqn_uidx := ⟨0⟩, byte_cnt := ⟨0⟩, wqe_counter := ⟨0⟩,
    imm_inval_pkey := ⟨0⟩, flags_rqpn := ⟨0⟩, slid := ⟨0⟩, ml_path := 0, hds_ip_ext := 0,
    l4_hdr_type_etc := 0, app := 0, app_op := 0, app_info := ⟨0⟩, tm_cqe_success := ⟨0⟩,
    tm_cqe_hw_phase_cnt := ⟨0⟩, tmh_tag := ⟨0⟩, tmh_app_ctx := ⟨0⟩, timestamp := ⟨0⟩,
    vlan_info := ⟨0⟩, syndrome := 0, vendor_err_synd := 0, sig_expected_trans_sig := ⟨0⟩,
    sig_actual_trans_sig := ⟨0⟩, sig_expected_ref_tag := ⟨0⟩, sig_actual_ref_tag := ⟨0⟩,
    sig_syndrome := ⟨0⟩, sig_type := 0, sig_domain := 0, sig_mkey := ⟨0⟩,
    sig_err_offset := ⟨0⟩ }

/-- A slot as mlx5_alloc_cq_buf leaves it: zero bytes and the opcode
MLX5_CQE_INVALID (15 in hdr) in op_own. -/
def Slot.invalid : Slot :=
  { cqe64 := { Cqe64.zero with op_own := 0xf0 }, scatter64 := fun _ => 0 }

/-- A slot holding the record c, with zero bytes before it. -/
def Slot.of (c : Cqe64) : Slot := { cqe64 := c, scatter64 := fun _ => 0 }

/-- A work queue with no entries. -/
def Wq.zero : Wq :=
  { wqe_cnt := 0, tail := 0, wrid := fun _ => 0, wqe_head := fun _ => 0, wr_data := fun _ => 0 }

/-- A shared receive queue with zero fields. -/
def Srq.zero : Srq :=
  { srqn := 0, wrid := fun _ => 0,
    tm_list := fun _ => { expect_cqe := 0, wr_id := 0, phase_cnt := 0, ptr := 0, size := 0 },
    op := fun _ => { tag := none, wqe_head := 0, wr_id := 0 },
    op_head := 0, op_tail := 0, unexp_in := 0, unexp_out := 0, cmd_qp := 0, lock := false }

/-- A signature-error detail with zero fields. -/
def SigErr.zero : SigErr :=
  { syndrome := 0, expected := 0, actual := 0, offset := 0, sig_type := 0, domain := 0 }

/-- A memory key without recorded signature error. -/
def Mkey.zero : Mkey :=
  { sig := { err_exists := false, err_count := 0, err_count_updated := false,
             err_info := SigErr.zero } }

/-- A context with empty tables, zero objects, the freeze switch off and the
stall tunables at the initial values cq.c gives them. -/
def World.zero : World :=
  { cqe_version := 0, mlx5_freeze_on_error_cqe := 0,
    mlx5_stall_cq_poll_min := 60, mlx5_stall_cq_poll_max := 100000,
    mlx5_stall_cq_inc_step := 100, mlx5_stall_cq_dec_step := 10,
    qp_table := fun _ => 0, uidx_table := fun _ => 0, srq_table := fun _ => 0,
    mkey_table := fun _ => 0,
    rsc := fun _ => { type := 0, rsn := 0 },
    qp := fun _ => { sq := Wq.zero, rq := Wq.zero, srq := 0, qp_cap_cache := 0 },
    rwq := fun _ => { rq := Wq.zero },
    srq := fun _ => Srq.zero,
    mkey := fun _ => Mkey.zero,
    mkey_table_mutex := false, mem := fun _ => 0, log := [] }

/-- A work completion with zero fields. -/
def Wc.zero : Wc :=
  { wr_id := 0, status := 0, opcode := 0, vendor_err := 0, byte_len := 0, imm_data := ⟨0⟩,
    invalidated_rkey := 0, qp_num := 0, src_qp := 0, wc_flags := 0, pkey_index := 0, slid := 0,
    sl := 0, dlid_path_bits := 0 }

/-- Collaborator results for the concrete examples: every copy succeeds. -/
def Ext.zero : Ext :=
  { mlx5_copy_to_recv_srq := fun _ _ _ _ => 0,
    mlx5_copy_to_recv_wqe := fun _ _ _ _ => 0,
    mlx5_copy_to_send_wqe := fun _ _ _ _ => 0,
    mlx5_get_cycles := fun c => c,
    mlx5dv_get_clock_info := 0 }

/-- A fresh queue of 4 slots (mask cqe = 3) of 64 bytes: every slot invalid,
consumer index 0. -/
def Cq.fresh4 : Cq :=
  { active_buf := fun _ => Slot.invalid, resize_buf := fun _ => Slot.invalid,
    cqe := 3, cqe_sz := 64, active_cqes := 3, resize_cqes := 0, resize_cqe_sz := 0,
    cons_index := 0, dbrec := fun _ => ⟨0⟩, flags := 0, cqe64 := none, cached_opcode := 0,
    cur_rsc := 0, cur_srq := 0, wr_id := 0, status := 0, stall_enable := 0,
    stall_adaptive_enable := 0, stall_next_poll := 0, stall_last_count := 0, stall_cycles := 0,
    arm_sn := 0, cqn := 0, lock := false }

/-- The code a call returned, none if it did not return. -/
def Res.code {σ : Type} : Res σ → Option Int
  | Res.ret c _ => some c
  | _ => none

/-- The state a call returned with, none if it did not return. -/
def Res.state {σ : Type} : Res σ → Option σ
  | Res.ret _ s => some s
  | _ => none

/-- What the theorems use of the header constants. IBV_WC_SUCCESS is 0: cq.c
writes 0 and IBV_WC_SUCCESS for the same status (the local err of
mlx5_parse_cqe, handle_responder and handle_responder_lazy). The owner mask is
bit 0: cq.c combines it with the 0 or 1 of sw_ownership_bit. The case labels of
each switch of cq.c are distinct, as C requires; each list is in the reverse of
the order in which the embedding tests the labels. MLX5_CQE_INVALID is none of
the opcodes that mlx5_parse_cqe decodes. -/
structure Hdr.Ok (K : Hdr) : Prop where
  success_zero : K.IBV_WC_SUCCESS = 0
  owner_mask : K.MLX5_CQE_OWNER_MASK = 1
  cqe_opcodes :
    [K.MLX5_CQE_INVALID, K.MLX5_CQE_RESP_ERR, K.MLX5_CQE_REQ_ERR, K.MLX5_CQE_RESIZE_CQ,
      K.MLX5_CQE_SIG_ERR, K.MLX5_CQE_NO_PACKET, K.MLX5_CQE_RESP_SEND_INV,
      K.MLX5_CQE_RESP_SEND_IMM, K.MLX5_CQE_RESP_SEND, K.MLX5_CQE_RESP_WR_IMM,
      K.MLX5_CQE_REQ].Nodup
  wqe_opcodes :
    [K.MLX5_OPCODE_TSO, K.MLX5_OPCODE_MMO, K.MLX5_OPCODE_NOP, K.MLX5_OPCODE_SET_PSV,
      K.MLX5_OPCODE_UMR, K.MLX5_OPCODE_ATOMIC_FA, K.MLX5_OPCODE_ATOMIC_CS,
      K.MLX5_OPCODE_RDMA_READ, K.MLX5_OPCODE_SEND_INVAL, K.MLX5_OPCODE_SEND,
      K.MLX5_OPCODE_SEND_IMM, K.MLX5_OPCODE_RDMA_WRITE, K.MLX5_OPCODE_RDMA_WRITE_IMM].Nodup
  syndromes :
    [K.MLX5_CQE_SYNDROME_REMOTE_ABORTED_ERR, K.MLX5_CQE_SYNDROME_RNR_RETRY_EXC_ERR,
      K.MLX5_CQE_SYNDROME_TRANSPORT_RETRY_EXC_ERR, K.MLX5_CQE_SYNDROME_REMOTE_OP_ERR,
      K.MLX5_CQE_SYNDROME_REMOTE_ACCESS_ERR, K.MLX5_CQE_SYNDROME_REMOTE_INVAL_REQ_ERR,
      K.MLX5_CQE_SYNDROME_LOCAL_ACCESS_ERR, K.MLX5_CQE_SYNDROME_BAD_RESP_ERR,
      K.MLX5_CQE_SYNDROME_MW_BIND_ERR, K.MLX5_CQE_SYNDROME_WR_FLUSH_ERR,
      K.MLX5_CQE_SYNDROME_LOCAL_PROT_ERR, K.MLX5_CQE_SYNDROME_LOCAL_QP_OP_ERR,
      K.MLX5_CQE_SYNDROME_LOCAL_LENGTH_ERR].Nodup
  rsc_types : [K.MLX5_RSC_TYPE_RWQ, K.MLX5_RSC_TYPE_XSRQ, K.MLX5_RSC_TYPE_QP].Nodup

/-- The slot of the send example: opcode MLX5_CQE_REQ, owner bit 0, hardware
opcode SEND (0x0a), queue number 7, wqe counter 0. -/
def Cqe64.ex_send : Cqe64 := { Cqe64.zero with op_own := 0x00, sop_drop_qpn := ⟨0x0a000007⟩ }

/-- The queue of the send example: 4 slots, slot 0 holds the send completion,
the other slots are invalid, consumer index 0. -/
def Cq.ex_send : Cq :=
  { Cq.fresh4 with active_buf := upd (fun _ => Slot.invalid) 0 (Slot.of Cqe64.ex_send) }

/-- The send queue of the send example: one entry, work request 42 posted with
the opcode IBV_WC_SEND (0). -/
def Wq.ex_send : Wq := { Wq.zero with wqe_cnt := 1, wrid := upd (fun _ => 0) 0 42 }

/-- The context of the send example: queue number 7 resolves to the queue-pair
at address 1. -/
def World.ex_send : World :=
  { World.zero with
    qp_table := upd (fun _ => 0) 7 1,
    rsc := upd (fun _ => { type := 0, rsn := 0 }) 1 { type := 0, rsn := 7 },
    qp := upd World.zero.qp 1 { sq := Wq.ex_send, rq := Wq.zero, srq := 0, qp_cap_cache := 0 } }

/-- The state of the send example before the decode. -/
def PState.ex_send : PState :=
  { cq := Cq.ex_send, w := World.ex_send, cur_rsc := 0, cur_srq := 0, wc := Wc.zero }

/-- The send example with a raw work request: wr_data[0] is IBV_WC_DRIVER2
(136). -/
def PState.ex_send_raw : PState :=
  { PState.ex_send with
    w := { World.ex_send with
      qp := upd World.zero.qp 1
        { sq := { Wq.ex_send with wr_data := upd (fun _ => 0) 0 136 }, rq := Wq.zero, srq := 0,
          qp_cap_cache := 0 } } }

/-- The status a decode reports: the cell pstatus of mlx5_parse_cqe, the
status of the queue in lazy mode and of the work completion otherwise. -/
def PState.status (st : PState) (lazy : Nat) : Nat :=
  if lazy ≠ 0 then st.cq.status else st.wc.status

/-- The work-request id a decode reports: the wr_id of the queue in lazy mode
and of the work completion otherwise. -/
def PState.wr_id (st : PState) (lazy : Nat) : Nat :=
  if lazy ≠ 0 then st.cq.wr_id else st.wc.wr_id

/-- The tag of the tag-matching example: expecting a completion, work request 5, a buffer of 64 bytes at address 1000. -/
def TagEntry.ex : TagEntry := { expect_cqe := 1, wr_id := 5, phase_cnt := 0, ptr := 1000, size := 64 }

/-- The context of the tag-matching example: the shared receive queue at address 9 has the tag TagEntry.ex at index 3 of its tag table. -/
def World.ex_tm : World :=
  { World.zero with srq := upd (fun _ => Srq.zero) 9 { Srq.zero with tm_list := upd Srq.zero.tm_list 3 TagEntry.ex } }

/-- The CONSUMED slot of the tag-matching example: a receive slot (opcode RESP_SEND) with the INLINE_SCATTER_64 bit, tag matching, sub-opcode CONSUMED, app_info 3, byte count 40; byte i of the inline payload is i + 1. -/
def Slot.ex_tm_consumed : Slot :=
  { cqe64 := { Cqe64.zero with op_own := 0x28, app := 1, app_op := 1, app_info := ⟨3⟩, byte_cnt := ⟨40⟩ },
    scatter64 := fun i => i + 1 }

/-- The EXPECTED slot of the tag-matching example: the second completion for
tag 3, without inline data. -/
def Slot.ex_tm_expected : Slot :=
  { cqe64 := { Cqe64.zero with op_own := 0x20, app := 1, app_op := 2, app_info := ⟨3⟩ },
    scatter64 := fun _ => 0 }

/-- The receive-error example: a response-error slot with syndrome
WR_FLUSH_ERR for queue number 7. -/
def Cqe64.ex_resp_err : Cqe64 :=
  { Cqe64.zero with op_own := 0xe0, sop_drop_qpn := ⟨7⟩, syndrome := 0x05 }

/-- The state of the receive-error example: queue-pair 7 at address 1 has one
outstanding receive with id 99. -/
def PState.ex_resp_err : PState :=
  { cq := { Cq.fresh4 with active_buf := upd (fun _ => Slot.invalid) 0 (Slot.of Cqe64.ex_resp_err) },
    w := { World.zero with
      qp_table := upd (fun _ => 0) 7 1,
      rsc := upd (fun _ => { type := 0, rsn := 0 }) 1 { type := 0, rsn := 7 },
      qp := upd World.zero.qp 1
        { sq := Wq.zero, rq := { Wq.zero with wqe_cnt := 1, wrid := upd (fun _ => 0) 0 99 },
          srq := 0, qp_cap_cache := 0 } },
    cur_rsc := 0, cur_srq := 0, wc := Wc.zero }

/-- A response-error slot that is an on-demand-paging page fault (syndrome
REMOTE_ABORTED_ERR, vendor syndrome ODP_PFAULT) for the shared receive queue
number 5. -/
def Cqe64.ex_odp : Cqe64 :=
  { Cqe64.zero with op_own := 0xe0, srqn_uidx := ⟨5⟩, syndrome := 0x22, vendor_err_synd := 0x93 }

/-- The state of the page-fault example: the slot is the only one in the ring,
shared receive queue 5 is at address 9 and its slot 0 holds the id 77. -/
def PState.ex_odp : PState :=
  { cq := { Cq.fresh4 with active_buf := upd (fun _ => Slot.invalid) 0 (Slot.of Cqe64.ex_odp) },
    w := { World.zero with
      srq_table := upd (fun _ => 0) 5 9,
      srq := upd (fun _ => Srq.zero) 9 { Srq.zero with srqn := 5, wrid := upd (fun _ => 0) 0 77 } },
    cur_rsc := 0, cur_srq := 0, wc := Wc.zero }

/-- The state of the freeze example: a request-error slot with syndrome
LOCAL_LENGTH_ERR for queue-pair 7, with the switch mlx5_freeze_on_error_cqe on. -/
def PState.ex_freeze : PState :=
  { PState.ex_send with
    cq := { Cq.fresh4 with
      active_buf := upd (fun _ => Slot.invalid) 0
        (Slot.of { Cqe64.zero with op_own := 0xd0, sop_drop_qpn := ⟨7⟩, syndrome := 0x01 }) },
    w := { World.ex_send with mlx5_freeze_on_error_cqe := 1 } }

/-- A queue of 4 slots whose slots 0 and 1 hold the send completion of the
send example; consumer index 0. -/
def Cq.ex_send2 : Cq :=
  { Cq.fresh4 with
    active_buf := upd (upd (fun _ => Slot.invalid) 0 (Slot.of Cqe64.ex_send)) 1
      (Slot.of Cqe64.ex_send) }

/-- The queue of the atomic example: slot 0 is a send completion with hardware
opcode ATOMIC_CS (0x11) for queue number 7 whose raw byte count is 100. -/
def Cq.ex_atomic : Cq :=
  { Cq.fresh4 with
    active_buf := upd (fun _ => Slot.invalid) 0
      (Slot.of { Cqe64.zero with op_own := 0x00, sop_drop_qpn := ⟨0x11000007⟩,
                                 byte_cnt := ⟨100⟩ }) }

/-- The state of the atomic example before an immediate decode of slot 0; the
work completion holds the byte length 77. -/
def PState.ex_atomic : PState :=
  { cq := Cq.ex_atomic, w := World.ex_send, cur_rsc := 0, cur_srq := 0,
    wc := { Wc.zero with byte_len := 77 } }

/-- A queue of 4 slots with slot 0 valid, when the consumer index has wrapped
to 4: the owner bit 0 of the slot is that of the previous pass. -/
def Cq.ex_wrapped : Cq := { Cq.ex_send with cons_index := 4 }

/-- What a decode leaves alone in the queue: the ring, its mask and the
consumer index. -/
def CqFrame (cq cq1 : Cq) : Prop :=
  cq1.active_buf = cq.active_buf ∧ cq1.cqe = cq.cqe ∧ cq1.cons_index = cq.cons_index

/-- What a decode leaves alone in the context: the freeze switch. -/
def WFrame (w w1 : World) : Prop :=
  w1.mlx5_freeze_on_error_cqe = w.mlx5_freeze_on_error_cqe

/-- What one pass of mlx5_parse_cqe guarantees, relative to the state st it
started from: a return leaves the ring and the consumer index alone and gives
CQ_OK, CQ_POLL_ERR, or finds the ring empty; the freeze loop needs the switch;
a `goto again` consumed one software-visible slot. -/
def StepOk (K : Hdr) (st : PState) : Step → Prop
  | Step.ret c st1 =>
    CqFrame st.cq st1.cq ∧ WFrame st.w st1.w ∧
      (c = CQ_OK ∨ c = CQ_POLL_ERR ∨ next_cqe_sw K st1.cq = none)
  | Step.freeze _ => st.w.mlx5_freeze_on_error_cqe ≠ 0
  | Step.again st1 _ =>
    st1.cq.active_buf = st.cq.active_buf ∧ st1.cq.cqe = st.cq.cqe ∧
      st1.cq.cons_index = (st.cq.cons_index + 1) % 2 ^ 32 ∧ WFrame st.w st1.w ∧
      next_cqe_sw K st.cq ≠ none

/-- Exactly the next r slots from the consumer index on are software-visible. -/
def Avail (K : Hdr) (cq : Cq) (r : Nat) : Prop :=
  cq.cons_index < 2 ^ 32 ∧
    (∀ j, j < r → get_sw_cqe K cq ((cq.cons_index + j) % 2 ^ 32) ≠ none) ∧
    get_sw_cqe K cq ((cq.cons_index + r) % 2 ^ 32) = none

/-- What a decode that started with r available slots guarantees: it does not
starve; it freezes only with the switch on; when it returns, r1 slots are left,
the consumer index advanced by r - r1, and the code is CQ_OK or CQ_POLL_ERR
unless the ring is empty. With strict set, CQ_OK means a slot was consumed. -/
def DecodeOk (K : Hdr) (strict : Bool) (st : PState) (r : Nat) : Res PState → Prop
  | Res.ret c st1 =>
    ∃ r1, r1 ≤ r ∧ Avail K st1.cq r1 ∧ st1.cq.active_buf = st.cq.active_buf ∧
      st1.cq.cqe = st.cq.cqe ∧ st1.cq.cons_index = (st.cq.cons_index + (r - r1)) % 2 ^ 32 ∧
      WFrame st.w st1.w ∧ (c = CQ_OK ∨ c = CQ_POLL_ERR ∨ r1 = 0) ∧
      (strict = true → c = CQ_OK → r1 < r)
  | Res.freeze _ => st.w.mlx5_freeze_on_error_cqe ≠ 0
  | Res.starved => False

/-- What the loop of poll_cq guarantees when it starts with r available slots
and k iterations to go. -/
def LoopOk (K : Hdr) (s : PollSt) (r k : Nat) : Res (Nat × PollSt) → Prop
  | Res.ret err x =>
    ∃ r1, r1 ≤ r ∧ Avail K x.2.cq r1 ∧ x.2.cq.active_buf = s.cq.active_buf ∧
      x.2.cq.cqe = s.cq.cqe ∧ x.2.cq.cons_index = (s.cq.cons_index + (r - r1)) % 2 ^ 32 ∧
      WFrame s.w x.2.w ∧ (err ≠ CQ_POLL_ERR → r1 = 0 ∨ k ≤ r - r1)
  | Res.freeze _ => s.w.mlx5_freeze_on_error_cqe ≠ 0
  | Res.starved => False

/-- Whether free_res_cqe counts a slot to the resource rsn: by its user index
when cqe_version is set, else by its queue number. -/
def res_match (cqe64 : Cqe64) (rsn : Nat) (cqe_version : Nat) : Bool :=
  if cqe_version ≠ 0 then is_equal_uidx cqe64 rsn else is_equal_rsn cqe64 rsn

/-- The ring position of the slot j places after the consumer index. -/
def live_pos (cq : Cq) (j : Nat) : Nat := ((cq.cons_index + j) % 2 ^ 32) &&& cq.cqe

/-- What a slot holds apart from its owner bit: the slot with the owner bit of
op_own cleared. -/
def Slot.payload (K : Hdr) (s : Slot) : Slot :=
  { s with cqe64 := { s.cqe64 with op_own := s.cqe64.op_own &&& not32 K.MLX5_CQE_OWNER_MASK } }

/-- The L slots from the consumer index on, oldest first. -/
def live_slots (cq : Cq) (L : Nat) : List Slot :=
  (List.range L).map (fun j => cq.active_buf (live_pos cq j))

/-- The values of f at the indices i, i + 1, ..., L - 1. -/
def seg {α : Type} (f : Nat → α) (i L : Nat) : List α := (List.range' i (L - i)).map f

/-- The state of the sweep of __mlx5_cq_clean when the slots i, ..., L - 1
after the consumer index of cq are done: nfreed counts the slots among them
that belong to the resource; the other ones lie, in order and up to their
owner bits, in the slots i + nfreed, ..., L - 1; the slots before i and the
ring outside the L live slots are as in cq; every position has kept its owner
bit. -/
structure SweepInv (K : Hdr) (cq : Cq) (w : World) (rsn L i : Nat) (s : CleanSt) : Prop where
  cons : s.cq.cons_index = cq.cons_index
  mask : s.cq.cqe = cq.cqe
  ver : s.w.cqe_version = w.cqe_version
  bytes : ∀ p, (s.cq.active_buf p).cqe64.op_own < 256
  freed : s.nfreed =
    ((seg (fun j => cq.active_buf (live_pos cq j)) i L).filter
      (fun c => res_match c.cqe64 rsn w.cqe_version)).length
  below : ∀ j, j < i → s.cq.active_buf (live_pos cq j) = cq.active_buf (live_pos cq j)
  outside : ∀ p, (∀ j, j < L → p ≠ live_pos cq j) → s.cq.active_buf p = cq.active_buf p
  owner : ∀ p, (s.cq.active_buf p).cqe64.op_own &&& K.MLX5_CQE_OWNER_MASK =
    (cq.active_buf p).cqe64.op_own &&& K.MLX5_CQE_OWNER_MASK
  window : seg (fun j => (s.cq.active_buf (live_pos cq j)).payload K) (i + s.nfreed) L =
    ((seg (fun j => cq.active_buf (live_pos cq j)) i L).filter
      (fun c => !res_match c.cqe64 rsn w.cqe_version)).map (Slot.payload K)

/-- A completion for queue number q: opcode MLX5_CQE_REQ, owner bit 0, hardware
opcode SEND. -/
def Cqe64.ex_req (q : Nat) : Cqe64 := { Cqe64.zero with sop_drop_qpn := ⟨0x0a000000 + q⟩ }

/-- The queue of the clean example: 4 slots, consumer index 0, three live
slots for the queue numbers 7, 5 and 7. -/
def Cq.ex_clean : Cq :=
  { Cq.fresh4 with
    active_buf := upd (upd (upd (fun _ => Slot.invalid) 0 (Slot.of (Cqe64.ex_req 7))) 1
      (Slot.of (Cqe64.ex_req 5))) 2 (Slot.of (Cqe64.ex_req 7)) }

/-- A full ring of 2 slots (mask 1), consumer index 0: the older slot is for
queue number 5, the newer one for queue number 7. -/
def Cq.ex_full : Cq :=
  { Cq.fresh4 with
    cqe := 1,
    active_buf := upd (upd (fun _ => Slot.invalid) 0 (Slot.of (Cqe64.ex_req 5))) 1
      (Slot.of (Cqe64.ex_req 7)) }

/-- The queue of the send example, owned by the application through the
direct-verbs interface (flag MLX5_CQ_FLAGS_DV_OWNED). -/
def Cq.ex_dv_owned : Cq := { Cq.ex_send with flags := 32 }

/-- The number of the L live slots of cq that free_res_cqe counts to the
resource rsn. -/
def clean_count (cq : Cq) (L rsn cqe_version : Nat) : Nat :=
  ((live_slots cq L).filter (fun s => res_match s.cqe64 rsn cqe_version)).length

/-- Modelled from the spec: the byte layout of struct mlx5_cqe64, which is
declared in mlx5dv.h, not under src/ (the spec calls it fixed-exact and
hardware-defined): enc gives the 64 bytes of a record, byte i at offset i, and
dec the record that 64 bytes are read as. -/
structure Layout where
  enc : Cqe64 → Nat → Nat
  dec : (Nat → Nat) → Cqe64

/-- The function get_buf_cqe of cq.c: the slot at position n of a buffer of
slots (the byte offset n * cqe_sz is the position n). -/
def get_buf_cqe (buf : Nat → Slot) (n : Nat) : Slot := buf n

/-- The function sw_ownership_bit of cq.c. -/
def sw_ownership_bit (n nent : Nat) : Nat := if n &&& nent ≠ 0 then 1 else 0

/-- The function is_hw of cq.c. -/
def is_hw (K : Hdr) (own n mask : Nat) : Nat :=
  (own &&& K.MLX5_CQE_OWNER_MASK) ^^^ (if n &&& (mask + 1) ≠ 0 then 1 else 0)

/-- The statement memcpy(dcqe, scqe, ssize) of mlx5_cq_resize_copy_cqes: ssize
bytes from the start of the source slot to the start of the slot d of the new
buffer. A slot is 64 or 128 bytes; as where the code locates the record
(`ssize == 64 ? scqe : scqe + 64`), a size other than 64 is taken as 128. A
64-byte slot is its record; a 128-byte slot is scatter64, then the record. With
a 64-byte source and a 128-byte destination the record lands in the first half
of the slot; with a 128-byte source and a 64-byte destination the first half
lands in the slot d and the record in the 64 bytes after it, the slot d + 1.
The field scatter64 of a 64-byte slot lies outside the slot and is not
followed. -/
def resize_memcpy (L : Layout) (ssize dsize : Nat) (rb : Nat → Slot) (d : Nat) (src : Slot) :
    Nat → Slot :=
  if ssize = 64 then
    if dsize = 64 then upd rb d { rb d with cqe64 := src.cqe64 }
    else upd rb d { rb d with scatter64 := L.enc src.cqe64 }
  else
    if dsize = 64 then
      upd (upd rb d { rb d with cqe64 := L.dec src.scatter64 }) (d + 1)
        { rb (d + 1) with cqe64 := src.cqe64 }
    else upd rb d src

/-- How the loop of mlx5_cq_resize_copy_cqes ends: at the resize marker (done),
or at one of its two error returns (failed); both with the new buffer. -/
inductive ResizeEnd where
  | done (rb : Nat → Slot)
  | failed (rb : Nat → Slot)

/-- The loop of mlx5_cq_resize_copy_cqes of cq.c, entered with the index i (the
bit pattern of the int) and the new buffer rb; start is the ring position of
start_cqe. The first argument bounds the number of iterations; none when it
is too small. The messages of mlx5_err go to the debug file and change no
state. -/
def resize_copy_loop (K : Hdr) (L : Layout) (cq : Cq) (start : Nat) :
    Nat → Nat → (Nat → Slot) → Option ResizeEnd
  | 0, _, _ => none
  | fuel + 1, i, rb =>
    let scqe := get_buf_cqe cq.active_buf (i &&& cq.active_cqes)
    if scqe.cqe64.op_own >>> 4 = K.MLX5_CQE_RESIZE_CQ then some (ResizeEnd.done rb)
    else
      let i1 := (i + 1) % 2 ^ 32
      let d := i1 &&& decr32 cq.resize_cqes
      let sw_own := sw_ownership_bit i1 cq.resize_cqes
      let rb1 := resize_memcpy L cq.cqe_sz cq.resize_cqe_sz rb d scqe
      let dcqe64 := (rb1 d).cqe64
      let own := ((dcqe64.op_own &&& not32 K.MLX5_CQE_OWNER_MASK) ||| sw_own) % 256
      let rb2 := upd rb1 d { rb1 d with cqe64 := { dcqe64 with op_own := own } }
      let scqe1 := get_buf_cqe cq.active_buf (i1 &&& cq.active_cqes)
      if is_hw K scqe1.cqe64.op_own i1 cq.active_cqes ≠ 0 then some (ResizeEnd.failed rb2)
      else if i1 &&& cq.active_cqes = start then some (ResizeEnd.failed rb2)
      else resize_copy_loop K L cq start fuel i1 rb2

/-- The function mlx5_cq_resize_copy_cqes of cq.c. The loop returns when its
source comes back to start_cqe, so a ring with the mask active_cqes allows at
most active_cqes + 1 iterations; none if that bound were too small. -/
def mlx5_cq_resize_copy_cqes (K : Hdr) (L : Layout) (cq : Cq) : Option Cq :=
  let i := cq.cons_index
  let scqe := get_buf_cqe cq.active_buf (i &&& cq.active_cqes)
  if is_hw K scqe.cqe64.op_own i cq.active_cqes ≠ 0 then some cq
  else
    match resize_copy_loop K L cq (i &&& cq.active_cqes) (cq.active_cqes + 2) i
        cq.resize_buf with
    | none => none
    | some (ResizeEnd.failed rb) => some { cq with resize_buf := rb }
    | some (ResizeEnd.done rb) =>
      some { cq with resize_buf := rb, cons_index := (cq.cons_index + 1) % 2 ^ 32 }

/-- A layout for the examples: op_own is the last byte of the record, as
cq.c uses it after `cqe + 64`; the other bytes are not told apart. -/
def Layout.ex : Layout :=
  { enc := fun c i => if i = 63 then c.op_own else 0,
    dec := fun b => { Cqe64.zero with op_own := b 63 } }

/-- The resize marker: a slot with the opcode MLX5_CQE_RESIZE_CQ, owner bit 0. -/
def Slot.ex_marker : Slot := Slot.of { Cqe64.zero with op_own := 0x50 }

/-- The queue of the resize example: a ring of 4 slots of 64 bytes with
consumer index 0, one live completion for queue number 7 in slot 0 and the
resize marker in slot 1; the new ring has 8 slots of 64 bytes, all invalid. -/
def Cq.ex_resize : Cq :=
  { Cq.fresh4 with
    active_buf := upd (upd (fun _ => Slot.invalid) 0 (Slot.of (Cqe64.ex_req 7))) 1 Slot.ex_marker,
    resize_cqes := 8, resize_cqe_sz := 64 }

/-- The resize example with a new ring of 128-byte slots. -/
def Cq.ex_resize_128 : Cq := { Cq.ex_resize with resize_cqe_sz := 128 }

/-- The bits of enum ibv_wc_flags that handle_responder sets, as
infiniband/verbs.h (not under src/) numbers them: IBV_WC_GRH is bit 0,
IBV_WC_WITH_IMM bit 1, IBV_WC_IP_CSUM_OK bit 2 (IBV_WC_IP_CSUM_OK_SHIFT is 2)
and IBV_WC_WITH_INV bit 3. -/
structure Hdr.WcFlagsOk (K : Hdr) : Prop where
  grh : K.IBV_WC_GRH = 1
  with_imm : K.IBV_WC_WITH_IMM = 2
  csum_shift : K.IBV_WC_IP_CSUM_OK_SHIFT = 2
  with_inv : K.IBV_WC_WITH_INV = 8

/-- The flag IBV_WC_IP_CSUM_OK of infiniband/verbs.h, which is
1 << IBV_WC_IP_CSUM_OK_SHIFT there. -/
def IBV_WC_IP_CSUM_OK (K : Hdr) : Nat := 1 <<< K.IBV_WC_IP_CSUM_OK_SHIFT

/-- The slot of the receive example: opcode MLX5_CQE_RESP_SEND, owner bit 0,
queue number 7 and user index 7, with L3_OK and L4_OK set and the L3 header
type IPv4. -/
def Cqe64.ex_recv : Cqe64 :=
  { Cqe64.zero with op_own := 0x20, sop_drop_qpn := ⟨7⟩, srqn_uidx := ⟨7⟩, hds_ip_ext := 6,
                    l4_hdr_type_etc := 8 }

/-- The state of the receive example: the user index 7 resolves to the
queue-pair at address 1, which has the RX-checksum capability and a receive
queue of its own with one outstanding receive, id 99. -/
def PState.ex_recv : PState :=
  { cq := { Cq.fresh4 with active_buf := upd (fun _ => Slot.invalid) 0 (Slot.of Cqe64.ex_recv) },
    w := { World.zero with
      cqe_version := 1,
      uidx_table := upd (fun _ => 0) 7 1,
      rsc := upd (fun _ => { type := 0, rsn := 0 }) 1 { type := 0, rsn := 7 },
      qp := upd World.zero.qp 1
        { sq := Wq.zero, rq := { Wq.zero with wqe_cnt := 1, wrid := upd (fun _ => 0) 0 99 },
          srq := 0, qp_cap_cache := 65536 } },
    cur_rsc := 0, cur_srq := 0, wc := Wc.zero }

/-- The receive example with the queue-pair attached to the shared receive
queue at address 9, whose slot 0 holds the id 77. -/
def PState.ex_recv_srq : PState :=
  { PState.ex_recv with
    w := { PState.ex_recv.w with
      qp := upd World.zero.qp 1
        { sq := Wq.zero, rq := Wq.zero, srq := 9, qp_cap_cache := 65536 },
      srq := upd (fun _ => Srq.zero) 9 { Srq.zero with wrid := upd (fun _ => 0) 0 77 } } }

/-- The syndromes that mlx5_handle_error_cqe recognises, in the order of its
switch. -/
def Hdr.syndromes (K : Hdr) : List Nat :=
  [K.MLX5_CQE_SYNDROME_LOCAL_LENGTH_ERR, K.MLX5_CQE_SYNDROME_LOCAL_QP_OP_ERR,
    K.MLX5_CQE_SYNDROME_LOCAL_PROT_ERR, K.MLX5_CQE_SYNDROME_WR_FLUSH_ERR,
    K.MLX5_CQE_SYNDROME_MW_BIND_ERR, K.MLX5_CQE_SYNDROME_BAD_RESP_ERR,
    K.MLX5_CQE_SYNDROME_LOCAL_ACCESS_ERR, K.MLX5_CQE_SYNDROME_REMOTE_INVAL_REQ_ERR,
    K.MLX5_CQE_SYNDROME_REMOTE_ACCESS_ERR, K.MLX5_CQE_SYNDROME_REMOTE_OP_ERR,
    K.MLX5_CQE_SYNDROME_TRANSPORT_RETRY_EXC_ERR, K.MLX5_CQE_SYNDROME_RNR_RETRY_EXC_ERR,
    K.MLX5_CQE_SYNDROME_REMOTE_ABORTED_ERR]

/-- The enumerators of enum ibv_wc_status (infiniband/verbs.h, not under src/)
that cq.c names in mlx5_handle_error_cqe are distinct values, and none of them
is IBV_WC_SUCCESS. -/
def Hdr.StatusOk (K : Hdr) : Prop :=
  [K.IBV_WC_REM_ABORT_ERR, K.IBV_WC_RNR_RETRY_EXC_ERR, K.IBV_WC_RETRY_EXC_ERR,
    K.IBV_WC_REM_OP_ERR, K.IBV_WC_REM_ACCESS_ERR, K.IBV_WC_REM_INV_REQ_ERR,
    K.IBV_WC_LOC_ACCESS_ERR, K.IBV_WC_BAD_RESP_ERR, K.IBV_WC_MW_BIND_ERR,
    K.IBV_WC_WR_FLUSH_ERR, K.IBV_WC_LOC_PROT_ERR, K.IBV_WC_LOC_QP_OP_ERR,
    K.IBV_WC_LOC_LEN_ERR, K.IBV_WC_GENERAL_ERR, K.IBV_WC_SUCCESS].Nodup

/-- The syndrome that a status of mlx5_handle_error_cqe stands for: the table
of the switch read from right to left (0 for a status that is not in it). -/
def status_syndrome (K : Hdr) (s : Nat) : Nat :=
  if s = K.IBV_WC_LOC_LEN_ERR then K.MLX5_CQE_SYNDROME_LOCAL_LENGTH_ERR
  else if s = K.IBV_WC_LOC_QP_OP_ERR then K.MLX5_CQE_SYNDROME_LOCAL_QP_OP_ERR
  else if s = K.IBV_WC_LOC_PROT_ERR then K.MLX5_CQE_SYNDROME_LOCAL_PROT_ERR
  else if s = K.IBV_WC_WR_FLUSH_ERR then K.MLX5_CQE_SYNDROME_WR_FLUSH_ERR
  else if s = K.IBV_WC_MW_BIND_ERR then K.MLX5_CQE_SYNDROME_MW_BIND_ERR
  else if s = K.IBV_WC_BAD_RESP_ERR then K.MLX5_CQE_SYNDROME_BAD_RESP_ERR
  else if s = K.IBV_WC_LOC_ACCESS_ERR then K.MLX5_CQE_SYNDROME_LOCAL_ACCESS_ERR
  else if s = K.IBV_WC_REM_INV_REQ_ERR then K.MLX5_CQE_SYNDROME_REMOTE_INVAL_REQ_ERR
  else if s = K.IBV_WC_REM_ACCESS_ERR then K.MLX5_CQE_SYNDROME_REMOTE_ACCESS_ERR
  else if s = K.IBV_WC_REM_OP_ERR then K.MLX5_CQE_SYNDROME_REMOTE_OP_ERR
  else if s = K.IBV_WC_RETRY_EXC_ERR then K.MLX5_CQE_SYNDROME_TRANSPORT_RETRY_EXC_ERR
  else if s = K.IBV_WC_RNR_RETRY_EXC_ERR then K.MLX5_CQE_SYNDROME_RNR_RETRY_EXC_ERR
  else if s = K.IBV_WC_REM_ABORT_ERR then K.MLX5_CQE_SYNDROME_REMOTE_ABORTED_ERR
  else 0

/-- The page-fault example after mlx5_poll_one has fetched its slot: the
consumer index is past slot 0 and the ring holds nothing more. -/
def PState.ex_odp_fetched : PState :=
  { PState.ex_odp with cq := { PState.ex_odp.cq with cons_index := 1 } }

/-- A request-error slot with the page-fault syndromes (REMOTE_ABORTED_ERR,
ODP_PFAULT) for queue-pair 7 of the send example. -/
def PState.ex_odp_req : PState :=
  { PState.ex_send with
    cq := { Cq.fresh4 with
      active_buf := upd (fun _ => Slot.invalid) 0
        (Slot.of { Cqe64.zero with op_own := 0xd0, sop_drop_qpn := ⟨7⟩, syndrome := 0x22,
                                   vendor_err_synd := 0x93 }) } }

/-- A response-error slot with the page-fault syndromes for the queue-pair 7
of the receive-error example, which has no shared receive queue. -/
def PState.ex_odp_qp : PState :=
  { PState.ex_resp_err with
    cq := { Cq.fresh4 with
      active_buf := upd (fun _ => Slot.invalid) 0
        (Slot.of { Cqe64.ex_resp_err with syndrome := 0x22, vendor_err_synd := 0x93 }) } }

/-- A signature-error slot: opcode MLX5_CQE_SIG_ERR, owner bit 0, memory key
0x100 (index 1 after the shift by 8), syndrome 0x20, expected signature 1 with
reference tag 2, actual signature 3 with reference tag 4, offset 512. -/
def Cqe64.ex_sig : Cqe64 :=
  { Cqe64.zero with
    op_own := 0xc0, sig_mkey := ⟨0x100⟩, sig_syndrome := ⟨0x20⟩,
    sig_expected_trans_sig := ⟨1⟩, sig_expected_ref_tag := ⟨2⟩,
    sig_actual_trans_sig := ⟨3⟩, sig_actual_ref_tag := ⟨4⟩,
    sig_err_offset := ⟨512⟩, sig_type := 1, sig_domain := 2 }

/-- The context of the signature example: the send example, where in addition
the key index 1 resolves to the memory key at address 3. -/
def World.ex_sig : World := { World.ex_send with mkey_table := upd (fun _ => 0) 1 3 }

/-- A ring of 4 slots whose only live slot, slot 0, is the signature error. -/
def Cq.ex_sig : Cq :=
  { Cq.fresh4 with active_buf := upd (fun _ => Slot.invalid) 0 (Slot.of Cqe64.ex_sig) }

/-- The signature example after mlx5_poll_one has fetched the slot. -/
def PState.ex_sig_fetched : PState :=
  { cq := { Cq.ex_sig with cons_index := 1 }, w := World.ex_sig, cur_rsc := 0, cur_srq := 0,
    wc := Wc.zero }

/-- A ring of 4 slots with two signature errors for the same key in the slots
0 and 1 and the send completion of the send example in slot 2. -/
def Cq.ex_sig2 : Cq :=
  { Cq.fresh4 with
    active_buf := upd (upd (upd (fun _ => Slot.invalid) 0 (Slot.of Cqe64.ex_sig)) 1
      (Slot.of Cqe64.ex_sig)) 2 (Slot.of Cqe64.ex_send) }

/-- A ring of 4 slots whose only live slot, slot 0, is the resize marker. -/
def Cq.ex_marker : Cq :=
  { Cq.fresh4 with active_buf := upd (fun _ => Slot.invalid) 0 Slot.ex_marker }

/-- An array of work completions that still holds an older completion in every
entry: work request 555, status IBV_WC_SUCCESS, opcode IBV_WC_RECV. -/
def Wc.ex_stale : Nat → Wc := fun _ => { Wc.zero with wr_id := 555, opcode := 128 }

/-- The state in which poll_cq enters its loop: the queue after the stall
prologue with the lock taken, the locals rsc and srq NULL, npolled 0. -/
def poll_cq_enter (cq : Cq) (w : World) (wc : Nat → Wc) : PollSt :=
  { cq := { (if cq.stall_enable ≠ 0 ∧ cq.stall_adaptive_enable = 0 ∧ cq.stall_next_poll ≠ 0 then
        { cq with stall_next_poll := 0 } else cq) with lock := true },
    w := w, rsc := 0, srq := 0, wc := wc }

/-- The slot at ring position pos carries a resource identifier that the
decode cannot resolve: get_req_context finds no queue-pair for a send-success
or request-error slot, or get_cur_rsc reports an error for a receive-success,
no-packet or response-error slot. For the two error opcodes the thread is not
parked in the freeze loop before the resolution. -/
def Unresolved (K : Hdr) (st : PState) (pos cqe_ver : Nat) : Prop :=
  let cqe64 := (get_cqe st.cq pos).cqe64
  let opcode := mlx5dv_get_cqe_opcode cqe64
  let qpn := be32toh cqe64.sop_drop_qpn &&& 0xffffff
  let srqn_uidx := be32toh cqe64.srqn_uidx &&& 0xffffff
  let nofreeze := st.w.mlx5_freeze_on_error_cqe = 0 ∨
    cqe64.syndrome = K.MLX5_CQE_SYNDROME_WR_FLUSH_ERR ∨
    cqe64.syndrome = K.MLX5_CQE_SYNDROME_TRANSPORT_RETRY_EXC_ERR ∨
    is_odp_pfault_err K cqe64 = true
  let no_qp := get_req_context st.w st.cur_rsc (if cqe_ver ≠ 0 then srqn_uidx else qpn)
    cqe_ver = 0
  let no_rsc := (get_cur_rsc K st.w cqe_ver qpn srqn_uidx
    { cur_rsc := st.cur_rsc, cur_srq := st.cur_srq, is_srq := 0 }).1 ≠ 0
  (opcode = K.MLX5_CQE_REQ ∧ no_qp) ∨
  ((opcode = K.MLX5_CQE_RESP_WR_IMM ∨ opcode = K.MLX5_CQE_RESP_SEND ∨
      opcode = K.MLX5_CQE_RESP_SEND_IMM ∨ opcode = K.MLX5_CQE_RESP_SEND_INV) ∧ no_rsc) ∨
  (opcode = K.MLX5_CQE_NO_PACKET ∧ no_rsc) ∨
  (opcode = K.MLX5_CQE_REQ_ERR ∧ nofreeze ∧ no_qp) ∨
  (opcode = K.MLX5_CQE_RESP_ERR ∧ nofreeze ∧ no_rsc)

/-- A ring of 4 slots with the send completion of the send example (queue
number 7) in slot 0 and a send completion for queue number 8, which no table
resolves, in slot 1. -/
def Cq.ex_unresolved : Cq :=
  { Cq.fresh4 with
    active_buf := upd (upd (fun _ => Slot.invalid) 0 (Slot.of Cqe64.ex_send)) 1
      (Slot.of (Cqe64.ex_req 8)) }

/-- A ring of 4 slots whose only live slot, slot 0, is a send completion for
queue number 8, which no table resolves. -/
def Cq.ex_unresolved0 : Cq :=
  { Cq.fresh4 with active_buf := upd (fun _ => Slot.invalid) 0 (Slot.of (Cqe64.ex_req 8)) }

/-! ### Tag matching, accessors, poll function table and stall state: further definitions -/

/-- The decode of the slot at ring position pos hands it to handle_tag_matching
with the shared receive queue c.cur_srq: the opcode is one of the four receive
opcodes in lazy mode, or MLX5_CQE_NO_PACKET; the slot is marked tag matching;
and get_cur_rsc resolves it to the context c with a shared receive queue. -/
def TmSlot (K : Hdr) (st : PState) (pos cqe_ver lazy : Nat) (c : RscCtx) : Prop :=
  let cqe64 := (get_cqe st.cq pos).cqe64
  let opcode := mlx5dv_get_cqe_opcode cqe64
  (((opcode = K.MLX5_CQE_RESP_WR_IMM ∨ opcode = K.MLX5_CQE_RESP_SEND ∨
        opcode = K.MLX5_CQE_RESP_SEND_IMM ∨ opcode = K.MLX5_CQE_RESP_SEND_INV) ∧ lazy ≠ 0) ∨
      opcode = K.MLX5_CQE_NO_PACKET) ∧
    cqe64.app = MLX5_CQE_APP_TAG_MATCHING ∧
    get_cur_rsc K st.w cqe_ver (be32toh cqe64.sop_drop_qpn &&& 0xffffff)
      (be32toh cqe64.srqn_uidx &&& 0xffffff)
      { cur_rsc := st.cur_rsc, cur_srq := st.cur_srq, is_srq := 0 } = (CQ_OK, c) ∧
    c.is_srq ≠ 0

/-- The sub-opcodes of the consumed / expected family of handle_tag_matching. -/
def TmFamily (op : Nat) : Prop :=
  op = MLX5_CQE_APP_OP_TM_CONSUMED ∨ op = MLX5_CQE_APP_OP_TM_CONSUMED_MSG ∨
    op = MLX5_CQE_APP_OP_TM_CONSUMED_SW_RDNV ∨ op = MLX5_CQE_APP_OP_TM_CONSUMED_MSG_SW_RDNV ∨
    op = MLX5_CQE_APP_OP_TM_MSG_COMPLETION_CANCELED ∨ op = MLX5_CQE_APP_OP_TM_EXPECTED

/-- The context of the unexpected-tag example: the send example, and the shared
receive queue number 5 at address 9, whose tag table has no expecting entry. -/
def World.ex_tm_idle : World :=
  { World.ex_send with
    srq_table := upd (fun _ => 0) 5 9,
    srq := upd (fun _ => Srq.zero) 9 { Srq.zero with srqn := 5 } }

/-- A ring of 4 slots: slot 0 is a no-packet slot marked tag matching with
sub-opcode EXPECTED for tag index 3 of the shared receive queue number 5, slot 1
is the send completion of the send example. -/
def Cq.ex_tm_idle : Cq :=
  { Cq.fresh4 with
    active_buf := upd (upd (fun _ => Slot.invalid) 0
      (Slot.of { Cqe64.zero with op_own := 0x60, srqn_uidx := ⟨5⟩, app := 1, app_op := 2,
                                 app_info := ⟨3⟩ })) 1
      (Slot.of Cqe64.ex_send) }

/-- The sub-opcodes of the control acknowledgements of handle_tag_matching. -/
def TmListOp (op : Nat) : Prop :=
  op = MLX5_CQE_APP_OP_TM_REMOVE ∨ op = MLX5_CQE_APP_OP_TM_APPEND ∨
    op = MLX5_CQE_APP_OP_TM_NOOP

/-- The function mlx5_cq_read_wc_opcode of cq.c, on the currently decoded slot;
none when cq->cqe64 is NULL. The chains of tests are the switches on the opcode,
on app_op and on the hardware opcode; a switch without matching case falls to
the final `return 0`. -/
def mlx5_cq_read_wc_opcode (K : Hdr) (cq : Cq) : Option Nat :=
  match cq.cqe64 with
  | none => none
  | some pos =>
    let cqe64 := (get_cqe cq pos).cqe64
    let opcode := mlx5dv_get_cqe_opcode cqe64
    let hw := be32toh cqe64.sop_drop_qpn >>> 24
    some (
      if opcode = K.MLX5_CQE_RESP_WR_IMM then K.IBV_WC_RECV_RDMA_WITH_IMM
      else if opcode = K.MLX5_CQE_RESP_SEND ∨ opcode = K.MLX5_CQE_RESP_SEND_IMM ∨
          opcode = K.MLX5_CQE_RESP_SEND_INV then
        if cqe64.app = MLX5_CQE_APP_TAG_MATCHING then
          if cqe64.app_op = MLX5_CQE_APP_OP_TM_CONSUMED_MSG_SW_RDNV ∨
              cqe64.app_op = MLX5_CQE_APP_OP_TM_CONSUMED_MSG ∨
              cqe64.app_op = MLX5_CQE_APP_OP_TM_CONSUMED_SW_RDNV ∨
              cqe64.app_op = MLX5_CQE_APP_OP_TM_EXPECTED ∨
              cqe64.app_op = MLX5_CQE_APP_OP_TM_UNEXPECTED then K.IBV_WC_TM_RECV
          else if cqe64.app_op = MLX5_CQE_APP_OP_TM_NO_TAG then K.IBV_WC_TM_NO_TAG
          else K.IBV_WC_RECV
        else K.IBV_WC_RECV
      else if opcode = K.MLX5_CQE_NO_PACKET then
        if cqe64.app_op = MLX5_CQE_APP_OP_TM_REMOVE then K.IBV_WC_TM_DEL
        else if cqe64.app_op = MLX5_CQE_APP_OP_TM_APPEND then K.IBV_WC_TM_ADD
        else if cqe64.app_op = MLX5_CQE_APP_OP_TM_NOOP then K.IBV_WC_TM_SYNC
        else if cqe64.app_op = MLX5_CQE_APP_OP_TM_CONSUMED then K.IBV_WC_TM_RECV
        else 0
      else if opcode = K.MLX5_CQE_REQ then
        if cq.flags &&& K.MLX5_CQ_FLAGS_RAW_WQE ≠ 0 then K.IBV_WC_DRIVER2
        else if hw = K.MLX5_OPCODE_RDMA_WRITE_IMM ∨ hw = K.MLX5_OPCODE_RDMA_WRITE then
          K.IBV_WC_RDMA_WRITE
        else if hw = K.MLX5_OPCODE_SEND_IMM ∨ hw = K.MLX5_OPCODE_SEND ∨
            hw = K.MLX5_OPCODE_SEND_INVAL then K.IBV_WC_SEND
        else if hw = K.MLX5_OPCODE_RDMA_READ then K.IBV_WC_RDMA_READ
        else if hw = K.MLX5_OPCODE_ATOMIC_CS then K.IBV_WC_COMP_SWAP
        else if hw = K.MLX5_OPCODE_ATOMIC_FA then K.IBV_WC_FETCH_ADD
        else if hw = K.MLX5_OPCODE_UMR ∨ hw = K.MLX5_OPCODE_SET_PSV ∨
            hw = K.MLX5_OPCODE_NOP ∨ hw = K.MLX5_OPCODE_MMO then cq.cached_opcode
        else if hw = K.MLX5_OPCODE_TSO then K.IBV_WC_TSO
        else 0
      else 0)

/-- The context of the list-operation example: the send example, whose
queue-pair at address 1 (send queue of one entry) is the command queue-pair of
the shared receive queue at address 9; the operation log of that queue holds one
pending entry, for tag 3 (TagEntry.ex), posted as work request 11 at send
position 4. -/
def World.ex_tm_op : World :=
  { World.ex_send with
    srq := upd (fun _ => Srq.zero) 9
      { Srq.zero with
        tm_list := upd Srq.zero.tm_list 3 TagEntry.ex, cmd_qp := 1, op_head := 0, op_tail := 1,
        op := upd Srq.zero.op 0 { tag := some 3, wqe_head := 4, wr_id := 11 } } }

/-- The acknowledgement of a tag removal: a no-packet slot marked tag matching
with sub-opcode REMOVE, the hardware success bit set and phase counter 1. -/
def Slot.ex_tm_remove : Slot :=
  Slot.of { Cqe64.zero with op_own := 0x60, app := 1, app_op := 6,
                            tm_cqe_success := ⟨0x80000000⟩, tm_cqe_hw_phase_cnt := ⟨1⟩ }

/-- A context whose shared receive queue at address 9 has counted 16383
unexpected messages and none processed. -/
def World.ex_tm_unexp : World :=
  { World.zero with srq := upd (fun _ => Srq.zero) 9 { Srq.zero with unexp_in := 16383 } }

/-- A receive slot marked tag matching with sub-opcode UNEXPECTED. -/
def Slot.ex_tm_unexp : Slot :=
  Slot.of { Cqe64.zero with op_own := 0x20, app := 1, app_op := 3 }

/-- A receive slot (opcode RESP_SEND) marked tag matching with sub-opcode
NO_TAG, with 40 bytes of inline payload (INLINE_SCATTER_32). -/
def Slot.ex_tm_no_tag : Slot :=
  Slot.of { Cqe64.zero with op_own := 0x24, app := 1, app_op := 4, byte_cnt := ⟨40⟩ }

/-- A write-with-immediate receive slot (opcode RESP_WR_IMM) for the shared
receive queue number 5, marked tag matching with sub-opcode NO_TAG, with 40
bytes of inline payload (INLINE_SCATTER_32). -/
def Slot.ex_tm_no_tag_imm : Slot :=
  Slot.of { Cqe64.zero with op_own := 0x14, srqn_uidx := ⟨5⟩, app := 1, app_op := 4,
                            byte_cnt := ⟨40⟩ }

/-- A no-packet slot for the shared receive queue number 5, marked tag matching
with sub-opcode NO_TAG, with 40 bytes of inline payload (INLINE_SCATTER_32). -/
def Slot.ex_tm_no_tag_nopkt : Slot :=
  Slot.of { Cqe64.zero with op_own := 0x64, srqn_uidx := ⟨5⟩, app := 1, app_op := 4,
                            byte_cnt := ⟨40⟩ }

/-- The state of the page-fault example with the slot s in place of its slot:
shared receive queue 5 is at address 9 and its slot 0 holds the id 77. -/
def PState.ex_tm_slot (s : Slot) : PState :=
  { PState.ex_odp with
    cq := { Cq.fresh4 with active_buf := upd (fun _ => Slot.invalid) 0 s } }

/-- The values that mlx5.h gives the three sticky flags of the queue: bits 0, 6
and 7 of cq->flags. -/
structure Hdr.CqFlagsOk (K : Hdr) : Prop where
  csum : K.MLX5_CQ_FLAGS_RX_CSUM_VALID = 1
  sync : K.MLX5_CQ_FLAGS_TM_SYNC_REQ = 64
  raw : K.MLX5_CQ_FLAGS_RAW_WQE = 128

/-- The constant of infiniband/verbs.h that mlx5_cq_fill_pfns tests in
cq_attr->wc_flags to choose the poll functions; the header is not under src/, so
the constant is a parameter of the embedding. -/
structure VerbsEx where
  IBV_WC_EX_WITH_COMPLETION_TIMESTAMP_WALLCLOCK : Nat

/-- The type of the member start_poll of struct op: the queue, the context, the
work completion that stands for the unused NULL, and attr->comp_mask. -/
abbrev StartPoll : Type := Hdr → Ext → Cq → World → Wc → Nat → Res PState

/-- The type of the member next_poll of struct op. -/
abbrev NextPoll : Type := Hdr → Ext → Cq → World → Wc → Res PState

/-- The type of the member end_poll of struct op. -/
abbrev EndPoll : Type := Hdr → Ext → Cq → World → Cq

/-- The function mlx5_next_poll_adaptive_v0 of cq.c. -/
def mlx5_next_poll_adaptive_v0 : NextPoll :=
  fun K E cq w wc => mlx5_next_poll K E cq w wc POLLING_MODE_STALL_ADAPTIVE 0

/-- The function mlx5_next_poll_adaptive_v1 of cq.c. -/
def mlx5_next_poll_adaptive_v1 : NextPoll :=
  fun K E cq w wc => mlx5_next_poll K E cq w wc POLLING_MODE_STALL_ADAPTIVE 1

/-- The function mlx5_next_poll_v0 of cq.c. -/
def mlx5_next_poll_v0 : NextPoll :=
  fun K E cq w wc => mlx5_next_poll K E cq w wc 0 0

/-- The function mlx5_next_poll_v1 of cq.c. -/
def mlx5_next_poll_v1 : NextPoll :=
  fun K E cq w wc => mlx5_next_poll K E cq w wc 0 1

/-- The function mlx5_start_poll_v0 of cq.c. -/
def mlx5_start_poll_v0 : StartPoll :=
  fun K E cq w wc comp_mask => mlx5_start_poll K E cq w wc comp_mask 0 0 0 0

/-- The function mlx5_start_poll_v1 of cq.c. -/
def mlx5_start_poll_v1 : StartPoll :=
  fun K E cq w wc comp_mask => mlx5_start_poll K E cq w wc comp_mask 0 0 1 0

/-- The function mlx5_start_poll_v0_lock of cq.c. -/
def mlx5_start_poll_v0_lock : StartPoll :=
  fun K E cq w wc comp_mask => mlx5_start_poll K E cq w wc comp_mask 1 0 0 0

/-- The function mlx5_start_poll_v1_lock of cq.c. -/
def mlx5_start_poll_v1_lock : StartPoll :=
  fun K E cq w wc comp_mask => mlx5_start_poll K E cq w wc comp_mask 1 0 1 0

/-- The function mlx5_start_poll_adaptive_stall_v0_lock of cq.c. -/
def mlx5_start_poll_adaptive_stall_v0_lock : StartPoll :=
  fun K E cq w wc comp_mask => mlx5_start_poll K E cq w wc comp_mask 1 POLLING_MODE_STALL_ADAPTIVE 0 0

/-- The function mlx5_start_poll_stall_v0_lock of cq.c. -/
def mlx5_start_poll_stall_v0_lock : StartPoll :=
  fun K E cq w wc comp_mask => mlx5_start_poll K E cq w wc comp_mask 1 POLLING_MODE_STALL 0 0

/-- The function mlx5_start_poll_adaptive_stall_v1_lock of cq.c. -/
def mlx5_start_poll_adaptive_stall_v1_lock : StartPoll :=
  fun K E cq w wc comp_mask => mlx5_start_poll K E cq w wc comp_mask 1 POLLING_MODE_STALL_ADAPTIVE 1 0

/-- The function mlx5_start_poll_stall_v1_lock of cq.c. -/
def mlx5_start_poll_stall_v1_lock : StartPoll :=
  fun K E cq w wc comp_mask => mlx5_start_poll K E cq w wc comp_mask 1 POLLING_MODE_STALL 1 0

/-- The function mlx5_start_poll_stall_v0 of cq.c. -/
def mlx5_start_poll_stall_v0 : StartPoll :=
  fun K E cq w wc comp_mask => mlx5_start_poll K E cq w wc comp_mask 0 POLLING_MODE_STALL 0 0

/-- The function mlx5_start_poll_adaptive_stall_v0 of cq.c. -/
def mlx5_start_poll_adaptive_stall_v0 : StartPoll :=
  fun K E cq w wc comp_mask => mlx5_start_poll K E cq w wc comp_mask 0 POLLING_MODE_STALL_ADAPTIVE 0 0

/-- The function mlx5_start_poll_adaptive_stall_v1 of cq.c. -/
def mlx5_start_poll_adaptive_stall_v1 : StartPoll :=
  fun K E cq w wc comp_mask => mlx5_start_poll K E cq w wc comp_mask 0 POLLING_MODE_STALL_ADAPTIVE 1 0

/-- The function mlx5_start_poll_stall_v1 of cq.c. -/
def mlx5_start_poll_stall_v1 : StartPoll :=
  fun K E cq w wc comp_mask => mlx5_start_poll K E cq w wc comp_mask 0 POLLING_MODE_STALL 1 0

/-- The function mlx5_start_poll_v0_lock_clock_update of cq.c. -/
def mlx5_start_poll_v0_lock_clock_update : StartPoll :=
  fun K E cq w wc comp_mask => mlx5_start_poll K E cq w wc comp_mask 1 0 0 1

/-- The function mlx5_start_poll_v1_lock_clock_update of cq.c. -/
def mlx5_start_poll_v1_lock_clock_update : StartPoll :=
  fun K E cq w wc comp_mask => mlx5_start_poll K E cq w wc comp_mask 1 0 1 1

/-- The function mlx5_start_poll_v1_clock_update of cq.c. -/
def mlx5_start_poll_v1_clock_update : StartPoll :=
  fun K E cq w wc comp_mask => mlx5_start_poll K E cq w wc comp_mask 0 0 1 1

/-- The function mlx5_start_poll_v0_clock_update of cq.c. -/
def mlx5_start_poll_v0_clock_update : StartPoll :=
  fun K E cq w wc comp_mask => mlx5_start_poll K E cq w wc comp_mask 0 0 0 1

/-- The function mlx5_start_poll_stall_v1_lock_clock_update of cq.c. -/
def mlx5_start_poll_stall_v1_lock_clock_update : StartPoll :=
  fun K E cq w wc comp_mask => mlx5_start_poll K E cq w wc comp_mask 1 POLLING_MODE_STALL 1 1

/-- The function mlx5_start_poll_stall_v0_lock_clock_update of cq.c. -/
def mlx5_start_poll_stall_v0_lock_clock_update : StartPoll :=
  fun K E cq w wc comp_mask => mlx5_start_poll K E cq w wc comp_mask 1 POLLING_MODE_STALL 0 1

/-- The function mlx5_start_poll_stall_v1_clock_update of cq.c. -/
def mlx5_start_poll_stall_v1_clock_update : StartPoll :=
  fun K E cq w wc comp_mask => mlx5_start_poll K E cq w wc comp_mask 0 POLLING_MODE_STALL 1 1

/-- The function mlx5_start_poll_stall_v0_clock_update of cq.c. -/
def mlx5_start_poll_stall_v0_clock_update : StartPoll :=
  fun K E cq w wc comp_mask => mlx5_start_poll K E cq w wc comp_mask 0 POLLING_MODE_STALL 0 1

/-- The function mlx5_start_poll_adaptive_stall_v0_lock_clock_update of cq.c. -/
def mlx5_start_poll_adaptive_stall_v0_lock_clock_update : StartPoll :=
  fun K E cq w wc comp_mask => mlx5_start_poll K E cq w wc comp_mask 1 POLLING_MODE_STALL_ADAPTIVE 0 1

/-- The function mlx5_start_poll_adaptive_stall_v1_lock_clock_update of cq.c. -/
def mlx5_start_poll_adaptive_stall_v1_lock_clock_update : StartPoll :=
  fun K E cq w wc comp_mask => mlx5_start_poll K E cq w wc comp_mask 1 POLLING_MODE_STALL_ADAPTIVE 1 1

/-- The function mlx5_start_poll_adaptive_stall_v0_clock_update of cq.c. -/
def mlx5_start_poll_adaptive_stall_v0_clock_update : StartPoll :=
  fun K E cq w wc comp_mask => mlx5_start_poll K E cq w wc comp_mask 0 POLLING_MODE_STALL_ADAPTIVE 0 1

/-- The function mlx5_start_poll_adaptive_stall_v1_clock_update of cq.c. -/
def mlx5_start_poll_adaptive_stall_v1_clock_update : StartPoll :=
  fun K E cq w wc comp_mask => mlx5_start_poll K E cq w wc comp_mask 0 POLLING_MODE_STALL_ADAPTIVE 1 1

/-- The function mlx5_end_poll_adaptive_stall_lock of cq.c. -/
def mlx5_end_poll_adaptive_stall_lock : EndPoll :=
  fun K E cq w => _mlx5_end_poll K E cq w 1 POLLING_MODE_STALL_ADAPTIVE

/-- The function mlx5_end_poll_stall_lock of cq.c. -/
def mlx5_end_poll_stall_lock : EndPoll :=
  fun K E cq w => _mlx5_end_poll K E cq w 1 POLLING_MODE_STALL

/-- The function mlx5_end_poll_adaptive_stall of cq.c. -/
def mlx5_end_poll_adaptive_stall : EndPoll :=
  fun K E cq w => _mlx5_end_poll K E cq w 0 POLLING_MODE_STALL_ADAPTIVE

/-- The function mlx5_end_poll_stall of cq.c. -/
def mlx5_end_poll_stall : EndPoll :=
  fun K E cq w => _mlx5_end_poll K E cq w 0 POLLING_MODE_STALL

/-- The function mlx5_end_poll of cq.c. -/
def mlx5_end_poll : EndPoll :=
  fun K E cq w => _mlx5_end_poll K E cq w 0 0

/-- The function mlx5_end_poll_lock of cq.c. -/
def mlx5_end_poll_lock : EndPoll :=
  fun K E cq w => _mlx5_end_poll K E cq w 1 0

/-- The macro SINGLE_THREADED of cq.c: BIT(0) of the index into ops. -/
def SINGLE_THREADED : Nat := 1

/-- The macro STALL of cq.c: BIT(1). -/
def STALL : Nat := 2

/-- The macro V1 of cq.c: BIT(2). -/
def V1 : Nat := 4

/-- The macro ADAPTIVE of cq.c: BIT(3). -/
def ADAPTIVE : Nat := 8

/-- The macro CLOCK_UPDATE of cq.c: BIT(4). -/
def CLOCK_UPDATE : Nat := 16

/-- The struct op of cq.c: three function pointers, none for a null pointer. -/
structure op where
  start_poll : Option StartPoll
  next_poll : Option NextPoll
  end_poll : Option EndPoll

/-- The macro POLL_FN_ENTRY of cq.c, given the three functions whose names it
pastes together. -/
def POLL_FN_ENTRY (s : StartPoll) (n : NextPoll) (e : EndPoll) : op :=
  { start_poll := some s, next_poll := some n, end_poll := some e }

/-- The table ops of cq.c, by index. The entries are in the order of the
initialiser, each with the three function names that POLL_FN_ENTRY pastes
together; an index without initialiser holds null pointers. -/
def ops (i : Nat) : op :=
  if i = V1 then
    POLL_FN_ENTRY mlx5_start_poll_v1_lock
      mlx5_next_poll_v1 mlx5_end_poll_lock
  else if i = 0 then
    POLL_FN_ENTRY mlx5_start_poll_v0_lock
      mlx5_next_poll_v0 mlx5_end_poll_lock
  else if i = (V1 ||| SINGLE_THREADED) then
    POLL_FN_ENTRY mlx5_start_poll_v1
      mlx5_next_poll_v1 mlx5_end_poll
  else if i = SINGLE_THREADED then
    POLL_FN_ENTRY mlx5_start_poll_v0
      mlx5_next_poll_v0 mlx5_end_poll
  else if i = (V1 ||| STALL) then
    POLL_FN_ENTRY mlx5_start_poll_stall_v1_lock
      mlx5_next_poll_v1 mlx5_end_poll_stall_lock
  else if i = STALL then
    POLL_FN_ENTRY mlx5_start_poll_stall_v0_lock
      mlx5_next_poll_v0 mlx5_end_poll_stall_lock
  else if i = (V1 ||| SINGLE_THREADED ||| STALL) then
    POLL_FN_ENTRY mlx5_start_poll_stall_v1
      mlx5_next_poll_v1 mlx5_end_poll_stall
  else if i = (SINGLE_THREADED ||| STALL) then
    POLL_FN_ENTRY mlx5_start_poll_stall_v0
      mlx5_next_poll_v0 mlx5_end_poll_stall
  else if i = (V1 ||| STALL ||| ADAPTIVE) then
    POLL_FN_ENTRY mlx5_start_poll_adaptive_stall_v1_lock
      mlx5_next_poll_adaptive_v1 mlx5_end_poll_adaptive_stall_lock
  else if i = (STALL ||| ADAPTIVE) then
    POLL_FN_ENTRY mlx5_start_poll_adaptive_stall_v0_lock
      mlx5_next_poll_adaptive_v0 mlx5_end_poll_adaptive_stall_lock
  else if i = (V1 ||| SINGLE_THREADED ||| STALL ||| ADAPTIVE) then
    POLL_FN_ENTRY mlx5_start_poll_adaptive_stall_v1
      mlx5_next_poll_adaptive_v1 mlx5_end_poll_adaptive_stall
  else if i = (SINGLE_THREADED ||| STALL ||| ADAPTIVE) then
    POLL_FN_ENTRY mlx5_start_poll_adaptive_stall_v0
      mlx5_next_poll_adaptive_v0 mlx5_end_poll_adaptive_stall
  else if i = (V1 ||| CLOCK_UPDATE) then
    POLL_FN_ENTRY mlx5_start_poll_v1_lock_clock_update
      mlx5_next_poll_v1 mlx5_end_poll_lock
  else if i = (0 ||| CLOCK_UPDATE) then
    POLL_FN_ENTRY mlx5_start_poll_v0_lock_clock_update
      mlx5_next_poll_v0 mlx5_end_poll_lock
  else if i = (V1 ||| SINGLE_THREADED ||| CLOCK_UPDATE) then
    POLL_FN_ENTRY mlx5_start_poll_v1_clock_update
      mlx5_next_poll_v1 mlx5_end_poll
  else if i = (SINGLE_THREADED ||| CLOCK_UPDATE) then
    POLL_FN_ENTRY mlx5_start_poll_v0_clock_update
      mlx5_next_poll_v0 mlx5_end_poll
  else if i = (V1 ||| STALL ||| CLOCK_UPDATE) then
    POLL_FN_ENTRY mlx5_start_poll_stall_v1_lock_clock_update
      mlx5_next_poll_v1 mlx5_end_poll_stall_lock
  else if i = (STALL ||| CLOCK_UPDATE) then
    POLL_FN_ENTRY mlx5_start_poll_stall_v0_lock_clock_update
      mlx5_next_poll_v0 mlx5_end_poll_stall_lock
  else if i = (V1 ||| SINGLE_THREADED ||| STALL ||| CLOCK_UPDATE) then
    POLL_FN_ENTRY mlx5_start_poll_stall_v1_clock_update
      mlx5_next_poll_v1 mlx5_end_poll_stall
  else if i = (SINGLE_THREADED ||| STALL ||| CLOCK_UPDATE) then
    POLL_FN_ENTRY mlx5_start_poll_stall_v0_clock_update
      mlx5_next_poll_v0 mlx5_end_poll_stall
  else if i = (V1 ||| STALL ||| ADAPTIVE ||| CLOCK_UPDATE) then
    POLL_FN_ENTRY mlx5_start_poll_adaptive_stall_v1_lock_clock_update
      mlx5_next_poll_adaptive_v1 mlx5_end_poll_adaptive_stall_lock
  else if i = (STALL ||| ADAPTIVE ||| CLOCK_UPDATE) then
    POLL_FN_ENTRY mlx5_start_poll_adaptive_stall_v0_lock_clock_update
      mlx5_next_poll_adaptive_v0 mlx5_end_poll_adaptive_stall_lock
  else if i = (V1 ||| SINGLE_THREADED ||| STALL ||| ADAPTIVE ||| CLOCK_UPDATE) then
    POLL_FN_ENTRY mlx5_start_poll_adaptive_stall_v1_clock_update
      mlx5_next_poll_adaptive_v1 mlx5_end_poll_adaptive_stall
  else if i = (SINGLE_THREADED ||| STALL ||| ADAPTIVE ||| CLOCK_UPDATE) then
    POLL_FN_ENTRY mlx5_start_poll_adaptive_stall_v0_clock_update
      mlx5_next_poll_adaptive_v0 mlx5_end_poll_adaptive_stall
  else { start_poll := none, next_poll := none, end_poll := none }

/-- The choice of the poll functions in mlx5_cq_fill_pfns of cq.c: the entry
*poll_ops of the table ops that it stores in cq_ex.start_poll, cq_ex.next_poll
and cq_ex.end_poll. The arguments wc_flags and cqe_version are
cq_attr->wc_flags and mctx->cqe_version. The accessor pointers that the function
stores afterwards and its return value do not touch these three members. -/
def mlx5_cq_fill_pfns (K : Hdr) (X : VerbsEx) (cq : Cq) (wc_flags : Nat) (cqe_version : Nat) :
    op :=
  ops ((if cq.stall_enable ≠ 0 ∧ cq.stall_adaptive_enable ≠ 0 then ADAPTIVE else 0) |||
    (if cqe_version ≠ 0 then V1 else 0) |||
    (if cq.flags &&& K.MLX5_CQ_FLAGS_SINGLE_THREADED ≠ 0 then SINGLE_THREADED else 0) |||
    (if cq.stall_enable ≠ 0 then STALL else 0) |||
    (if wc_flags &&& X.IBV_WC_EX_WITH_COMPLETION_TIMESTAMP_WALLCLOCK ≠ 0 then CLOCK_UPDATE
      else 0))

/-- The stall state of the queue: the delay, the two switches and the
timestamp of the last delay point. -/
def Cq.stall (cq : Cq) : Int × Nat × Nat × Nat :=
  (cq.stall_cycles, cq.stall_enable, cq.stall_adaptive_enable, cq.stall_last_count)

/-- The stall tunables of cq.c (global variables): minimum, maximum, increment
and decrement of the adaptive delay. -/
def World.tun (w : World) : Int × Int × Int × Int :=
  (w.mlx5_stall_cq_poll_min, w.mlx5_stall_cq_poll_max, w.mlx5_stall_cq_inc_step,
    w.mlx5_stall_cq_dec_step)

/-- A pass of mlx5_parse_cqe leaves the stall state and the tunables as they
are in the state st, however it ends. -/
def StepKeep (st : PState) : Step → Prop
  | Step.ret _ st1 => st1.cq.stall = st.cq.stall ∧ st1.w.tun = st.w.tun
  | Step.freeze st1 => st1.cq.stall = st.cq.stall ∧ st1.w.tun = st.w.tun
  | Step.again st1 _ => st1.cq.stall = st.cq.stall ∧ st1.w.tun = st.w.tun

/-- A call leaves the stall state and the tunables as they are in cq and w,
when it returns and when it parks the thread. -/
def ResKeep {σ : Type} (cq : Cq) (w : World) (pc : σ → Cq) (pw : σ → World) : Res σ → Prop
  | Res.ret _ s => (pc s).stall = cq.stall ∧ (pw s).tun = w.tun
  | Res.freeze s => (pc s).stall = cq.stall ∧ (pw s).tun = w.tun
  | Res.starved => True

/-- The adaptive delay of the queue lies within the configured bounds. -/
def StallInRange (w : World) (cq : Cq) : Prop :=
  w.mlx5_stall_cq_poll_min ≤ cq.stall_cycles ∧ cq.stall_cycles ≤ w.mlx5_stall_cq_poll_max

/-- A property of the state a call ends in, when it returns and when it parks
the thread in the freeze loop. -/
def ResAll {σ : Type} (P : σ → Prop) : Res σ → Prop
  | Res.ret _ s => P s
  | Res.freeze s => P s
  | Res.starved => True

/-- The queue of two send completions with the adaptive stall switched on: the
delay is 65 cycles and the last delay point was at cycle 7. -/
def Cq.ex_adaptive : Cq :=
  { Cq.ex_send2 with stall_enable := 1, stall_adaptive_enable := 1, stall_cycles := 65,
                     stall_last_count := 7 }

/-- The adaptive queue with a delay of 2147483600 cycles. -/
def Cq.ex_adaptive_high : Cq := { Cq.ex_adaptive with stall_cycles := 2147483600 }

/-- The context of the send example with the maximum delay INT_MAX; the minimum
is 60 and the steps are 100 and 10 as before. -/
def World.ex_stall_max : World := { World.ex_send with mlx5_stall_cq_poll_max := 2147483647 }

/-- A cycle counter that reads 1000 at every call. -/
def Ext.ex_cycles : Ext := { Ext.zero with mlx5_get_cycles := fun _ => 1000 }

/-! ### Traced lookups, buffer allocation, pass outcomes, resize copy and clean frame: further definitions -/

/-- A lookup in one of the tables of the context, with the identifier looked
up: mlx5_find_qp, mlx5_find_uidx or mlx5_find_srq. -/
inductive TableLookup where
  | find_qp (qpn : Nat)
  | find_uidx (uidx : Nat)
  | find_srq (srqn : Nat)
deriving DecidableEq, Repr

/-- The function get_req_context of cq.c, with the table lookups it performs. -/
def get_req_context_traced (w : World) (cur_rsc : Nat) (rsn : Nat) (cqe_ver : Nat) :
    Nat × List TableLookup :=
  if cur_rsc = 0 ∨ rsn ≠ (w.rsc cur_rsc).rsn then
    (if cqe_ver ≠ 0 then (mlx5_find_uidx w rsn, [TableLookup.find_uidx rsn])
      else (mlx5_find_qp w rsn, [TableLookup.find_qp rsn]))
  else (cur_rsc, [])

/-- The function get_resp_ctx_v1 of cq.c, with the table lookups it performs. -/
def get_resp_ctx_v1_traced (K : Hdr) (w : World) (c : RscCtx) (uidx : Nat) :
    (Int × RscCtx) × List TableLookup :=
  if c.cur_rsc = 0 ∨ uidx ≠ (w.rsc c.cur_rsc).rsn then
    if mlx5_find_uidx w uidx = 0 then
      ((CQ_POLL_ERR, { c with cur_rsc := mlx5_find_uidx w uidx }), [TableLookup.find_uidx uidx])
    else
      (get_resp_ctx_v1_switch K w { c with cur_rsc := mlx5_find_uidx w uidx },
        [TableLookup.find_uidx uidx])
  else (get_resp_ctx_v1_switch K w c, [])

/-- The function get_qp_ctx of cq.c, with the table lookups it performs. -/
def get_qp_ctx_traced (w : World) (c : RscCtx) (qpn : Nat) :
    (Int × RscCtx) × List TableLookup :=
  if c.cur_rsc = 0 ∨ qpn ≠ (w.rsc c.cur_rsc).rsn then
    if mlx5_find_qp w qpn = 0 then
      ((CQ_POLL_ERR, { c with cur_rsc := mlx5_find_qp w qpn }), [TableLookup.find_qp qpn])
    else ((CQ_OK, { c with cur_rsc := mlx5_find_qp w qpn }), [TableLookup.find_qp qpn])
  else ((CQ_OK, c), [])

/-- The function get_srq_ctx of cq.c, with the table lookups it performs. -/
def get_srq_ctx_traced (w : World) (c : RscCtx) (srqn : Nat) :
    (Int × RscCtx) × List TableLookup :=
  if c.cur_srq = 0 ∨ srqn ≠ (w.srq c.cur_srq).srqn then
    if mlx5_find_srq w srqn = 0 then
      ((CQ_POLL_ERR, { c with cur_srq := mlx5_find_srq w srqn }), [TableLookup.find_srq srqn])
    else ((CQ_OK, { c with cur_srq := mlx5_find_srq w srqn }), [TableLookup.find_srq srqn])
  else ((CQ_OK, c), [])

/-- The resource cache of the examples after the send completion was resolved:
the queue-pair at address 1, which the table gives for queue number 7. -/
def RscCtx.ex_cached : RscCtx := { cur_rsc := 1, cur_srq := 0, is_srq := 0 }

/-- Modelled from the spec: the allocator mlx5_alloc_prefered_buf and
mlx5_get_alloc_type are defined outside src/. What mlx5_alloc_cq_buf uses of
them: the status ret, whether the buffer is of the type
MLX5_ALLOC_TYPE_CUSTOM (then it is not cleared), and the content of the memory
handed out, read as slots. -/
structure AllocBuf where
  ret : Int
  custom : Bool
  buf : Nat → Slot

/-- The statement memset(buf->buf, 0, nent * cqe_sz) of mlx5_alloc_cq_buf: the
records of the nent slots become zero, and for 128-byte slots their first
halves too. The field scatter64 of a 64-byte slot lies outside the slot. -/
def alloc_memset (buf : Nat → Slot) (nent cqe_sz : Nat) : Nat → Slot :=
  fun p =>
    if p < nent then
      { cqe64 := Cqe64.zero, scatter64 := if cqe_sz = 128 then fun _ => 0 else (buf p).scatter64 }
    else buf p

/-- The loop of mlx5_alloc_cq_buf of cq.c from the index i on: the record of
each slot (the slot itself, or its second half when cqe_sz is 128) gets
op_own = MLX5_CQE_INVALID << 4, stored in a byte. The first argument bounds
the iterations. -/
def alloc_stamp (K : Hdr) (nent : Nat) : Nat → Nat → (Nat → Slot) → (Nat → Slot)
  | 0, _, buf => buf
  | fuel + 1, i, buf =>
    if i < nent then
      alloc_stamp K nent fuel (i + 1)
        (upd buf i { buf i with
          cqe64 := { (buf i).cqe64 with op_own := (K.MLX5_CQE_INVALID <<< 4) % 256 } })
    else buf

/-- The function mlx5_alloc_cq_buf of cq.c: the value returned and the content
of the buffer. The loop makes nent iterations. -/
def mlx5_alloc_cq_buf (K : Hdr) (A : AllocBuf) (nent cqe_sz : Nat) : Int × (Nat → Slot) :=
  if A.ret ≠ 0 then (-1, A.buf)
  else
    let b := if A.custom = false then alloc_memset A.buf nent cqe_sz else A.buf
    (0, alloc_stamp K nent nent 0 b)

/-- An allocation of the examples: it succeeds with a custom buffer, which is
not cleared, whose slots all look like valid send completions. -/
def AllocBuf.ex_custom : AllocBuf :=
  { ret := 0, custom := true, buf := fun _ => Slot.of Cqe64.ex_send }

/-- A queue of 4 slots of 64 bytes over the buffer that mlx5_alloc_cq_buf
returns for the custom allocation, at the consumer index 4 (second pass). -/
def Cq.ex_alloc : Cq :=
  { Cq.fresh4 with
    active_buf := (mlx5_alloc_cq_buf hdr AllocBuf.ex_custom 4 64).2, cons_index := 4 }

/-- Whether a pass ends in the freeze loop. -/
def Step.parks : Step → Bool
  | Step.freeze _ => true
  | _ => false

/-- Whether a pass ends in `goto again`. -/
def Step.repeats : Step → Bool
  | Step.again _ _ => true
  | _ => false

/-- The slot that a pass ending in `goto again` hands to the next pass. -/
def Step.next : Step → Option Nat
  | Step.again _ p => some p
  | _ => none

/-- The test that guards the log-and-freeze path of mlx5_parse_cqe: the
syndrome is neither WR_FLUSH_ERR nor TRANSPORT_RETRY_EXC_ERR and the slot is
not a page fault. -/
def logs_error (K : Hdr) (ecqe : Cqe64) : Prop :=
  ecqe.syndrome ≠ K.MLX5_CQE_SYNDROME_WR_FLUSH_ERR ∧
    ecqe.syndrome ≠ K.MLX5_CQE_SYNDROME_TRANSPORT_RETRY_EXC_ERR ∧
    is_odp_pfault_err K ecqe = false

/-- Collaborator results in which mlx5dv_get_clock_info fails with EINVAL (22),
as it does for a context without clock-info page. -/
def Ext.ex_clock_fail : Ext := { Ext.zero with mlx5dv_get_clock_info := 22 }

/-- The source slot that mlx5_cq_resize_copy_cqes reads t places after the
consumer index: the index (the bit pattern of the int i) and the slot of the
old ring at that index. -/
def resize_src (cq : Cq) (t : Nat) : Nat × Slot :=
  ((cq.cons_index + t) % 2 ^ 32,
    get_buf_cqe cq.active_buf (((cq.cons_index + t) % 2 ^ 32) &&& cq.active_cqes))

/-- The resize marker is found m places after the consumer index: the slots
from the consumer index up to the marker are software-owned by the test is_hw,
none before the marker has the opcode MLX5_CQE_RESIZE_CQ, and the marker lies
within one ring of the consumer index. -/
def MarkerAt (K : Hdr) (cq : Cq) (m : Nat) : Prop :=
  m ≤ cq.active_cqes ∧
    (∀ t, t ≤ m →
      is_hw K (resize_src cq t).2.cqe64.op_own (resize_src cq t).1 cq.active_cqes = 0) ∧
    (∀ t, t < m → (resize_src cq t).2.cqe64.op_own >>> 4 ≠ K.MLX5_CQE_RESIZE_CQ) ∧
    (resize_src cq m).2.cqe64.op_own >>> 4 = K.MLX5_CQE_RESIZE_CQ

/-- The copy of one slot in the loop of mlx5_cq_resize_copy_cqes, entered with
the index i and the new buffer rb: the new buffer after memcpy and the rewrite
of the owner bit of the destination record. -/
def resize_copy_slot (K : Hdr) (L : Layout) (cq : Cq) (i : Nat) (rb : Nat → Slot) : Nat → Slot :=
  let scqe := get_buf_cqe cq.active_buf (i &&& cq.active_cqes)
  let i1 := (i + 1) % 2 ^ 32
  let d := i1 &&& decr32 cq.resize_cqes
  let sw_own := sw_ownership_bit i1 cq.resize_cqes
  let rb1 := resize_memcpy L cq.cqe_sz cq.resize_cqe_sz rb d scqe
  let dcqe64 := (rb1 d).cqe64
  let own := ((dcqe64.op_own &&& not32 K.MLX5_CQE_OWNER_MASK) ||| sw_own) % 256
  upd rb1 d { rb1 d with cqe64 := { dcqe64 with op_own := own } }

/-- A queue for the resize example across a wrap: a ring of 4 slots of 64 bytes
with consumer index 3; slot 3 holds a live completion for queue number 7 (first
pass, owner bit 0) and slot 0 the resize marker of the second pass (owner
bit 1); the new ring has 4 slots of 64 bytes, all invalid. -/
def Cq.ex_resize_wrap : Cq :=
  { Cq.fresh4 with
    active_buf := upd (upd (fun _ => Slot.invalid) 3 (Slot.of (Cqe64.ex_req 7))) 0
      (Slot.of { Cqe64.zero with op_own := 0x51 }),
    cons_index := 3, resize_cqes := 4, resize_cqe_sz := 64 }

/-- What the sweep of __mlx5_cq_clean has written, relative to the queue cq it
started from and its n examined slots: every ring position holds what it held
in cq, or, up to the owner bit, an examined slot of cq that does not belong to
the resource. -/
def Moved (K : Hdr) (cq : Cq) (w : World) (rsn n : Nat) (buf : Nat → Slot) : Prop :=
  ∀ p, buf p = cq.active_buf p ∨
    ∃ j, j < n ∧ res_match (cq.active_buf (live_pos cq j)).cqe64 rsn w.cqe_version = false ∧
      (buf p).payload K = (cq.active_buf (live_pos cq j)).payload K

/-- The direct-verbs queue of the send example after the application has
consumed eight completions on its own and written 8 to the doorbell record;
cons_index, which the library keeps, is still 0. -/
def Cq.ex_dv_stale : Cq :=
  { Cq.ex_dv_owned with dbrec := upd Cq.ex_dv_owned.dbrec hdr.MLX5_CQ_SET_CI (htobe32 8) }

/-! ## Theorems -/

/-! ### Header constants and stores -/

/-- The header values of hdr satisfy Hdr.Ok. -/
theorem hdr_ok : hdr.Ok := by
  constructor <;> decide

/-- Reading an updated store at the updated address. -/
theorem upd_same {α : Type} (f : Nat → α) (a : Nat) (v : α) : upd f a v a = v := by
  simp [upd]

/-- Reading an updated store at another address. -/
theorem upd_other {α : Type} (f : Nat → α) (a b : Nat) (v : α) (h : b ≠ a) :
    upd f a v b = f b := by
  simp [upd, h]

/-- The labels of the switch on the hardware opcode that precede ATOMIC_CS, ATOMIC_FA and SEND differ from them. -/
theorem Hdr.Ok.wqe_ne {K : Hdr} (hK : K.Ok) :
    (¬ K.MLX5_OPCODE_ATOMIC_CS = K.MLX5_OPCODE_RDMA_WRITE_IMM ∧
     ¬ K.MLX5_OPCODE_ATOMIC_CS = K.MLX5_OPCODE_RDMA_WRITE ∧
     ¬ K.MLX5_OPCODE_ATOMIC_CS = K.MLX5_OPCODE_SEND_IMM ∧
     ¬ K.MLX5_OPCODE_ATOMIC_CS = K.MLX5_OPCODE_SEND ∧
     ¬ K.MLX5_OPCODE_ATOMIC_CS = K.MLX5_OPCODE_SEND_INVAL ∧
     ¬ K.MLX5_OPCODE_ATOMIC_CS = K.MLX5_OPCODE_RDMA_READ) ∧
    (¬ K.MLX5_OPCODE_ATOMIC_FA = K.MLX5_OPCODE_RDMA_WRITE_IMM ∧
     ¬ K.MLX5_OPCODE_ATOMIC_FA = K.MLX5_OPCODE_RDMA_WRITE ∧
     ¬ K.MLX5_OPCODE_ATOMIC_FA = K.MLX5_OPCODE_SEND_IMM ∧
     ¬ K.MLX5_OPCODE_ATOMIC_FA = K.MLX5_OPCODE_SEND ∧
     ¬ K.MLX5_OPCODE_ATOMIC_FA = K.MLX5_OPCODE_SEND_INVAL ∧
     ¬ K.MLX5_OPCODE_ATOMIC_FA = K.MLX5_OPCODE_RDMA_READ ∧
     ¬ K.MLX5_OPCODE_ATOMIC_FA = K.MLX5_OPCODE_ATOMIC_CS) ∧
    (¬ K.MLX5_OPCODE_SEND = K.MLX5_OPCODE_RDMA_WRITE_IMM ∧
     ¬ K.MLX5_OPCODE_SEND = K.MLX5_OPCODE_RDMA_WRITE ∧
     ¬ K.MLX5_OPCODE_SEND = K.MLX5_OPCODE_SEND_IMM) := by
  have h := hK.wqe_opcodes
  simp only [List.nodup_cons, List.mem_cons, List.mem_singleton, List.not_mem_nil, not_or,
    List.nodup_nil, or_false, and_true, not_false_eq_true] at h
  tauto

/-! ### Ring ownership (C1, C3) -/

/-- Bit k of n, read through the mask 2 ^ k. -/
theorem and_two_pow_ne_zero (n k : Nat) : n &&& 2 ^ k ≠ 0 ↔ n / 2 ^ k % 2 = 1 := by
  constructor
  · intro h
    by_contra hc
    apply h
    apply Nat.eq_of_testBit_eq
    intro i
    have hb : n.testBit k = false := by
      rw [Nat.testBit_to_div_mod]; simpa using hc
    simp only [Nat.testBit_and, Nat.testBit_two_pow, Nat.zero_testBit]
    by_cases hki : k = i
    · subst hki; simp [hb]
    · simp [hki]
  · intro h hz
    have hb : n.testBit k = true := by
      rw [Nat.testBit_to_div_mod]; simpa using h
    have : (n &&& 2 ^ k).testBit k = true := by
      simp [Nat.testBit_and, Nat.testBit_two_pow, hb]
    rw [hz] at this
    simp at this

/-- The parity that get_sw_cqe expects at index n of a ring of 2 ^ k slots is (n / 2 ^ k) mod 2. -/
theorem parity_eq (n k : Nat) :
    (if n &&& 2 ^ k ≠ 0 then 1 else 0) = n / 2 ^ k % 2 := by
  by_cases h : n &&& 2 ^ k ≠ 0
  · rw [if_pos h]; exact ((and_two_pow_ne_zero n k).1 h).symm
  · rw [if_neg h]
    have : ¬ (n / 2 ^ k % 2 = 1) := fun h1 => h ((and_two_pow_ne_zero n k).2 h1)
    omega

/-- The ownership test fails on an invalid opcode or a wrong owner bit. -/
theorem get_sw_cqe_none_of (K : Hdr) (cq : Cq) (n : Nat)
    (h : mlx5dv_get_cqe_opcode (cq.active_buf (n &&& cq.cqe)).cqe64 = K.MLX5_CQE_INVALID ∨
      (cq.active_buf (n &&& cq.cqe)).cqe64.op_own &&& K.MLX5_CQE_OWNER_MASK ≠
        (if n &&& (cq.cqe + 1) ≠ 0 then 1 else 0)) :
    get_sw_cqe K cq n = none := by
  unfold get_sw_cqe get_cqe
  rw [if_neg]
  rintro ⟨h1, h2⟩
  rcases h with h | h
  · exact h1 h
  · exact h (Nat.xor_eq_zero.1 h2)

/-- Claim C1. When the slot at position cons_index & mask has the opcode MLX5_CQE_INVALID, or an owner bit (op_own & MLX5_CQE_OWNER_MASK) other than the parity expected for cons_index, mlx5_get_next_cqe returns CQ_EMPTY, stores no slot and returns the queue as it was: cons_index and every other field are unchanged. A second call on the queue the first call left returns CQ_EMPTY again. -/
theorem mlx5_get_next_cqe_empty (K : Hdr) (cq : Cq)
    (h : mlx5dv_get_cqe_opcode (cq.active_buf (cq.cons_index &&& cq.cqe)).cqe64 =
        K.MLX5_CQE_INVALID ∨
      (cq.active_buf (cq.cons_index &&& cq.cqe)).cqe64.op_own &&& K.MLX5_CQE_OWNER_MASK ≠
        (if cq.cons_index &&& (cq.cqe + 1) ≠ 0 then 1 else 0)) :
    mlx5_get_next_cqe K cq = (CQ_EMPTY, cq, none) ∧
      mlx5_get_next_cqe K (mlx5_get_next_cqe K cq).2.1 = (CQ_EMPTY, cq, none) := by
  have h0 : mlx5_get_next_cqe K cq = (CQ_EMPTY, cq, none) := by
    unfold mlx5_get_next_cqe next_cqe_sw
    rw [get_sw_cqe_none_of K cq cq.cons_index h]
  rw [h0]
  exact ⟨rfl, h0⟩

/-- Witness for C1: in a ring of 4 slots whose slot 0 is valid with owner bit 0, at consumer index 4 (second pass, expected parity 1) mlx5_get_next_cqe returns CQ_EMPTY twice and changes nothing. -/
theorem mlx5_get_next_cqe_empty_witness :
    mlx5dv_get_cqe_opcode (Cq.ex_wrapped.active_buf 0).cqe64 ≠ hdr.MLX5_CQE_INVALID ∧
      (Cq.ex_wrapped.active_buf 0).cqe64.op_own &&& hdr.MLX5_CQE_OWNER_MASK = 0 ∧
      (if Cq.ex_wrapped.cons_index &&& (Cq.ex_wrapped.cqe + 1) ≠ 0 then 1 else 0) = 1 ∧
      mlx5_get_next_cqe hdr Cq.ex_wrapped = (CQ_EMPTY, Cq.ex_wrapped, none) ∧
      mlx5_get_next_cqe hdr (mlx5_get_next_cqe hdr Cq.ex_wrapped).2.1 =
        (CQ_EMPTY, Cq.ex_wrapped, none) :=
  ⟨by decide, by decide, by decide,
    mlx5_get_next_cqe_empty hdr Cq.ex_wrapped (Or.inr (by decide))⟩

/-- Claim C3. For a ring of N = 2 ^ k slots (mask cq.cqe = N - 1) and every index n, get_sw_cqe inspects the slot at position n mod N; it returns that slot if and only if the opcode of the slot is not MLX5_CQE_INVALID and its owner bit (op_own & MLX5_CQE_OWNER_MASK) equals (n / N) mod 2, and it returns no slot in every other case. -/
theorem get_sw_cqe_iff (K : Hdr) (cq : Cq) (k n : Nat) (hk : cq.cqe = 2 ^ k - 1) :
    get_sw_cqe K cq n =
      if mlx5dv_get_cqe_opcode (cq.active_buf (n % 2 ^ k)).cqe64 ≠ K.MLX5_CQE_INVALID ∧
          (cq.active_buf (n % 2 ^ k)).cqe64.op_own &&& K.MLX5_CQE_OWNER_MASK = n / 2 ^ k % 2
      then some (n % 2 ^ k) else none := by
  have hpos : 0 < 2 ^ k := Nat.two_pow_pos k
  have h1 : cq.cqe + 1 = 2 ^ k := by omega
  unfold get_sw_cqe get_cqe
  simp only [h1, parity_eq, Nat.xor_eq_zero]
  rw [hk, Nat.and_pow_two_sub_one_eq_mod]

/-- Witness for C3: in the ring of 4 slots of the send example, index 8 (third pass, parity 0) yields slot 0 and index 4 (second pass, parity 1) yields no slot. -/
theorem get_sw_cqe_iff_witness :
    Cq.ex_send.cqe = 2 ^ 2 - 1 ∧ get_sw_cqe hdr Cq.ex_send 8 = some 0 ∧
      get_sw_cqe hdr Cq.ex_send 4 = none :=
  ⟨by decide, (get_sw_cqe_iff hdr Cq.ex_send 2 8 (by decide)).trans (by decide),
    (get_sw_cqe_iff hdr Cq.ex_send 2 4 (by decide)).trans (by decide)⟩

/-! ### Send-side completions (C4, C5, C6) -/

/-- A first pass that returns ends mlx5_parse_cqe with its result. -/
theorem mlx5_parse_cqe_of_ret (K : Hdr) (E : Ext) (st st1 : PState) (pos cqe_ver lazy : Nat)
    (c : Int) (h : parse_step K E st pos cqe_ver lazy = Step.ret c st1) :
    mlx5_parse_cqe K E st pos cqe_ver lazy = Res.ret c st1 := by
  unfold mlx5_parse_cqe
  rw [show st.cq.cqe + 2 = (st.cq.cqe + 1) + 1 from rfl, mlx5_parse_cqe_loop, h]

/-- The immediate-mode pass over a send-success slot whose queue-pair resolves. -/
theorem parse_step_req_imm (K : Hdr) (E : Ext) (st : PState) (pos cqe_ver : Nat)
    (hop : mlx5dv_get_cqe_opcode (get_cqe st.cq pos).cqe64 = K.MLX5_CQE_REQ)
    (hres : get_req_context st.w st.cur_rsc
      (if cqe_ver ≠ 0 then be32toh (get_cqe st.cq pos).cqe64.srqn_uidx &&& 0xffffff
        else be32toh (get_cqe st.cq pos).cqe64.sop_drop_qpn &&& 0xffffff) cqe_ver ≠ 0) :
    parse_step K E st pos cqe_ver 0 =
      (let cqe64 := (get_cqe st.cq pos).cqe64
       let mqp := get_req_context st.w st.cur_rsc
        (if cqe_ver ≠ 0 then be32toh cqe64.srqn_uidx &&& 0xffffff
          else be32toh cqe64.sop_drop_qpn &&& 0xffffff) cqe_ver
       let wq := (st.w.qp mqp).sq
       let wqe_ctr := be16toh cqe64.wqe_counter
       let idx := wqe_ctr &&& decr32 wq.wqe_cnt
       let wc1 := handle_good_req K
         { st.wc with wc_flags := 0, qp_num := be32toh cqe64.sop_drop_qpn &&& 0xffffff }
         cqe64 wq idx
       let r := scatter_send_wqe K E st.w cqe64 pos mqp wqe_ctr wc1.byte_len 0
       Step.ret CQ_OK
         { st with cur_rsc := mqp, wc := { wc1 with wr_id := wq.wrid idx, status := r.1 },
                   w := sq_set_tail r.2 mqp idx }) := by
  unfold parse_step parse_init
  simp only [hop, ne_eq, not_true_eq_false, if_false, if_true]
  unfold parse_req
  simp only [ne_eq, not_true_eq_false, if_false]
  rw [if_neg hres]

/-- The function handle_good_req on the hardware opcode SEND of a work request that is not raw. -/
theorem handle_good_req_send (K : Hdr) (hK : K.Ok) (wc : Wc) (cqe : Cqe64) (wq : Wq)
    (idx : Nat) (h : be32toh cqe.sop_drop_qpn >>> 24 = K.MLX5_OPCODE_SEND)
    (hraw : wq.wr_data idx ≠ K.IBV_WC_DRIVER2) :
    handle_good_req K wc cqe wq idx = { wc with opcode := K.IBV_WC_SEND } := by
  have hne := hK.wqe_ne
  unfold handle_good_req
  simp [h, hne, hraw]

/-- The function handle_good_req sets byte_len to 8 for the two atomic opcodes. -/
theorem handle_good_req_atomic (K : Hdr) (hK : K.Ok) (wc : Wc) (cqe : Cqe64) (wq : Wq)
    (idx : Nat)
    (h : be32toh cqe.sop_drop_qpn >>> 24 = K.MLX5_OPCODE_ATOMIC_CS ∨
      be32toh cqe.sop_drop_qpn >>> 24 = K.MLX5_OPCODE_ATOMIC_FA) :
    (handle_good_req K wc cqe wq idx).byte_len = 8 := by
  have hne := hK.wqe_ne
  unfold handle_good_req
  rcases h with h | h <;> simp only [h] <;> simp [hne] <;> split <;> rfl

/-- No inline-scatter bit, no copy. -/
theorem scatter_send_wqe_none (K : Hdr) (E : Ext) (w : World) (cqe64 : Cqe64)
    (pos mqp wqe_ctr size err : Nat)
    (h32 : cqe64.op_own &&& K.MLX5_INLINE_SCATTER_32 = 0)
    (h64 : cqe64.op_own &&& K.MLX5_INLINE_SCATTER_64 = 0) :
    scatter_send_wqe K E w cqe64 pos mqp wqe_ctr size err = (err, w) := by
  unfold scatter_send_wqe
  simp [h32, h64]

/-- Claim C4, amended. For every ring whose slot at cons_index is software-visible with opcode MLX5_CQE_REQ, hardware opcode SEND, no inline-scatter bit, an identifier that resolves to the queue-pair Q, and a recorded wr_data[idx] that is not IBV_WC_DRIVER2: one immediate-mode decode (mlx5_poll_one) returns CQ_OK with wc.opcode = IBV_WC_SEND, wc.status = IBV_WC_SUCCESS, wc.wr_id = Q.sq.wrid[idx] and wc.qp_num = the low 24 bits of sop_drop_qpn, where idx = wqe_counter & (Q.sq.wqe_cnt - 1); it increases cons_index by 1 and sets Q.sq.tail to Q.sq.wqe_head[idx] + 1 (both in 32-bit arithmetic). -/
theorem poll_one_send (K : Hdr) (hK : K.Ok) (E : Ext) (st : PState) (cqe_ver pos Q : Nat)
    (hvis : next_cqe_sw K st.cq = some pos)
    (hop : mlx5dv_get_cqe_opcode (st.cq.active_buf pos).cqe64 = K.MLX5_CQE_REQ)
    (hhw : be32toh (st.cq.active_buf pos).cqe64.sop_drop_qpn >>> 24 = K.MLX5_OPCODE_SEND)
    (h32 : (st.cq.active_buf pos).cqe64.op_own &&& K.MLX5_INLINE_SCATTER_32 = 0)
    (h64 : (st.cq.active_buf pos).cqe64.op_own &&& K.MLX5_INLINE_SCATTER_64 = 0)
    (hres : get_req_context st.w st.cur_rsc
      (if cqe_ver ≠ 0 then be32toh (st.cq.active_buf pos).cqe64.srqn_uidx &&& 0xffffff
        else be32toh (st.cq.active_buf pos).cqe64.sop_drop_qpn &&& 0xffffff) cqe_ver = Q)
    (hQ : Q ≠ 0)
    (hraw : (st.w.qp Q).sq.wr_data
      (be16toh (st.cq.active_buf pos).cqe64.wqe_counter &&& decr32 (st.w.qp Q).sq.wqe_cnt) ≠
        K.IBV_WC_DRIVER2) :
    ∃ st1, mlx5_poll_one K E st cqe_ver = Res.ret CQ_OK st1 ∧
      st1.wc.opcode = K.IBV_WC_SEND ∧
      st1.wc.status = K.IBV_WC_SUCCESS ∧
      st1.wc.wr_id = (st.w.qp Q).sq.wrid
        (be16toh (st.cq.active_buf pos).cqe64.wqe_counter &&& decr32 (st.w.qp Q).sq.wqe_cnt) ∧
      st1.wc.qp_num = be32toh (st.cq.active_buf pos).cqe64.sop_drop_qpn &&& 0xffffff ∧
      st1.cq.cons_index = (st.cq.cons_index + 1) % 2 ^ 32 ∧
      (st1.w.qp Q).sq.tail = ((st.w.qp Q).sq.wqe_head
        (be16toh (st.cq.active_buf pos).cqe64.wqe_counter &&& decr32 (st.w.qp Q).sq.wqe_cnt)
          + 1) % 2 ^ 32 := by
  have hfetch : mlx5_get_next_cqe K st.cq =
      (CQ_OK, { st.cq with cons_index := (st.cq.cons_index + 1) % 2 ^ 32 }, some pos) := by
    unfold mlx5_get_next_cqe; rw [hvis]
  have hres' : get_req_context st.w st.cur_rsc
      (if cqe_ver ≠ 0 then be32toh (st.cq.active_buf pos).cqe64.srqn_uidx &&& 0xffffff
        else be32toh (st.cq.active_buf pos).cqe64.sop_drop_qpn &&& 0xffffff) cqe_ver ≠ 0 := by
    rw [hres]; exact hQ
  have hstep := parse_step_req_imm K E
    { st with cq := { st.cq with cons_index := (st.cq.cons_index + 1) % 2 ^ 32 } }
    pos cqe_ver hop hres'
  have hrun := mlx5_parse_cqe_of_ret K E _ _ pos cqe_ver 0 CQ_OK hstep
  have hpo : mlx5_poll_one K E st cqe_ver = mlx5_parse_cqe K E
      { st with cq := { st.cq with cons_index := (st.cq.cons_index + 1) % 2 ^ 32 } }
      pos cqe_ver 0 := by
    unfold mlx5_poll_one
    rw [hfetch]
  refine ⟨_, hpo.trans hrun, ?_⟩
  simp only [get_cqe, hres]
  rw [handle_good_req_send K hK _ _ _ _ hhw hraw, scatter_send_wqe_none K E _ _ _ _ _ _ _ h32 h64]
  simp [hK.success_zero, sq_set_tail, World.setQp, upd_same]

/-- Witness for C4: 4-slot ring, queue number 7, one outstanding send with wr_id 42 gives the completion {Send, Success, 42, 7}, consumer index 1 and send tail 1. -/
theorem poll_one_send_witness :
    ∃ st1, mlx5_poll_one hdr Ext.zero PState.ex_send 0 = Res.ret CQ_OK st1 ∧
      st1.wc.opcode = hdr.IBV_WC_SEND ∧ st1.wc.status = hdr.IBV_WC_SUCCESS ∧
      st1.wc.wr_id = 42 ∧ st1.wc.qp_num = 7 ∧ st1.cq.cons_index = 1 ∧
      (st1.w.qp 1).sq.tail = 1 :=
  poll_one_send hdr hdr_ok Ext.zero PState.ex_send 0 0 1 (by decide) (by decide) (by decide)
    (by decide) (by decide) (by decide) (by decide) (by decide)

/-- Counterexample to C4 as stated: in the send example with wr_data[0] = IBV_WC_DRIVER2, the slot is software-visible with opcode MLX5_CQE_REQ, hardware opcode SEND, no inline-scatter bit and a resolving identifier, yet no decode result has wc.opcode = IBV_WC_SEND (the decode reports IBV_WC_DRIVER2). -/
theorem poll_one_send_raw_counterexample :
    (next_cqe_sw hdr PState.ex_send_raw.cq = some 0 ∧
      mlx5dv_get_cqe_opcode (PState.ex_send_raw.cq.active_buf 0).cqe64 = hdr.MLX5_CQE_REQ ∧
      be32toh (PState.ex_send_raw.cq.active_buf 0).cqe64.sop_drop_qpn >>> 24 =
        hdr.MLX5_OPCODE_SEND ∧
      (PState.ex_send_raw.cq.active_buf 0).cqe64.op_own &&& hdr.MLX5_INLINE_SCATTER_32 = 0 ∧
      (PState.ex_send_raw.cq.active_buf 0).cqe64.op_own &&& hdr.MLX5_INLINE_SCATTER_64 = 0 ∧
      get_req_context PState.ex_send_raw.w PState.ex_send_raw.cur_rsc
        (be32toh (PState.ex_send_raw.cq.active_buf 0).cqe64.sop_drop_qpn &&& 0xffffff) 0 = 1) ∧
    ¬ ∃ st1, mlx5_poll_one hdr Ext.zero PState.ex_send_raw 0 = Res.ret CQ_OK st1 ∧
      st1.wc.opcode = hdr.IBV_WC_SEND := by
  refine ⟨by decide, ?_⟩
  rintro ⟨st1, hrun, hop⟩
  have h : ((mlx5_poll_one hdr Ext.zero PState.ex_send_raw 0).state.map
      (fun s => s.wc.opcode)) = some 136 := by decide
  rw [hrun] at h
  simp only [Res.state, Option.map_some', Option.some.injEq] at h
  rw [h] at hop
  exact absurd hop (by decide)

/-- Claim C5. For every send-success slot (opcode MLX5_CQE_REQ) whose hardware opcode is ATOMIC_CS or ATOMIC_FA and whose queue-pair resolves, so that the decode goes through handle_good_req: mlx5_parse_cqe with lazy = 0 returns CQ_OK with wc.byte_len = 8, whatever the raw byte_cnt of the slot and whatever wc.byte_len held before. -/
theorem parse_atomic_byte_len (K : Hdr) (hK : K.Ok) (E : Ext) (st : PState)
    (pos cqe_ver : Nat)
    (hop : mlx5dv_get_cqe_opcode (get_cqe st.cq pos).cqe64 = K.MLX5_CQE_REQ)
    (hhw : be32toh (get_cqe st.cq pos).cqe64.sop_drop_qpn >>> 24 = K.MLX5_OPCODE_ATOMIC_CS ∨
      be32toh (get_cqe st.cq pos).cqe64.sop_drop_qpn >>> 24 = K.MLX5_OPCODE_ATOMIC_FA)
    (hres : get_req_context st.w st.cur_rsc
      (if cqe_ver ≠ 0 then be32toh (get_cqe st.cq pos).cqe64.srqn_uidx &&& 0xffffff
        else be32toh (get_cqe st.cq pos).cqe64.sop_drop_qpn &&& 0xffffff) cqe_ver ≠ 0) :
    ∃ st1, mlx5_parse_cqe K E st pos cqe_ver 0 = Res.ret CQ_OK st1 ∧ st1.wc.byte_len = 8 := by
  refine ⟨_, mlx5_parse_cqe_of_ret K E st _ pos cqe_ver 0 CQ_OK
    (parse_step_req_imm K E st pos cqe_ver hop hres), ?_⟩
  exact handle_good_req_atomic K hK _ _ _ _ hhw

/-- Witness for C5: an ATOMIC_CS completion with raw byte count 100, decoded into a work completion that held byte_len 77, reports byte_len 8. -/
theorem parse_atomic_byte_len_witness :
    be32toh (get_cqe PState.ex_atomic.cq 0).cqe64.byte_cnt = 100 ∧
      PState.ex_atomic.wc.byte_len = 77 ∧
      ∃ st1, mlx5_parse_cqe hdr Ext.zero PState.ex_atomic 0 0 0 = Res.ret CQ_OK st1 ∧
        st1.wc.byte_len = 8 :=
  ⟨by decide, by decide,
    parse_atomic_byte_len hdr hdr_ok Ext.zero PState.ex_atomic 0 0 (by decide)
      (Or.inl (by decide)) (by decide)⟩

/-- Claim C6 fails on the code: for the ATOMIC_CS completion with raw byte count 100, lazy decoding (mlx5_start_poll) succeeds and mlx5_cq_read_wc_byte_len reports 100, while immediate decoding of the same slot reports 8. -/
theorem read_wc_byte_len_atomic_lazy :
    be32toh (Cq.ex_atomic.active_buf 0).cqe64.sop_drop_qpn >>> 24 = hdr.MLX5_OPCODE_ATOMIC_CS ∧
      (mlx5_start_poll hdr Ext.zero Cq.ex_atomic World.ex_send Wc.zero 0 0 0 0 0).code = some 0 ∧
      (mlx5_start_poll hdr Ext.zero Cq.ex_atomic World.ex_send Wc.zero 0 0 0 0 0).state.bind
        (fun s => mlx5_cq_read_wc_byte_len s.cq) = some 100 ∧
      (mlx5_poll_one hdr Ext.zero PState.ex_atomic 0).state.map (fun s => s.wc.byte_len) =
        some 8 := by
  decide

/-! ### Error slots (C7) -/

/-- The first statements of a pass leave the context alone. -/
theorem parse_init_w (K : Hdr) (st : PState) (pos lazy : Nat) :
    (parse_init K st pos lazy).w = st.w := by
  unfold parse_init; split <;> rfl

/-- The first statements of a pass leave the cache cell cur_rsc alone. -/
theorem parse_init_cur_rsc (K : Hdr) (st : PState) (pos lazy : Nat) :
    (parse_init K st pos lazy).cur_rsc = st.cur_rsc := by
  unfold parse_init; split <;> rfl

/-- The first statements of a pass leave the cache cell cur_srq alone. -/
theorem parse_init_cur_srq (K : Hdr) (st : PState) (pos lazy : Nat) :
    (parse_init K st pos lazy).cur_srq = st.cur_srq := by
  unfold parse_init; split <;> rfl

/-- The first statements of a pass leave the ring alone. -/
theorem parse_init_slot (K : Hdr) (st : PState) (pos lazy p : Nat) :
    get_cqe (parse_init K st pos lazy).cq p = get_cqe st.cq p := by
  unfold parse_init get_cqe; split <;> rfl

/-- An error slot takes the error case of the switch of mlx5_parse_cqe. -/
theorem parse_step_err (K : Hdr) (hK : K.Ok) (E : Ext) (st : PState) (pos cqe_ver lazy : Nat)
    (hop : mlx5dv_get_cqe_opcode (get_cqe st.cq pos).cqe64 = K.MLX5_CQE_REQ_ERR ∨
      mlx5dv_get_cqe_opcode (get_cqe st.cq pos).cqe64 = K.MLX5_CQE_RESP_ERR) :
    parse_step K E st pos cqe_ver lazy =
      parse_err K (parse_init K st pos lazy) pos cqe_ver lazy := by
  have h := hK.cqe_opcodes
  simp only [List.nodup_cons, List.mem_cons, List.mem_singleton, List.not_mem_nil, not_or,
    List.nodup_nil, or_false, and_true, not_false_eq_true] at h
  unfold parse_step
  rcases hop with h1 | h1 <;> simp [h1, h]

/-- The freeze loop is not entered with the switch off or with a benign syndrome. -/
theorem no_freeze (K : Hdr) (w : World) (c : Cqe64)
    (hnf : w.mlx5_freeze_on_error_cqe = 0 ∨
      c.syndrome = K.MLX5_CQE_SYNDROME_WR_FLUSH_ERR ∨
      c.syndrome = K.MLX5_CQE_SYNDROME_TRANSPORT_RETRY_EXC_ERR ∨
      is_odp_pfault_err K c = true) :
    ¬ (c.syndrome ≠ K.MLX5_CQE_SYNDROME_WR_FLUSH_ERR ∧
      c.syndrome ≠ K.MLX5_CQE_SYNDROME_TRANSPORT_RETRY_EXC_ERR ∧
      is_odp_pfault_err K c = false ∧ w.mlx5_freeze_on_error_cqe ≠ 0) := by
  rintro ⟨h1, h2, h3, h4⟩
  rcases hnf with h | h | h | h
  · exact h4 h
  · exact h1 h
  · exact h2 h
  · rw [h] at h3; exact Bool.noConfusion h3

/-- The error case on a request-error slot whose queue-pair resolves. -/
theorem parse_err_req (K : Hdr) (st : PState) (pos cqe_ver lazy Q : Nat)
    (hnf : st.w.mlx5_freeze_on_error_cqe = 0 ∨
      (get_cqe st.cq pos).cqe64.syndrome = K.MLX5_CQE_SYNDROME_WR_FLUSH_ERR ∨
      (get_cqe st.cq pos).cqe64.syndrome = K.MLX5_CQE_SYNDROME_TRANSPORT_RETRY_EXC_ERR ∨
      is_odp_pfault_err K (get_cqe st.cq pos).cqe64 = true)
    (hop : mlx5dv_get_cqe_opcode (get_cqe st.cq pos).cqe64 = K.MLX5_CQE_REQ_ERR)
    (hres : get_req_context st.w st.cur_rsc
      (if cqe_ver ≠ 0 then be32toh (get_cqe st.cq pos).cqe64.srqn_uidx &&& 0xffffff
        else be32toh (get_cqe st.cq pos).cqe64.sop_drop_qpn &&& 0xffffff) cqe_ver = Q)
    (hQ : Q ≠ 0) :
    ∃ st1, parse_err K st pos cqe_ver lazy = Step.ret CQ_OK st1 ∧
      st1.status lazy = mlx5_handle_error_cqe K (get_cqe st.cq pos).cqe64 ∧
      st1.wr_id lazy = (st.w.qp Q).sq.wrid
        (be16toh (get_cqe st.cq pos).cqe64.wqe_counter &&& decr32 (st.w.qp Q).sq.wqe_cnt) ∧
      (st1.w.qp Q).sq.tail = ((st.w.qp Q).sq.wqe_head
        (be16toh (get_cqe st.cq pos).cqe64.wqe_counter &&& decr32 (st.w.qp Q).sq.wqe_cnt)
          + 1) % 2 ^ 32 := by
  have hfz : ¬ ((get_cqe st.cq pos).cqe64.syndrome ≠ K.MLX5_CQE_SYNDROME_WR_FLUSH_ERR ∧
      (get_cqe st.cq pos).cqe64.syndrome ≠ K.MLX5_CQE_SYNDROME_TRANSPORT_RETRY_EXC_ERR ∧
      is_odp_pfault_err K (get_cqe st.cq pos).cqe64 = false ∧
      st.w.mlx5_freeze_on_error_cqe ≠ 0) := by
    rintro ⟨h1, h2, h3, h4⟩
    rcases hnf with h | h | h | h
    · exact h4 h
    · exact h1 h
    · exact h2 h
    · rw [h] at h3; exact Bool.noConfusion h3
  unfold parse_err
  by_cases hl : lazy = 0
  · subst hl
    simp only [ne_eq, not_true_eq_false, if_false, hfz, hop, if_true, hres, hQ]
    refine ⟨_, rfl, ?_⟩
    simp [PState.status, PState.wr_id, sq_set_tail, World.setQp, upd_same]
  · simp only [ne_eq, hl, not_false_eq_true, if_true, hfz, if_false, hop, hres, hQ]
    refine ⟨_, rfl, ?_⟩
    simp [PState.status, PState.wr_id, sq_set_tail, World.setQp, upd_same, hl]

/-- The error case on a response-error slot of a queue-pair without shared receive queue. -/
theorem parse_err_resp_qp (K : Hdr) (hK : K.Ok) (st : PState) (pos cqe_ver lazy : Nat)
    (c : RscCtx)
    (hnf : st.w.mlx5_freeze_on_error_cqe = 0 ∨
      (get_cqe st.cq pos).cqe64.syndrome = K.MLX5_CQE_SYNDROME_WR_FLUSH_ERR ∨
      (get_cqe st.cq pos).cqe64.syndrome = K.MLX5_CQE_SYNDROME_TRANSPORT_RETRY_EXC_ERR ∨
      is_odp_pfault_err K (get_cqe st.cq pos).cqe64 = true)
    (hop : mlx5dv_get_cqe_opcode (get_cqe st.cq pos).cqe64 = K.MLX5_CQE_RESP_ERR)
    (hres : get_cur_rsc K st.w cqe_ver
      (be32toh (get_cqe st.cq pos).cqe64.sop_drop_qpn &&& 0xffffff)
      (be32toh (get_cqe st.cq pos).cqe64.srqn_uidx &&& 0xffffff)
      { cur_rsc := st.cur_rsc, cur_srq := st.cur_srq, is_srq := 0 } = (CQ_OK, c))
    (hsrq : c.is_srq = 0) (hty : (st.w.rsc c.cur_rsc).type ≠ K.MLX5_RSC_TYPE_RWQ) :
    ∃ st1, parse_err K st pos cqe_ver lazy = Step.ret CQ_OK st1 ∧
      st1.status lazy = mlx5_handle_error_cqe K (get_cqe st.cq pos).cqe64 ∧
      st1.wr_id lazy = (st.w.qp c.cur_rsc).rq.wrid
        ((st.w.qp c.cur_rsc).rq.tail &&& decr32 (st.w.qp c.cur_rsc).rq.wqe_cnt) ∧
      (st1.w.qp c.cur_rsc).rq.tail = ((st.w.qp c.cur_rsc).rq.tail + 1) % 2 ^ 32 := by
  have hfz := no_freeze K st.w _ hnf
  have h := hK.cqe_opcodes
  simp only [List.nodup_cons, List.mem_cons, List.mem_singleton, List.not_mem_nil, not_or,
    List.nodup_nil, or_false, and_true, not_false_eq_true] at h
  have hne : ¬ K.MLX5_CQE_RESP_ERR = K.MLX5_CQE_REQ_ERR := h.2.1.1
  unfold parse_err
  by_cases hl : lazy = 0
  · subst hl
    simp only [ne_eq, not_true_eq_false, if_false, hfz, hop, hne, hres, hsrq, CQ_OK]
    refine ⟨_, rfl, ?_⟩
    simp [PState.status, PState.wr_id, World.setQp, upd_same, hty]
  · simp only [ne_eq, hl, not_false_eq_true, if_true, hfz, if_false, hop, hne, hres, hsrq, CQ_OK]
    refine ⟨_, rfl, ?_⟩
    simp [PState.status, PState.wr_id, World.setQp, upd_same, hl, hty]

/-- The error case on a response-error slot of a shared receive queue that is not a page fault. -/
theorem parse_err_resp_srq (K : Hdr) (hK : K.Ok) (st : PState) (pos cqe_ver lazy : Nat)
    (c : RscCtx)
    (hnf : st.w.mlx5_freeze_on_error_cqe = 0 ∨
      (get_cqe st.cq pos).cqe64.syndrome = K.MLX5_CQE_SYNDROME_WR_FLUSH_ERR ∨
      (get_cqe st.cq pos).cqe64.syndrome = K.MLX5_CQE_SYNDROME_TRANSPORT_RETRY_EXC_ERR ∨
      is_odp_pfault_err K (get_cqe st.cq pos).cqe64 = true)
    (hop : mlx5dv_get_cqe_opcode (get_cqe st.cq pos).cqe64 = K.MLX5_CQE_RESP_ERR)
    (hres : get_cur_rsc K st.w cqe_ver
      (be32toh (get_cqe st.cq pos).cqe64.sop_drop_qpn &&& 0xffffff)
      (be32toh (get_cqe st.cq pos).cqe64.srqn_uidx &&& 0xffffff)
      { cur_rsc := st.cur_rsc, cur_srq := st.cur_srq, is_srq := 0 } = (CQ_OK, c))
    (hsrq : c.is_srq ≠ 0) (hodp : is_odp_pfault_err K (get_cqe st.cq pos).cqe64 = false) :
    ∃ st1, parse_err K st pos cqe_ver lazy = Step.ret CQ_OK st1 ∧
      st1.status lazy = mlx5_handle_error_cqe K (get_cqe st.cq pos).cqe64 ∧
      st1.wr_id lazy = (st.w.srq c.cur_srq).wrid (be16toh (get_cqe st.cq pos).cqe64.wqe_counter) ∧
      st1.w.log = st.w.log ++
        [ExtCall.free_srq_wqe c.cur_srq (be16toh (get_cqe st.cq pos).cqe64.wqe_counter)] := by
  have hnf' : st.w.mlx5_freeze_on_error_cqe = 0 ∨
      (get_cqe st.cq pos).cqe64.syndrome = K.MLX5_CQE_SYNDROME_WR_FLUSH_ERR ∨
      (get_cqe st.cq pos).cqe64.syndrome = K.MLX5_CQE_SYNDROME_TRANSPORT_RETRY_EXC_ERR := by
    rcases hnf with h | h | h | h
    · exact Or.inl h
    · exact Or.inr (Or.inl h)
    · exact Or.inr (Or.inr h)
    · rw [h] at hodp; exact Bool.noConfusion hodp
  have h := hK.cqe_opcodes
  simp only [List.nodup_cons, List.mem_cons, List.mem_singleton, List.not_mem_nil, not_or,
    List.nodup_nil, or_false, and_true, not_false_eq_true] at h
  have hne : ¬ K.MLX5_CQE_RESP_ERR = K.MLX5_CQE_REQ_ERR := h.2.1.1
  unfold parse_err
  by_cases hl : lazy = 0
  · subst hl
    rcases hnf' with h1 | h1 | h1 <;>
      simp [h1, hop, hne, hres, hsrq, CQ_OK, hodp, PState.status, PState.wr_id, World.call]
  · rcases hnf' with h1 | h1 | h1 <;>
      simp [h1, hop, hne, hres, hsrq, CQ_OK, hodp, PState.status, PState.wr_id, World.call, hl]

/-- Claim C7, amended. For every error slot that does not park the thread in the freeze loop (the switch mlx5_freeze_on_error_cqe is off, or the syndrome is WR_FLUSH_ERR or TRANSPORT_RETRY_EXC_ERR, or the slot is a page fault), decode in either mode sets the status to mlx5_handle_error_cqe(syndrome) and resolves the work request: a request-error whose queue-pair Q resolves takes wr_id = Q.sq.wrid[idx] and sets Q.sq.tail = Q.sq.wqe_head[idx] + 1 with idx = wqe_counter & (wqe_cnt - 1); a response-error on a queue-pair without shared receive queue takes wr_id = rq.wrid[rq.tail & (wqe_cnt - 1)] and increases rq.tail by 1; a response-error on a shared receive queue that is not a page fault takes wr_id = srq.wrid[wqe_counter] and frees that slot (one call of mlx5_free_srq_wqe). -/
theorem parse_error_slot (K : Hdr) (hK : K.Ok) (E : Ext) (st : PState)
    (pos cqe_ver lazy : Nat)
    (hnf : st.w.mlx5_freeze_on_error_cqe = 0 ∨
      (get_cqe st.cq pos).cqe64.syndrome = K.MLX5_CQE_SYNDROME_WR_FLUSH_ERR ∨
      (get_cqe st.cq pos).cqe64.syndrome = K.MLX5_CQE_SYNDROME_TRANSPORT_RETRY_EXC_ERR ∨
      is_odp_pfault_err K (get_cqe st.cq pos).cqe64 = true) :
    (mlx5dv_get_cqe_opcode (get_cqe st.cq pos).cqe64 = K.MLX5_CQE_REQ_ERR →
      ∀ Q, get_req_context st.w st.cur_rsc
        (if cqe_ver ≠ 0 then be32toh (get_cqe st.cq pos).cqe64.srqn_uidx &&& 0xffffff
          else be32toh (get_cqe st.cq pos).cqe64.sop_drop_qpn &&& 0xffffff) cqe_ver = Q →
      Q ≠ 0 →
      ∃ st1, mlx5_parse_cqe K E st pos cqe_ver lazy = Res.ret CQ_OK st1 ∧
        st1.status lazy = mlx5_handle_error_cqe K (get_cqe st.cq pos).cqe64 ∧
        st1.wr_id lazy = (st.w.qp Q).sq.wrid
          (be16toh (get_cqe st.cq pos).cqe64.wqe_counter &&& decr32 (st.w.qp Q).sq.wqe_cnt) ∧
        (st1.w.qp Q).sq.tail = ((st.w.qp Q).sq.wqe_head
          (be16toh (get_cqe st.cq pos).cqe64.wqe_counter &&& decr32 (st.w.qp Q).sq.wqe_cnt)
            + 1) % 2 ^ 32) ∧
    (mlx5dv_get_cqe_opcode (get_cqe st.cq pos).cqe64 = K.MLX5_CQE_RESP_ERR →
      ∀ c, get_cur_rsc K st.w cqe_ver
        (be32toh (get_cqe st.cq pos).cqe64.sop_drop_qpn &&& 0xffffff)
        (be32toh (get_cqe st.cq pos).cqe64.srqn_uidx &&& 0xffffff)
        { cur_rsc := st.cur_rsc, cur_srq := st.cur_srq, is_srq := 0 } = (CQ_OK, c) →
      (c.is_srq = 0 → (st.w.rsc c.cur_rsc).type ≠ K.MLX5_RSC_TYPE_RWQ →
        ∃ st1, mlx5_parse_cqe K E st pos cqe_ver lazy = Res.ret CQ_OK st1 ∧
          st1.status lazy = mlx5_handle_error_cqe K (get_cqe st.cq pos).cqe64 ∧
          st1.wr_id lazy = (st.w.qp c.cur_rsc).rq.wrid
            ((st.w.qp c.cur_rsc).rq.tail &&& decr32 (st.w.qp c.cur_rsc).rq.wqe_cnt) ∧
          (st1.w.qp c.cur_rsc).rq.tail = ((st.w.qp c.cur_rsc).rq.tail + 1) % 2 ^ 32) ∧
      (c.is_srq ≠ 0 → is_odp_pfault_err K (get_cqe st.cq pos).cqe64 = false →
        ∃ st1, mlx5_parse_cqe K E st pos cqe_ver lazy = Res.ret CQ_OK st1 ∧
          st1.status lazy = mlx5_handle_error_cqe K (get_cqe st.cq pos).cqe64 ∧
          st1.wr_id lazy =
            (st.w.srq c.cur_srq).wrid (be16toh (get_cqe st.cq pos).cqe64.wqe_counter) ∧
          st1.w.log = st.w.log ++
            [ExtCall.free_srq_wqe c.cur_srq (be16toh (get_cqe st.cq pos).cqe64.wqe_counter)])) := by
  refine ⟨?_, ?_⟩
  · intro hop Q hres hQ
    have hs := parse_step_err K hK E st pos cqe_ver lazy (Or.inl hop)
    have hl := parse_err_req K (parse_init K st pos lazy) pos cqe_ver lazy Q
    simp only [parse_init_w, parse_init_slot, parse_init_cur_rsc] at hl
    obtain ⟨st1, h1, h2⟩ := hl hnf hop hres hQ
    exact ⟨st1, mlx5_parse_cqe_of_ret K E st st1 pos cqe_ver lazy CQ_OK (hs.trans h1), h2⟩
  · intro hop c hres
    have hs := parse_step_err K hK E st pos cqe_ver lazy (Or.inr hop)
    refine ⟨?_, ?_⟩
    · intro hsrq hty
      have hl := parse_err_resp_qp K hK (parse_init K st pos lazy) pos cqe_ver lazy c
      simp only [parse_init_w, parse_init_slot, parse_init_cur_rsc, parse_init_cur_srq] at hl
      obtain ⟨st1, h1, h2⟩ := hl hnf hop hres hsrq hty
      exact ⟨st1, mlx5_parse_cqe_of_ret K E st st1 pos cqe_ver lazy CQ_OK (hs.trans h1), h2⟩
    · intro hsrq hodp
      have hl := parse_err_resp_srq K hK (parse_init K st pos lazy) pos cqe_ver lazy c
      simp only [parse_init_w, parse_init_slot, parse_init_cur_rsc, parse_init_cur_srq] at hl
      obtain ⟨st1, h1, h2⟩ := hl hnf hop hres hsrq hodp
      exact ⟨st1, mlx5_parse_cqe_of_ret K E st st1 pos cqe_ver lazy CQ_OK (hs.trans h1), h2⟩

/-- Witness for C7: a response-error with syndrome WR_FLUSH_ERR on a queue-pair with one outstanding receive of id 99 yields status IBV_WC_WR_FLUSH_ERR and wr_id 99, and the receive tail becomes 1. -/
theorem parse_error_slot_witness :
    ∃ st1, mlx5_parse_cqe hdr Ext.zero PState.ex_resp_err 0 0 0 = Res.ret CQ_OK st1 ∧
      st1.status 0 = hdr.IBV_WC_WR_FLUSH_ERR ∧ st1.wr_id 0 = 99 ∧ (st1.w.qp 1).rq.tail = 1 :=
  ((parse_error_slot hdr hdr_ok Ext.zero PState.ex_resp_err 0 0 0 (Or.inl (by decide))).2
    (by decide) { cur_rsc := 1, cur_srq := 0, is_srq := 0 } rfl).1 (by decide) (by decide)

/-- Counterexample to C7 as stated, in two parts. A response-error slot of a shared receive queue that is a page fault (REMOTE_ABORTED_ERR, ODP_PFAULT) is absorbed: the decode returns CQ_POLL_NODATA, takes no wr_id from srq.wrid (77) and calls mlx5_complete_odp_fault, not mlx5_free_srq_wqe. A request-error slot with syndrome LOCAL_LENGTH_ERR and the freeze switch on never returns. -/
theorem parse_error_slot_counterexample :
    (mlx5dv_get_cqe_opcode (PState.ex_odp.cq.active_buf 0).cqe64 = hdr.MLX5_CQE_RESP_ERR ∧
      next_cqe_sw hdr PState.ex_odp.cq = some 0 ∧
      (get_cur_rsc hdr PState.ex_odp.w 0 0 5 { cur_rsc := 0, cur_srq := 0, is_srq := 0 }).2.cur_srq = 9 ∧
      (PState.ex_odp.w.srq 9).wrid 0 = 77 ∧
      (mlx5_poll_one hdr Ext.zero PState.ex_odp 0).code = some (CQ_POLL_NODATA hdr) ∧
      (mlx5_poll_one hdr Ext.zero PState.ex_odp 0).state.map (fun s => s.wc.wr_id) = some 0 ∧
      (mlx5_poll_one hdr Ext.zero PState.ex_odp 0).state.map (fun s => s.w.log) =
        some [ExtCall.complete_odp_fault 9 0]) ∧
    (mlx5dv_get_cqe_opcode (PState.ex_freeze.cq.active_buf 0).cqe64 = hdr.MLX5_CQE_REQ_ERR ∧
      next_cqe_sw hdr PState.ex_freeze.cq = some 0 ∧
      get_req_context PState.ex_freeze.w 0 7 0 = 1 ∧
      (mlx5_poll_one hdr Ext.zero PState.ex_freeze 0).code = none) := by
  decide

/-! ### Tag matching (C8, C9) -/

/-- Taking or releasing the lock of a shared receive queue leaves its tag table alone. -/
theorem srqLock_tm_list (w : World) (a : Nat) (b : Bool) :
    ((w.srqLock a b).srq a).tm_list = (w.srq a).tm_list := by
  simp [World.srqLock, World.setSrq, upd]

/-- Taking or releasing a lock records no call. -/
theorem srqLock_log (w : World) (a : Nat) (b : Bool) : (w.srqLock a b).log = w.log := rfl

/-- A memcpy records no call. -/
theorem memcpy_log (w : World) (d : Nat) (s : Nat → Nat) (n : Nat) :
    (w.memcpy d s n).log = w.log := rfl

/-- A call is appended to the log. -/
theorem call_log (w : World) (c : ExtCall) : (w.call c).log = w.log ++ [c] := rfl

/-- Claim C8, amended. For every tag-matching slot with sub-opcode CONSUMED whose tag-table entry at index app_info has expect_cqe set, with the INLINE_SCATTER_64 bit and a byte count that does not exceed the size of the tag's buffer: handle_tag_matching returns CQ_OK with wr_id = the tag's wr_id and status IBV_WC_SUCCESS (no length error), does not release the tag (it calls no collaborator; the release is left to the completing decode), and copies exactly byte_cnt bytes into the tag's buffer, every other byte of memory unchanged. -/
theorem handle_tag_matching_consumed (K : Hdr) (E : Ext) (cq : Cq) (w : World) (slot : Slot)
    (pos srq : Nat)
    (hop : slot.cqe64.app_op = MLX5_CQE_APP_OP_TM_CONSUMED)
    (hexp : ((w.srq srq).tm_list (be16toh slot.cqe64.app_info)).expect_cqe ≠ 0)
    (hinl : slot.cqe64.op_own &&& K.MLX5_INLINE_SCATTER_64 ≠ 0)
    (hlen : be32toh slot.cqe64.byte_cnt ≤
      ((w.srq srq).tm_list (be16toh slot.cqe64.app_info)).size) :
    (handle_tag_matching K E cq w slot pos srq).1 = CQ_OK ∧
      (handle_tag_matching K E cq w slot pos srq).2.1.wr_id =
        ((w.srq srq).tm_list (be16toh slot.cqe64.app_info)).wr_id ∧
      (handle_tag_matching K E cq w slot pos srq).2.1.status = K.IBV_WC_SUCCESS ∧
      (handle_tag_matching K E cq w slot pos srq).2.2.log = w.log ∧
      (∀ i, i < be32toh slot.cqe64.byte_cnt →
        (handle_tag_matching K E cq w slot pos srq).2.2.mem
          (((w.srq srq).tm_list (be16toh slot.cqe64.app_info)).ptr + i) = slot.scatter64 i) ∧
      (∀ a, (a < ((w.srq srq).tm_list (be16toh slot.cqe64.app_info)).ptr ∨
          ((w.srq srq).tm_list (be16toh slot.cqe64.app_info)).ptr +
            be32toh slot.cqe64.byte_cnt ≤ a) →
        (handle_tag_matching K E cq w slot pos srq).2.2.mem a = w.mem a) := by
  have hrun : handle_tag_matching K E cq w slot pos srq =
      (CQ_OK,
        { cq with status := K.IBV_WC_SUCCESS,
                  wr_id := ((w.srq srq).tm_list (be16toh slot.cqe64.app_info)).wr_id },
        ((w.srqLock srq true).memcpy ((w.srq srq).tm_list (be16toh slot.cqe64.app_info)).ptr
          slot.scatter64 (be32toh slot.cqe64.byte_cnt)).srqLock srq false) := by
    unfold handle_tag_matching
    simp only [hop, srqLock_tm_list]
    simp [MLX5_CQE_APP_OP_TM_CONSUMED, MLX5_CQE_APP_OP_TM_CONSUMED_MSG_SW_RDNV,
      MLX5_CQE_APP_OP_TM_CONSUMED_SW_RDNV, MLX5_CQE_APP_OP_TM_MSG_COMPLETION_CANCELED,
      MLX5_CQE_APP_OP_TM_CONSUMED_MSG, mlx5_cqe_app_op_tm_is_complete, hexp, hinl,
      Nat.not_lt.2 hlen]
  rw [hrun]
  refine ⟨rfl, rfl, rfl, ?_, ?_, ?_⟩
  · simp [World.srqLock, World.setSrq, World.memcpy]
  · intro i hi
    simp [World.srqLock, World.setSrq, World.memcpy, hi]
  · intro a ha
    simp only [World.srqLock, World.setSrq, World.memcpy]
    rw [if_neg]
    omega

/-- Witness for C8: tag index 3, wr_id 5, buffer size 64 at address 1000, 40 inline bytes: wr_id 5, success, no call, bytes 1000..1039 copied and the rest of memory untouched. -/
theorem handle_tag_matching_consumed_witness :
    (handle_tag_matching hdr Ext.zero Cq.fresh4 World.ex_tm Slot.ex_tm_consumed 0 9).1 = CQ_OK ∧
      (handle_tag_matching hdr Ext.zero Cq.fresh4 World.ex_tm Slot.ex_tm_consumed 0 9).2.1.wr_id
        = 5 ∧
      (handle_tag_matching hdr Ext.zero Cq.fresh4 World.ex_tm Slot.ex_tm_consumed 0
        9).2.1.status = hdr.IBV_WC_SUCCESS ∧
      (handle_tag_matching hdr Ext.zero Cq.fresh4 World.ex_tm Slot.ex_tm_consumed 0 9).2.2.log
        = [] ∧
      (∀ i, i < 40 →
        (handle_tag_matching hdr Ext.zero Cq.fresh4 World.ex_tm Slot.ex_tm_consumed 0 9).2.2.mem
          (1000 + i) = i + 1) ∧
      (∀ a, (a < 1000 ∨ 1000 + 40 ≤ a) →
        (handle_tag_matching hdr Ext.zero Cq.fresh4 World.ex_tm Slot.ex_tm_consumed 0 9).2.2.mem
          a = 0) :=
  handle_tag_matching_consumed hdr Ext.zero Cq.fresh4 World.ex_tm Slot.ex_tm_consumed 0 9
    (by decide) (by decide) (by decide) (by decide)

/-- Counterexample to C8 as stated: in the example (tag index 3, expect_cqe set, wr_id 5, buffer size 64, sub-opcode CONSUMED, 40 inline bytes) the decode yields wr_id 5 but does not release the tag: no call mlx5_tm_release_tag is made. -/
theorem handle_tag_matching_consumed_counterexample :
    Slot.ex_tm_consumed.cqe64.app_op = MLX5_CQE_APP_OP_TM_CONSUMED ∧
      be16toh Slot.ex_tm_consumed.cqe64.app_info = 3 ∧
      ((World.ex_tm.srq 9).tm_list 3).expect_cqe = 1 ∧
      ((World.ex_tm.srq 9).tm_list 3).wr_id = 5 ∧
      ((World.ex_tm.srq 9).tm_list 3).size = 64 ∧
      Slot.ex_tm_consumed.cqe64.op_own &&& hdr.MLX5_INLINE_SCATTER_64 ≠ 0 ∧
      be32toh Slot.ex_tm_consumed.cqe64.byte_cnt = 40 ∧
      (handle_tag_matching hdr Ext.zero Cq.fresh4 World.ex_tm Slot.ex_tm_consumed 0 9).2.1.wr_id
        = 5 ∧
      ExtCall.tm_release_tag 9 3 ∉
        (handle_tag_matching hdr Ext.zero Cq.fresh4 World.ex_tm Slot.ex_tm_consumed 0 9).2.2.log := by
  decide

/-- The consumed / expected family of handle_tag_matching on an expecting tag: the result code, the work-request id, and the calls made (one release of the tag exactly when the sub-opcode is completing). -/
theorem handle_tag_matching_family (K : Hdr) (E : Ext) (cq : Cq) (w : World) (slot : Slot)
    (pos srq : Nat)
    (hop : slot.cqe64.app_op = MLX5_CQE_APP_OP_TM_CONSUMED ∨
      slot.cqe64.app_op = MLX5_CQE_APP_OP_TM_CONSUMED_SW_RDNV ∨
      slot.cqe64.app_op = MLX5_CQE_APP_OP_TM_EXPECTED)
    (hexp : ((w.srq srq).tm_list (be16toh slot.cqe64.app_info)).expect_cqe ≠ 0) :
    (handle_tag_matching K E cq w slot pos srq).1 = CQ_OK ∧
      (handle_tag_matching K E cq w slot pos srq).2.1.wr_id =
        ((w.srq srq).tm_list (be16toh slot.cqe64.app_info)).wr_id ∧
      (handle_tag_matching K E cq w slot pos srq).2.2.log =
        (if mlx5_cqe_app_op_tm_is_complete slot.cqe64.app_op = true then
          w.log ++ [ExtCall.tm_release_tag srq (be16toh slot.cqe64.app_info)]
        else w.log) := by
  unfold handle_tag_matching
  simp only [srqLock_tm_list]
  rcases hop with h | h | h <;>
    simp only [h, MLX5_CQE_APP_OP_TM_CONSUMED, MLX5_CQE_APP_OP_TM_CONSUMED_MSG_SW_RDNV,
      MLX5_CQE_APP_OP_TM_CONSUMED_SW_RDNV, MLX5_CQE_APP_OP_TM_MSG_COMPLETION_CANCELED,
      MLX5_CQE_APP_OP_TM_CONSUMED_MSG, MLX5_CQE_APP_OP_TM_EXPECTED,
      mlx5_cqe_app_op_tm_is_complete] <;>
    simp only [hexp, if_false, if_true, Nat.reduceEqDiff, or_true, true_or, or_false, false_or,
      bne_self_eq_false, Bool.false_and, Bool.and_false, Bool.false_eq_true, reduceCtorEq,
      Nat.reduceBneDiff, Bool.and_self, Nat.reduceBEq, bne, Bool.not_true, Bool.not_false] <;>
    split <;> try split
  all_goals simp [srqLock_log, memcpy_log, call_log]

/-- Claim C9. For a first-phase slot (CONSUMED or CONSUMED_SW_RDNV) decoded in the context w and an EXPECTED slot with the same app_info index decoded later in the context w2, the tag entry expecting a completion at both decodes and holding the same work request: both decodes return CQ_OK and report the same wr_id, the tag's; the first decode does not release the tag (it makes no call), and the EXPECTED decode releases it exactly once (its only call is one mlx5_tm_release_tag of that tag). -/
theorem tm_consumed_then_expected (K : Hdr) (E : Ext) (cq cq2 : Cq) (w w2 : World)
    (slotA slotB : Slot) (posA posB srq : Nat)
    (hA : slotA.cqe64.app_op = MLX5_CQE_APP_OP_TM_CONSUMED ∨
      slotA.cqe64.app_op = MLX5_CQE_APP_OP_TM_CONSUMED_SW_RDNV)
    (hB : slotB.cqe64.app_op = MLX5_CQE_APP_OP_TM_EXPECTED)
    (hidx : be16toh slotB.cqe64.app_info = be16toh slotA.cqe64.app_info)
    (hexp : ((w.srq srq).tm_list (be16toh slotA.cqe64.app_info)).expect_cqe ≠ 0)
    (hexp2 : ((w2.srq srq).tm_list (be16toh slotA.cqe64.app_info)).expect_cqe ≠ 0)
    (hsame : ((w2.srq srq).tm_list (be16toh slotA.cqe64.app_info)).wr_id =
      ((w.srq srq).tm_list (be16toh slotA.cqe64.app_info)).wr_id) :
    (handle_tag_matching K E cq w slotA posA srq).1 = CQ_OK ∧
      (handle_tag_matching K E cq2 w2 slotB posB srq).1 = CQ_OK ∧
      (handle_tag_matching K E cq w slotA posA srq).2.1.wr_id =
        ((w.srq srq).tm_list (be16toh slotA.cqe64.app_info)).wr_id ∧
      (handle_tag_matching K E cq2 w2 slotB posB srq).2.1.wr_id =
        (handle_tag_matching K E cq w slotA posA srq).2.1.wr_id ∧
      (handle_tag_matching K E cq w slotA posA srq).2.2.log = w.log ∧
      (handle_tag_matching K E cq2 w2 slotB posB srq).2.2.log =
        w2.log ++ [ExtCall.tm_release_tag srq (be16toh slotA.cqe64.app_info)] := by
  have h1 := handle_tag_matching_family K E cq w slotA posA srq
    (hA.elim Or.inl (fun h => Or.inr (Or.inl h))) hexp
  have h2 := handle_tag_matching_family K E cq2 w2 slotB posB srq (Or.inr (Or.inr hB))
    (by rw [hidx]; exact hexp2)
  have cA : mlx5_cqe_app_op_tm_is_complete slotA.cqe64.app_op = false := by
    rcases hA with h | h <;> rw [h] <;> decide
  have cB : mlx5_cqe_app_op_tm_is_complete slotB.cqe64.app_op = true := by
    rw [hB]; decide
  rw [cA] at h1
  rw [cB, hidx] at h2
  refine ⟨h1.1, h2.1, h1.2.1, ?_, ?_, ?_⟩
  · rw [h2.2.1, h1.2.1, hsame]
  · simpa using h1.2.2
  · simpa using h2.2.2

/-- Witness for C9: the CONSUMED slot and then the EXPECTED slot for tag 3, decoded one after the other: both report wr_id 5, the log is empty after the first decode and holds exactly one release of tag 3 after the second. -/
theorem tm_consumed_then_expected_witness :
    (handle_tag_matching hdr Ext.zero Cq.fresh4 World.ex_tm Slot.ex_tm_consumed 0 9).2.1.wr_id
        = 5 ∧
      (handle_tag_matching hdr Ext.zero Cq.fresh4
        (handle_tag_matching hdr Ext.zero Cq.fresh4 World.ex_tm Slot.ex_tm_consumed 0 9).2.2
        Slot.ex_tm_expected 1 9).2.1.wr_id = 5 ∧
      (handle_tag_matching hdr Ext.zero Cq.fresh4 World.ex_tm Slot.ex_tm_consumed 0 9).2.2.log
        = [] ∧
      (handle_tag_matching hdr Ext.zero Cq.fresh4
        (handle_tag_matching hdr Ext.zero Cq.fresh4 World.ex_tm Slot.ex_tm_consumed 0 9).2.2
        Slot.ex_tm_expected 1 9).2.2.log = [ExtCall.tm_release_tag 9 3] := by
  have h := tm_consumed_then_expected hdr Ext.zero Cq.fresh4 Cq.fresh4 World.ex_tm
    (handle_tag_matching hdr Ext.zero Cq.fresh4 World.ex_tm Slot.ex_tm_consumed 0 9).2.2
    Slot.ex_tm_consumed Slot.ex_tm_expected 0 1 9 (Or.inl (by decide)) (by decide) (by decide)
    (by decide) (by decide) (by decide)
  obtain ⟨_, _, h3, h4, h5, h6⟩ := h
  refine ⟨h3, ?_, h5, ?_⟩
  · rw [h4]; exact h3
  · rw [h6, h5]; rfl

/-! ### Consumer index and doorbell record (C2) -/

/-- The frame of the queue is reflexive. -/
theorem CqFrame_refl (cq : Cq) : CqFrame cq cq := ⟨rfl, rfl, rfl⟩

/-- The frame of the queue is transitive. -/
theorem CqFrame_trans {a b c : Cq} (h1 : CqFrame a b) (h2 : CqFrame b c) : CqFrame a c :=
  ⟨h2.1.trans h1.1, h2.2.1.trans h1.2.1, h2.2.2.trans h1.2.2⟩

/-- The frame of the context is reflexive. -/
theorem WFrame_refl (w : World) : WFrame w w := rfl

/-- The frame of the context is transitive. -/
theorem WFrame_trans {a b c : World} (h1 : WFrame a b) (h2 : WFrame b c) : WFrame a c :=
  Eq.trans h2 h1

/-- The inline-scatter copy to a shared receive queue leaves the freeze switch alone. -/
theorem scatter_recv_srq_frame (K : Hdr) (E : Ext) (w : World) (cqe : Cqe64)
    (pos srq ctr size err : Nat) :
    WFrame w (scatter_recv_srq K E w cqe pos srq ctr size err).2 := by
  unfold scatter_recv_srq WFrame
  split
  · rfl
  · split <;> rfl

/-- The inline-scatter copy to a receive queue leaves the freeze switch alone. -/
theorem scatter_recv_wqe_frame (K : Hdr) (E : Ext) (w : World) (cqe : Cqe64)
    (pos qp ctr size err : Nat) :
    WFrame w (scatter_recv_wqe K E w cqe pos qp ctr size err).2 := by
  unfold scatter_recv_wqe WFrame
  split
  · rfl
  · split <;> rfl

/-- The inline-scatter copy to a send queue leaves the freeze switch alone. -/
theorem scatter_send_wqe_frame (K : Hdr) (E : Ext) (w : World) (cqe : Cqe64)
    (pos qp ctr size err : Nat) :
    WFrame w (scatter_send_wqe K E w cqe pos qp ctr size err).2 := by
  unfold scatter_send_wqe WFrame
  split
  · rfl
  · split <;> rfl

/-- Advancing the receive tail leaves the freeze switch alone. -/
theorem resp_wq_advance_frame (K : Hdr) (w : World) (r : Nat) :
    WFrame w (resp_wq_advance K w r) := by
  unfold resp_wq_advance WFrame
  split <;> rfl

/-- The function handle_responder_lazy leaves the ring, the consumer index and the freeze switch alone. -/
theorem handle_responder_lazy_frame (K : Hdr) (E : Ext) (cq : Cq) (w : World) (cqe : Cqe64)
    (pos r srq : Nat) :
    CqFrame cq (handle_responder_lazy K E cq w cqe pos r srq).2.1 ∧
      WFrame w (handle_responder_lazy K E cq w cqe pos r srq).2.2 := by
  unfold handle_responder_lazy
  split
  · exact ⟨⟨rfl, rfl, rfl⟩, scatter_recv_srq_frame K E _ cqe pos srq _ _ _⟩
  · refine ⟨?_, WFrame_trans (resp_wq_advance_frame K w r) (scatter_recv_wqe_frame K E _ cqe pos r _ _ _)⟩
    simp only []
    split <;> exact ⟨rfl, rfl, rfl⟩

/-- The function handle_responder leaves the freeze switch alone. -/
theorem handle_responder_frame (K : Hdr) (E : Ext) (wc : Wc) (w : World) (cqe : Cqe64)
    (pos r srq : Nat) :
    WFrame w (handle_responder K E wc w cqe pos r srq).2.2 := by
  unfold handle_responder
  simp only []
  split_ifs <;>
    first
    | exact scatter_recv_srq_frame K E _ cqe pos srq _ _ _
    | exact WFrame_trans (resp_wq_advance_frame K w r)
        (scatter_recv_wqe_frame K E _ cqe pos r _ _ _)

/-- The function handle_tag_matching leaves the freeze switch alone. -/
theorem handle_tag_matching_frame_w (K : Hdr) (E : Ext) (cq : Cq) (w : World) (slot : Slot)
    (pos srq : Nat) :
    (handle_tag_matching K E cq w slot pos srq).2.2.mlx5_freeze_on_error_cqe =
      w.mlx5_freeze_on_error_cqe := by
  unfold handle_tag_matching
  simp only [apply_ite Prod.snd, apply_ite Prod.fst, apply_ite World.mlx5_freeze_on_error_cqe,
    World.srqLock, World.setSrq, World.call, World.memcpy, World.setQp, ite_self]
  cases h : ((w.srq srq).op ((w.srq srq).op_head &&& decr32 (w.qp (w.srq srq).cmd_qp).sq.wqe_cnt)).tag <;>
    simp [upd, apply_ite Prod.snd, apply_ite Prod.fst, apply_ite World.mlx5_freeze_on_error_cqe, h]

/-- The function handle_tag_matching leaves the ring and the consumer index alone. -/
theorem handle_tag_matching_frame_cq (K : Hdr) (E : Ext) (cq : Cq) (w : World) (slot : Slot)
    (pos srq : Nat) :
    CqFrame cq (handle_tag_matching K E cq w slot pos srq).2.1 := by
  unfold handle_tag_matching CqFrame
  simp only [apply_ite Prod.snd, apply_ite Prod.fst, apply_ite Cq.active_buf, apply_ite Cq.cqe,
    apply_ite Cq.cons_index, ite_self]
  cases h : ((w.srqLock srq true).srq srq).op
      (((w.srqLock srq true).srq srq).op_head &&&
        decr32 ((w.srqLock srq true).qp ((w.srqLock srq true).srq srq).cmd_qp).sq.wqe_cnt) |>.tag <;>
    simp [apply_ite Prod.snd, apply_ite Prod.fst, apply_ite Cq.active_buf, apply_ite Cq.cqe,
      apply_ite Cq.cons_index, h]

/-- The function handle_tag_matching leaves the ring, the consumer index and the freeze switch alone. -/
theorem handle_tag_matching_frame (K : Hdr) (E : Ext) (cq : Cq) (w : World) (slot : Slot)
    (pos srq : Nat) :
    CqFrame cq (handle_tag_matching K E cq w slot pos srq).2.1 ∧
      WFrame w (handle_tag_matching K E cq w slot pos srq).2.2 :=
  ⟨handle_tag_matching_frame_cq K E cq w slot pos srq,
    handle_tag_matching_frame_w K E cq w slot pos srq⟩

/-- The ownership test depends on the ring and its mask only. -/
theorem get_sw_cqe_frame (K : Hdr) (a b : Cq) (h1 : b.active_buf = a.active_buf)
    (h2 : b.cqe = a.cqe) (n : Nat) : get_sw_cqe K b n = get_sw_cqe K a n := by
  unfold get_sw_cqe get_cqe
  rw [h1, h2]

/-- The next software-visible slot depends on the ring, its mask and the consumer index only. -/
theorem next_cqe_sw_frame (K : Hdr) (a b : Cq) (h : CqFrame a b) :
    next_cqe_sw K b = next_cqe_sw K a := by
  unfold next_cqe_sw
  rw [h.2.2, get_sw_cqe_frame K a b h.1 h.2.1]

/-- The guarantee of a pass carries over to a state with the same ring, consumer index and freeze switch. -/
theorem StepOk_of_frame (K : Hdr) (st0 st : PState) (s : Step) (hc : CqFrame st0.cq st.cq)
    (hw : WFrame st0.w st.w) (h : StepOk K st s) : StepOk K st0 s := by
  cases s with
  | ret c st1 => exact ⟨CqFrame_trans hc h.1, WFrame_trans hw h.2.1, h.2.2⟩
  | freeze st1 =>
    show st0.w.mlx5_freeze_on_error_cqe ≠ 0
    have h' : st.w.mlx5_freeze_on_error_cqe ≠ 0 := h
    rw [← hw]; exact h'
  | again st1 p =>
    obtain ⟨h1, h2, h3, h4, h5⟩ := h
    refine ⟨h1.trans hc.1, h2.trans hc.2.1, ?_, WFrame_trans hw h4, ?_⟩
    · rw [h3, hc.2.2]
    · rw [← next_cqe_sw_frame K st0.cq st.cq hc]; exact h5

/-- The re-fetch of an absorbed slot satisfies the guarantee of a pass. -/
theorem refetch_ok (K : Hdr) (st : PState) : StepOk K st (refetch K st) := by
  unfold refetch mlx5_get_next_cqe
  cases h : next_cqe_sw K st.cq with
  | none =>
    simp only []
    exact ⟨CqFrame_refl _, WFrame_refl _, Or.inr (Or.inr h)⟩
  | some p =>
    simp only []
    refine ⟨rfl, rfl, rfl, WFrame_refl _, ?_⟩
    rw [h]; exact Option.some_ne_none p

/-- The first statements of a pass leave the ring, the consumer index and the freeze switch alone. -/
theorem parse_init_frame (K : Hdr) (st : PState) (pos lazy : Nat) :
    CqFrame st.cq (parse_init K st pos lazy).cq ∧ WFrame st.w (parse_init K st pos lazy).w := by
  unfold parse_init
  simp only []
  split <;> exact ⟨⟨rfl, rfl, rfl⟩, rfl⟩

/-- The guarantee of a pass, by cases on a test. -/
theorem StepOk_ite (K : Hdr) (st : PState) (c : Prop) [Decidable c] (a b : Step)
    (ha : c → StepOk K st a) (hb : ¬ c → StepOk K st b) : StepOk K st (if c then a else b) := by
  split
  · exact ha ‹_›
  · exact hb ‹_›

/-- The case MLX5_CQE_REQ satisfies the guarantee of a pass. -/
theorem parse_req_ok (K : Hdr) (E : Ext) (st : PState) (pos cqe_ver lazy : Nat) :
    StepOk K st (parse_req K E st pos cqe_ver lazy) := by
  unfold parse_req
  simp only []
  generalize get_req_context st.w st.cur_rsc _ cqe_ver = mqp
  refine StepOk_ite K st _ _ _ (fun _ => ⟨⟨rfl, rfl, rfl⟩, rfl, Or.inr (Or.inl rfl)⟩) (fun _ => ?_)
  refine StepOk_ite K st _ _ _ (fun _ => ?_) (fun _ => ?_)
  · refine ⟨?_, ?_, Or.inl rfl⟩
    · simp only [CqFrame, apply_ite Cq.active_buf, apply_ite Cq.cqe, apply_ite Cq.cons_index,
        ite_self, and_self]
    · simp only [WFrame, sq_set_tail, World.setQp, apply_ite Prod.snd,
        apply_ite World.mlx5_freeze_on_error_cqe, scatter_send_wqe_frame K E _ _ _ _ _ _ _,
        ite_self]
      have h1 := scatter_send_wqe_frame K E st.w (get_cqe st.cq pos).cqe64 pos mqp
        (be16toh (get_cqe st.cq pos).cqe64.wqe_counter) (be32toh (get_cqe st.cq pos).cqe64.byte_cnt) 0
      have h2 := scatter_send_wqe_frame K E st.w (get_cqe st.cq pos).cqe64 pos mqp
        (be16toh (get_cqe st.cq pos).cqe64.wqe_counter) 8 0
      simp only [WFrame] at h1 h2
      simp only [h1, h2, ite_self]
  · exact ⟨⟨rfl, rfl, rfl⟩, scatter_send_wqe_frame K E _ _ _ _ _ _ _, Or.inl rfl⟩

/-- The case of the receive opcodes satisfies the guarantee of a pass. -/
theorem parse_resp_ok (K : Hdr) (E : Ext) (st : PState) (pos cqe_ver lazy : Nat) :
    StepOk K st (parse_resp K E st pos cqe_ver lazy) := by
  unfold parse_resp
  simp only []
  generalize get_cur_rsc K st.w cqe_ver _ _ _ = r
  refine StepOk_ite K st _ _ _ (fun _ => ⟨⟨rfl, rfl, rfl⟩, rfl, Or.inr (Or.inl rfl)⟩) (fun _ => ?_)
  refine StepOk_ite K st _ _ _ (fun _ => ?_) (fun _ => ?_)
  · refine StepOk_ite K st _ _ _ (fun _ => ?_) (fun _ => ?_)
    · have h := handle_responder_lazy_frame K E st.cq st.w (get_cqe st.cq pos).cqe64 pos
        r.2.cur_rsc (if r.2.is_srq ≠ 0 then r.2.cur_srq else 0)
      exact ⟨h.1, h.2, Or.inl rfl⟩
    · refine StepOk_ite K st _ _ _ (fun _ => ⟨⟨rfl, rfl, rfl⟩, rfl, Or.inr (Or.inl rfl)⟩)
        (fun _ => ?_)
      have h := handle_tag_matching_frame K E st.cq st.w (get_cqe st.cq pos) pos r.2.cur_srq
      refine StepOk_ite K st _ _ _ (fun _ => ⟨h.1, h.2, Or.inr (Or.inl rfl)⟩)
        (fun _ => ⟨h.1, h.2, Or.inl rfl⟩)
  · exact ⟨⟨rfl, rfl, rfl⟩, handle_responder_frame K E _ st.w _ pos _ _, Or.inl rfl⟩

/-- The case MLX5_CQE_NO_PACKET satisfies the guarantee of a pass. -/
theorem parse_no_packet_ok (K : Hdr) (E : Ext) (st : PState) (pos cqe_ver : Nat) :
    StepOk K st (parse_no_packet K E st pos cqe_ver) := by
  unfold parse_no_packet
  simp only []
  generalize get_cur_rsc K st.w cqe_ver _ _ _ = r
  refine StepOk_ite K st _ _ _ (fun _ => ⟨⟨rfl, rfl, rfl⟩, rfl, Or.inr (Or.inl rfl)⟩) (fun _ => ?_)
  refine StepOk_ite K st _ _ _ (fun _ => ⟨⟨rfl, rfl, rfl⟩, rfl, Or.inr (Or.inl rfl)⟩) (fun _ => ?_)
  have h := handle_tag_matching_frame K E st.cq st.w (get_cqe st.cq pos) pos r.2.cur_srq
  exact StepOk_ite K st _ _ _ (fun _ => ⟨h.1, h.2, Or.inr (Or.inl rfl)⟩)
    (fun _ => ⟨h.1, h.2, Or.inl rfl⟩)

/-- The case MLX5_CQE_SIG_ERR satisfies the guarantee of a pass. -/
theorem parse_sig_err_ok (K : Hdr) (st : PState) (pos : Nat) :
    StepOk K st (parse_sig_err K st pos) := by
  unfold parse_sig_err
  simp only []
  refine StepOk_ite K st _ _ _ (fun _ => ⟨⟨rfl, rfl, rfl⟩, rfl, Or.inr (Or.inl rfl)⟩) (fun _ => ?_)
  exact StepOk_of_frame K st _ _ ⟨rfl, rfl, rfl⟩ rfl (refetch_ok K _)

/-- The error cases satisfy the guarantee of a pass. -/
theorem parse_err_ok (K : Hdr) (st : PState) (pos cqe_ver lazy : Nat) :
    StepOk K st (parse_err K st pos cqe_ver lazy) := by
  unfold parse_err
  simp only []
  have hst : ∀ (a b : PState), CqFrame st.cq a.cq → WFrame st.w a.w → CqFrame st.cq b.cq →
      WFrame st.w b.w → CqFrame st.cq (if lazy ≠ 0 then a else b).cq ∧
        WFrame st.w (if lazy ≠ 0 then a else b).w := by
    intro a b h1 h2 h3 h4
    split
    · exact ⟨h1, h2⟩
    · exact ⟨h3, h4⟩
  generalize hs1 : (if lazy ≠ 0 then
      ({ st with cq := { st.cq with status := mlx5_handle_error_cqe K (get_cqe st.cq pos).cqe64 } } :
        PState)
    else { st with wc := { st.wc with status := mlx5_handle_error_cqe K (get_cqe st.cq pos).cqe64,
                                      vendor_err := (get_cqe st.cq pos).cqe64.vendor_err_synd } }) = st1
  have hf1 : CqFrame st.cq st1.cq ∧ WFrame st.w st1.w := by
    rw [← hs1]; exact hst _ _ ⟨rfl, rfl, rfl⟩ rfl ⟨rfl, rfl, rfl⟩ rfl
  refine StepOk_ite K st _ _ _ (fun h => ?_) (fun _ => ?_)
  · show st.w.mlx5_freeze_on_error_cqe ≠ 0
    have := h.2.2.2
    rw [hf1.2] at this
    exact this
  refine StepOk_ite K st _ _ _ (fun _ => ?_) (fun _ => ?_)
  · generalize get_req_context st1.w st1.cur_rsc _ cqe_ver = mqp
    refine StepOk_ite K st _ _ _ (fun _ => ⟨hf1.1, hf1.2, Or.inr (Or.inl rfl)⟩) (fun _ => ?_)
    refine ⟨?_, ?_, Or.inl rfl⟩
    · simp only [apply_ite PState.cq]
      split
      · exact hf1.1
      · exact hf1.1
    · simp only [sq_set_tail, World.setQp, apply_ite PState.w, ite_self]
      exact hf1.2
  · generalize get_cur_rsc K st1.w cqe_ver _ _ _ = r
    refine StepOk_ite K st _ _ _ (fun _ => ⟨hf1.1, hf1.2, Or.inr (Or.inl rfl)⟩) (fun _ => ?_)
    refine StepOk_ite K st _ _ _ (fun _ => ?_) (fun _ => ?_)
    · refine StepOk_ite K st _ _ _ (fun _ => ?_) (fun _ => ?_)
      · exact StepOk_of_frame K st _ _ hf1.1 hf1.2 (refetch_ok K _)
      · refine ⟨?_, ?_, Or.inl rfl⟩
        · simp only [apply_ite PState.cq]
          split
          · exact hf1.1
          · exact hf1.1
        · simp only [World.call, apply_ite PState.w, ite_self]
          exact hf1.2
    · refine ⟨?_, ?_, Or.inl rfl⟩
      · simp only [apply_ite PState.cq]
        split
        · exact hf1.1
        · exact hf1.1
      · simp only [World.setRwq, World.setQp, apply_ite PState.w, ite_self]
        split
        · exact hf1.2
        · exact hf1.2

/-- Every pass of mlx5_parse_cqe satisfies the guarantee of a pass. -/
theorem parse_step_ok (K : Hdr) (E : Ext) (st : PState) (pos cqe_ver lazy : Nat) :
    StepOk K st (parse_step K E st pos cqe_ver lazy) := by
  unfold parse_step
  simp only []
  have hi := parse_init_frame K st pos lazy
  refine StepOk_ite K st _ _ _ (fun _ => StepOk_of_frame K st _ _ hi.1 hi.2 (parse_req_ok K E _ _ _ _))
    (fun _ => ?_)
  refine StepOk_ite K st _ _ _
    (fun _ => StepOk_of_frame K st _ _ hi.1 hi.2 (parse_resp_ok K E _ _ _ _)) (fun _ => ?_)
  refine StepOk_ite K st _ _ _
    (fun _ => StepOk_of_frame K st _ _ hi.1 hi.2 (parse_no_packet_ok K E _ _ _)) (fun _ => ?_)
  refine StepOk_ite K st _ _ _
    (fun _ => StepOk_of_frame K st _ _ hi.1 hi.2 (parse_sig_err_ok K _ _)) (fun _ => ?_)
  refine StepOk_ite K st _ _ _ (fun _ => ⟨hi.1, hi.2, Or.inl rfl⟩) (fun _ => ?_)
  refine StepOk_ite K st _ _ _
    (fun _ => StepOk_of_frame K st _ _ hi.1 hi.2 (parse_err_ok K _ _ _ _)) (fun _ => ?_)
  exact ⟨hi.1, hi.2, Or.inl rfl⟩

/-- Availability depends on the ring, its mask and the consumer index only. -/
theorem Avail.of_frame {K : Hdr} {a b : Cq} {r : Nat} (h : Avail K a r) (hf : CqFrame a b) :
    Avail K b r := by
  obtain ⟨h1, h2, h3⟩ := h
  refine ⟨by rw [hf.2.2]; exact h1, ?_, ?_⟩
  · intro j hj
    rw [hf.2.2, get_sw_cqe_frame K a b hf.1 hf.2.1]
    exact h2 j hj
  · rw [hf.2.2, get_sw_cqe_frame K a b hf.1 hf.2.1]
    exact h3

/-- No slot is available when the slot at the consumer index is not visible. -/
theorem Avail.zero_of_empty {K : Hdr} {cq : Cq} {r : Nat} (h : Avail K cq r)
    (he : next_cqe_sw K cq = none) : r = 0 := by
  by_contra hr
  have h0 := h.2.1 0 (Nat.pos_of_ne_zero hr)
  have hci : (cq.cons_index + 0) % 2 ^ 32 = cq.cons_index := by
    rw [Nat.add_zero, Nat.mod_eq_of_lt h.1]
  rw [hci] at h0
  exact h0 he

/-- A slot is available when the slot at the consumer index is visible. -/
theorem Avail.pos_of_visible {K : Hdr} {cq : Cq} {r : Nat} (h : Avail K cq r)
    (hv : next_cqe_sw K cq ≠ none) : 0 < r := by
  by_contra hr
  have hr0 : r = 0 := by omega
  have h3 := h.2.2
  rw [hr0, Nat.add_zero, Nat.mod_eq_of_lt h.1] at h3
  exact hv h3

/-- After one slot is consumed, one slot less is available. -/
theorem Avail.step {K : Hdr} {cq cq1 : Cq} {r : Nat} (h : Avail K cq r) (hr : 0 < r)
    (h1 : cq1.active_buf = cq.active_buf) (h2 : cq1.cqe = cq.cqe)
    (h3 : cq1.cons_index = (cq.cons_index + 1) % 2 ^ 32) : Avail K cq1 (r - 1) := by
  obtain ⟨a1, a2, a3⟩ := h
  have hlt : (cq.cons_index + 1) % 2 ^ 32 < 2 ^ 32 := Nat.mod_lt _ (Nat.two_pow_pos 32)
  refine ⟨by rw [h3]; exact hlt, ?_, ?_⟩
  · intro j hj
    rw [h3, get_sw_cqe_frame K cq cq1 h1 h2]
    have : ((cq.cons_index + 1) % 2 ^ 32 + j) % 2 ^ 32 = (cq.cons_index + (j + 1)) % 2 ^ 32 := by
      omega
    rw [this]
    exact a2 (j + 1) (by omega)
  · rw [h3, get_sw_cqe_frame K cq cq1 h1 h2]
    have : ((cq.cons_index + 1) % 2 ^ 32 + (r - 1)) % 2 ^ 32 = (cq.cons_index + r) % 2 ^ 32 := by
      omega
    rw [this]
    exact a3

/-- With more passes allowed than slots available, mlx5_parse_cqe satisfies the guarantee of a decode. -/
theorem parse_loop_ok (K : Hdr) (E : Ext) (cqe_ver lazy : Nat) :
    ∀ (fuel r : Nat) (st : PState) (pos : Nat), Avail K st.cq r → r < fuel →
      DecodeOk K false st r (mlx5_parse_cqe_loop K E cqe_ver lazy fuel st pos) := by
  intro fuel
  induction fuel with
  | zero => intro r st pos _ hr; omega
  | succ f ih =>
    intro r st pos hav hr
    rw [mlx5_parse_cqe_loop]
    have hs := parse_step_ok K E st pos cqe_ver lazy
    cases hstep : parse_step K E st pos cqe_ver lazy with
    | ret c st1 =>
      rw [hstep] at hs
      obtain ⟨hc, hw, hcode⟩ := hs
      have hav1 := hav.of_frame hc
      refine ⟨r, le_refl r, hav1, hc.1, hc.2.1, ?_, hw, ?_, fun h => Bool.noConfusion h⟩
      · rw [hc.2.2, Nat.sub_self, Nat.add_zero, Nat.mod_eq_of_lt hav.1]
      · rcases hcode with h | h | h
        · exact Or.inl h
        · exact Or.inr (Or.inl h)
        · exact Or.inr (Or.inr (hav1.zero_of_empty h))
    | freeze st1 =>
      rw [hstep] at hs
      exact hs
    | again st1 p =>
      rw [hstep] at hs
      obtain ⟨h1, h2, h3, hw, hv⟩ := hs
      have hpos := hav.pos_of_visible hv
      have hav1 := hav.step hpos h1 h2 h3
      have hrec := ih (r - 1) st1 p hav1 (by omega)
      simp only []
      cases hres : mlx5_parse_cqe_loop K E cqe_ver lazy f st1 p with
      | starved => rw [hres] at hrec; exact hrec
      | freeze st2 =>
        rw [hres] at hrec
        show st.w.mlx5_freeze_on_error_cqe ≠ 0
        have hrec' : st1.w.mlx5_freeze_on_error_cqe ≠ 0 := hrec
        rw [← hw]; exact hrec'
      | ret c st2 =>
        rw [hres] at hrec
        obtain ⟨r2, hle, hav2, b1, b2, b3, b4, b5, _⟩ := hrec
        refine ⟨r2, by omega, hav2, b1.trans h1, b2.trans h2, ?_, WFrame_trans hw b4, b5,
          fun h => Bool.noConfusion h⟩
        rw [b3, h3]
        omega

/-- On a ring with at most cqe + 1 available slots, mlx5_poll_one satisfies the guarantee of a decode, and CQ_OK means it consumed a slot. -/
theorem poll_one_ok (K : Hdr) (E : Ext) (cqe_ver : Nat) (st : PState) (r : Nat)
    (hav : Avail K st.cq r) (hr : r ≤ st.cq.cqe + 1) :
    DecodeOk K true st r (mlx5_poll_one K E st cqe_ver) := by
  unfold mlx5_poll_one mlx5_get_next_cqe
  cases hn : next_cqe_sw K st.cq with
  | none =>
    simp only []
    have hr0 := hav.zero_of_empty hn
    subst hr0
    refine ⟨0, le_refl 0, hav, rfl, rfl, ?_, rfl, Or.inr (Or.inr rfl), ?_⟩
    · show st.cq.cons_index = (st.cq.cons_index + (0 - 0)) % 2 ^ 32
      rw [Nat.sub_self, Nat.add_zero, Nat.mod_eq_of_lt hav.1]
    · intro _ h
      exact absurd h (by decide)
  | some p =>
    simp only []
    have hpos : 0 < r := hav.pos_of_visible (by rw [hn]; exact Option.some_ne_none p)
    have hav1 : Avail K
        ({ st with cq := { st.cq with cons_index := (st.cq.cons_index + 1) % 2 ^ 32 } } : PState).cq
        (r - 1) := hav.step hpos rfl rfl rfl
    have hrec := parse_loop_ok K E cqe_ver 0 (st.cq.cqe + 2) (r - 1) _ p hav1 (by omega)
    unfold mlx5_parse_cqe
    cases hres : mlx5_parse_cqe_loop K E cqe_ver 0
        (({ st with cq := { st.cq with cons_index := (st.cq.cons_index + 1) % 2 ^ 32 } } :
          PState).cq.cqe + 2)
        { st with cq := { st.cq with cons_index := (st.cq.cons_index + 1) % 2 ^ 32 } } p with
    | starved =>
      have : mlx5_parse_cqe_loop K E cqe_ver 0 (st.cq.cqe + 2)
        { st with cq := { st.cq with cons_index := (st.cq.cons_index + 1) % 2 ^ 32 } } p =
          Res.starved := hres
      rw [this] at hrec; exact hrec
    | freeze st2 =>
      have : mlx5_parse_cqe_loop K E cqe_ver 0 (st.cq.cqe + 2)
        { st with cq := { st.cq with cons_index := (st.cq.cons_index + 1) % 2 ^ 32 } } p =
          Res.freeze st2 := hres
      rw [this] at hrec; exact hrec
    | ret c st2 =>
      have : mlx5_parse_cqe_loop K E cqe_ver 0 (st.cq.cqe + 2)
        { st with cq := { st.cq with cons_index := (st.cq.cons_index + 1) % 2 ^ 32 } } p =
          Res.ret c st2 := hres
      rw [this] at hrec
      obtain ⟨r2, hle, hav2, b1, b2, b3, b4, b5, _⟩ := hrec
      refine ⟨r2, by omega, hav2, b1, b2, ?_, b4, b5, fun _ _ => by omega⟩
      rw [b3]
      show ((st.cq.cons_index + 1) % 2 ^ 32 + (r - 1 - r2)) % 2 ^ 32 =
        (st.cq.cons_index + (r - r2)) % 2 ^ 32
      omega

/-- The loop of poll_cq satisfies its guarantee. -/
theorem poll_loop_ok (K : Hdr) (E : Ext) (cqe_ver : Nat) :
    ∀ (k npolled r : Nat) (s : PollSt), Avail K s.cq r → r ≤ s.cq.cqe + 1 →
      LoopOk K s r k (poll_cq_loop K E cqe_ver k npolled s) := by
  intro k
  induction k with
  | zero =>
    intro npolled r s hav _
    rw [poll_cq_loop]
    refine ⟨r, le_refl r, hav, rfl, rfl, ?_, rfl, fun _ => Or.inr (Nat.zero_le _)⟩
    show s.cq.cons_index = (s.cq.cons_index + (r - r)) % 2 ^ 32
    rw [Nat.sub_self, Nat.add_zero, Nat.mod_eq_of_lt hav.1]
  | succ k ih =>
    intro npolled r s hav hr
    rw [poll_cq_loop]
    have h1 := poll_one_ok K E cqe_ver
      { cq := s.cq, w := s.w, cur_rsc := s.rsc, cur_srq := s.srq, wc := s.wc npolled } r hav hr
    cases hres : mlx5_poll_one K E
        { cq := s.cq, w := s.w, cur_rsc := s.rsc, cur_srq := s.srq, wc := s.wc npolled }
        cqe_ver with
    | starved => rw [hres] at h1; exact h1
    | freeze st => rw [hres] at h1; exact h1
    | ret err st =>
      rw [hres] at h1
      obtain ⟨r1, hle, hav1, b1, b2, b3, b4, b5, b6⟩ := h1
      simp only []
      by_cases herr : err = CQ_OK
      · rw [if_neg (not_not.2 herr)]
        have hlt := b6 rfl herr
        have hrec := ih (npolled + 1) r1
          { cq := st.cq, w := st.w, rsc := st.cur_rsc, srq := st.cur_srq,
            wc := upd s.wc npolled st.wc } hav1 (by show r1 ≤ st.cq.cqe + 1; rw [b2]; show r1 ≤ s.cq.cqe + 1; omega)
        cases hres2 : poll_cq_loop K E cqe_ver k (npolled + 1)
            { cq := st.cq, w := st.w, rsc := st.cur_rsc, srq := st.cur_srq,
              wc := upd s.wc npolled st.wc } with
        | starved => rw [hres2] at hrec; exact hrec
        | freeze x =>
          rw [hres2] at hrec
          show s.w.mlx5_freeze_on_error_cqe ≠ 0
          have hrec' : st.w.mlx5_freeze_on_error_cqe ≠ 0 := hrec
          have b4' : st.w.mlx5_freeze_on_error_cqe = s.w.mlx5_freeze_on_error_cqe := b4
          rw [← b4']; exact hrec'
        | ret err2 x =>
          rw [hres2] at hrec
          obtain ⟨r2, hle2, hav2, c1, c2, c3, c4, c5⟩ := hrec
          refine ⟨r2, by omega, hav2, c1.trans b1, c2.trans b2, ?_, WFrame_trans b4 c4, ?_⟩
          · rw [c3]
            show (st.cq.cons_index + (r1 - r2)) % 2 ^ 32 = (s.cq.cons_index + (r - r2)) % 2 ^ 32
            rw [b3]
            show ((s.cq.cons_index + (r - r1)) % 2 ^ 32 + (r1 - r2)) % 2 ^ 32 =
              (s.cq.cons_index + (r - r2)) % 2 ^ 32
            omega
          · intro he
            rcases c5 he with h | h
            · exact Or.inl h
            · exact Or.inr (by omega)
      · rw [if_pos herr]
        refine ⟨r1, hle, hav1, b1, b2, b3, b4, ?_⟩
        intro he
        rcases b5 with h | h | h
        · exact absurd h herr
        · exact absurd h he
        · exact Or.inl h

/-- The stall update of poll_cq leaves the consumer index and the doorbell record alone. -/
theorem poll_cq_stall_frame (E : Ext) (w : World) (cq : Cq) (ne npolled : Nat) (err : Int) :
    (poll_cq_stall E w cq ne npolled err).cons_index = cq.cons_index ∧
      (poll_cq_stall E w cq ne npolled err).dbrec = cq.dbrec := by
  unfold poll_cq_stall
  split_ifs <;> exact ⟨rfl, rfl⟩

/-- The low 24 bits of a number survive its reduction to 32 bits. -/
theorem and_mask24_mod (x : Nat) : x % 2 ^ 32 &&& 0xffffff = x &&& 0xffffff := by
  have h : (0xffffff : Nat) = 2 ^ 24 - 1 := by norm_num
  rw [h, Nat.and_pow_two_sub_one_eq_mod, Nat.and_pow_two_sub_one_eq_mod]
  exact Nat.mod_mod_of_dvd x (by norm_num)

/-- Claim C2. For a ring of cqe + 1 slots and M <= cqe + 1 (the ring size need not be a power of two): when exactly the next M slots from cons_index on are software-visible and poll_cq is asked for at least M completions, poll_cq does not run out of passes, it returns whenever the freeze switch is off, and when it returns without CQ_POLL_ERR it has consumed those M slots: the consumer index is its initial value plus M (in 32-bit arithmetic) and dbrec[MLX5_CQ_SET_CI] holds the big-endian encoding of (initial + M) & 0xffffff. -/
theorem poll_cq_consumes (K : Hdr) (E : Ext) (cq : Cq) (w : World) (ne : Nat) (wc : Nat → Wc)
    (cqe_ver M : Nat)
    (hci : cq.cons_index < 2 ^ 32)
    (hvis : ∀ j, j < M → get_sw_cqe K cq ((cq.cons_index + j) % 2 ^ 32) ≠ none)
    (hend : get_sw_cqe K cq ((cq.cons_index + M) % 2 ^ 32) = none)
    (hM : M ≤ cq.cqe + 1) (hne : M ≤ ne) :
    poll_cq K E cq w ne wc cqe_ver ≠ Res.starved ∧
    (w.mlx5_freeze_on_error_cqe = 0 → ∃ code s, poll_cq K E cq w ne wc cqe_ver = Res.ret code s) ∧
    ∀ code s, poll_cq K E cq w ne wc cqe_ver = Res.ret code s → code ≠ CQ_POLL_ERR →
      s.cq.cons_index = (cq.cons_index + M) % 2 ^ 32 ∧
      s.cq.dbrec K.MLX5_CQ_SET_CI = htobe32 ((cq.cons_index + M) &&& 0xffffff) := by
  generalize hcq2 : ({ (if cq.stall_enable ≠ 0 ∧ cq.stall_adaptive_enable = 0 ∧
      cq.stall_next_poll ≠ 0 then { cq with stall_next_poll := 0 } else cq) with lock := true } : Cq)
    = cq2
  have hf : CqFrame cq cq2 := by
    rw [← hcq2]
    unfold CqFrame
    simp only []
    split <;> exact ⟨rfl, rfl, rfl⟩
  have hav : Avail K cq2 M := Avail.of_frame ⟨hci, hvis, hend⟩ hf
  have hloop := poll_loop_ok K E cqe_ver ne 0 M
    { cq := cq2, w := w, rsc := 0, srq := 0, wc := wc } hav
    (by show M ≤ cq2.cqe + 1; rw [hf.2.1]; exact hM)
  have hrun : poll_cq K E cq w ne wc cqe_ver =
      match poll_cq_loop K E cqe_ver ne 0 { cq := cq2, w := w, rsc := 0, srq := 0, wc := wc } with
      | Res.starved => Res.starved
      | Res.freeze (_, s) => Res.freeze s
      | Res.ret err (npolled, s) =>
        Res.ret (if err = CQ_POLL_ERR then err else (npolled : Int))
          { s with cq := poll_cq_stall E s.w ({ update_cons_index K s.cq with lock := false } : Cq) ne npolled err } := by
    rw [← hcq2]; rfl
  rw [hrun]
  cases hres : poll_cq_loop K E cqe_ver ne 0
      { cq := cq2, w := w, rsc := 0, srq := 0, wc := wc } with
  | starved => rw [hres] at hloop; exact absurd hloop id
  | freeze x =>
    rw [hres] at hloop
    have hfz : w.mlx5_freeze_on_error_cqe ≠ 0 := hloop
    refine ⟨fun h => Res.noConfusion h, fun h => absurd h hfz, fun code s h => Res.noConfusion h⟩
  | ret err x =>
    rw [hres] at hloop
    obtain ⟨np, s1⟩ := x
    obtain ⟨r1, hle, hav1, b1, b2, b3, b4, b5⟩ := hloop
    refine ⟨fun h => Res.noConfusion h, fun _ => ⟨_, _, rfl⟩, ?_⟩
    intro code s hs hcode
    simp only [Res.ret.injEq] at hs
    obtain ⟨hc, hs⟩ := hs
    have herr : err ≠ CQ_POLL_ERR := by
      intro he
      apply hcode
      rw [← hc, if_pos he, he]
    have hr1 : r1 = 0 := by
      rcases b5 herr with h | h
      · exact h
      · omega
    subst hr1
    have hcons : s1.cq.cons_index = (cq.cons_index + M) % 2 ^ 32 := by
      have : s1.cq.cons_index = (cq2.cons_index + (M - 0)) % 2 ^ 32 := b3
      rw [this, hf.2.2, Nat.sub_zero]
    have hst := poll_cq_stall_frame E s1.w { update_cons_index K s1.cq with lock := false } ne np err
    rw [← hs]
    refine ⟨?_, ?_⟩
    · show (poll_cq_stall E s1.w { update_cons_index K s1.cq with lock := false } ne np
        err).cons_index = _
      rw [hst.1]
      exact hcons
    · show (poll_cq_stall E s1.w { update_cons_index K s1.cq with lock := false } ne np
        err).dbrec K.MLX5_CQ_SET_CI = _
      rw [hst.2]
      show (update_cons_index K s1.cq).dbrec K.MLX5_CQ_SET_CI = _
      unfold update_cons_index
      simp only [upd_same]
      rw [hcons, and_mask24_mod]

/-- Witness for C2: polling a ring of 4 slots with two visible send completions returns 2, leaves the consumer index at 2 and the doorbell record at the encoding of 2. -/
theorem poll_cq_consumes_witness :
    ∃ s, poll_cq hdr Ext.zero Cq.ex_send2 World.ex_send 2 (fun _ => Wc.zero) 0 = Res.ret 2 s ∧
      s.cq.cons_index = 2 ∧ s.cq.dbrec hdr.MLX5_CQ_SET_CI = htobe32 2 := by
  obtain ⟨_, h2, h3⟩ := poll_cq_consumes hdr Ext.zero Cq.ex_send2 World.ex_send 2
    (fun _ => Wc.zero) 0 2 (by decide) (by decide) (by decide) (by decide) (by decide)
  obtain ⟨code, s, hs⟩ := h2 rfl
  have hc : (poll_cq hdr Ext.zero Cq.ex_send2 World.ex_send 2 (fun _ => Wc.zero) 0).code =
      some 2 := by decide
  rw [hs] at hc
  simp only [Res.code, Option.some.injEq] at hc
  subst hc
  exact ⟨s, hs, h3 2 s hs (by decide)⟩

/-! ### Ring compaction (C10) -/

/-- Claim C10, counterexample: __mlx5_cq_clean does not remove every matching live slot. In a
full ring of 2 slots whose newer slot is for queue number 7, the call for rsn 7 leaves the
consumer index at 0 and the slot live; on a queue owned through the direct-verbs interface
the call changes nothing, though its one live slot matches. -/
theorem cq_clean_compacts_counterexample :
    (get_sw_cqe hdr Cq.ex_full 0 ≠ none ∧ get_sw_cqe hdr Cq.ex_full 1 ≠ none ∧
      get_sw_cqe hdr Cq.ex_full 2 = none ∧
      is_equal_rsn (Cq.ex_full.active_buf 0).cqe64 7 = false ∧
      is_equal_rsn (Cq.ex_full.active_buf 1).cqe64 7 = true ∧
      (__mlx5_cq_clean hdr Cq.ex_full World.zero 7 0).1.cons_index = 0 ∧
      get_sw_cqe hdr (__mlx5_cq_clean hdr Cq.ex_full World.zero 7 0).1 1 = some 1 ∧
      is_equal_rsn ((__mlx5_cq_clean hdr Cq.ex_full World.zero 7 0).1.active_buf 1).cqe64 7
        = true) ∧
    (get_sw_cqe hdr Cq.ex_dv_owned 0 ≠ none ∧ get_sw_cqe hdr Cq.ex_dv_owned 1 = none ∧
      is_equal_rsn (Cq.ex_dv_owned.active_buf 0).cqe64 7 = true ∧
      (__mlx5_cq_clean hdr Cq.ex_dv_owned World.zero 7 0).1.cons_index = 0 ∧
      get_sw_cqe hdr (__mlx5_cq_clean hdr Cq.ex_dv_owned World.zero 7 0).1 0 = some 0) := by
  decide

/-- Whether free_res_cqe counts a slot to the resource is res_match; the context plays no part. -/
theorem free_res_cqe_fst (K : Hdr) (w : World) (c : Cqe64) (rsn srq ver : Nat) :
    (free_res_cqe K w c rsn srq ver).1 = res_match c rsn ver := by
  unfold free_res_cqe res_match
  split_ifs <;> simp_all

/-- The release of a receive slot keeps cqe_version. -/
theorem free_res_cqe_ver (K : Hdr) (w : World) (c : Cqe64) (rsn srq ver : Nat) :
    (free_res_cqe K w c rsn srq ver).2.cqe_version = w.cqe_version := by
  unfold free_res_cqe
  split_ifs <;> simp [World.call]

/-- An empty range of indices gives no values. -/
theorem seg_nil {α : Type} (f : Nat → α) (i L : Nat) (h : L ≤ i) : seg f i L = [] := by
  unfold seg
  have : L - i = 0 := by omega
  rw [this]; rfl

/-- The values from i on are the value at i and the values from i + 1 on. -/
theorem seg_cons {α : Type} (f : Nat → α) (i L : Nat) (h : i < L) :
    seg f i L = f i :: seg f (i + 1) L := by
  unfold seg
  have : L - i = (L - (i + 1)) + 1 := by omega
  rw [this, List.range'_succ]; rfl

/-- The values of two functions that agree on the indices i, ..., L - 1. -/
theorem seg_congr {α : Type} (f g : Nat → α) (i L : Nat)
    (h : ∀ j, i ≤ j → j < L → f j = g j) : seg f i L = seg g i L := by
  unfold seg
  apply List.map_congr_left
  intro j hj
  rw [List.mem_range'_1] at hj
  exact h j hj.1 (by omega)

/-- The values from 0 on are the map over the range. -/
theorem seg_zero {α : Type} (f : Nat → α) (L : Nat) : seg f 0 L = (List.range L).map f := by
  unfold seg
  rw [List.range_eq_range']; rfl

/-- The n values from a on, as a map over the range of n. -/
theorem seg_shift {α : Type} (f : Nat → α) (a n : Nat) :
    seg f a (a + n) = (List.range n).map (fun j => f (a + j)) := by
  unfold seg
  have : a + n - a = n := by omega
  rw [this, List.range'_eq_map_range, List.map_map]; rfl

/-- The ring position of the slot j places after the consumer index is the index modulo the ring
size. -/
theorem live_pos_eq (cq : Cq) (k j : Nat) (hk : cq.cqe = 2 ^ k - 1) (hk32 : k ≤ 32) :
    live_pos cq j = (cq.cons_index + j) % 2 ^ k := by
  unfold live_pos
  rw [hk, Nat.and_pow_two_sub_one_eq_mod]
  exact Nat.mod_mod_of_dvd _ (Nat.pow_dvd_pow 2 hk32)

/-- Two slots less than a ring size apart lie at different ring positions. -/
theorem live_pos_inj (cq : Cq) (k a b : Nat) (hk : cq.cqe = 2 ^ k - 1) (hk32 : k ≤ 32)
    (ha : a ≤ cq.cqe) (hb : b ≤ cq.cqe) (h : live_pos cq a = live_pos cq b) : a = b := by
  rw [live_pos_eq cq k a hk hk32, live_pos_eq cq k b hk hk32] at h
  have hpos : 0 < 2 ^ k := Nat.two_pow_pos k
  have h1 : a ≡ b [MOD 2 ^ k] := Nat.ModEq.add_left_cancel' cq.cons_index h
  exact Nat.ModEq.eq_of_lt_of_lt h1 (by omega) (by omega)

set_option maxRecDepth 100000 in
/-- The byte written by the compaction has the owner bit of the destination and the other bits
of the moved slot. -/
theorem owner_bits (c : Nat) (hc : c < 256) (o : Nat) (ho : o < 2) :
    ((o ||| (c &&& not32 1)) % 256) &&& 1 = o ∧
      ((o ||| (c &&& not32 1)) % 256) &&& not32 1 = c &&& not32 1 := by
  have h : ∀ c, c < 256 → ∀ o, o < 2 → ((o ||| (c &&& not32 1)) % 256) &&& 1 = o ∧
      ((o ||| (c &&& not32 1)) % 256) &&& not32 1 = c &&& not32 1 := by
    unfold not32
    decide
  exact h c hc o ho

set_option maxRecDepth 100000 in
/-- The opcode of a slot does not depend on its owner bit. -/
theorem opcode_payload (K : Hdr) (hK : K.Ok) (s : Slot) (hs : s.cqe64.op_own < 256) :
    mlx5dv_get_cqe_opcode (s.payload K).cqe64 = mlx5dv_get_cqe_opcode s.cqe64 := by
  have h : ∀ c, c < 256 → (c &&& not32 1) >>> 4 = c >>> 4 := by
    unfold not32
    decide
  unfold mlx5dv_get_cqe_opcode Slot.payload
  simp only [hK.owner_mask]
  exact h _ hs

/-- Whether a slot belongs to a resource does not depend on its owner bit. -/
theorem res_match_payload (K : Hdr) (s : Slot) (rsn ver : Nat) :
    res_match (s.payload K).cqe64 rsn ver = res_match s.cqe64 rsn ver := rfl

/-- The first loop of __mlx5_cq_clean stops at the first slot that is not visible, when fewer
slots than the ring size minus one are live. -/
theorem clean_find_prod_eq (K : Hdr) (cq : Cq) (L : Nat) (hci : Avail K cq L)
    (hL : L ≤ cq.cqe) (hc : cq.cqe < 2 ^ 32) :
    ∀ d i fuel, i + d = L → d ≤ fuel →
      clean_find_prod K cq fuel ((cq.cons_index + i) % 2 ^ 32) = (cq.cons_index + L) % 2 ^ 32 := by
  intro d
  induction d with
  | zero =>
    intro i fuel hi _
    have hiL : i = L := by omega
    subst hiL
    cases fuel with
    | zero => rfl
    | succ f => unfold clean_find_prod; rw [if_pos hci.2.2]
  | succ d ih =>
    intro i fuel hi hf
    cases fuel with
    | zero => omega
    | succ f =>
      unfold clean_find_prod
      rw [if_neg (hci.2.1 i (by omega)), if_neg]
      · have h1 : ((cq.cons_index + i) % 2 ^ 32 + 1) % 2 ^ 32 =
            (cq.cons_index + (i + 1)) % 2 ^ 32 := by
          omega
        rw [h1]
        exact ih (i + 1) f (by omega) (by omega)
      · have := hci.1
        omega

/-- The signed test of the second loop of __mlx5_cq_clean holds exactly while the index is past
the consumer index. -/
theorem sweep_test (ci i : Nat) (hci : ci < 2 ^ 32) (hi : i ≤ 2 ^ 31) :
    int_diff_nonneg (decr32 ((ci + i) % 2 ^ 32)) ci = true ↔ 0 < i := by
  unfold int_diff_nonneg decr32
  simp only [decide_eq_true_eq]
  omega

/-- The decrement of the index of the slot i + 1 is the index of the slot i. -/
theorem sweep_prev (ci i : Nat) :
    decr32 ((ci + (i + 1)) % 2 ^ 32) = (ci + i) % 2 ^ 32 := by
  unfold decr32
  omega

/-- A head that satisfies the test is kept by the filter. -/
theorem filter_cons_true {α : Type} (p : α → Bool) (a : α) (l : List α) (h : p a = true) :
    (a :: l).filter p = a :: l.filter p := by
  simp [List.filter, h]

/-- A head that fails the test is dropped by the filter. -/
theorem filter_cons_false {α : Type} (p : α → Bool) (a : α) (l : List α) (h : p a = false) :
    (a :: l).filter p = l.filter p := by
  simp [List.filter, h]

/-- At most the slots done so far have been freed. -/
theorem SweepInv_freed_le {K : Hdr} {cq : Cq} {w : World} {rsn L i : Nat} {s : CleanSt}
    (h : SweepInv K cq w rsn L i s) : s.nfreed ≤ L - i := by
  rw [h.freed]
  refine (List.length_filter_le _ _).trans ?_
  simp [seg]

/-- The sweep starts in a state where no slot is done. -/
theorem SweepInv_init (K : Hdr) (cq : Cq) (w : World) (rsn L : Nat)
    (hb : ∀ p, (cq.active_buf p).cqe64.op_own < 256) :
    SweepInv K cq w rsn L L { cq := cq, w := w, nfreed := 0 } where
  cons := rfl
  mask := rfl
  ver := rfl
  bytes := hb
  freed := by simp [seg_nil]
  below := fun _ _ => rfl
  outside := fun _ _ => rfl
  owner := fun _ => rfl
  window := by simp [seg_nil]

/-- One pass of the second loop of __mlx5_cq_clean, at the slot i, keeps the state of the sweep. -/
theorem clean_body_inv (K : Hdr) (hK : K.Ok) (cq : Cq) (w : World) (rsn srq L k i : Nat)
    (hk : cq.cqe = 2 ^ k - 1) (hk32 : k ≤ 32) (hL : L ≤ cq.cqe) (hi : i < L) (s : CleanSt)
    (h : SweepInv K cq w rsn L (i + 1) s) :
    SweepInv K cq w rsn L i
      (clean_body K s rsn srq w.cqe_version ((cq.cons_index + i) % 2 ^ 32)) := by
  have hfl := SweepInv_freed_le h
  have hslot : s.cq.active_buf ((cq.cons_index + i) % 2 ^ 32 &&& s.cq.cqe) =
      cq.active_buf (live_pos cq i) := by
    rw [h.mask]
    exact h.below i (by omega)
  have hd : ((cq.cons_index + i) % 2 ^ 32 + s.nfreed) % 2 ^ 32 &&& s.cq.cqe =
      live_pos cq (i + s.nfreed) := by
    unfold live_pos
    rw [h.mask]
    congr 1
    omega
  have hseg : seg (fun j => cq.active_buf (live_pos cq j)) i L =
      cq.active_buf (live_pos cq i) :: seg (fun j => cq.active_buf (live_pos cq j)) (i + 1) L :=
    seg_cons (fun j => cq.active_buf (live_pos cq j)) i L hi
  unfold clean_body
  simp only [get_cqe, hslot, hd, free_res_cqe_fst]
  by_cases hm : res_match (cq.active_buf (live_pos cq i)).cqe64 rsn w.cqe_version = true
  · rw [if_pos hm]
    refine ⟨h.cons, h.mask, ?_, h.bytes, ?_, fun j hj => h.below j (by omega), h.outside,
      h.owner, ?_⟩
    · exact (free_res_cqe_ver _ _ _ _ _ _).trans h.ver
    · show s.nfreed + 1 = _
      rw [hseg, filter_cons_true (fun c : Slot => res_match c.cqe64 rsn w.cqe_version) _ _ hm,
        List.length_cons, h.freed]
    · have hw := h.window
      have e : i + (s.nfreed + 1) = i + 1 + s.nfreed := by omega
      show seg _ (i + (s.nfreed + 1)) L = _
      rw [e, hw, hseg,
        filter_cons_false (fun c : Slot => !res_match c.cqe64 rsn w.cqe_version) _ _
          (by simp [hm])]
  · rw [if_neg hm]
    have hm' : res_match (cq.active_buf (live_pos cq i)).cqe64 rsn w.cqe_version = false := by
      simpa using hm
    by_cases hn : s.nfreed ≠ 0
    · rw [if_pos hn]
      have hne : ∀ j, j ≤ cq.cqe → j ≠ i + s.nfreed →
          live_pos cq j ≠ live_pos cq (i + s.nfreed) := by
        intro j hj hji he
        exact hji (live_pos_inj cq k j (i + s.nfreed) hk hk32 hj (by omega) he)
      have hob := owner_bits (cq.active_buf (live_pos cq i)).cqe64.op_own
        (by have := h.bytes (live_pos cq i); rwa [h.below i (by omega)] at this)
        ((s.cq.active_buf (live_pos cq (i + s.nfreed))).cqe64.op_own &&& 1)
        (by rw [Nat.and_one_is_mod]; omega)
      refine ⟨h.cons, h.mask, ?_, ?_, ?_, ?_, ?_, ?_, ?_⟩
      · exact (free_res_cqe_ver _ _ _ _ _ _).trans h.ver
      · intro p
        show (upd _ _ _ p : Slot).cqe64.op_own < 256
        by_cases hp : p = live_pos cq (i + s.nfreed)
        · rw [hp, upd_same]
          exact Nat.mod_lt _ (by norm_num)
        · rw [upd_other _ _ _ _ hp]
          exact h.bytes p
      · show s.nfreed = _
        rw [hseg, filter_cons_false (fun c : Slot => res_match c.cqe64 rsn w.cqe_version) _ _ hm']
        exact h.freed
      · intro j hj
        show (upd _ _ _ _ : Slot) = _
        rw [upd_other _ _ _ _ (hne j (by omega) (by omega))]
        exact h.below j (by omega)
      · intro p hp
        show (upd _ _ _ _ : Slot) = _
        rw [upd_other _ _ _ _ (hp (i + s.nfreed) (by omega))]
        exact h.outside p hp
      · intro p
        show (upd _ _ _ p : Slot).cqe64.op_own &&& _ = _
        by_cases hp : p = live_pos cq (i + s.nfreed)
        · rw [hp, upd_same]
          simp only [hK.owner_mask]
          rw [hob.1]
          have := h.owner (live_pos cq (i + s.nfreed))
          rwa [hK.owner_mask] at this
        · rw [upd_other _ _ _ _ hp]
          exact h.owner p
      · show seg (fun j => (upd _ _ _ (live_pos cq j) : Slot).payload K) (i + s.nfreed) L = _
        rw [seg_cons _ _ _ (by omega), upd_same, hseg,
          filter_cons_true (fun c : Slot => !res_match c.cqe64 rsn w.cqe_version) _ _
            (by simp [hm']),
          List.map_cons]
        congr 1
        · unfold Slot.payload
          simp only [hK.owner_mask]
          rw [hob.2]
        · have e : i + s.nfreed + 1 = i + 1 + s.nfreed := by omega
          rw [e, ← h.window]
          apply seg_congr
          intro j hj1 hj2
          show (upd _ _ _ _ : Slot).payload K = _
          rw [upd_other _ _ _ _ (hne j (by omega) (by omega))]
    · rw [if_neg hn]
      have hn0 : s.nfreed = 0 := by simpa using hn
      refine ⟨h.cons, h.mask, ?_, h.bytes, ?_, fun j hj => h.below j (by omega), h.outside,
        h.owner, ?_⟩
      · exact (free_res_cqe_ver _ _ _ _ _ _).trans h.ver
      · show s.nfreed = _
        rw [hseg, filter_cons_false (fun c : Slot => res_match c.cqe64 rsn w.cqe_version) _ _ hm']
        exact h.freed
      · show seg _ (i + s.nfreed) L = _
        have hw := h.window
        rw [hn0] at hw ⊢
        rw [Nat.add_zero] at hw ⊢
        rw [seg_cons _ _ _ hi, hw, hseg,
          filter_cons_true (fun c : Slot => !res_match c.cqe64 rsn w.cqe_version) _ _
            (by simp [hm']),
          List.map_cons, h.below i (by omega)]

/-- The second loop of __mlx5_cq_clean, started at the slot i with enough fuel, ends with all
live slots done. -/
theorem clean_sweep_inv (K : Hdr) (hK : K.Ok) (cq : Cq) (w : World) (rsn srq L k : Nat)
    (hk : cq.cqe = 2 ^ k - 1) (hk31 : k ≤ 31) (hL : L ≤ cq.cqe) (hci : cq.cons_index < 2 ^ 32) :
    ∀ i fuel s, i ≤ L → i ≤ fuel → SweepInv K cq w rsn L i s →
      SweepInv K cq w rsn L 0
        (clean_sweep K rsn srq w.cqe_version fuel ((cq.cons_index + i) % 2 ^ 32) s) := by
  have hpow : 2 ^ k ≤ 2 ^ 31 := Nat.pow_le_pow_right (by norm_num) hk31
  intro i
  induction i with
  | zero =>
    intro fuel s _ _ h
    cases fuel with
    | zero => exact h
    | succ f =>
      unfold clean_sweep
      rw [h.cons, if_neg]
      · exact h
      · rw [sweep_test _ _ hci (by omega)]
        omega
  | succ i ih =>
    intro fuel s hi hf h
    cases fuel with
    | zero => omega
    | succ f =>
      unfold clean_sweep
      rw [h.cons, if_pos ((sweep_test _ _ hci (by omega)).2 (by omega)), sweep_prev]
      exact ih f _ (by omega) (by omega)
        (clean_body_inv K hK cq w rsn srq L k i hk (by omega) hL (by omega) s h)

/-- On a queue that is not full and not owned through the direct-verbs interface,
__mlx5_cq_clean leaves the ring of a completed sweep and advances the consumer index by the
number of slots freed. -/
theorem cq_clean_sweep (K : Hdr) (hK : K.Ok) (cq : Cq) (w : World) (rsn srq k L : Nat)
    (hk : cq.cqe = 2 ^ k - 1) (hk31 : k ≤ 31)
    (hdv : cq.flags &&& K.MLX5_CQ_FLAGS_DV_OWNED = 0)
    (hbyte : ∀ p, (cq.active_buf p).cqe64.op_own < 256)
    (hlive : Avail K cq L) (hL : L ≤ cq.cqe) :
    ∃ s, SweepInv K cq w rsn L 0 s ∧
      (__mlx5_cq_clean K cq w rsn srq).1.active_buf = s.cq.active_buf ∧
      (__mlx5_cq_clean K cq w rsn srq).1.cqe = cq.cqe ∧
      (__mlx5_cq_clean K cq w rsn srq).1.cons_index = (cq.cons_index + s.nfreed) % 2 ^ 32 := by
  have hpow : 2 ^ k ≤ 2 ^ 31 := Nat.pow_le_pow_right (by norm_num) hk31
  have hpos : 0 < 2 ^ k := Nat.two_pow_pos k
  have hci := hlive.1
  have hprod : clean_find_prod K cq (cq.cqe + 1) cq.cons_index = (cq.cons_index + L) % 2 ^ 32 := by
    have := clean_find_prod_eq K cq L hlive hL (by omega) L 0 (cq.cqe + 1) (by omega) (by omega)
    simp only [Nat.add_zero, Nat.mod_eq_of_lt hci] at this
    exact this
  have hinv := clean_sweep_inv K hK cq w rsn srq L k hk hk31 hL hci L (cq.cqe + 1) _
    (le_refl L) (by omega) (SweepInv_init K cq w rsn L hbyte)
  refine ⟨_, hinv, ?_⟩
  unfold __mlx5_cq_clean
  rw [if_neg (by simp [hdv])]
  simp only [hprod]
  split_ifs with hn
  · refine ⟨rfl, hinv.mask, ?_⟩
    show (_ + _) % 2 ^ 32 = _
    rw [hinv.cons]
  · have hn0 : (clean_sweep K rsn srq w.cqe_version (cq.cqe + 1) ((cq.cons_index + L) % 2 ^ 32)
        { cq := cq, w := w, nfreed := 0 }).nfreed = 0 := by simpa using hn
    refine ⟨rfl, hinv.mask, ?_⟩
    have e : (cq.cons_index + 0) % 2 ^ 32 = cq.cons_index := by omega
    rw [hn0, e]
    exact hinv.cons

/-- A slot is software-visible exactly when its opcode is valid and its owner bit is the parity
of the index. -/
theorem get_sw_cqe_ne_none_iff (K : Hdr) (cq : Cq) (n : Nat) :
    get_sw_cqe K cq n ≠ none ↔
      (mlx5dv_get_cqe_opcode (cq.active_buf (n &&& cq.cqe)).cqe64 ≠ K.MLX5_CQE_INVALID ∧
        ((cq.active_buf (n &&& cq.cqe)).cqe64.op_own &&& K.MLX5_CQE_OWNER_MASK) ^^^
          (if n &&& (cq.cqe + 1) ≠ 0 then 1 else 0) = 0) := by
  unfold get_sw_cqe get_cqe
  split_ifs with h
  · simp [h]
  · simp [h]

/-- The ownership test reads only the mask and the slot at the position of the index. -/
theorem get_sw_cqe_congr (K : Hdr) (a b : Cq) (n : Nat) (hc : b.cqe = a.cqe)
    (hs : b.active_buf (n &&& a.cqe) = a.active_buf (n &&& a.cqe)) :
    get_sw_cqe K b n = get_sw_cqe K a n := by
  unfold get_sw_cqe get_cqe
  rw [hc, hs]

/-- Claim C10, amended: on a ring of 2 ^ k slots, k at most 31, that is not owned through the
direct-verbs interface and holds L live slots from cons_index on, L less than the ring size,
with clean_count of them matching rsn: after __mlx5_cq_clean the consumer index has advanced
by clean_count modulo 2 ^ 32, exactly the next L - clean_count slots are live, they are the
non-matching slots in their original order (up to the owner bit, which is that of the
position), and none of them matches rsn. -/
theorem cq_clean_compacts (K : Hdr) (hK : K.Ok) (cq : Cq) (w : World) (rsn srq k L : Nat)
    (hk : cq.cqe = 2 ^ k - 1) (hk31 : k ≤ 31)
    (hdv : cq.flags &&& K.MLX5_CQ_FLAGS_DV_OWNED = 0)
    (hbyte : ∀ p, (cq.active_buf p).cqe64.op_own < 256)
    (hlive : Avail K cq L) (hL : L ≤ cq.cqe) :
    (__mlx5_cq_clean K cq w rsn srq).1.cons_index =
        (cq.cons_index + clean_count cq L rsn w.cqe_version) % 2 ^ 32 ∧
      Avail K (__mlx5_cq_clean K cq w rsn srq).1 (L - clean_count cq L rsn w.cqe_version) ∧
      (live_slots (__mlx5_cq_clean K cq w rsn srq).1
          (L - clean_count cq L rsn w.cqe_version)).map (Slot.payload K) =
        ((live_slots cq L).filter (fun s => !res_match s.cqe64 rsn w.cqe_version)).map
          (Slot.payload K) ∧
      ∀ s ∈ live_slots (__mlx5_cq_clean K cq w rsn srq).1
          (L - clean_count cq L rsn w.cqe_version),
        res_match s.cqe64 rsn w.cqe_version = false := by
  obtain ⟨s, hinv, hbuf, hmask, hcons⟩ :=
    cq_clean_sweep K hK cq w rsn srq k L hk hk31 hdv hbyte hlive hL
  have hcount : s.nfreed = clean_count cq L rsn w.cqe_version := by
    rw [hinv.freed, seg_zero]; rfl
  have hle : s.nfreed ≤ L := by have := SweepInv_freed_le hinv; omega
  rw [← hcount]
  generalize __mlx5_cq_clean K cq w rsn srq = r at hbuf hmask hcons ⊢
  have hci := hlive.1
  -- positions of the queue after the call
  have hpos : ∀ j, live_pos r.1 j = live_pos cq (s.nfreed + j) := by
    intro j
    unfold live_pos
    rw [hmask, hcons]
    congr 1
    omega
  have hlist : (live_slots r.1 (L - s.nfreed)).map (Slot.payload K) =
      ((live_slots cq L).filter (fun s => !res_match s.cqe64 rsn w.cqe_version)).map
        (Slot.payload K) := by
    have hw := hinv.window
    rw [Nat.zero_add, seg_zero] at hw
    have e : L = s.nfreed + (L - s.nfreed) := by omega
    rw [e, seg_shift, ← e] at hw
    unfold live_slots
    rw [List.map_map, ← hw]
    apply List.map_congr_left
    intro j _
    show (r.1.active_buf (live_pos r.1 j)).payload K = _
    rw [hpos, hbuf]
  -- every slot left is, up to its owner bit, one of the original live slots that do not match
  have hmem : ∀ j, j < L - s.nfreed → ∃ j0, j0 < L ∧
      (cq.active_buf (live_pos cq j0)).payload K =
        (s.cq.active_buf (live_pos cq (s.nfreed + j))).payload K ∧
      res_match (cq.active_buf (live_pos cq j0)).cqe64 rsn w.cqe_version = false := by
    intro j hj
    have h1 : (r.1.active_buf (live_pos r.1 j)).payload K ∈
        (live_slots r.1 (L - s.nfreed)).map (Slot.payload K) := by
      apply List.mem_map_of_mem
      unfold live_slots
      exact List.mem_map.2 ⟨j, List.mem_range.2 hj, rfl⟩
    rw [hlist, List.mem_map] at h1
    obtain ⟨c, hc, hce⟩ := h1
    rw [List.mem_filter] at hc
    obtain ⟨hc1, hc2⟩ := hc
    unfold live_slots at hc1
    rw [List.mem_map] at hc1
    obtain ⟨j0, hj0, hj0e⟩ := hc1
    refine ⟨j0, List.mem_range.1 hj0, ?_, ?_⟩
    · rw [hj0e, hce, hpos, hbuf]
    · rw [hj0e]; simpa using hc2
  refine ⟨hcons, ⟨?_, ?_, ?_⟩, hlist, ?_⟩
  · rw [hcons]; exact Nat.mod_lt _ (Nat.two_pow_pos 32)
  · intro j hj
    obtain ⟨j0, hj0, hpay, _⟩ := hmem j hj
    have hn : (r.1.cons_index + j) % 2 ^ 32 = (cq.cons_index + (s.nfreed + j)) % 2 ^ 32 := by
      rw [hcons]; omega
    rw [hn]
    have horig := (get_sw_cqe_ne_none_iff K cq _).1 (hlive.2.1 (s.nfreed + j) (by omega))
    have horig0 := (get_sw_cqe_ne_none_iff K cq _).1 (hlive.2.1 j0 hj0)
    rw [get_sw_cqe_ne_none_iff, hmask, hbuf]
    refine ⟨?_, ?_⟩
    · have e1 := opcode_payload K hK _ (hinv.bytes
        ((cq.cons_index + (s.nfreed + j)) % 2 ^ 32 &&& cq.cqe))
      have e2 := opcode_payload K hK _ (hbyte ((cq.cons_index + j0) % 2 ^ 32 &&& cq.cqe))
      rw [← e1]
      have hpay' : (cq.active_buf ((cq.cons_index + j0) % 2 ^ 32 &&& cq.cqe)).payload K =
          (s.cq.active_buf ((cq.cons_index + (s.nfreed + j)) % 2 ^ 32 &&& cq.cqe)).payload K :=
        hpay
      rw [← hpay', e2]
      exact horig0.1
    · rw [hinv.owner]
      exact horig.2
  · have hn : (r.1.cons_index + (L - s.nfreed)) % 2 ^ 32 = (cq.cons_index + L) % 2 ^ 32 := by
      rw [hcons]; omega
    rw [hn, get_sw_cqe_congr K cq r.1 _ hmask, hlive.2.2]
    rw [hbuf]
    apply hinv.outside
    intro j hj he
    have : L = j := live_pos_inj cq k L j hk (by omega) hL (by omega) he
    omega
  · intro c hc
    unfold live_slots at hc
    rw [List.mem_map] at hc
    obtain ⟨j, hj, hje⟩ := hc
    obtain ⟨j0, _, hpay, hm⟩ := hmem j (List.mem_range.1 hj)
    rw [← hje, hpos, hbuf, ← res_match_payload K, ← hpay, res_match_payload]
    exact hm

/-- Claim C10, witness: a ring of 4 slots with live slots for the queue numbers 7, 5, 7, cleaned
for rsn 7, is left with consumer index 2 and the one live slot for queue number 5. -/
theorem cq_clean_compacts_witness :
    Avail hdr Cq.ex_clean 3 ∧ clean_count Cq.ex_clean 3 7 World.zero.cqe_version = 2 ∧
      (__mlx5_cq_clean hdr Cq.ex_clean World.zero 7 0).1.cons_index = 2 ∧
      Avail hdr (__mlx5_cq_clean hdr Cq.ex_clean World.zero 7 0).1 1 ∧
      (live_slots (__mlx5_cq_clean hdr Cq.ex_clean World.zero 7 0).1 1).map (Slot.payload hdr) =
        [(Slot.of (Cqe64.ex_req 5)).payload hdr] := by
  have hav : Avail hdr Cq.ex_clean 3 := by
    refine ⟨by decide, ?_, by decide⟩
    intro j hj
    interval_cases j <;> decide
  have hb : ∀ p, (Cq.ex_clean.active_buf p).cqe64.op_own < 256 := by
    intro p
    unfold Cq.ex_clean upd
    simp only
    split_ifs <;> decide
  have h := cq_clean_compacts hdr hdr_ok Cq.ex_clean World.zero 7 0 2 3 (by decide) (by decide)
    (by decide) hb hav (by decide)
  have hc : clean_count Cq.ex_clean 3 7 World.zero.cqe_version = 2 := by decide
  rw [hc] at h
  exact ⟨hav, hc, h.1, h.2.1, h.2.2.1.trans rfl⟩

/-! ### Resize copy (C11) -/

/-- Claim C11, failing input: a ring of 64-byte slots with one live completion
for queue number 7 before the resize marker, copied to a new ring of 128-byte
slots. mlx5_cq_resize_copy_cqes reports success (the consumer index advances
past the marker), but the record of the destination slot 1 is still the
invalid record the new ring held (op_own 0xf0, queue number 0): memcpy put the
64 source bytes into the first half of the slot, and the record of a 128-byte
slot is its second half. With a new ring of 64-byte slots the same ring is
copied as the claim says. -/
theorem resize_copy_size_mismatch :
    (Cq.ex_resize_128.active_buf 0).cqe64.sop_drop_qpn = ⟨0x0a000007⟩ ∧
      (mlx5_cq_resize_copy_cqes hdr Layout.ex Cq.ex_resize_128).map
        (fun c => (c.cons_index, (c.resize_buf 1).cqe64.op_own,
          (c.resize_buf 1).cqe64.sop_drop_qpn)) = some (1, 0xf0, ⟨0⟩) ∧
      (mlx5_cq_resize_copy_cqes hdr Layout.ex Cq.ex_resize).map
        (fun c => (c.cons_index, (c.resize_buf 1).cqe64.op_own,
          (c.resize_buf 1).cqe64.sop_drop_qpn)) = some (1, 0, ⟨0x0a000007⟩) := by
  decide

/-! ### Opcode table of send completions (C12) -/

/-- The switch of handle_good_req as a table: the completion opcode for each hardware
opcode when the work request is not raw, IBV_WC_DRIVER2 when it is, the byte count of a
read, and the immediate flag of the two _IMM opcodes. -/
theorem handle_good_req_table (K : Hdr) (hK : K.Ok) (wc : Wc) (cqe : Cqe64) (wq : Wq)
    (idx : Nat) :
    (wq.wr_data idx = K.IBV_WC_DRIVER2 →
      (handle_good_req K wc cqe wq idx).opcode = K.IBV_WC_DRIVER2) ∧
    (wq.wr_data idx ≠ K.IBV_WC_DRIVER2 →
      ((be32toh cqe.sop_drop_qpn >>> 24 = K.MLX5_OPCODE_RDMA_WRITE ∨
          be32toh cqe.sop_drop_qpn >>> 24 = K.MLX5_OPCODE_RDMA_WRITE_IMM) →
        (handle_good_req K wc cqe wq idx).opcode = K.IBV_WC_RDMA_WRITE) ∧
      ((be32toh cqe.sop_drop_qpn >>> 24 = K.MLX5_OPCODE_SEND ∨
          be32toh cqe.sop_drop_qpn >>> 24 = K.MLX5_OPCODE_SEND_IMM ∨
          be32toh cqe.sop_drop_qpn >>> 24 = K.MLX5_OPCODE_SEND_INVAL) →
        (handle_good_req K wc cqe wq idx).opcode = K.IBV_WC_SEND) ∧
      (be32toh cqe.sop_drop_qpn >>> 24 = K.MLX5_OPCODE_RDMA_READ →
        (handle_good_req K wc cqe wq idx).opcode = K.IBV_WC_RDMA_READ) ∧
      (be32toh cqe.sop_drop_qpn >>> 24 = K.MLX5_OPCODE_ATOMIC_CS →
        (handle_good_req K wc cqe wq idx).opcode = K.IBV_WC_COMP_SWAP) ∧
      (be32toh cqe.sop_drop_qpn >>> 24 = K.MLX5_OPCODE_ATOMIC_FA →
        (handle_good_req K wc cqe wq idx).opcode = K.IBV_WC_FETCH_ADD) ∧
      (be32toh cqe.sop_drop_qpn >>> 24 = K.MLX5_OPCODE_TSO →
        (handle_good_req K wc cqe wq idx).opcode = K.IBV_WC_TSO) ∧
      ((be32toh cqe.sop_drop_qpn >>> 24 = K.MLX5_OPCODE_UMR ∨
          be32toh cqe.sop_drop_qpn >>> 24 = K.MLX5_OPCODE_SET_PSV ∨
          be32toh cqe.sop_drop_qpn >>> 24 = K.MLX5_OPCODE_NOP ∨
          be32toh cqe.sop_drop_qpn >>> 24 = K.MLX5_OPCODE_MMO) →
        (handle_good_req K wc cqe wq idx).opcode = wq.wr_data idx)) ∧
    (be32toh cqe.sop_drop_qpn >>> 24 = K.MLX5_OPCODE_RDMA_READ →
      (handle_good_req K wc cqe wq idx).byte_len = be32toh cqe.byte_cnt) ∧
    ((be32toh cqe.sop_drop_qpn >>> 24 = K.MLX5_OPCODE_RDMA_WRITE_IMM ∨
        be32toh cqe.sop_drop_qpn >>> 24 = K.MLX5_OPCODE_SEND_IMM) →
      (handle_good_req K wc cqe wq idx).wc_flags = wc.wc_flags ||| K.IBV_WC_WITH_IMM) := by
  have h := hK.wqe_opcodes
  simp only [List.nodup_cons, List.mem_cons, List.mem_singleton, List.not_mem_nil, not_or,
    List.nodup_nil, or_false, and_true, not_false_eq_true] at h
  unfold handle_good_req
  simp only []
  generalize be32toh cqe.sop_drop_qpn >>> 24 = op
  refine ⟨fun hd => ?_, fun hd => ⟨?_, ?_, ?_, ?_, ?_, ?_, ?_⟩, ?_, ?_⟩
  · simp [hd]
  · rintro (h1 | h1) <;> subst h1 <;> simp [hd, h]
  · rintro (h1 | h1 | h1) <;> subst h1 <;> simp [hd, h]
  · rintro h1; subst h1; simp [hd, h]
  · rintro h1; subst h1; simp [hd, h]
  · rintro h1; subst h1; simp [hd, h]
  · rintro h1; subst h1; simp [hd, h]
  · rintro (h1 | h1 | h1 | h1) <;> subst h1 <;> simp [hd, h]
  · rintro h1; subst h1
    by_cases hd : wq.wr_data idx = K.IBV_WC_DRIVER2 <;> simp [hd, h]
  · rintro (h1 | h1) <;> subst h1 <;>
      by_cases hd : wq.wr_data idx = K.IBV_WC_DRIVER2 <;> simp [hd, h]

/-- Claim C12. For every send-success slot (opcode MLX5_CQE_REQ) whose identifier resolves to
the queue-pair Q, immediate-mode decode returns CQ_OK with the completion opcode of the
table: with hw the hardware opcode (sop_drop_qpn >> 24) and wr the recorded wr_data[idx],
the opcode is IBV_WC_DRIVER2 whenever wr is IBV_WC_DRIVER2; otherwise RDMA_WRITE and
RDMA_WRITE_IMM give IBV_WC_RDMA_WRITE, SEND, SEND_IMM and SEND_INVAL give IBV_WC_SEND,
RDMA_READ gives IBV_WC_RDMA_READ, ATOMIC_CS gives IBV_WC_COMP_SWAP, ATOMIC_FA gives
IBV_WC_FETCH_ADD, TSO gives IBV_WC_TSO, and UMR, SET_PSV, NOP and MMO give wr. RDMA_READ
reports byte_len = byte_cnt, and the two _IMM opcodes report the flag IBV_WC_WITH_IMM. -/
theorem parse_req_opcode_table (K : Hdr) (hK : K.Ok) (E : Ext) (st : PState)
    (pos cqe_ver Q : Nat)
    (hop : mlx5dv_get_cqe_opcode (get_cqe st.cq pos).cqe64 = K.MLX5_CQE_REQ)
    (hres : get_req_context st.w st.cur_rsc
      (if cqe_ver ≠ 0 then be32toh (get_cqe st.cq pos).cqe64.srqn_uidx &&& 0xffffff
        else be32toh (get_cqe st.cq pos).cqe64.sop_drop_qpn &&& 0xffffff) cqe_ver = Q)
    (hQ : Q ≠ 0) :
    ∃ st1, mlx5_parse_cqe K E st pos cqe_ver 0 = Res.ret CQ_OK st1 ∧
      ∀ hw wr, hw = be32toh (get_cqe st.cq pos).cqe64.sop_drop_qpn >>> 24 →
        wr = (st.w.qp Q).sq.wr_data
          (be16toh (get_cqe st.cq pos).cqe64.wqe_counter &&& decr32 (st.w.qp Q).sq.wqe_cnt) →
        (wr = K.IBV_WC_DRIVER2 → st1.wc.opcode = K.IBV_WC_DRIVER2) ∧
        (wr ≠ K.IBV_WC_DRIVER2 →
          ((hw = K.MLX5_OPCODE_RDMA_WRITE ∨ hw = K.MLX5_OPCODE_RDMA_WRITE_IMM) →
            st1.wc.opcode = K.IBV_WC_RDMA_WRITE) ∧
          ((hw = K.MLX5_OPCODE_SEND ∨ hw = K.MLX5_OPCODE_SEND_IMM ∨
              hw = K.MLX5_OPCODE_SEND_INVAL) → st1.wc.opcode = K.IBV_WC_SEND) ∧
          (hw = K.MLX5_OPCODE_RDMA_READ → st1.wc.opcode = K.IBV_WC_RDMA_READ) ∧
          (hw = K.MLX5_OPCODE_ATOMIC_CS → st1.wc.opcode = K.IBV_WC_COMP_SWAP) ∧
          (hw = K.MLX5_OPCODE_ATOMIC_FA → st1.wc.opcode = K.IBV_WC_FETCH_ADD) ∧
          (hw = K.MLX5_OPCODE_TSO → st1.wc.opcode = K.IBV_WC_TSO) ∧
          ((hw = K.MLX5_OPCODE_UMR ∨ hw = K.MLX5_OPCODE_SET_PSV ∨ hw = K.MLX5_OPCODE_NOP ∨
              hw = K.MLX5_OPCODE_MMO) → st1.wc.opcode = wr)) ∧
        (hw = K.MLX5_OPCODE_RDMA_READ →
          st1.wc.byte_len = be32toh (get_cqe st.cq pos).cqe64.byte_cnt) ∧
        ((hw = K.MLX5_OPCODE_RDMA_WRITE_IMM ∨ hw = K.MLX5_OPCODE_SEND_IMM) →
          st1.wc.wc_flags = K.IBV_WC_WITH_IMM) := by
  have hres' : get_req_context st.w st.cur_rsc
      (if cqe_ver ≠ 0 then be32toh (get_cqe st.cq pos).cqe64.srqn_uidx &&& 0xffffff
        else be32toh (get_cqe st.cq pos).cqe64.sop_drop_qpn &&& 0xffffff) cqe_ver ≠ 0 := by
    rw [hres]; exact hQ
  have hstep := parse_step_req_imm K E st pos cqe_ver hop hres'
  refine ⟨_, mlx5_parse_cqe_of_ret K E _ _ pos cqe_ver 0 CQ_OK hstep, ?_⟩
  intro hw wr hhw hwr
  subst hhw hwr
  simp only [hres]
  have ht := handle_good_req_table K hK
    { st.wc with wc_flags := 0, qp_num := be32toh (get_cqe st.cq pos).cqe64.sop_drop_qpn &&& 0xffffff }
    (get_cqe st.cq pos).cqe64 (st.w.qp Q).sq
    (be16toh (get_cqe st.cq pos).cqe64.wqe_counter &&& decr32 (st.w.qp Q).sq.wqe_cnt)
  refine ⟨ht.1, ht.2.1, ht.2.2.1, fun h => ?_⟩
  have := ht.2.2.2 h
  simpa using this

/-- Witness for C12: the send example (hardware opcode SEND, work request not raw) decodes
to the opcode IBV_WC_SEND. -/
theorem parse_req_opcode_table_witness :
    ∃ st1, mlx5_parse_cqe hdr Ext.zero PState.ex_send 0 0 0 = Res.ret CQ_OK st1 ∧
      st1.wc.opcode = hdr.IBV_WC_SEND := by
  obtain ⟨st1, h1, h2⟩ := parse_req_opcode_table hdr hdr_ok Ext.zero PState.ex_send 0 0 1
    (by decide) (by decide) (by decide)
  exact ⟨st1, h1, ((h2 _ _ rfl rfl).2.1 (by decide)).2.1 (Or.inl (by decide))⟩

/-! ### Receive work-request ids (C13) -/

/-- No inline-scatter bit, no copy to the shared receive queue. -/
theorem scatter_recv_srq_none (K : Hdr) (E : Ext) (w : World) (cqe : Cqe64)
    (pos srq wqe_ctr size err : Nat)
    (h32 : cqe.op_own &&& K.MLX5_INLINE_SCATTER_32 = 0)
    (h64 : cqe.op_own &&& K.MLX5_INLINE_SCATTER_64 = 0) :
    scatter_recv_srq K E w cqe pos srq wqe_ctr size err = (err, w) := by
  unfold scatter_recv_srq
  simp [h32, h64]

/-- No inline-scatter bit, no copy to the receive queue. -/
theorem scatter_recv_wqe_none (K : Hdr) (E : Ext) (w : World) (cqe : Cqe64)
    (pos qp wqe_ctr size err : Nat)
    (h32 : cqe.op_own &&& K.MLX5_INLINE_SCATTER_32 = 0)
    (h64 : cqe.op_own &&& K.MLX5_INLINE_SCATTER_64 = 0) :
    scatter_recv_wqe K E w cqe pos qp wqe_ctr size err = (err, w) := by
  unfold scatter_recv_wqe
  simp [h32, h64]

/-- The statement ++wq->tail leaves the receive queue with its tail one further (32-bit) and
nothing else changed. -/
theorem resp_wq_advance_wq (K : Hdr) (w : World) (cur_rsc : Nat) :
    resp_wq K (resp_wq_advance K w cur_rsc) cur_rsc =
      { resp_wq K w cur_rsc with tail := ((resp_wq K w cur_rsc).tail + 1) % 2 ^ 32 } := by
  unfold resp_wq resp_wq_advance
  by_cases h : (w.rsc cur_rsc).type = K.MLX5_RSC_TYPE_QP
  · simp [h, World.setQp, upd_same]
  · simp [h, World.setRwq, upd_same]

/-- For a queue of at most 2 ^ 16 entries the 16-bit local wqe_ctr holds tail & (wqe_cnt - 1)
untruncated. -/
theorem wqe_ctr_small (tail cnt : Nat) (h0 : 0 < cnt) (h1 : cnt ≤ 2 ^ 16) :
    (tail &&& decr32 cnt) % 2 ^ 16 = tail &&& (cnt - 1) := by
  have e : decr32 cnt = cnt - 1 := by unfold decr32; omega
  rw [e]
  apply Nat.mod_eq_of_lt
  have : tail &&& (cnt - 1) ≤ cnt - 1 := Nat.and_le_right
  omega

/-- The work-request id and the context handle_responder leaves, without inline scatter. -/
theorem handle_responder_wr (K : Hdr) (E : Ext) (wc : Wc) (w : World) (cqe : Cqe64)
    (pos cur_rsc srq : Nat)
    (h32 : cqe.op_own &&& K.MLX5_INLINE_SCATTER_32 = 0)
    (h64 : cqe.op_own &&& K.MLX5_INLINE_SCATTER_64 = 0) :
    (handle_responder K E wc w cqe pos cur_rsc srq).2.1.wr_id =
        (if srq ≠ 0 then (w.srq srq).wrid (be16toh cqe.wqe_counter)
          else (resp_wq K w cur_rsc).wrid
            (((resp_wq K w cur_rsc).tail &&& decr32 (resp_wq K w cur_rsc).wqe_cnt) % 2 ^ 16)) ∧
      (handle_responder K E wc w cqe pos cur_rsc srq).2.2 =
        (if srq ≠ 0 then w.call (ExtCall.free_srq_wqe srq (be16toh cqe.wqe_counter))
          else resp_wq_advance K w cur_rsc) := by
  unfold handle_responder
  simp only [scatter_recv_srq_none K E _ _ _ _ _ _ _ h32 h64,
    scatter_recv_wqe_none K E _ _ _ _ _ _ _ h32 h64]
  by_cases hs : srq ≠ 0
  · simp only [if_pos hs, ne_eq, not_true_eq_false, if_false]
    refine ⟨?_, trivial⟩
    split_ifs <;> rfl
  · simp only [if_neg hs, ne_eq, not_true_eq_false, if_false]
    refine ⟨?_, trivial⟩
    split_ifs <;> rfl

/-- The work-request id and the context handle_responder_lazy leaves, without inline scatter. -/
theorem handle_responder_lazy_wr (K : Hdr) (E : Ext) (cq : Cq) (w : World) (cqe : Cqe64)
    (pos cur_rsc srq : Nat)
    (h32 : cqe.op_own &&& K.MLX5_INLINE_SCATTER_32 = 0)
    (h64 : cqe.op_own &&& K.MLX5_INLINE_SCATTER_64 = 0) :
    (handle_responder_lazy K E cq w cqe pos cur_rsc srq).2.1.wr_id =
        (if srq ≠ 0 then (w.srq srq).wrid (be16toh cqe.wqe_counter)
          else (resp_wq K w cur_rsc).wrid
            (((resp_wq K w cur_rsc).tail &&& decr32 (resp_wq K w cur_rsc).wqe_cnt) % 2 ^ 16)) ∧
      (handle_responder_lazy K E cq w cqe pos cur_rsc srq).2.2 =
        (if srq ≠ 0 then w.call (ExtCall.free_srq_wqe srq (be16toh cqe.wqe_counter))
          else resp_wq_advance K w cur_rsc) := by
  unfold handle_responder_lazy
  simp only [scatter_recv_srq_none K E _ _ _ _ _ _ _ h32 h64,
    scatter_recv_wqe_none K E _ _ _ _ _ _ _ h32 h64]
  by_cases hs : srq ≠ 0
  · simp only [if_pos hs]
    exact ⟨trivial, trivial⟩
  · simp only [if_neg hs]
    exact ⟨trivial, trivial⟩

/-- Claim C13. For a receive-success slot without inline scatter, handle_responder and
handle_responder_lazy report the same wr_id and leave the same context. With a shared
receive queue (srq not NULL) the wr_id is srq.wrid[wqe_counter] and the slot wqe_counter is
freed back to it (the call mlx5_free_srq_wqe). Otherwise, with rq the receive queue of the
resource, the wr_id is rq.wrid[wqe_ctr], where the 16-bit local wqe_ctr holds rq.tail &
(rq.wqe_cnt - 1), which is that index itself for every queue of at most 2 ^ 16 entries, and
rq.tail has increased by exactly 1 (32-bit) with the rest of rq unchanged. -/
theorem responder_wr_id (K : Hdr) (E : Ext) (wc : Wc) (cq : Cq) (w : World) (cqe : Cqe64)
    (pos cur_rsc srq : Nat)
    (h32 : cqe.op_own &&& K.MLX5_INLINE_SCATTER_32 = 0)
    (h64 : cqe.op_own &&& K.MLX5_INLINE_SCATTER_64 = 0) :
    ((handle_responder K E wc w cqe pos cur_rsc srq).2.1.wr_id =
        (handle_responder_lazy K E cq w cqe pos cur_rsc srq).2.1.wr_id ∧
      (handle_responder K E wc w cqe pos cur_rsc srq).2.2 =
        (handle_responder_lazy K E cq w cqe pos cur_rsc srq).2.2) ∧
    (srq ≠ 0 →
      (handle_responder K E wc w cqe pos cur_rsc srq).2.1.wr_id =
        (w.srq srq).wrid (be16toh cqe.wqe_counter) ∧
      (handle_responder K E wc w cqe pos cur_rsc srq).2.2 =
        w.call (ExtCall.free_srq_wqe srq (be16toh cqe.wqe_counter))) ∧
    (srq = 0 →
      (handle_responder K E wc w cqe pos cur_rsc srq).2.1.wr_id =
        (resp_wq K w cur_rsc).wrid
          (((resp_wq K w cur_rsc).tail &&& decr32 (resp_wq K w cur_rsc).wqe_cnt) % 2 ^ 16) ∧
      (0 < (resp_wq K w cur_rsc).wqe_cnt → (resp_wq K w cur_rsc).wqe_cnt ≤ 2 ^ 16 →
        (handle_responder K E wc w cqe pos cur_rsc srq).2.1.wr_id =
          (resp_wq K w cur_rsc).wrid
            ((resp_wq K w cur_rsc).tail &&& ((resp_wq K w cur_rsc).wqe_cnt - 1))) ∧
      resp_wq K (handle_responder K E wc w cqe pos cur_rsc srq).2.2 cur_rsc =
        { resp_wq K w cur_rsc with tail := ((resp_wq K w cur_rsc).tail + 1) % 2 ^ 32 }) := by
  obtain ⟨a1, a2⟩ := handle_responder_wr K E wc w cqe pos cur_rsc srq h32 h64
  obtain ⟨b1, b2⟩ := handle_responder_lazy_wr K E cq w cqe pos cur_rsc srq h32 h64
  refine ⟨⟨a1.trans b1.symm, a2.trans b2.symm⟩, fun hs => ?_, fun hs => ?_⟩
  · rw [a1, a2, if_pos hs, if_pos hs]
    exact ⟨rfl, rfl⟩
  · have hs' : ¬ srq ≠ 0 := fun h => h hs
    rw [a1, a2, if_neg hs', if_neg hs']
    refine ⟨rfl, fun h0 h1 => ?_, resp_wq_advance_wq K w cur_rsc⟩
    rw [wqe_ctr_small _ _ h0 h1]

/-- Witness for C13: a queue-pair with one outstanding receive of id 99 and tail 0: both
decoders report the id 99, and the tail becomes 1. -/
theorem responder_wr_id_witness :
    (handle_responder hdr Ext.zero Wc.zero PState.ex_resp_err.w
        { Cqe64.zero with op_own := 0x20 } 0 1 0).2.1.wr_id = 99 ∧
      (resp_wq hdr (handle_responder hdr Ext.zero Wc.zero PState.ex_resp_err.w
        { Cqe64.zero with op_own := 0x20 } 0 1 0).2.2 1).tail = 1 ∧
      (handle_responder_lazy hdr Ext.zero Cq.fresh4 PState.ex_resp_err.w
        { Cqe64.zero with op_own := 0x20 } 0 1 0).2.1.wr_id = 99 := by
  have h := responder_wr_id hdr Ext.zero Wc.zero Cq.fresh4 PState.ex_resp_err.w
    { Cqe64.zero with op_own := 0x20 } 0 1 0 (by decide) (by decide)
  have h3 := h.2.2 rfl
  refine ⟨(h3.2.1 (by decide) (by decide)).trans (by decide), ?_, ?_⟩
  · rw [h3.2.2]; decide
  · rw [← h.1.1]; exact (h3.2.1 (by decide) (by decide)).trans (by decide)

/-! ### Receive flags (C14) -/

/-- The header values of hdr number the completion flags as Hdr.WcFlagsOk says. -/
theorem hdr_wc_flags_ok : hdr.WcFlagsOk := by
  constructor <;> decide

/-- The function get_csum_ok yields IBV_WC_IP_CSUM_OK (4) when the slot has L3_OK and L4_OK and
an IPv4 header, else 0. -/
theorem get_csum_ok_val (K : Hdr) (hF : K.WcFlagsOk) (cqe : Cqe64) :
    get_csum_ok K cqe =
      if cqe.hds_ip_ext &&& (K.MLX5_CQE_L4_OK ||| K.MLX5_CQE_L3_OK) =
          (K.MLX5_CQE_L4_OK ||| K.MLX5_CQE_L3_OK) ∧
        get_cqe_l3_hdr_type cqe = K.MLX5_CQE_L3_HDR_TYPE_IPV4 then 4 else 0 := by
  unfold get_csum_ok
  rw [hF.csum_shift]
  by_cases h1 : cqe.hds_ip_ext &&& (K.MLX5_CQE_L4_OK ||| K.MLX5_CQE_L3_OK) =
      (K.MLX5_CQE_L4_OK ||| K.MLX5_CQE_L3_OK) <;>
    by_cases h2 : get_cqe_l3_hdr_type cqe = K.MLX5_CQE_L3_HDR_TYPE_IPV4 <;>
    simp [h1, h2]

/-- What handle_responder leaves when it returns success: the flags it was given, or-ed with the
checksum flag (only without shared receive queue, for a queue-pair with the RX-checksum
capability), the immediate or invalidate flag of the opcode and the GRH flag; and the opcode
and the invalidated key by the opcode of the slot. -/
theorem handle_responder_ok_form (K : Hdr) (hK : K.Ok) (E : Ext) (wc : Wc) (w : World)
    (cqe : Cqe64) (pos cur_rsc srq : Nat)
    (h0 : (handle_responder K E wc w cqe pos cur_rsc srq).1 = 0) :
    (handle_responder K E wc w cqe pos cur_rsc srq).2.1.wc_flags =
        ((wc.wc_flags |||
            (if srq = 0 ∧ (w.rsc cur_rsc).type = K.MLX5_RSC_TYPE_QP ∧
                (w.qp cur_rsc).qp_cap_cache &&& K.MLX5_RX_CSUM_VALID ≠ 0 then
              get_csum_ok K cqe else 0)) |||
          (if cqe.op_own >>> 4 = K.MLX5_CQE_RESP_WR_IMM ∨
              cqe.op_own >>> 4 = K.MLX5_CQE_RESP_SEND_IMM then K.IBV_WC_WITH_IMM
            else if cqe.op_own >>> 4 = K.MLX5_CQE_RESP_SEND_INV then K.IBV_WC_WITH_INV
            else 0)) |||
          (if (be32toh cqe.flags_rqpn >>> 28) &&& 3 ≠ 0 then K.IBV_WC_GRH else 0) ∧
      (cqe.op_own >>> 4 = K.MLX5_CQE_RESP_WR_IMM →
        (handle_responder K E wc w cqe pos cur_rsc srq).2.1.opcode =
          K.IBV_WC_RECV_RDMA_WITH_IMM) ∧
      (cqe.op_own >>> 4 = K.MLX5_CQE_RESP_SEND ∨ cqe.op_own >>> 4 = K.MLX5_CQE_RESP_SEND_IMM ∨
          cqe.op_own >>> 4 = K.MLX5_CQE_RESP_SEND_INV →
        (handle_responder K E wc w cqe pos cur_rsc srq).2.1.opcode = K.IBV_WC_RECV) ∧
      (cqe.op_own >>> 4 = K.MLX5_CQE_RESP_SEND_INV →
        (handle_responder K E wc w cqe pos cur_rsc srq).2.1.invalidated_rkey =
          be32toh cqe.imm_inval_pkey) := by
  have h := hK.cqe_opcodes
  simp only [List.nodup_cons, List.mem_cons, List.mem_singleton, List.not_mem_nil, not_or,
    List.nodup_nil, or_false, and_true, not_false_eq_true] at h
  have hne : ¬ K.MLX5_CQE_RESP_SEND = K.MLX5_CQE_RESP_WR_IMM ∧
      ¬ K.MLX5_CQE_RESP_SEND_IMM = K.MLX5_CQE_RESP_WR_IMM ∧
      ¬ K.MLX5_CQE_RESP_SEND_IMM = K.MLX5_CQE_RESP_SEND ∧
      ¬ K.MLX5_CQE_RESP_SEND_INV = K.MLX5_CQE_RESP_WR_IMM ∧
      ¬ K.MLX5_CQE_RESP_SEND_INV = K.MLX5_CQE_RESP_SEND ∧
      ¬ K.MLX5_CQE_RESP_SEND_INV = K.MLX5_CQE_RESP_SEND_IMM := by
    simp [h]
  clear h
  obtain ⟨n1, n2, n3, n4, n5, n6⟩ := hne
  unfold handle_responder at h0 ⊢
  simp only [] at h0 ⊢
  generalize cqe.op_own >>> 4 = op at h0 ⊢
  by_cases hs : srq = 0
  · subst hs
    simp only [ne_eq, not_true_eq_false, if_false, true_and] at h0 ⊢
    generalize scatter_recv_wqe K E (resp_wq_advance K w cur_rsc) cqe pos cur_rsc _ _ 0 = c
      at h0 ⊢
    by_cases hc : c.1 = 0
    · simp only [hc, not_true_eq_false, if_false]
      by_cases hcap : (w.rsc cur_rsc).type = K.MLX5_RSC_TYPE_QP ∧
          ¬ (w.qp cur_rsc).qp_cap_cache &&& K.MLX5_RX_CSUM_VALID = 0
      · simp only [hcap, and_self, not_false_eq_true, if_true]
        refine ⟨?_, ?_, ?_, ?_⟩
        · split_ifs <;> simp_all
        · intro h1; subst h1; simp [n1, n2, n3, n4, n5, n6]
        · rintro (h1 | h1 | h1) <;> subst h1 <;> simp [n1, n2, n3, n4, n5, n6]
        · intro h1; subst h1; simp [n1, n2, n3, n4, n5, n6]
      · simp only [hcap, if_false]
        refine ⟨?_, ?_, ?_, ?_⟩
        · split_ifs <;> simp_all
        · intro h1; subst h1; simp [n1, n2, n3, n4, n5, n6]
        · rintro (h1 | h1 | h1) <;> subst h1 <;> simp [n1, n2, n3, n4, n5, n6]
        · intro h1; subst h1; simp [n1, n2, n3, n4, n5, n6]
    · simp [hc] at h0
  · simp only [ne_eq, hs, not_false_eq_true, if_true, false_and, if_false] at h0 ⊢
    generalize scatter_recv_srq K E _ cqe pos srq _ _ 0 = c at h0 ⊢
    by_cases hc : c.1 = 0
    · simp only [hc, not_true_eq_false, if_false]
      refine ⟨?_, ?_, ?_, ?_⟩
      · split_ifs <;> simp_all
      · intro h1; subst h1; simp [n1, n2, n3, n4, n5, n6]
      · rintro (h1 | h1 | h1) <;> subst h1 <;> simp [n1, n2, n3, n4, n5, n6]
      · intro h1; subst h1; simp [n1, n2, n3, n4, n5, n6]
    · simp [hc] at h0

/-- When get_cur_rsc succeeds and marks the slot as one of a shared receive queue, it has found
that queue. -/
theorem get_cur_rsc_srq_ne (K : Hdr) (w : World) (cqe_ver qpn srqn_uidx cur_rsc cur_srq : Nat)
    (c : RscCtx)
    (h : get_cur_rsc K w cqe_ver qpn srqn_uidx
      { cur_rsc := cur_rsc, cur_srq := cur_srq, is_srq := 0 } = (CQ_OK, c))
    (hs : c.is_srq ≠ 0) : c.cur_srq ≠ 0 := by
  have hne : (CQ_POLL_ERR = CQ_OK) = False := by simp [CQ_POLL_ERR, CQ_OK]
  unfold get_cur_rsc get_resp_ctx_v1 get_resp_ctx_v1_switch get_srq_ctx get_qp_ctx at h
  simp only [] at h
  split_ifs at h <;> simp only [Prod.mk.injEq, hne, false_and, true_and] at h <;>
    subst h <;> simp_all

/-- The immediate-mode pass over a receive-success slot whose resource resolves:
handle_responder on the cleared completion, with the shared receive queue when there is one. -/
theorem parse_step_resp_imm (K : Hdr) (hK : K.Ok) (E : Ext) (st : PState) (pos cqe_ver : Nat)
    (c : RscCtx)
    (hop : mlx5dv_get_cqe_opcode (get_cqe st.cq pos).cqe64 = K.MLX5_CQE_RESP_WR_IMM ∨
      mlx5dv_get_cqe_opcode (get_cqe st.cq pos).cqe64 = K.MLX5_CQE_RESP_SEND ∨
      mlx5dv_get_cqe_opcode (get_cqe st.cq pos).cqe64 = K.MLX5_CQE_RESP_SEND_IMM ∨
      mlx5dv_get_cqe_opcode (get_cqe st.cq pos).cqe64 = K.MLX5_CQE_RESP_SEND_INV)
    (hres : get_cur_rsc K st.w cqe_ver
      (be32toh (get_cqe st.cq pos).cqe64.sop_drop_qpn &&& 0xffffff)
      (be32toh (get_cqe st.cq pos).cqe64.srqn_uidx &&& 0xffffff)
      { cur_rsc := st.cur_rsc, cur_srq := st.cur_srq, is_srq := 0 } = (CQ_OK, c)) :
    parse_step K E st pos cqe_ver 0 =
      Step.ret CQ_OK
        { st with
          cur_rsc := c.cur_rsc, cur_srq := c.cur_srq,
          wc := { (handle_responder K E
              { st.wc with wc_flags := 0,
                           qp_num := be32toh (get_cqe st.cq pos).cqe64.sop_drop_qpn &&& 0xffffff }
              st.w (get_cqe st.cq pos).cqe64 pos c.cur_rsc
              (if c.is_srq ≠ 0 then c.cur_srq else 0)).2.1 with
            status := (handle_responder K E
              { st.wc with wc_flags := 0,
                           qp_num := be32toh (get_cqe st.cq pos).cqe64.sop_drop_qpn &&& 0xffffff }
              st.w (get_cqe st.cq pos).cqe64 pos c.cur_rsc
              (if c.is_srq ≠ 0 then c.cur_srq else 0)).1 },
          w := (handle_responder K E
              { st.wc with wc_flags := 0,
                           qp_num := be32toh (get_cqe st.cq pos).cqe64.sop_drop_qpn &&& 0xffffff }
              st.w (get_cqe st.cq pos).cqe64 pos c.cur_rsc
              (if c.is_srq ≠ 0 then c.cur_srq else 0)).2.2 } := by
  have h := hK.cqe_opcodes
  simp only [List.nodup_cons, List.mem_cons, List.mem_singleton, List.not_mem_nil, not_or,
    List.nodup_nil, or_false, and_true, not_false_eq_true] at h
  have hreq : ¬ mlx5dv_get_cqe_opcode (get_cqe st.cq pos).cqe64 = K.MLX5_CQE_REQ := by
    rcases hop with h1 | h1 | h1 | h1 <;> rw [h1] <;> simp [h]
  have hz : ((CQ_OK, c) : Int × RscCtx).1 = 0 := rfl
  unfold parse_step
  simp only [if_neg hreq, if_pos hop]
  unfold parse_resp parse_init
  simp only [ne_eq, not_true_eq_false, if_false, get_cqe] at hres ⊢
  simp only [hres, hz, not_true_eq_false, if_false]

/-- The four flag bits of a completion can be read back from the or of the checksum, opcode and
GRH parts. -/
theorem wc_flag_bits (cs opf gg : Nat) (h1 : cs = 0 ∨ cs = 4)
    (h2 : opf = 0 ∨ opf = 2 ∨ opf = 8) (h3 : gg = 0 ∨ gg = 1) :
    (((0 ||| cs) ||| opf) ||| gg) &&& 1 = gg ∧ (((0 ||| cs) ||| opf) ||| gg) &&& 4 = cs ∧
      (((0 ||| cs) ||| opf) ||| gg) &&& 2 = opf &&& 2 ∧
      (((0 ||| cs) ||| opf) ||| gg) &&& 8 = opf &&& 8 := by
  rcases h1 with h1 | h1 <;> rcases h2 with h2 | h2 | h2 <;> rcases h3 with h3 | h3 <;>
    subst h1 h2 h3 <;> decide

/-- Claim C14, amended. For every receive-success slot whose resource resolves, immediate-mode
decode returns CQ_OK, and without copy error (status 0): RESP_WR_IMM gives
IBV_WC_RECV_RDMA_WITH_IMM with IBV_WC_WITH_IMM; RESP_SEND gives IBV_WC_RECV with neither the
IMM nor the INV flag; RESP_SEND_IMM gives IBV_WC_RECV with IBV_WC_WITH_IMM; RESP_SEND_INV
gives IBV_WC_RECV with IBV_WC_WITH_INV and invalidated_rkey the host-order imm_inval_pkey;
IBV_WC_GRH is set iff bits 28-29 of flags_rqpn are not both zero; the checksum bits are
IBV_WC_IP_CSUM_OK or 0, set iff the slot does not resolve to a shared receive queue, the
resource is a queue-pair with the RX-checksum capability, and the slot has both L3_OK and
L4_OK and an IPv4 L3 header type. -/
theorem parse_resp_flags (K : Hdr) (hK : K.Ok) (hF : K.WcFlagsOk) (E : Ext) (st : PState)
    (pos cqe_ver : Nat) (c : RscCtx)
    (hop : mlx5dv_get_cqe_opcode (get_cqe st.cq pos).cqe64 = K.MLX5_CQE_RESP_WR_IMM ∨
      mlx5dv_get_cqe_opcode (get_cqe st.cq pos).cqe64 = K.MLX5_CQE_RESP_SEND ∨
      mlx5dv_get_cqe_opcode (get_cqe st.cq pos).cqe64 = K.MLX5_CQE_RESP_SEND_IMM ∨
      mlx5dv_get_cqe_opcode (get_cqe st.cq pos).cqe64 = K.MLX5_CQE_RESP_SEND_INV)
    (hres : get_cur_rsc K st.w cqe_ver
      (be32toh (get_cqe st.cq pos).cqe64.sop_drop_qpn &&& 0xffffff)
      (be32toh (get_cqe st.cq pos).cqe64.srqn_uidx &&& 0xffffff)
      { cur_rsc := st.cur_rsc, cur_srq := st.cur_srq, is_srq := 0 } = (CQ_OK, c)) :
    ∃ st1, mlx5_parse_cqe K E st pos cqe_ver 0 = Res.ret CQ_OK st1 ∧
      (st1.wc.status = 0 →
        (mlx5dv_get_cqe_opcode (get_cqe st.cq pos).cqe64 = K.MLX5_CQE_RESP_WR_IMM →
          st1.wc.opcode = K.IBV_WC_RECV_RDMA_WITH_IMM ∧
          st1.wc.wc_flags &&& K.IBV_WC_WITH_IMM ≠ 0) ∧
        (mlx5dv_get_cqe_opcode (get_cqe st.cq pos).cqe64 = K.MLX5_CQE_RESP_SEND →
          st1.wc.opcode = K.IBV_WC_RECV ∧ st1.wc.wc_flags &&& K.IBV_WC_WITH_IMM = 0 ∧
          st1.wc.wc_flags &&& K.IBV_WC_WITH_INV = 0) ∧
        (mlx5dv_get_cqe_opcode (get_cqe st.cq pos).cqe64 = K.MLX5_CQE_RESP_SEND_IMM →
          st1.wc.opcode = K.IBV_WC_RECV ∧ st1.wc.wc_flags &&& K.IBV_WC_WITH_IMM ≠ 0) ∧
        (mlx5dv_get_cqe_opcode (get_cqe st.cq pos).cqe64 = K.MLX5_CQE_RESP_SEND_INV →
          st1.wc.opcode = K.IBV_WC_RECV ∧ st1.wc.wc_flags &&& K.IBV_WC_WITH_INV ≠ 0 ∧
          st1.wc.invalidated_rkey = be32toh (get_cqe st.cq pos).cqe64.imm_inval_pkey) ∧
        (st1.wc.wc_flags &&& K.IBV_WC_GRH ≠ 0 ↔
          (be32toh (get_cqe st.cq pos).cqe64.flags_rqpn >>> 28) &&& 3 ≠ 0) ∧
        (st1.wc.wc_flags &&& IBV_WC_IP_CSUM_OK K = IBV_WC_IP_CSUM_OK K ∨
          st1.wc.wc_flags &&& IBV_WC_IP_CSUM_OK K = 0) ∧
        (st1.wc.wc_flags &&& IBV_WC_IP_CSUM_OK K ≠ 0 ↔
          c.is_srq = 0 ∧ (st.w.rsc c.cur_rsc).type = K.MLX5_RSC_TYPE_QP ∧
          (st.w.qp c.cur_rsc).qp_cap_cache &&& K.MLX5_RX_CSUM_VALID ≠ 0 ∧
          (get_cqe st.cq pos).cqe64.hds_ip_ext &&& (K.MLX5_CQE_L4_OK ||| K.MLX5_CQE_L3_OK) =
            (K.MLX5_CQE_L4_OK ||| K.MLX5_CQE_L3_OK) ∧
          get_cqe_l3_hdr_type (get_cqe st.cq pos).cqe64 = K.MLX5_CQE_L3_HDR_TYPE_IPV4)) := by
  have hstep := parse_step_resp_imm K hK E st pos cqe_ver c hop hres
  refine ⟨_, mlx5_parse_cqe_of_ret K E _ _ pos cqe_ver 0 CQ_OK hstep, ?_⟩
  intro h0
  have hsrq : (if c.is_srq ≠ 0 then c.cur_srq else 0) = 0 ↔ c.is_srq = 0 := by
    by_cases hi : c.is_srq = 0
    · simp [hi]
    · have := get_cur_rsc_srq_ne K st.w cqe_ver _ _ st.cur_rsc st.cur_srq c hres hi
      simp [hi, this]
  obtain ⟨f1, f2, f3, f4⟩ := handle_responder_ok_form K hK E
    { st.wc with wc_flags := 0,
                 qp_num := be32toh (get_cqe st.cq pos).cqe64.sop_drop_qpn &&& 0xffffff }
    st.w (get_cqe st.cq pos).cqe64 pos c.cur_rsc (if c.is_srq ≠ 0 then c.cur_srq else 0) h0
  have h := hK.cqe_opcodes
  simp only [List.nodup_cons, List.mem_cons, List.mem_singleton, List.not_mem_nil, not_or,
    List.nodup_nil, or_false, and_true, not_false_eq_true] at h
  have hne : ¬ K.MLX5_CQE_RESP_SEND = K.MLX5_CQE_RESP_WR_IMM ∧
      ¬ K.MLX5_CQE_RESP_SEND_IMM = K.MLX5_CQE_RESP_WR_IMM ∧
      ¬ K.MLX5_CQE_RESP_SEND_IMM = K.MLX5_CQE_RESP_SEND ∧
      ¬ K.MLX5_CQE_RESP_SEND_INV = K.MLX5_CQE_RESP_WR_IMM ∧
      ¬ K.MLX5_CQE_RESP_SEND_INV = K.MLX5_CQE_RESP_SEND ∧
      ¬ K.MLX5_CQE_RESP_SEND_INV = K.MLX5_CQE_RESP_SEND_IMM := by
    simp [h]
  clear h
  obtain ⟨n1, n2, n3, n4, n5, n6⟩ := hne
  have m1 : ¬ K.MLX5_CQE_RESP_WR_IMM = K.MLX5_CQE_RESP_SEND := fun e => n1 e.symm
  have m2 : ¬ K.MLX5_CQE_RESP_WR_IMM = K.MLX5_CQE_RESP_SEND_IMM := fun e => n2 e.symm
  have m3 : ¬ K.MLX5_CQE_RESP_SEND = K.MLX5_CQE_RESP_SEND_IMM := fun e => n3 e.symm
  have m4 : ¬ K.MLX5_CQE_RESP_WR_IMM = K.MLX5_CQE_RESP_SEND_INV := fun e => n4 e.symm
  have m5 : ¬ K.MLX5_CQE_RESP_SEND = K.MLX5_CQE_RESP_SEND_INV := fun e => n5 e.symm
  have m6 : ¬ K.MLX5_CQE_RESP_SEND_IMM = K.MLX5_CQE_RESP_SEND_INV := fun e => n6 e.symm
  simp only [hsrq, get_csum_ok_val K hF, hF.with_imm, hF.with_inv, hF.grh] at f1
  have hop' : ∀ x, mlx5dv_get_cqe_opcode (get_cqe st.cq pos).cqe64 = x →
      (get_cqe st.cq pos).cqe64.op_own >>> 4 = x := fun _ hx => hx
  show (_ → _ ∧ (handle_responder K E _ st.w _ pos c.cur_rsc _).2.1.wc_flags &&& _ ≠ 0) ∧ _
  generalize (handle_responder K E _ st.w _ pos c.cur_rsc _).2.1 = wc1 at f1 f2 f3 f4 ⊢
  have hcs : IBV_WC_IP_CSUM_OK K = 4 := by unfold IBV_WC_IP_CSUM_OK; rw [hF.csum_shift]; rfl
  rw [hcs, hF.with_imm, hF.with_inv, hF.grh]
  have hb := wc_flag_bits
    (if c.is_srq = 0 ∧ (st.w.rsc c.cur_rsc).type = K.MLX5_RSC_TYPE_QP ∧
        (st.w.qp c.cur_rsc).qp_cap_cache &&& K.MLX5_RX_CSUM_VALID ≠ 0 then
      (if (get_cqe st.cq pos).cqe64.hds_ip_ext &&& (K.MLX5_CQE_L4_OK ||| K.MLX5_CQE_L3_OK) =
          (K.MLX5_CQE_L4_OK ||| K.MLX5_CQE_L3_OK) ∧
        get_cqe_l3_hdr_type (get_cqe st.cq pos).cqe64 = K.MLX5_CQE_L3_HDR_TYPE_IPV4 then 4
        else 0) else 0)
    (if (get_cqe st.cq pos).cqe64.op_own >>> 4 = K.MLX5_CQE_RESP_WR_IMM ∨
        (get_cqe st.cq pos).cqe64.op_own >>> 4 = K.MLX5_CQE_RESP_SEND_IMM then 2
      else if (get_cqe st.cq pos).cqe64.op_own >>> 4 = K.MLX5_CQE_RESP_SEND_INV then 8 else 0)
    (if (be32toh (get_cqe st.cq pos).cqe64.flags_rqpn >>> 28) &&& 3 ≠ 0 then 1 else 0)
    (by split_ifs <;> simp) (by split_ifs <;> simp) (by split_ifs <;> simp)
  rw [← f1] at hb
  obtain ⟨b1, b4, b2, b8⟩ := hb
  rw [b1, b4, b2, b8]
  refine ⟨fun hx => ⟨f2 (hop' _ hx), ?_⟩, fun hx => ⟨f3 (Or.inl (hop' _ hx)), ?_, ?_⟩,
    fun hx => ⟨f3 (Or.inr (Or.inl (hop' _ hx))), ?_⟩,
    fun hx => ⟨f3 (Or.inr (Or.inr (hop' _ hx))), ?_, f4 (hop' _ hx)⟩, ?_, ?_, ?_⟩
  · simp [hop' _ hx]
  · simp [hop' _ hx, n1, n2, n3, n4, n5, n6, m1, m2, m3, m4, m5, m6]
  · simp [hop' _ hx, n1, n2, n3, n4, n5, n6, m1, m2, m3, m4, m5, m6]
  · simp [hop' _ hx, n1, n2, n3, n4, n5, n6, m1, m2, m3, m4, m5, m6]
  · simp [hop' _ hx, n1, n2, n3, n4, n5, n6, m1, m2, m3, m4, m5, m6]
  · split_ifs <;> simp_all
  · split_ifs <;> simp
  · split_ifs <;> simp_all

/-- Claim C14, counterexample: a RESP_SEND slot with L3_OK, L4_OK and an IPv4 header, for a
queue-pair that has the RX-checksum capability and is attached to a shared receive queue:
the decode returns CQ_OK with status 0, opcode IBV_WC_RECV and the id 77 of the shared
receive queue, and the checksum flag is not set. -/
theorem parse_resp_flags_counterexample :
    mlx5dv_get_cqe_opcode (get_cqe PState.ex_recv_srq.cq 0).cqe64 = hdr.MLX5_CQE_RESP_SEND ∧
      (PState.ex_recv_srq.w.rsc 1).type = hdr.MLX5_RSC_TYPE_QP ∧
      (PState.ex_recv_srq.w.qp 1).qp_cap_cache &&& hdr.MLX5_RX_CSUM_VALID ≠ 0 ∧
      (get_cqe PState.ex_recv_srq.cq 0).cqe64.hds_ip_ext &&&
        (hdr.MLX5_CQE_L4_OK ||| hdr.MLX5_CQE_L3_OK) =
          (hdr.MLX5_CQE_L4_OK ||| hdr.MLX5_CQE_L3_OK) ∧
      get_cqe_l3_hdr_type (get_cqe PState.ex_recv_srq.cq 0).cqe64 =
        hdr.MLX5_CQE_L3_HDR_TYPE_IPV4 ∧
      (mlx5_parse_cqe hdr Ext.zero PState.ex_recv_srq 0 1 0).code = some CQ_OK ∧
      (mlx5_parse_cqe hdr Ext.zero PState.ex_recv_srq 0 1 0).state.map
        (fun s => (s.cur_rsc, s.wc.status, s.wc.opcode, s.wc.wr_id,
          s.wc.wc_flags &&& IBV_WC_IP_CSUM_OK hdr)) = some (1, 0, 128, 77, 0) := by
  decide

/-- Witness for C14: the same slot for a queue-pair with a receive queue of its own decodes to
IBV_WC_RECV without the IMM and GRH flags and with the checksum flag. -/
theorem parse_resp_flags_witness :
    ∃ st1, mlx5_parse_cqe hdr Ext.zero PState.ex_recv 0 1 0 = Res.ret CQ_OK st1 ∧
      st1.wc.opcode = hdr.IBV_WC_RECV ∧ st1.wc.wc_flags &&& hdr.IBV_WC_WITH_IMM = 0 ∧
      st1.wc.wc_flags &&& hdr.IBV_WC_GRH = 0 ∧
      st1.wc.wc_flags &&& IBV_WC_IP_CSUM_OK hdr ≠ 0 := by
  obtain ⟨st1, h1, h2⟩ := parse_resp_flags hdr hdr_ok hdr_wc_flags_ok Ext.zero PState.ex_recv
    0 1 { cur_rsc := 1, cur_srq := 0, is_srq := 0 } (Or.inr (Or.inl (by decide))) rfl
  have hs : (mlx5_parse_cqe hdr Ext.zero PState.ex_recv 0 1 0).state.map
      (fun s => s.wc.status) = some 0 := by decide
  rw [h1] at hs
  have hs0 : st1.wc.status = 0 := Option.some.inj hs
  obtain ⟨_, g2, _, _, g5, _, g7⟩ := h2 hs0
  refine ⟨st1, h1, (g2 (by decide)).1, (g2 (by decide)).2.1, ?_, ?_⟩
  · by_contra hc
    exact absurd (g5.1 hc) (by decide)
  · exact g7.2 (by decide)

/-! ### Error syndromes (C15) -/

/-- The header values of hdr number the completion statuses as Hdr.StatusOk says. -/
theorem hdr_status_ok : hdr.StatusOk := by
  unfold Hdr.StatusOk
  decide

/-- Either the syndrome is one of the thirteen that mlx5_handle_error_cqe recognises, and then
its status is neither IBV_WC_GENERAL_ERR nor IBV_WC_SUCCESS and stands for that syndrome; or
it is none of them and the status is IBV_WC_GENERAL_ERR. -/
theorem handle_error_cqe_cases (K : Hdr) (hK : K.Ok) (hS : K.StatusOk) (c : Cqe64) :
    (c.syndrome ∈ K.syndromes ∧
        status_syndrome K (mlx5_handle_error_cqe K c) = c.syndrome ∧
        mlx5_handle_error_cqe K c ≠ K.IBV_WC_GENERAL_ERR ∧
        mlx5_handle_error_cqe K c ≠ K.IBV_WC_SUCCESS) ∨
      (c.syndrome ∉ K.syndromes ∧ mlx5_handle_error_cqe K c = K.IBV_WC_GENERAL_ERR ∧
        mlx5_handle_error_cqe K c ≠ K.IBV_WC_SUCCESS) := by
  have h := hK.syndromes
  simp only [List.nodup_cons, List.mem_cons, List.mem_singleton, List.not_mem_nil, not_or,
    List.nodup_nil, or_false, and_true, not_false_eq_true] at h
  unfold Hdr.StatusOk at hS
  simp only [List.nodup_cons, List.mem_cons, List.mem_singleton, List.not_mem_nil, not_or,
    List.nodup_nil, or_false, and_true, not_false_eq_true] at hS
  unfold mlx5_handle_error_cqe status_syndrome Hdr.syndromes
  generalize c.syndrome = s
  by_cases h1 : s = K.MLX5_CQE_SYNDROME_LOCAL_LENGTH_ERR
  · subst h1; left; simp [h, hS]
  · by_cases h2 : s = K.MLX5_CQE_SYNDROME_LOCAL_QP_OP_ERR
    · subst h2; left; simp [h, hS]
    · by_cases h3 : s = K.MLX5_CQE_SYNDROME_LOCAL_PROT_ERR
      · subst h3; left; simp [h, hS]
      · by_cases h4 : s = K.MLX5_CQE_SYNDROME_WR_FLUSH_ERR
        · subst h4; left; simp [h, hS]
        · by_cases h5 : s = K.MLX5_CQE_SYNDROME_MW_BIND_ERR
          · subst h5; left; simp [h, hS]
          · by_cases h6 : s = K.MLX5_CQE_SYNDROME_BAD_RESP_ERR
            · subst h6; left; simp [h, hS]
            · by_cases h7 : s = K.MLX5_CQE_SYNDROME_LOCAL_ACCESS_ERR
              · subst h7; left; simp [h, hS]
              · by_cases h8 : s = K.MLX5_CQE_SYNDROME_REMOTE_INVAL_REQ_ERR
                · subst h8; left; simp [h, hS]
                · by_cases h9 : s = K.MLX5_CQE_SYNDROME_REMOTE_ACCESS_ERR
                  · subst h9; left; simp [h, hS]
                  · by_cases h10 : s = K.MLX5_CQE_SYNDROME_REMOTE_OP_ERR
                    · subst h10; left; simp [h, hS]
                    · by_cases h11 : s = K.MLX5_CQE_SYNDROME_TRANSPORT_RETRY_EXC_ERR
                      · subst h11; left; simp [h, hS]
                      · by_cases h12 : s = K.MLX5_CQE_SYNDROME_RNR_RETRY_EXC_ERR
                        · subst h12; left; simp [h, hS]
                        · by_cases h13 : s = K.MLX5_CQE_SYNDROME_REMOTE_ABORTED_ERR
                          · subst h13; left; simp [h, hS]
                          · right; simp [*, hS]

/-- Claim C15. The function mlx5_handle_error_cqe is a closed mapping: each of the thirteen
recognised syndromes maps to its like-named status; every other syndrome maps to
IBV_WC_GENERAL_ERR; no syndrome maps to IBV_WC_SUCCESS; a recognised syndrome does not map
to IBV_WC_GENERAL_ERR; and two slots with the same status, one of them with a recognised
syndrome, have the same syndrome (the thirteen statuses are distinct). -/
theorem handle_error_cqe_closed (K : Hdr) (hK : K.Ok) (hS : K.StatusOk) :
    (∀ c : Cqe64,
      (c.syndrome = K.MLX5_CQE_SYNDROME_LOCAL_LENGTH_ERR →
        mlx5_handle_error_cqe K c = K.IBV_WC_LOC_LEN_ERR) ∧
      (c.syndrome = K.MLX5_CQE_SYNDROME_LOCAL_QP_OP_ERR →
        mlx5_handle_error_cqe K c = K.IBV_WC_LOC_QP_OP_ERR) ∧
      (c.syndrome = K.MLX5_CQE_SYNDROME_LOCAL_PROT_ERR →
        mlx5_handle_error_cqe K c = K.IBV_WC_LOC_PROT_ERR) ∧
      (c.syndrome = K.MLX5_CQE_SYNDROME_WR_FLUSH_ERR →
        mlx5_handle_error_cqe K c = K.IBV_WC_WR_FLUSH_ERR) ∧
      (c.syndrome = K.MLX5_CQE_SYNDROME_MW_BIND_ERR →
        mlx5_handle_error_cqe K c = K.IBV_WC_MW_BIND_ERR) ∧
      (c.syndrome = K.MLX5_CQE_SYNDROME_BAD_RESP_ERR →
        mlx5_handle_error_cqe K c = K.IBV_WC_BAD_RESP_ERR) ∧
      (c.syndrome = K.MLX5_CQE_SYNDROME_LOCAL_ACCESS_ERR →
        mlx5_handle_error_cqe K c = K.IBV_WC_LOC_ACCESS_ERR) ∧
      (c.syndrome = K.MLX5_CQE_SYNDROME_REMOTE_INVAL_REQ_ERR →
        mlx5_handle_error_cqe K c = K.IBV_WC_REM_INV_REQ_ERR) ∧
      (c.syndrome = K.MLX5_CQE_SYNDROME_REMOTE_ACCESS_ERR →
        mlx5_handle_error_cqe K c = K.IBV_WC_REM_ACCESS_ERR) ∧
      (c.syndrome = K.MLX5_CQE_SYNDROME_REMOTE_OP_ERR →
        mlx5_handle_error_cqe K c = K.IBV_WC_REM_OP_ERR) ∧
      (c.syndrome = K.MLX5_CQE_SYNDROME_TRANSPORT_RETRY_EXC_ERR →
        mlx5_handle_error_cqe K c = K.IBV_WC_RETRY_EXC_ERR) ∧
      (c.syndrome = K.MLX5_CQE_SYNDROME_RNR_RETRY_EXC_ERR →
        mlx5_handle_error_cqe K c = K.IBV_WC_RNR_RETRY_EXC_ERR) ∧
      (c.syndrome = K.MLX5_CQE_SYNDROME_REMOTE_ABORTED_ERR →
        mlx5_handle_error_cqe K c = K.IBV_WC_REM_ABORT_ERR)) ∧
    (∀ c : Cqe64, c.syndrome ∉ K.syndromes →
      mlx5_handle_error_cqe K c = K.IBV_WC_GENERAL_ERR) ∧
    (∀ c : Cqe64, mlx5_handle_error_cqe K c ≠ K.IBV_WC_SUCCESS) ∧
    (∀ c : Cqe64, c.syndrome ∈ K.syndromes →
      mlx5_handle_error_cqe K c ≠ K.IBV_WC_GENERAL_ERR) ∧
    (∀ c1 c2 : Cqe64, c1.syndrome ∈ K.syndromes →
      mlx5_handle_error_cqe K c1 = mlx5_handle_error_cqe K c2 → c1.syndrome = c2.syndrome) := by
  refine ⟨fun c => ?_, fun c hc => ?_, fun c => ?_, fun c hc => ?_, fun c1 c2 hc he => ?_⟩
  · have h := hK.syndromes
    simp only [List.nodup_cons, List.mem_cons, List.mem_singleton, List.not_mem_nil, not_or,
      List.nodup_nil, or_false, and_true, not_false_eq_true] at h
    unfold mlx5_handle_error_cqe
    refine ⟨?_, ?_, ?_, ?_, ?_, ?_, ?_, ?_, ?_, ?_, ?_, ?_, ?_⟩
    · intro h1; simp [h1, h]
    · intro h1; simp [h1, h]
    · intro h1; simp [h1, h]
    · intro h1; simp [h1, h]
    · intro h1; simp [h1, h]
    · intro h1; simp [h1, h]
    · intro h1; simp [h1, h]
    · intro h1; simp [h1, h]
    · intro h1; simp [h1, h]
    · intro h1; simp [h1, h]
    · intro h1; simp [h1, h]
    · intro h1; simp [h1, h]
    · intro h1; simp [h1, h]
  · rcases handle_error_cqe_cases K hK hS c with h | h
    · exact absurd h.1 hc
    · exact h.2.1
  · rcases handle_error_cqe_cases K hK hS c with h | h
    · exact h.2.2.2
    · exact h.2.2
  · rcases handle_error_cqe_cases K hK hS c with h | h
    · exact h.2.2.1
    · exact absurd hc h.1
  · rcases handle_error_cqe_cases K hK hS c1 with h1 | h1
    · rcases handle_error_cqe_cases K hK hS c2 with h2 | h2
      · rw [← h1.2.1, ← h2.2.1, he]
      · exact absurd (he.trans h2.2.1) h1.2.2.1
    · exact absurd hc h1.1

/-- Witness for C15: with the header values of hdr, the syndrome 0x05 maps to
IBV_WC_WR_FLUSH_ERR and the unknown syndrome 0x99 to IBV_WC_GENERAL_ERR, which is not
IBV_WC_SUCCESS. -/
theorem handle_error_cqe_closed_witness :
    mlx5_handle_error_cqe hdr { Cqe64.zero with syndrome := 0x05 } = hdr.IBV_WC_WR_FLUSH_ERR ∧
      mlx5_handle_error_cqe hdr { Cqe64.zero with syndrome := 0x99 } =
        hdr.IBV_WC_GENERAL_ERR ∧
      mlx5_handle_error_cqe hdr { Cqe64.zero with syndrome := 0x99 } ≠ hdr.IBV_WC_SUCCESS :=
  ⟨((handle_error_cqe_closed hdr hdr_ok hdr_status_ok).1
      { Cqe64.zero with syndrome := 0x05 }).2.2.2.1 rfl,
    (handle_error_cqe_closed hdr hdr_ok hdr_status_ok).2.1
      { Cqe64.zero with syndrome := 0x99 } (by decide),
    (handle_error_cqe_closed hdr hdr_ok hdr_status_ok).2.2.1
      { Cqe64.zero with syndrome := 0x99 }⟩

/-! ### Absorbed page faults (C16) -/

/-- A decode that ends within its bound on passes ends the same way with one more pass allowed. -/
theorem parse_loop_fuel_succ (K : Hdr) (E : Ext) (cqe_ver lazy : Nat) :
    ∀ (fuel : Nat) (st : PState) (pos : Nat),
      mlx5_parse_cqe_loop K E cqe_ver lazy fuel st pos ≠ Res.starved →
      mlx5_parse_cqe_loop K E cqe_ver lazy (fuel + 1) st pos =
        mlx5_parse_cqe_loop K E cqe_ver lazy fuel st pos := by
  intro fuel
  induction fuel with
  | zero =>
    intro st pos h
    exact absurd rfl h
  | succ f ih =>
    intro st pos h
    rw [mlx5_parse_cqe_loop] at h ⊢
    rw [mlx5_parse_cqe_loop]
    cases hstep : parse_step K E st pos cqe_ver lazy with
    | ret c st1 => rfl
    | freeze st1 => rfl
    | again st1 p =>
      rw [hstep] at h
      simp only [] at h ⊢
      exact ih st1 p h

/-- When the pass over a slot ends in the re-fetch from the state st1, mlx5_parse_cqe returns
CQ_POLL_NODATA with st1 if the ring is then empty, and else is the decode of the next slot
from st1 with that slot consumed. -/
theorem parse_cqe_refetch (K : Hdr) (E : Ext) (st st1 : PState) (pos cqe_ver lazy r : Nat)
    (hstep : parse_step K E st pos cqe_ver lazy = refetch K st1)
    (hf : CqFrame st.cq st1.cq) (hav : Avail K st.cq r) (hr : r ≤ st.cq.cqe + 1) :
    (next_cqe_sw K st.cq = none →
      mlx5_parse_cqe K E st pos cqe_ver lazy = Res.ret (CQ_POLL_NODATA K) st1) ∧
    (∀ p, next_cqe_sw K st.cq = some p →
      mlx5_parse_cqe K E st pos cqe_ver lazy =
        mlx5_parse_cqe K E
          { st1 with cq := { st1.cq with cons_index := (st.cq.cons_index + 1) % 2 ^ 32 } }
          p cqe_ver lazy) := by
  have hn := next_cqe_sw_frame K st.cq st1.cq hf
  refine ⟨fun he => ?_, fun p hp => ?_⟩
  · apply mlx5_parse_cqe_of_ret
    rw [hstep]
    unfold refetch mlx5_get_next_cqe
    rw [hn, he]
  · have hs : parse_step K E st pos cqe_ver lazy = Step.again
        { st1 with cq := { st1.cq with cons_index := (st.cq.cons_index + 1) % 2 ^ 32 } } p := by
      rw [hstep]
      unfold refetch mlx5_get_next_cqe
      rw [hn, hp, hf.2.2]
    have hpos : 0 < r := hav.pos_of_visible (by rw [hp]; exact Option.some_ne_none p)
    have hav1 : Avail K
        ({ st1 with cq := { st1.cq with cons_index := (st.cq.cons_index + 1) % 2 ^ 32 } } :
          PState).cq (r - 1) := hav.step hpos hf.1 hf.2.1 rfl
    have hok := parse_loop_ok K E cqe_ver lazy (st.cq.cqe + 1) (r - 1) _ p hav1 (by omega)
    have hne : mlx5_parse_cqe_loop K E cqe_ver lazy (st.cq.cqe + 1)
        { st1 with cq := { st1.cq with cons_index := (st.cq.cons_index + 1) % 2 ^ 32 } } p ≠
        Res.starved := by
      intro h
      rw [h] at hok
      exact hok
    have e1 : mlx5_parse_cqe K E st pos cqe_ver lazy =
        mlx5_parse_cqe_loop K E cqe_ver lazy (st.cq.cqe + 1)
          { st1 with cq := { st1.cq with cons_index := (st.cq.cons_index + 1) % 2 ^ 32 } } p := by
      unfold mlx5_parse_cqe
      rw [show st.cq.cqe + 2 = (st.cq.cqe + 1) + 1 from rfl, mlx5_parse_cqe_loop, hs]
    have e2 : mlx5_parse_cqe K E
        { st1 with cq := { st1.cq with cons_index := (st.cq.cons_index + 1) % 2 ^ 32 } }
        p cqe_ver lazy =
        mlx5_parse_cqe_loop K E cqe_ver lazy ((st.cq.cqe + 1) + 1)
          { st1 with cq := { st1.cq with cons_index := (st.cq.cons_index + 1) % 2 ^ 32 } } p := by
      unfold mlx5_parse_cqe
      show mlx5_parse_cqe_loop K E cqe_ver lazy (st1.cq.cqe + 2) _ p = _
      rw [hf.2.1]
    rw [e1, e2]
    exact (parse_loop_fuel_succ K E cqe_ver lazy _ _ p hne).symm

/-- The error case on a page fault of a shared receive queue: mlx5_complete_odp_fault is called
and the pass ends in the re-fetch. -/
theorem parse_err_odp_srq (K : Hdr) (hK : K.Ok) (st : PState) (pos cqe_ver lazy : Nat)
    (c : RscCtx)
    (hop : mlx5dv_get_cqe_opcode (get_cqe st.cq pos).cqe64 = K.MLX5_CQE_RESP_ERR)
    (hodp : is_odp_pfault_err K (get_cqe st.cq pos).cqe64 = true)
    (hres : get_cur_rsc K st.w cqe_ver
      (be32toh (get_cqe st.cq pos).cqe64.sop_drop_qpn &&& 0xffffff)
      (be32toh (get_cqe st.cq pos).cqe64.srqn_uidx &&& 0xffffff)
      { cur_rsc := st.cur_rsc, cur_srq := st.cur_srq, is_srq := 0 } = (CQ_OK, c))
    (hsrq : c.is_srq ≠ 0) :
    ∃ st1, parse_err K st pos cqe_ver lazy = refetch K st1 ∧ CqFrame st.cq st1.cq ∧
      st1.w = st.w.call
        (ExtCall.complete_odp_fault c.cur_srq (be16toh (get_cqe st.cq pos).cqe64.wqe_counter)) ∧
      st1.cur_rsc = c.cur_rsc ∧ st1.cur_srq = c.cur_srq := by
  have h := hK.cqe_opcodes
  simp only [List.nodup_cons, List.mem_cons, List.mem_singleton, List.not_mem_nil, not_or,
    List.nodup_nil, or_false, and_true, not_false_eq_true] at h
  have hne : ¬ K.MLX5_CQE_RESP_ERR = K.MLX5_CQE_REQ_ERR := h.2.1.1
  unfold parse_err
  by_cases hl : lazy = 0
  · subst hl
    simp only [hop, hne, hres, hsrq, CQ_OK, hodp, ne_eq, not_true_eq_false, if_false,
      Bool.true_eq_false, and_false, false_and, not_false_eq_true, if_true]
    exact ⟨_, rfl, ⟨rfl, rfl, rfl⟩, rfl, rfl, rfl⟩
  · simp only [hop, hne, hres, hsrq, CQ_OK, hodp, ne_eq, hl, not_true_eq_false, if_false,
      Bool.true_eq_false, and_false, false_and, not_false_eq_true, if_true]
    exact ⟨_, rfl, ⟨rfl, rfl, rfl⟩, rfl, rfl, rfl⟩

/-- Claim C16, amended. For every response-error slot that resolves to a shared receive queue
and whose syndrome is REMOTE_ABORTED_ERR with vendor syndrome ODP_PFAULT, on a ring with r
available slots, r at most the ring size: decode in either mode absorbs the slot. It calls
mlx5_complete_odp_fault(srq, wqe_counter) and leaves the ring and the consumer index alone
(state st1); if the ring is then empty it returns CQ_POLL_NODATA with st1, and else its
result is that of decoding the next ring slot from st1 with that slot consumed. -/
theorem parse_odp_pfault_absorbed (K : Hdr) (hK : K.Ok) (E : Ext) (st : PState)
    (pos cqe_ver lazy r : Nat) (c : RscCtx)
    (hop : mlx5dv_get_cqe_opcode (get_cqe st.cq pos).cqe64 = K.MLX5_CQE_RESP_ERR)
    (hodp : is_odp_pfault_err K (get_cqe st.cq pos).cqe64 = true)
    (hres : get_cur_rsc K st.w cqe_ver
      (be32toh (get_cqe st.cq pos).cqe64.sop_drop_qpn &&& 0xffffff)
      (be32toh (get_cqe st.cq pos).cqe64.srqn_uidx &&& 0xffffff)
      { cur_rsc := st.cur_rsc, cur_srq := st.cur_srq, is_srq := 0 } = (CQ_OK, c))
    (hsrq : c.is_srq ≠ 0) (hav : Avail K st.cq r) (hr : r ≤ st.cq.cqe + 1) :
    ∃ st1, CqFrame st.cq st1.cq ∧
      st1.w = st.w.call
        (ExtCall.complete_odp_fault c.cur_srq (be16toh (get_cqe st.cq pos).cqe64.wqe_counter)) ∧
      st1.cur_rsc = c.cur_rsc ∧ st1.cur_srq = c.cur_srq ∧
      (next_cqe_sw K st.cq = none →
        mlx5_parse_cqe K E st pos cqe_ver lazy = Res.ret (CQ_POLL_NODATA K) st1) ∧
      (∀ p, next_cqe_sw K st.cq = some p →
        mlx5_parse_cqe K E st pos cqe_ver lazy =
          mlx5_parse_cqe K E
            { st1 with cq := { st1.cq with cons_index := (st.cq.cons_index + 1) % 2 ^ 32 } }
            p cqe_ver lazy) := by
  have hs := parse_step_err K hK E st pos cqe_ver lazy (Or.inr hop)
  have hl := parse_err_odp_srq K hK (parse_init K st pos lazy) pos cqe_ver lazy c
  simp only [parse_init_w, parse_init_slot, parse_init_cur_rsc, parse_init_cur_srq] at hl
  obtain ⟨st1, h1, h2, h3, h4, h5⟩ := hl hop hodp hres hsrq
  have hf : CqFrame st.cq st1.cq := CqFrame_trans (parse_init_frame K st pos lazy).1 h2
  have hre := parse_cqe_refetch K E st st1 pos cqe_ver lazy r (hs.trans h1) hf hav hr
  exact ⟨st1, hf, h3, h4, h5, hre.1, hre.2⟩

/-- Claim C16, counterexample: a page-fault slot (REMOTE_ABORTED_ERR, ODP_PFAULT) is not
absorbed on every resource kind. As a request-error of queue-pair 7, and as a response-error
of a queue-pair without shared receive queue, the poll returns CQ_OK with the completion
status IBV_WC_REM_ABORT_ERR and the wr_id of the work request (42, 99), and
mlx5_complete_odp_fault is not called. -/
theorem parse_odp_pfault_absorbed_counterexample :
    (mlx5dv_get_cqe_opcode (PState.ex_odp_req.cq.active_buf 0).cqe64 = hdr.MLX5_CQE_REQ_ERR ∧
      is_odp_pfault_err hdr (PState.ex_odp_req.cq.active_buf 0).cqe64 = true ∧
      (mlx5_poll_one hdr Ext.zero PState.ex_odp_req 0).code = some CQ_OK ∧
      (mlx5_poll_one hdr Ext.zero PState.ex_odp_req 0).state.map
        (fun s => (s.wc.status, s.wc.wr_id, s.cq.cons_index, s.w.log)) =
          some (hdr.IBV_WC_REM_ABORT_ERR, 42, 1, [])) ∧
    (mlx5dv_get_cqe_opcode (PState.ex_odp_qp.cq.active_buf 0).cqe64 = hdr.MLX5_CQE_RESP_ERR ∧
      is_odp_pfault_err hdr (PState.ex_odp_qp.cq.active_buf 0).cqe64 = true ∧
      (mlx5_poll_one hdr Ext.zero PState.ex_odp_qp 0).code = some CQ_OK ∧
      (mlx5_poll_one hdr Ext.zero PState.ex_odp_qp 0).state.map
        (fun s => (s.wc.status, s.wc.wr_id, s.cq.cons_index, s.w.log)) =
          some (hdr.IBV_WC_REM_ABORT_ERR, 99, 1, [])) := by
  decide

/-- Witness for C16: the page-fault slot of the shared receive queue 5, the only slot of its
ring, is absorbed: the decode returns CQ_POLL_NODATA after one call of
mlx5_complete_odp_fault. -/
theorem parse_odp_pfault_absorbed_witness :
    ∃ st1, mlx5_parse_cqe hdr Ext.zero PState.ex_odp_fetched 0 0 0 =
        Res.ret (CQ_POLL_NODATA hdr) st1 ∧
      st1.w.log = [ExtCall.complete_odp_fault 9 0] := by
  obtain ⟨st1, _, hw, _, _, hn, _⟩ := parse_odp_pfault_absorbed hdr hdr_ok Ext.zero
    PState.ex_odp_fetched 0 0 0 0 { cur_rsc := 0, cur_srq := 9, is_srq := 1 } (by decide)
    (by decide) rfl (by decide)
    ⟨by decide, fun j hj => absurd hj (Nat.not_lt_zero j), by decide⟩
    (by decide)
  exact ⟨st1, hn (by decide), by rw [hw]; rfl⟩

/-! ### Signature errors (C17, C18) -/

/-- A 32-bit value shifted left by 32 and or-ed with a 32-bit value is their concatenation. -/
theorem shl32_or (a b : Nat) (hb : b < 2 ^ 32) : (a <<< 32) ||| b = a * 2 ^ 32 + b := by
  rw [Nat.shiftLeft_eq, Nat.mul_comm a, ← Nat.mul_add_lt_is_or hb]

/-- The detail that get_sig_err_info stores, with the 64-bit expected and actual values written
as sums. -/
theorem get_sig_err_info_eq (cqe : Cqe64) :
    get_sig_err_info cqe =
      { syndrome := be16toh cqe.sig_syndrome,
        expected := be32toh cqe.sig_expected_trans_sig * 2 ^ 32 +
          be32toh cqe.sig_expected_ref_tag,
        actual := be32toh cqe.sig_actual_trans_sig * 2 ^ 32 + be32toh cqe.sig_actual_ref_tag,
        offset := be64toh cqe.sig_err_offset,
        sig_type := cqe.sig_type,
        domain := cqe.sig_domain } := by
  unfold get_sig_err_info
  have h1 : be32toh cqe.sig_expected_ref_tag < 2 ^ 32 := Nat.mod_lt _ (Nat.two_pow_pos 32)
  have h2 : be32toh cqe.sig_actual_ref_tag < 2 ^ 32 := Nat.mod_lt _ (Nat.two_pow_pos 32)
  rw [shl32_or _ _ h1, shl32_or _ _ h2]

/-- A signature-error slot takes the case MLX5_CQE_SIG_ERR of the switch of mlx5_parse_cqe. -/
theorem parse_step_sig (K : Hdr) (hK : K.Ok) (E : Ext) (st : PState) (pos cqe_ver lazy : Nat)
    (hop : mlx5dv_get_cqe_opcode (get_cqe st.cq pos).cqe64 = K.MLX5_CQE_SIG_ERR) :
    parse_step K E st pos cqe_ver lazy = parse_sig_err K (parse_init K st pos lazy) pos := by
  have h := hK.cqe_opcodes
  simp only [List.nodup_cons, List.mem_cons, List.mem_singleton, List.not_mem_nil, not_or,
    List.nodup_nil, or_false, and_true, not_false_eq_true] at h
  unfold parse_step
  simp [hop, h]

/-- The case MLX5_CQE_SIG_ERR when the key resolves to the memory key M: the record of M is
updated, every other record, the queue, the cache cells and the call log are left alone, and
the pass ends in the re-fetch. -/
theorem parse_sig_err_resolved (K : Hdr) (st : PState) (pos M : Nat)
    (hM : mlx5_find_mkey st.w (be32toh (get_cqe st.cq pos).cqe64.sig_mkey >>> 8) = M)
    (hM0 : M ≠ 0) :
    ∃ st1, parse_sig_err K st pos = refetch K st1 ∧ CqFrame st.cq st1.cq ∧
      st1.cur_rsc = st.cur_rsc ∧ st1.cur_srq = st.cur_srq ∧ st1.wc = st.wc ∧
      st1.cq = st.cq ∧ st1.w.log = st.w.log ∧
      (st1.w.mkey M).sig =
        { err_exists := true,
          err_count := ((st.w.mkey M).sig.err_count + 1) % 2 ^ 32,
          err_count_updated := true,
          err_info := get_sig_err_info (get_cqe st.cq pos).cqe64 } ∧
      ∀ a, a ≠ M → st1.w.mkey a = st.w.mkey a := by
  have hM' : mlx5_find_mkey { st.w with mkey_table_mutex := true }
      (be32toh (get_cqe st.cq pos).cqe64.sig_mkey >>> 8) = M := hM
  unfold parse_sig_err
  simp only [hM', if_neg hM0]
  refine ⟨_, rfl, ⟨rfl, rfl, rfl⟩, rfl, rfl, rfl, rfl, rfl, ?_, ?_⟩
  · show (upd _ M _ M : Mkey).sig = _
    rw [upd_same]
  · intro a ha
    show (upd _ M _ a : Mkey) = _
    rw [upd_other _ _ _ _ ha]

/-- The case MLX5_CQE_SIG_ERR when the key does not resolve: CQ_POLL_ERR, with the memory keys
and the queue unchanged. -/
theorem parse_sig_err_unresolved (K : Hdr) (st : PState) (pos : Nat)
    (hM : mlx5_find_mkey st.w (be32toh (get_cqe st.cq pos).cqe64.sig_mkey >>> 8) = 0) :
    ∃ st1, parse_sig_err K st pos = Step.ret CQ_POLL_ERR st1 ∧ st1.w.mkey = st.w.mkey ∧
      st1.cq = st.cq := by
  have hM' : mlx5_find_mkey { st.w with mkey_table_mutex := true }
      (be32toh (get_cqe st.cq pos).cqe64.sig_mkey >>> 8) = 0 := hM
  unfold parse_sig_err
  simp only [hM', if_true]
  exact ⟨_, rfl, rfl, rfl⟩

/-- Claim C17. For every signature-error slot, with M the memory key that be32(mkey) >> 8
resolves to: if M is not NULL, the pass of mlx5_parse_cqe over the slot ends in the re-fetch
from a state in which M's record has err_exists true, err_count increased by exactly 1
(32-bit) and as latest detail syndrome = be16(syndrome), expected = be32(expected_trans_sig)
* 2^32 + be32(expected_ref_tag), actual = be32(actual_trans_sig) * 2^32 +
be32(actual_ref_tag), offset = be64(sig_err_offset) and the slot's sig_type and domain, and
the records of all other memory keys are unchanged; if M is NULL, decode returns CQ_POLL_ERR
and no memory key is changed. -/
theorem parse_sig_err_record (K : Hdr) (hK : K.Ok) (E : Ext) (st : PState)
    (pos cqe_ver lazy M : Nat)
    (hop : mlx5dv_get_cqe_opcode (get_cqe st.cq pos).cqe64 = K.MLX5_CQE_SIG_ERR)
    (hM : mlx5_find_mkey st.w (be32toh (get_cqe st.cq pos).cqe64.sig_mkey >>> 8) = M) :
    (M ≠ 0 →
      ∃ st1, parse_step K E st pos cqe_ver lazy = refetch K st1 ∧
        (st1.w.mkey M).sig.err_exists = true ∧
        (st1.w.mkey M).sig.err_count = ((st.w.mkey M).sig.err_count + 1) % 2 ^ 32 ∧
        (st1.w.mkey M).sig.err_info =
          { syndrome := be16toh (get_cqe st.cq pos).cqe64.sig_syndrome,
            expected := be32toh (get_cqe st.cq pos).cqe64.sig_expected_trans_sig * 2 ^ 32 +
              be32toh (get_cqe st.cq pos).cqe64.sig_expected_ref_tag,
            actual := be32toh (get_cqe st.cq pos).cqe64.sig_actual_trans_sig * 2 ^ 32 +
              be32toh (get_cqe st.cq pos).cqe64.sig_actual_ref_tag,
            offset := be64toh (get_cqe st.cq pos).cqe64.sig_err_offset,
            sig_type := (get_cqe st.cq pos).cqe64.sig_type,
            domain := (get_cqe st.cq pos).cqe64.sig_domain } ∧
        ∀ a, a ≠ M → st1.w.mkey a = st.w.mkey a) ∧
    (M = 0 →
      ∃ st1, mlx5_parse_cqe K E st pos cqe_ver lazy = Res.ret CQ_POLL_ERR st1 ∧
        st1.w.mkey = st.w.mkey) := by
  have hs := parse_step_sig K hK E st pos cqe_ver lazy hop
  refine ⟨fun hM0 => ?_, fun hM0 => ?_⟩
  · have hl := parse_sig_err_resolved K (parse_init K st pos lazy) pos M
    simp only [parse_init_w, parse_init_slot] at hl
    obtain ⟨st1, h1, _, _, _, _, _, _, h8, h9⟩ := hl hM hM0
    refine ⟨st1, hs.trans h1, ?_, ?_, ?_, h9⟩
    · rw [h8]
    · rw [h8]
    · rw [h8, ← get_sig_err_info_eq]
  · have hl := parse_sig_err_unresolved K (parse_init K st pos lazy) pos
    simp only [parse_init_w, parse_init_slot] at hl
    obtain ⟨st1, h1, h2, _⟩ := hl (hM.trans hM0)
    exact ⟨st1, mlx5_parse_cqe_of_ret K E st st1 pos cqe_ver lazy CQ_POLL_ERR (hs.trans h1), h2⟩

/-- In immediate mode the first statements of a pass leave the queue, the context and the cache
cells alone. -/
theorem parse_init_cq_imm (K : Hdr) (st : PState) (pos : Nat) :
    (parse_init K st pos 0).cq = st.cq ∧ (parse_init K st pos 0).w = st.w ∧
      (parse_init K st pos 0).cur_rsc = st.cur_rsc ∧
      (parse_init K st pos 0).cur_srq = st.cur_srq := by
  unfold parse_init
  simp

/-- Polling a ring whose next slot is a signature error with a resolvable key: the slot is
consumed and the record of the key updated (state st1); if no further slot is ready the poll
returns CQ_POLL_NODATA with st1, else its result is that of decoding the following slot from
st1. -/
theorem poll_one_sig (K : Hdr) (hK : K.Ok) (E : Ext) (st : PState) (cqe_ver pos M r : Nat)
    (hvis : next_cqe_sw K st.cq = some pos)
    (hop : mlx5dv_get_cqe_opcode (st.cq.active_buf pos).cqe64 = K.MLX5_CQE_SIG_ERR)
    (hM : mlx5_find_mkey st.w (be32toh (st.cq.active_buf pos).cqe64.sig_mkey >>> 8) = M)
    (hM0 : M ≠ 0) (hav : Avail K st.cq r) (hr : r ≤ st.cq.cqe + 1) :
    ∃ st1 : PState,
      st1.cq = { st.cq with cons_index := (st.cq.cons_index + 1) % 2 ^ 32 } ∧
      st1.cur_rsc = st.cur_rsc ∧ st1.cur_srq = st.cur_srq ∧ st1.w.log = st.w.log ∧
      (st1.w.mkey M).sig.err_count = ((st.w.mkey M).sig.err_count + 1) % 2 ^ 32 ∧
      (∀ a, a ≠ M → st1.w.mkey a = st.w.mkey a) ∧
      (next_cqe_sw K st1.cq = none →
        mlx5_poll_one K E st cqe_ver = Res.ret (CQ_POLL_NODATA K) st1) ∧
      (∀ p, next_cqe_sw K st1.cq = some p →
        mlx5_poll_one K E st cqe_ver =
          mlx5_parse_cqe K E
            { st1 with cq := { st1.cq with cons_index := (st1.cq.cons_index + 1) % 2 ^ 32 } }
            p cqe_ver 0) := by
  have hfetch : mlx5_get_next_cqe K st.cq =
      (CQ_OK, { st.cq with cons_index := (st.cq.cons_index + 1) % 2 ^ 32 }, some pos) := by
    unfold mlx5_get_next_cqe; rw [hvis]
  have hpo : mlx5_poll_one K E st cqe_ver = mlx5_parse_cqe K E
      { st with cq := { st.cq with cons_index := (st.cq.cons_index + 1) % 2 ^ 32 } }
      pos cqe_ver 0 := by
    unfold mlx5_poll_one
    rw [hfetch]
  have hpos : 0 < r := hav.pos_of_visible (by rw [hvis]; exact Option.some_ne_none pos)
  have hav1 : Avail K
      ({ st with cq := { st.cq with cons_index := (st.cq.cons_index + 1) % 2 ^ 32 } } :
        PState).cq (r - 1) := hav.step hpos rfl rfl rfl
  have hs := parse_step_sig K hK E
    { st with cq := { st.cq with cons_index := (st.cq.cons_index + 1) % 2 ^ 32 } }
    pos cqe_ver 0 hop
  have hi := parse_init_cq_imm K
    { st with cq := { st.cq with cons_index := (st.cq.cons_index + 1) % 2 ^ 32 } } pos
  have hl := parse_sig_err_resolved K (parse_init K
    { st with cq := { st.cq with cons_index := (st.cq.cons_index + 1) % 2 ^ 32 } } pos 0) pos M
  simp only [parse_init_w, parse_init_slot] at hl
  obtain ⟨st1, h1, h2, h3, h4, _, h6, h7, h8, h9⟩ := hl hM hM0
  have hcq : st1.cq = { st.cq with cons_index := (st.cq.cons_index + 1) % 2 ^ 32 } :=
    h6.trans hi.1
  have hf : CqFrame
      ({ st with cq := { st.cq with cons_index := (st.cq.cons_index + 1) % 2 ^ 32 } } :
        PState).cq st1.cq := by
    rw [hcq]; exact ⟨rfl, rfl, rfl⟩
  have hre := parse_cqe_refetch K E _ st1 pos cqe_ver 0 (r - 1) (hs.trans h1) hf hav1
    (by show r - 1 ≤ st.cq.cqe + 1; omega)
  have hn := next_cqe_sw_frame K _ st1.cq hf
  refine ⟨st1, hcq, h3.trans hi.2.2.1, h4.trans hi.2.2.2, h7, ?_, h9, ?_, ?_⟩
  · rw [h8]
  · intro he
    rw [hpo]
    exact hre.1 (hn ▸ he)
  · intro p hp
    rw [hpo, hre.2 p (hn ▸ hp), hcq]

/-- When the first poll of a batch returns CQ_POLL_NODATA after consuming one slot, poll_cq
returns 0 with the consumer index advanced by 1. -/
theorem poll_cq_nodata (K : Hdr) (hE : K.ENOENT ≠ 0) (E : Ext) (cq : Cq) (w : World)
    (ne : Nat) (wc : Nat → Wc) (cqe_ver : Nat) (hne : 0 < ne)
    (h : ∀ cq2 : Cq, CqFrame cq cq2 →
      ∃ st1, mlx5_poll_one K E
          { cq := cq2, w := w, cur_rsc := 0, cur_srq := 0, wc := wc 0 } cqe_ver =
            Res.ret (CQ_POLL_NODATA K) st1 ∧
        st1.cq.cons_index = (cq.cons_index + 1) % 2 ^ 32) :
    ∃ s, poll_cq K E cq w ne wc cqe_ver = Res.ret 0 s ∧
      s.cq.cons_index = (cq.cons_index + 1) % 2 ^ 32 := by
  generalize hcq2 : ({ (if cq.stall_enable ≠ 0 ∧ cq.stall_adaptive_enable = 0 ∧
      cq.stall_next_poll ≠ 0 then { cq with stall_next_poll := 0 } else cq) with lock := true } : Cq)
    = cq2
  have hf : CqFrame cq cq2 := by
    rw [← hcq2]
    unfold CqFrame
    simp only []
    split <;> exact ⟨rfl, rfl, rfl⟩
  obtain ⟨st1, h1, h2⟩ := h cq2 hf
  have hnz : CQ_POLL_NODATA K ≠ CQ_OK := by
    unfold CQ_POLL_NODATA CQ_OK
    exact_mod_cast hE
  have hnp : ¬ CQ_POLL_NODATA K = CQ_POLL_ERR := by
    unfold CQ_POLL_NODATA CQ_POLL_ERR
    omega
  obtain ⟨k, rfl⟩ : ∃ k, ne = k + 1 := ⟨ne - 1, by omega⟩
  have hloop : poll_cq_loop K E cqe_ver (k + 1) 0
      { cq := cq2, w := w, rsc := 0, srq := 0, wc := wc } =
      Res.ret (CQ_POLL_NODATA K) (0,
        { cq := st1.cq, w := st1.w, rsc := st1.cur_rsc, srq := st1.cur_srq,
          wc := upd wc 0 st1.wc }) := by
    rw [poll_cq_loop]
    simp only [h1, if_pos hnz]
  have hrun : poll_cq K E cq w (k + 1) wc cqe_ver =
      match poll_cq_loop K E cqe_ver (k + 1) 0
        { cq := cq2, w := w, rsc := 0, srq := 0, wc := wc } with
      | Res.starved => Res.starved
      | Res.freeze (_, s) => Res.freeze s
      | Res.ret err (npolled, s) =>
        Res.ret (if err = CQ_POLL_ERR then err else (npolled : Int))
          { s with
            cq := poll_cq_stall E s.w ({ update_cons_index K s.cq with lock := false } : Cq)
                    (k + 1) npolled err } := by
    rw [← hcq2]; rfl
  rw [hrun, hloop]
  simp only [if_neg hnp]
  refine ⟨_, rfl, ?_⟩
  have hst := poll_cq_stall_frame E st1.w { update_cons_index K st1.cq with lock := false }
    (k + 1) 0 (CQ_POLL_NODATA K)
  show (poll_cq_stall E st1.w { update_cons_index K st1.cq with lock := false } (k + 1) 0
    (CQ_POLL_NODATA K)).cons_index = _
  rw [hst.1]
  exact h2

/-- Claim C18, amended. For every ring with r available slots (r at most the ring size) whose
next slot is a signature error with a resolvable key, decode surfaces no completion for that
slot. If the following ring slot is not ready, mlx5_poll_one returns CQ_POLL_NODATA with
cons_index advanced by exactly 1, and poll_cq (asked for at least one completion) returns 0:
it does not count the slot. If the following slot is ready, the result of mlx5_poll_one is
exactly that of polling again from the state st1 in which the signature slot is consumed and
the record of the key updated; and when the pass over the following slot returns, cons_index
has advanced by exactly 2. -/
theorem sig_err_absorbed (K : Hdr) (hK : K.Ok) (hE : K.ENOENT ≠ 0) (E : Ext) (cq : Cq)
    (w : World) (cqe_ver pos M r : Nat)
    (hvis : next_cqe_sw K cq = some pos)
    (hop : mlx5dv_get_cqe_opcode (cq.active_buf pos).cqe64 = K.MLX5_CQE_SIG_ERR)
    (hM : mlx5_find_mkey w (be32toh (cq.active_buf pos).cqe64.sig_mkey >>> 8) = M)
    (hM0 : M ≠ 0) (hav : Avail K cq r) (hr : r ≤ cq.cqe + 1) :
    (get_sw_cqe K cq ((cq.cons_index + 1) % 2 ^ 32) = none →
      (∀ rsc srq wc0, ∃ st1,
        mlx5_poll_one K E { cq := cq, w := w, cur_rsc := rsc, cur_srq := srq, wc := wc0 }
          cqe_ver = Res.ret (CQ_POLL_NODATA K) st1 ∧
        st1.cq.cons_index = (cq.cons_index + 1) % 2 ^ 32) ∧
      (∀ ne wc, 0 < ne → ∃ s, poll_cq K E cq w ne wc cqe_ver = Res.ret 0 s ∧
        s.cq.cons_index = (cq.cons_index + 1) % 2 ^ 32)) ∧
    (∀ p, get_sw_cqe K cq ((cq.cons_index + 1) % 2 ^ 32) = some p →
      ∀ rsc srq wc0, ∃ st1 : PState,
        st1.cq = { cq with cons_index := (cq.cons_index + 1) % 2 ^ 32 } ∧
        st1.cur_rsc = rsc ∧ st1.cur_srq = srq ∧ st1.w.log = w.log ∧
        (st1.w.mkey M).sig.err_count = ((w.mkey M).sig.err_count + 1) % 2 ^ 32 ∧
        (∀ a, a ≠ M → st1.w.mkey a = w.mkey a) ∧
        mlx5_poll_one K E { cq := cq, w := w, cur_rsc := rsc, cur_srq := srq, wc := wc0 }
          cqe_ver = mlx5_poll_one K E st1 cqe_ver ∧
        (∀ c st2,
          parse_step K E
            { st1 with cq := { st1.cq with cons_index := (st1.cq.cons_index + 1) % 2 ^ 32 } }
            p cqe_ver 0 = Step.ret c st2 →
          mlx5_poll_one K E { cq := cq, w := w, cur_rsc := rsc, cur_srq := srq, wc := wc0 }
            cqe_ver = Res.ret c st2 ∧
          st2.cq.cons_index = (cq.cons_index + 2) % 2 ^ 32)) := by
  have hnext : ∀ (cq2 st1cq : Cq), CqFrame cq cq2 →
      st1cq = { cq2 with cons_index := (cq2.cons_index + 1) % 2 ^ 32 } →
      next_cqe_sw K st1cq = get_sw_cqe K cq ((cq.cons_index + 1) % 2 ^ 32) := by
    intro cq2 st1cq hf he
    subst he
    unfold next_cqe_sw
    show get_sw_cqe K _ ((cq2.cons_index + 1) % 2 ^ 32) = _
    rw [hf.2.2]
    exact get_sw_cqe_frame K cq _ hf.1 hf.2.1 _
  refine ⟨fun hemp => ⟨fun rsc srq wc0 => ?_, fun ne wc hne => ?_⟩,
    fun p hp rsc srq wc0 => ?_⟩
  · obtain ⟨st1, h1, _, _, _, _, _, h7, _⟩ := poll_one_sig K hK E
      { cq := cq, w := w, cur_rsc := rsc, cur_srq := srq, wc := wc0 } cqe_ver pos M r
      hvis hop hM hM0 hav hr
    refine ⟨st1, h7 ?_, by rw [h1]⟩
    rw [hnext cq st1.cq (CqFrame_refl cq) h1]
    exact hemp
  · apply poll_cq_nodata K hE E cq w ne wc cqe_ver hne
    intro cq2 hf
    have hvis2 : next_cqe_sw K cq2 = some pos := by
      rw [next_cqe_sw_frame K cq cq2 hf]; exact hvis
    obtain ⟨st1, h1, _, _, _, _, _, h7, _⟩ := poll_one_sig K hK E
      { cq := cq2, w := w, cur_rsc := 0, cur_srq := 0, wc := wc 0 } cqe_ver pos M r
      hvis2 (by show mlx5dv_get_cqe_opcode (cq2.active_buf pos).cqe64 = _; rw [hf.1]; exact hop)
      (by show mlx5_find_mkey w (be32toh (cq2.active_buf pos).cqe64.sig_mkey >>> 8) = M
          rw [hf.1]; exact hM)
      hM0 (hav.of_frame hf) (by show r ≤ cq2.cqe + 1; rw [hf.2.1]; exact hr)
    refine ⟨st1, h7 ?_, ?_⟩
    · rw [hnext cq2 st1.cq hf h1]
      exact hemp
    · rw [h1]
      show (cq2.cons_index + 1) % 2 ^ 32 = _
      rw [hf.2.2]
  · obtain ⟨st1, h1, h2, h3, h4, h5, h6, _, h8⟩ := poll_one_sig K hK E
      { cq := cq, w := w, cur_rsc := rsc, cur_srq := srq, wc := wc0 } cqe_ver pos M r
      hvis hop hM hM0 hav hr
    have hp1 : next_cqe_sw K st1.cq = some p := by
      rw [hnext cq st1.cq (CqFrame_refl cq) h1]; exact hp
    have hone : mlx5_poll_one K E st1 cqe_ver =
        mlx5_parse_cqe K E
          { st1 with cq := { st1.cq with cons_index := (st1.cq.cons_index + 1) % 2 ^ 32 } }
          p cqe_ver 0 := by
      unfold mlx5_poll_one mlx5_get_next_cqe
      rw [hp1]
    refine ⟨st1, h1, h2, h3, h4, h5, h6, (h8 p hp1).trans hone.symm, ?_⟩
    intro c st2 hstep
    refine ⟨(h8 p hp1).trans (mlx5_parse_cqe_of_ret K E _ st2 p cqe_ver 0 c hstep), ?_⟩
    have hok := parse_step_ok K E
      { st1 with cq := { st1.cq with cons_index := (st1.cq.cons_index + 1) % 2 ^ 32 } }
      p cqe_ver 0
    rw [hstep] at hok
    have hc : st2.cq.cons_index = (st1.cq.cons_index + 1) % 2 ^ 32 := hok.1.2.2
    rw [hc, h1]
    show ((cq.cons_index + 1) % 2 ^ 32 + 1) % 2 ^ 32 = _
    omega

/-- Witness for C17: the signature-error slot of the example for key index 1, which resolves to
the memory key at address 3 with no error recorded: after the pass the record has
err_exists, err_count 1 and the detail of the slot, and the memory key at address 4 is
unchanged. -/
theorem parse_sig_err_record_witness :
    ∃ st1, parse_step hdr Ext.zero PState.ex_sig_fetched 0 0 0 = refetch hdr st1 ∧
      (st1.w.mkey 3).sig.err_exists = true ∧ (st1.w.mkey 3).sig.err_count = 1 ∧
      (st1.w.mkey 3).sig.err_info =
        { syndrome := 0x20, expected := 2 ^ 32 + 2, actual := 3 * 2 ^ 32 + 4, offset := 512,
          sig_type := 1, domain := 2 } ∧
      st1.w.mkey 4 = World.ex_sig.mkey 4 := by
  obtain ⟨st1, h1, h2, h3, h4, h5⟩ := (parse_sig_err_record hdr hdr_ok Ext.zero
    PState.ex_sig_fetched 0 0 0 3 (by decide) (by decide)).1 (by decide)
  have h4' : (st1.w.mkey 3).sig.err_info =
      { syndrome := 0x20, expected := 2 ^ 32 + 2, actual := 3 * 2 ^ 32 + 4, offset := 512,
        sig_type := 1, domain := 2 } :=
    h4.trans (by
      simp [get_cqe, PState.ex_sig_fetched, Cq.ex_sig, upd, Slot.of, Cqe64.ex_sig, be16toh,
        be32toh, be64toh])
  exact ⟨st1, h1, h2, h3.trans (by decide), h4', h5 4 (by decide)⟩

/-- Claim C18, counterexample: a ring with two signature errors for the same key followed by a
send completion. The slot after the first signature error is ready, yet one poll consumes
all three slots: it returns CQ_OK with the send completion (wr_id 42), the record counts 2
errors, and cons_index has advanced by 3, not by 2. -/
theorem sig_err_absorbed_counterexample :
    next_cqe_sw hdr Cq.ex_sig2 = some 0 ∧
      mlx5dv_get_cqe_opcode (Cq.ex_sig2.active_buf 0).cqe64 = hdr.MLX5_CQE_SIG_ERR ∧
      mlx5_find_mkey World.ex_sig (be32toh (Cq.ex_sig2.active_buf 0).cqe64.sig_mkey >>> 8) = 3 ∧
      get_sw_cqe hdr Cq.ex_sig2 1 = some 1 ∧
      (mlx5_poll_one hdr Ext.zero
        { cq := Cq.ex_sig2, w := World.ex_sig, cur_rsc := 0, cur_srq := 0, wc := Wc.zero }
        0).code = some CQ_OK ∧
      (mlx5_poll_one hdr Ext.zero
        { cq := Cq.ex_sig2, w := World.ex_sig, cur_rsc := 0, cur_srq := 0, wc := Wc.zero }
        0).state.map (fun s => (s.cq.cons_index, s.wc.wr_id, (s.w.mkey 3).sig.err_count)) =
          some (3, 42, 2) := by
  decide

/-- Witness for C18: on the ring whose only live slot is a signature error with a resolvable
key, poll_cq asked for one completion returns 0 and leaves the consumer index at 1. -/
theorem sig_err_absorbed_witness :
    ∃ s, poll_cq hdr Ext.zero Cq.ex_sig World.ex_sig 1 (fun _ => Wc.zero) 0 = Res.ret 0 s ∧
      s.cq.cons_index = 1 := by
  have hav : Avail hdr Cq.ex_sig 1 := by
    refine ⟨by decide, ?_, by decide⟩
    intro j hj
    interval_cases j
    decide
  exact ((sig_err_absorbed hdr hdr_ok (by decide) Ext.zero Cq.ex_sig World.ex_sig 0 0 3 1
    (by decide) (by decide) (by decide) (by decide) hav (by decide)).1 (by decide)).2 1
      (fun _ => Wc.zero) (by decide)

/-! ### Resize marker (C19) -/

/-- A slot with the opcode MLX5_CQE_RESIZE_CQ leaves the switch of mlx5_parse_cqe by its break:
the decode returns CQ_OK after the first statements of the pass. -/
theorem parse_step_resize (K : Hdr) (hK : K.Ok) (E : Ext) (st : PState)
    (pos cqe_ver lazy : Nat)
    (hop : mlx5dv_get_cqe_opcode (get_cqe st.cq pos).cqe64 = K.MLX5_CQE_RESIZE_CQ) :
    mlx5_parse_cqe K E st pos cqe_ver lazy = Res.ret CQ_OK (parse_init K st pos lazy) := by
  have h := hK.cqe_opcodes
  simp only [List.nodup_cons, List.mem_cons, List.mem_singleton, List.not_mem_nil, not_or,
    List.nodup_nil, or_false, and_true, not_false_eq_true] at h
  apply mlx5_parse_cqe_of_ret
  unfold parse_step
  simp [hop, h]

/-- Claim C19, failing input: a ring whose only live slot is the resize marker, polled into an
array that still holds an older completion. The slot is consumed (consumer index 1), but
mlx5_poll_one returns CQ_OK for it, so poll_cq counts it (it returns 1) and the caller is
handed entry 0 of its array as a completion: the older record, work request 555 with status
IBV_WC_SUCCESS. -/
theorem poll_cq_resize_marker :
    next_cqe_sw hdr Cq.ex_marker = some 0 ∧
      mlx5dv_get_cqe_opcode (Cq.ex_marker.active_buf 0).cqe64 = hdr.MLX5_CQE_RESIZE_CQ ∧
      get_sw_cqe hdr Cq.ex_marker 1 = none ∧
      (mlx5_poll_one hdr Ext.zero
        { cq := Cq.ex_marker, w := World.zero, cur_rsc := 0, cur_srq := 0, wc := Wc.ex_stale 0 }
        0).code = some CQ_OK ∧
      (poll_cq hdr Ext.zero Cq.ex_marker World.zero 4 Wc.ex_stale 0).code = some 1 ∧
      (poll_cq hdr Ext.zero Cq.ex_marker World.zero 4 Wc.ex_stale 0).state.map
        (fun s => (s.cq.cons_index, (s.wc 0).wr_id, (s.wc 0).status, (s.wc 0).opcode)) =
          some (1, 555, hdr.IBV_WC_SUCCESS, hdr.IBV_WC_RECV) := by
  decide

/-! ### Unresolved resource identifiers (C20) -/

/-- The function poll_cq, as its loop from the entry state followed by its epilogue. -/
theorem poll_cq_eq (K : Hdr) (E : Ext) (cq : Cq) (w : World) (ne : Nat) (wc : Nat → Wc)
    (cqe_ver : Nat) :
    poll_cq K E cq w ne wc cqe_ver =
      match poll_cq_loop K E cqe_ver ne 0 (poll_cq_enter cq w wc) with
      | Res.starved => Res.starved
      | Res.freeze (_, s) => Res.freeze s
      | Res.ret err (npolled, s) =>
        Res.ret (if err = CQ_POLL_ERR then err else (npolled : Int))
          { s with
            cq := poll_cq_stall E s.w ({ update_cons_index K s.cq with lock := false } : Cq)
                    ne npolled err } := rfl

/-- A batch whose first k polls all return CQ_OK goes on, after them, as a batch of its own with
k completions counted. -/
theorem poll_loop_append (K : Hdr) (E : Ext) (cqe_ver : Nat) :
    ∀ (k m np np1 : Nat) (s sk : PollSt),
      poll_cq_loop K E cqe_ver k np s = Res.ret CQ_OK (np1, sk) →
      np1 = np + k ∧
        poll_cq_loop K E cqe_ver (k + m) np s = poll_cq_loop K E cqe_ver m np1 sk := by
  intro k
  induction k with
  | zero =>
    intro m np np1 s sk h
    rw [poll_cq_loop] at h
    simp only [Res.ret.injEq, Prod.mk.injEq, true_and] at h
    obtain ⟨h1, h2⟩ := h
    subst h1 h2
    exact ⟨rfl, by rw [Nat.zero_add]⟩
  | succ k ih =>
    intro m np np1 s sk h
    rw [show k + 1 + m = (k + m) + 1 by omega]
    rw [poll_cq_loop] at h ⊢
    cases hres : mlx5_poll_one K E
        { cq := s.cq, w := s.w, cur_rsc := s.rsc, cur_srq := s.srq, wc := s.wc np }
        cqe_ver with
    | starved => rw [hres] at h; exact Res.noConfusion h
    | freeze st => rw [hres] at h; exact Res.noConfusion h
    | ret err st =>
      rw [hres] at h
      simp only [] at h ⊢
      by_cases he : err ≠ CQ_OK
      · rw [if_pos he] at h
        simp only [Res.ret.injEq] at h
        exact absurd h.1 he
      · rw [if_neg he] at h ⊢
        obtain ⟨h1, h2⟩ := ih m (np + 1) np1 _ sk h
        exact ⟨by omega, h2⟩

/-- A slot whose resource identifier does not resolve ends the immediate-mode pass with
CQ_POLL_ERR and the queue unchanged. -/
theorem parse_unresolved (K : Hdr) (hK : K.Ok) (E : Ext) (st : PState) (pos cqe_ver : Nat)
    (h : Unresolved K st pos cqe_ver) :
    ∃ st1, parse_step K E st pos cqe_ver 0 = Step.ret CQ_POLL_ERR st1 ∧ st1.cq = st.cq := by
  have hd := hK.cqe_opcodes
  simp only [List.nodup_cons, List.mem_cons, List.mem_singleton, List.not_mem_nil, not_or,
    List.nodup_nil, or_false, and_true, not_false_eq_true] at hd
  unfold Unresolved at h
  simp only [] at h
  rcases h with ⟨hop, hq⟩ | ⟨hop, hr⟩ | ⟨hop, hr⟩ | ⟨hop, hnf, hq⟩ | ⟨hop, hnf, hr⟩
  · unfold parse_step parse_init
    simp only [hop, ne_eq, not_true_eq_false, if_false, if_true]
    unfold parse_req
    simp only [get_cqe] at hq ⊢
    simp only [hq, if_true]
    exact ⟨_, rfl, rfl⟩
  · have hreq : ¬ mlx5dv_get_cqe_opcode (get_cqe st.cq pos).cqe64 = K.MLX5_CQE_REQ := by
      rcases hop with h1 | h1 | h1 | h1 <;> rw [h1] <;> simp [hd]
    unfold parse_step
    simp only [if_neg hreq, if_pos hop]
    unfold parse_resp parse_init
    simp only [ne_eq, not_true_eq_false, if_false, get_cqe] at hr ⊢
    simp only [hr, not_false_eq_true, if_true]
    exact ⟨_, rfl, rfl⟩
  · unfold parse_step
    simp only [hop, hd, if_false, if_true, false_or]
    unfold parse_no_packet parse_init
    simp only [ne_eq, not_true_eq_false, if_false, get_cqe] at hr ⊢
    split
    · exact ⟨_, rfl, rfl⟩
    · simp only [hr, not_false_eq_true, true_or, if_true]
      exact ⟨_, rfl, rfl⟩
  · have hs := parse_step_err K hK E st pos cqe_ver 0 (Or.inl hop)
    rw [hs]
    have hfz := no_freeze K st.w _ hnf
    unfold parse_err parse_init
    simp only [ne_eq, not_true_eq_false, if_false, get_cqe] at hq hfz hop ⊢
    simp only [hfz, if_false, hop, if_true, hq]
    exact ⟨_, rfl, rfl⟩
  · have hs := parse_step_err K hK E st pos cqe_ver 0 (Or.inr hop)
    rw [hs]
    have hfz := no_freeze K st.w _ hnf
    have hne : ¬ K.MLX5_CQE_RESP_ERR = K.MLX5_CQE_REQ_ERR := hd.2.1.1
    unfold parse_err parse_init
    simp only [ne_eq, not_true_eq_false, if_false, get_cqe] at hr hfz hop ⊢
    simp only [hfz, if_false, hop, hne, hr, not_false_eq_true, if_true]
    exact ⟨_, rfl, rfl⟩

/-- Claim C20, amended. For every batch of poll_cq asked for more than k completions in which
the first k polls return CQ_OK (leaving the loop in the state sk) and the next ready slot
carries a resource identifier that does not resolve: the decode of that slot returns
CQ_POLL_ERR, poll_cq stops there and returns CQ_POLL_ERR alone (the count k is not part of
the return value), the consumer index is one past that slot and no later slot is consumed,
and the k completions decoded before are still in wc[0..k). -/
theorem poll_cq_unresolved (K : Hdr) (hK : K.Ok) (E : Ext) (cq : Cq) (w : World)
    (ne : Nat) (wc : Nat → Wc) (cqe_ver k p : Nat) (sk : PollSt)
    (hfirst : poll_cq_loop K E cqe_ver k 0 (poll_cq_enter cq w wc) = Res.ret CQ_OK (k, sk))
    (hne : k < ne)
    (hvis : next_cqe_sw K sk.cq = some p)
    (hun : Unresolved K
      { cq := { sk.cq with cons_index := (sk.cq.cons_index + 1) % 2 ^ 32 }, w := sk.w,
        cur_rsc := sk.rsc, cur_srq := sk.srq, wc := sk.wc k } p cqe_ver) :
    ∃ st1 s,
      mlx5_poll_one K E
        { cq := sk.cq, w := sk.w, cur_rsc := sk.rsc, cur_srq := sk.srq, wc := sk.wc k }
        cqe_ver = Res.ret CQ_POLL_ERR st1 ∧
      poll_cq K E cq w ne wc cqe_ver = Res.ret CQ_POLL_ERR s ∧
      s.cq.cons_index = (sk.cq.cons_index + 1) % 2 ^ 32 ∧
      ∀ j, j < k → s.wc j = sk.wc j := by
  obtain ⟨st1, h1, h2⟩ := parse_unresolved K hK E _ p cqe_ver hun
  have hone : mlx5_poll_one K E
      { cq := sk.cq, w := sk.w, cur_rsc := sk.rsc, cur_srq := sk.srq, wc := sk.wc k }
      cqe_ver = Res.ret CQ_POLL_ERR st1 := by
    unfold mlx5_poll_one mlx5_get_next_cqe
    simp only [hvis]
    exact mlx5_parse_cqe_of_ret K E _ st1 p cqe_ver 0 CQ_POLL_ERR h1
  obtain ⟨m, rfl⟩ : ∃ m, ne = k + (m + 1) := ⟨ne - k - 1, by omega⟩
  have happ := (poll_loop_append K E cqe_ver k (m + 1) 0 k (poll_cq_enter cq w wc) sk hfirst).2
  have hne' : CQ_POLL_ERR ≠ CQ_OK := by decide
  have hloop : poll_cq_loop K E cqe_ver (m + 1) k sk =
      Res.ret CQ_POLL_ERR (k,
        { cq := st1.cq, w := st1.w, rsc := st1.cur_rsc, srq := st1.cur_srq,
          wc := upd sk.wc k st1.wc }) := by
    rw [poll_cq_loop]
    simp only [hone, if_pos hne']
  have hrun : poll_cq K E cq w (k + (m + 1)) wc cqe_ver =
      Res.ret CQ_POLL_ERR
        { cq := poll_cq_stall E st1.w ({ update_cons_index K st1.cq with lock := false } : Cq)
            (k + (m + 1)) k CQ_POLL_ERR,
          w := st1.w, rsc := st1.cur_rsc, srq := st1.cur_srq, wc := upd sk.wc k st1.wc } := by
    rw [poll_cq_eq, happ, hloop]
    simp only [if_true]
  refine ⟨st1, _, hone, hrun, ?_, ?_⟩
  · have hst := poll_cq_stall_frame E st1.w { update_cons_index K st1.cq with lock := false }
      (k + (m + 1)) k CQ_POLL_ERR
    show (poll_cq_stall E st1.w { update_cons_index K st1.cq with lock := false }
      (k + (m + 1)) k CQ_POLL_ERR).cons_index = _
    rw [hst.1]
    show st1.cq.cons_index = _
    rw [h2]
  · intro j hj
    show upd sk.wc k st1.wc j = _
    rw [upd_other _ _ _ _ (by omega)]

/-- Claim C20, counterexample: a ring with a good send completion followed by a send completion
for queue number 8, which no table resolves. poll_cq returns CQ_POLL_ERR (-2), the same
value as for a ring that holds the unresolved slot alone: the return value carries no count,
although wc[0] holds the decoded completion (wr_id 42, status success) and two slots were
consumed. -/
theorem poll_cq_unresolved_counterexample :
    (poll_cq_loop hdr Ext.zero 0 1 0
        (poll_cq_enter Cq.ex_unresolved World.ex_send (fun _ => Wc.zero))).code = some CQ_OK ∧
      mlx5_find_qp World.ex_send 8 = 0 ∧
      (poll_cq hdr Ext.zero Cq.ex_unresolved World.ex_send 4 (fun _ => Wc.zero) 0).code =
        some CQ_POLL_ERR ∧
      (poll_cq hdr Ext.zero Cq.ex_unresolved World.ex_send 4 (fun _ => Wc.zero) 0).state.map
        (fun s => (s.cq.cons_index, (s.wc 0).wr_id, (s.wc 0).status)) =
          some (2, 42, hdr.IBV_WC_SUCCESS) ∧
      (poll_cq hdr Ext.zero Cq.ex_unresolved0 World.ex_send 4 (fun _ => Wc.zero) 0).code =
        some CQ_POLL_ERR := by
  decide

/-- Witness for C20: on that ring poll_cq asked for 4 completions returns CQ_POLL_ERR with the
consumer index at 2. -/
theorem poll_cq_unresolved_witness :
    ∃ s, poll_cq hdr Ext.zero Cq.ex_unresolved World.ex_send 4 (fun _ => Wc.zero) 0 =
        Res.ret CQ_POLL_ERR s ∧ s.cq.cons_index = 2 := by
  have h1 : ∃ sk, poll_cq_loop hdr Ext.zero 0 1 0
      (poll_cq_enter Cq.ex_unresolved World.ex_send (fun _ => Wc.zero)) = Res.ret CQ_OK (1, sk) ∧
      sk.cq.cons_index = 1 ∧ next_cqe_sw hdr sk.cq = some 1 ∧
      Unresolved hdr
        { cq := { sk.cq with cons_index := (sk.cq.cons_index + 1) % 2 ^ 32 }, w := sk.w,
          cur_rsc := sk.rsc, cur_srq := sk.srq, wc := sk.wc 1 } 1 0 :=
    ⟨_, rfl, by decide, by decide, Or.inl ⟨by decide, by decide⟩⟩
  obtain ⟨sk, a1, a2, a3, a4⟩ := h1
  obtain ⟨_, s, _, b2, b3, _⟩ := poll_cq_unresolved hdr hdr_ok Ext.zero Cq.ex_unresolved
    World.ex_send 4 (fun _ => Wc.zero) 0 1 1 sk a1 (by decide) a3 a4
  exact ⟨s, b2, by rw [b3, a2]; rfl⟩

/-! ### Tags not expecting a completion (C21) -/

/-- The six sub-opcodes of the consumed / expected family, in the order in which handle_tag_matching
tests them. -/
theorem tm_family_cases (op : Nat) (h : TmFamily op) :
    (op = MLX5_CQE_APP_OP_TM_CONSUMED_MSG_SW_RDNV ∨ op = MLX5_CQE_APP_OP_TM_CONSUMED_SW_RDNV ∨
      op = MLX5_CQE_APP_OP_TM_MSG_COMPLETION_CANCELED ∨ op = MLX5_CQE_APP_OP_TM_CONSUMED_MSG ∨
      op = MLX5_CQE_APP_OP_TM_CONSUMED ∨ op = MLX5_CQE_APP_OP_TM_EXPECTED) := by
  unfold TmFamily at h
  tauto

/-- On a slot of the consumed / expected family whose tag is not expecting a completion,
handle_tag_matching sets the status IBV_WC_GENERAL_ERR, takes and releases the lock, and returns
CQ_OK. -/
theorem handle_tag_matching_idle (K : Hdr) (E : Ext) (cq : Cq) (w : World) (slot : Slot)
    (pos srq : Nat) (hop : TmFamily slot.cqe64.app_op)
    (hexp : ((w.srq srq).tm_list (be16toh slot.cqe64.app_info)).expect_cqe = 0) :
    handle_tag_matching K E cq w slot pos srq =
      (CQ_OK, { cq with status := K.IBV_WC_GENERAL_ERR },
        (w.srqLock srq true).srqLock srq false) := by
  have h := tm_family_cases _ hop
  unfold handle_tag_matching
  simp only [srqLock_tm_list, if_pos h, hexp, if_true]
  split <;> rfl

/-- The pass over a slot that the decode hands to handle_tag_matching: the result is CQ_POLL_ERR
when handle_tag_matching returns nonzero and CQ_OK otherwise, with the queue and the context
that handle_tag_matching leaves. -/
theorem parse_step_tm (K : Hdr) (hK : K.Ok) (E : Ext) (st : PState) (pos cqe_ver lazy : Nat)
    (c : RscCtx) (h : TmSlot K st pos cqe_ver lazy c) :
    parse_step K E st pos cqe_ver lazy =
      (if (handle_tag_matching K E (parse_init K st pos lazy).cq st.w (get_cqe st.cq pos) pos
          c.cur_srq).1 ≠ 0 then
        Step.ret CQ_POLL_ERR
          { parse_init K st pos lazy with
            cur_rsc := c.cur_rsc, cur_srq := c.cur_srq,
            cq := (handle_tag_matching K E (parse_init K st pos lazy).cq st.w
              (get_cqe st.cq pos) pos c.cur_srq).2.1,
            w := (handle_tag_matching K E (parse_init K st pos lazy).cq st.w
              (get_cqe st.cq pos) pos c.cur_srq).2.2 }
      else
        Step.ret CQ_OK
          { parse_init K st pos lazy with
            cur_rsc := c.cur_rsc, cur_srq := c.cur_srq,
            cq := (handle_tag_matching K E (parse_init K st pos lazy).cq st.w
              (get_cqe st.cq pos) pos c.cur_srq).2.1,
            w := (handle_tag_matching K E (parse_init K st pos lazy).cq st.w
              (get_cqe st.cq pos) pos c.cur_srq).2.2 }) := by
  obtain ⟨hop, happ, hres, hsrq⟩ := h
  have hn := hK.cqe_opcodes
  simp only [List.nodup_cons, List.mem_cons, List.mem_singleton, List.not_mem_nil, not_or,
    List.nodup_nil, or_false, and_true, not_false_eq_true] at hn
  have hz : ((CQ_OK, c) : Int × RscCtx).1 = 0 := rfl
  have e1 := parse_init_w K st pos lazy
  have e2 := parse_init_cur_rsc K st pos lazy
  have e3 := parse_init_cur_srq K st pos lazy
  have e4 := parse_init_slot K st pos lazy pos
  unfold parse_step
  rcases hop with ⟨hop, hl⟩ | hop
  · have hreq : ¬ mlx5dv_get_cqe_opcode (get_cqe st.cq pos).cqe64 = K.MLX5_CQE_REQ := by
      rcases hop with h1 | h1 | h1 | h1 <;> rw [h1] <;> simp [hn]
    simp only [if_neg hreq, if_pos hop]
    unfold parse_resp
    simp only [e1, e2, e3, e4, hres, hz, ne_eq, not_true_eq_false, if_false, hl,
      not_false_eq_true, if_true, happ, hsrq]
  · have hreq : ¬ mlx5dv_get_cqe_opcode (get_cqe st.cq pos).cqe64 = K.MLX5_CQE_REQ := by
      rw [hop]; simp [hn]
    have hresp : ¬ (mlx5dv_get_cqe_opcode (get_cqe st.cq pos).cqe64 = K.MLX5_CQE_RESP_WR_IMM ∨
        mlx5dv_get_cqe_opcode (get_cqe st.cq pos).cqe64 = K.MLX5_CQE_RESP_SEND ∨
        mlx5dv_get_cqe_opcode (get_cqe st.cq pos).cqe64 = K.MLX5_CQE_RESP_SEND_IMM ∨
        mlx5dv_get_cqe_opcode (get_cqe st.cq pos).cqe64 = K.MLX5_CQE_RESP_SEND_INV) := by
      rw [hop]; simp [hn]
    simp only [if_neg hreq, if_neg hresp, if_pos hop]
    unfold parse_no_packet
    simp only [e1, e2, e3, e4, hres, hz, ne_eq, not_true_eq_false, if_false, happ, hsrq,
      or_self]

/-- Claim C21, amended. For every tag-matching slot of the consumed / expected family (CONSUMED,
CONSUMED_MSG, CONSUMED_SW_RDNV, CONSUMED_MSG_SW_RDNV, MSG_COMPLETION_CANCELED, EXPECTED) that
the lazy decode (mlx5_parse_cqe with lazy set, as mlx5_start_poll and mlx5_next_poll call it)
hands to handle_tag_matching and whose tag-table entry at index app_info is not marked
expect_cqe: the decode stops without releasing the tag (no call is made), without taking a wr_id
from it (wr_id is unchanged) and without copying data (memory is unchanged); it returns CQ_OK,
not CQ_POLL_ERR, with the slot as the current slot of the queue and with the status of the
queue, which is the per-slot status that the lazy interface reports, set to IBV_WC_GENERAL_ERR;
the ring and the consumer index are left as they are, so the poll goes on with the next slot. -/
theorem parse_tm_not_expected (K : Hdr) (hK : K.Ok) (E : Ext) (st : PState)
    (pos cqe_ver lazy : Nat) (c : RscCtx) (hlazy : lazy ≠ 0)
    (hslot : TmSlot K st pos cqe_ver lazy c)
    (hop : TmFamily (get_cqe st.cq pos).cqe64.app_op)
    (hexp : ((st.w.srq c.cur_srq).tm_list
      (be16toh (get_cqe st.cq pos).cqe64.app_info)).expect_cqe = 0) :
    ∃ st1, mlx5_parse_cqe K E st pos cqe_ver lazy = Res.ret CQ_OK st1 ∧
      st1.cq.cqe64 = some pos ∧
      st1.cq.status = K.IBV_WC_GENERAL_ERR ∧
      st1.cq.wr_id = st.cq.wr_id ∧
      st1.w.log = st.w.log ∧
      st1.w.mem = st.w.mem ∧
      (st1.w.srq c.cur_srq).tm_list = (st.w.srq c.cur_srq).tm_list ∧
      st1.cq.active_buf = st.cq.active_buf ∧
      st1.cq.cons_index = st.cq.cons_index := by
  have hs := parse_step_tm K hK E st pos cqe_ver lazy c hslot
  rw [handle_tag_matching_idle K E _ st.w (get_cqe st.cq pos) pos c.cur_srq hop hexp] at hs
  have hz : ¬ (CQ_OK ≠ 0) := by decide
  simp only [if_neg hz] at hs
  have hi : (parse_init K st pos lazy).cq =
      { st.cq with cqe64 := some pos,
                   flags := st.cq.flags &&& not32 (MLX5_CQ_LAZY_FLAGS K) } := by
    unfold parse_init
    simp only [if_pos hlazy]
  refine ⟨_, mlx5_parse_cqe_of_ret K E st _ pos cqe_ver lazy CQ_OK hs, ?_, rfl, ?_, rfl, rfl, ?_,
    ?_, ?_⟩
  · show (parse_init K st pos lazy).cq.cqe64 = some pos
    rw [hi]
  · show (parse_init K st pos lazy).cq.wr_id = st.cq.wr_id
    rw [hi]
  · show (((st.w.srqLock c.cur_srq true).srqLock c.cur_srq false).srq c.cur_srq).tm_list = _
    rw [srqLock_tm_list, srqLock_tm_list]
  · show (parse_init K st pos lazy).cq.active_buf = st.cq.active_buf
    rw [hi]
  · show (parse_init K st pos lazy).cq.cons_index = st.cq.cons_index
    rw [hi]

/-- Claim C21, counterexample: a ring whose slot 0 is a no-packet slot with sub-opcode EXPECTED for
tag 3 of the shared receive queue number 5, whose tag 3 is not expecting a completion, followed
by a send completion, polled through the lazy interface. mlx5_start_poll returns 0, not
CQ_POLL_ERR: slot 0 is the current slot, the status of the queue is IBV_WC_GENERAL_ERR and no
call was made. The batch is not aborted: mlx5_next_poll on the queue so left returns 0 with the
send completion as the current slot (wr_id 42). -/
theorem parse_tm_not_expected_counterexample :
    next_cqe_sw hdr Cq.ex_tm_idle = some 0 ∧
      mlx5dv_get_cqe_opcode (Cq.ex_tm_idle.active_buf 0).cqe64 = hdr.MLX5_CQE_NO_PACKET ∧
      (Cq.ex_tm_idle.active_buf 0).cqe64.app = MLX5_CQE_APP_TAG_MATCHING ∧
      (Cq.ex_tm_idle.active_buf 0).cqe64.app_op = MLX5_CQE_APP_OP_TM_EXPECTED ∧
      mlx5_find_srq World.ex_tm_idle 5 = 9 ∧
      ((World.ex_tm_idle.srq 9).tm_list 3).expect_cqe = 0 ∧
      (mlx5_start_poll hdr Ext.zero Cq.ex_tm_idle World.ex_tm_idle Wc.zero 0 0 0 0 0).code =
        some 0 ∧
      (mlx5_start_poll hdr Ext.zero Cq.ex_tm_idle World.ex_tm_idle Wc.zero 0 0 0 0 0).state.map
        (fun s => (s.cq.cqe64, s.cq.status, s.cq.cons_index, s.w.log)) =
          some (some 0, hdr.IBV_WC_GENERAL_ERR, 1, []) ∧
      ((mlx5_start_poll hdr Ext.zero Cq.ex_tm_idle World.ex_tm_idle Wc.zero 0 0 0 0 0).state.map
        (fun s => (mlx5_next_poll hdr Ext.zero s.cq s.w Wc.zero 0 0).code)) = some (some 0) ∧
      ((mlx5_start_poll hdr Ext.zero Cq.ex_tm_idle World.ex_tm_idle Wc.zero 0 0 0 0 0).state.map
        (fun s => (mlx5_next_poll hdr Ext.zero s.cq s.w Wc.zero 0 0).state.map
          (fun s1 => (s1.cq.cqe64, s1.cq.status, s1.cq.wr_id, s1.cq.cons_index)))) =
        some (some (some 1, hdr.IBV_WC_SUCCESS, 42, 2)) := by
  decide

/-- Witness for C21: the lazy decode of that no-packet slot returns CQ_OK with the slot as current
slot and the status IBV_WC_GENERAL_ERR, and leaves wr_id, the log of calls, the memory and the
tag table as they were. -/
theorem parse_tm_not_expected_witness :
    ∃ st1, mlx5_parse_cqe hdr Ext.zero
        { cq := Cq.ex_tm_idle, w := World.ex_tm_idle, cur_rsc := 0, cur_srq := 0, wc := Wc.zero }
        0 0 1 = Res.ret CQ_OK st1 ∧
      st1.cq.cqe64 = some 0 ∧
      st1.cq.status = hdr.IBV_WC_GENERAL_ERR ∧
      st1.cq.wr_id = 0 ∧
      st1.w.log = [] ∧
      st1.w.mem = World.ex_tm_idle.mem ∧
      (st1.w.srq 9).tm_list = (World.ex_tm_idle.srq 9).tm_list ∧
      st1.cq.active_buf = Cq.ex_tm_idle.active_buf ∧
      st1.cq.cons_index = 0 :=
  parse_tm_not_expected hdr hdr_ok Ext.zero
    { cq := Cq.ex_tm_idle, w := World.ex_tm_idle, cur_rsc := 0, cur_srq := 0, wc := Wc.zero }
    0 0 1 { cur_rsc := 0, cur_srq := 9, is_srq := 1 } (by decide)
    ⟨Or.inr (by decide), by decide, rfl, by decide⟩
    (Or.inr (Or.inr (Or.inr (Or.inr (Or.inr (by decide)))))) (by decide)

/-! ### Inline data of tag-matching completions (C22) -/

/-- On a slot of the consumed / expected family whose tag is expecting a completion,
handle_tag_matching returns CQ_OK with the wr_id of the tag; the status is IBV_WC_LOC_LEN_ERR
when inline data exceeds the buffer of the tag, else IBV_WC_TM_RNDV_INCOMPLETE or IBV_WC_SUCCESS
by the sub-opcode; the tag is released when the sub-opcode is completing; and memory changes
only by the copy of inline data that fits. -/
theorem handle_tag_matching_expecting (K : Hdr) (E : Ext) (cq : Cq) (w : World) (slot : Slot)
    (pos srq : Nat) (hop : TmFamily slot.cqe64.app_op)
    (hexp : ((w.srq srq).tm_list (be16toh slot.cqe64.app_info)).expect_cqe ≠ 0) :
    handle_tag_matching K E cq w slot pos srq =
      (CQ_OK,
        { cq with
          wr_id := ((w.srq srq).tm_list (be16toh slot.cqe64.app_info)).wr_id,
          status :=
            if slot.cqe64.op_own &&& K.MLX5_INLINE_SCATTER_64 ≠ 0 ∧
                be32toh slot.cqe64.byte_cnt >
                  ((w.srq srq).tm_list (be16toh slot.cqe64.app_info)).size then
              K.IBV_WC_LOC_LEN_ERR
            else if slot.cqe64.app_op = MLX5_CQE_APP_OP_TM_CONSUMED_MSG_SW_RDNV ∨
                slot.cqe64.app_op = MLX5_CQE_APP_OP_TM_CONSUMED_SW_RDNV ∨
                slot.cqe64.app_op = MLX5_CQE_APP_OP_TM_MSG_COMPLETION_CANCELED then
              K.IBV_WC_TM_RNDV_INCOMPLETE
            else K.IBV_WC_SUCCESS },
        { (if mlx5_cqe_app_op_tm_is_complete slot.cqe64.app_op = true then
            w.call (ExtCall.tm_release_tag srq (be16toh slot.cqe64.app_info)) else w) with
          mem :=
            if slot.cqe64.op_own &&& K.MLX5_INLINE_SCATTER_64 ≠ 0 ∧
                be32toh slot.cqe64.byte_cnt ≤
                  ((w.srq srq).tm_list (be16toh slot.cqe64.app_info)).size then
              (w.memcpy ((w.srq srq).tm_list (be16toh slot.cqe64.app_info)).ptr slot.scatter64
                (be32toh slot.cqe64.byte_cnt)).mem
            else w.mem,
          srq := ((w.srqLock srq true).srqLock srq false).srq }) := by
  have h := tm_family_cases _ hop
  unfold handle_tag_matching
  simp only [srqLock_tm_list, if_pos h, hexp, if_false]
  split_ifs <;> first | rfl | (exfalso; omega)

/-- Claim C22. For every slot of the consumed / expected family with the INLINE_SCATTER_64 bit and
an expecting tag with a buffer of tag.size bytes at tag.ptr, with n the byte count of the slot:
handle_tag_matching returns CQ_OK; if n > tag.size the status is IBV_WC_LOC_LEN_ERR and no byte
of memory is written; if n <= tag.size (n = tag.size included) byte i of the buffer holds, for
every i < n, the byte at offset i of the block that precedes the record (cqe64 - 1), every byte
outside [tag.ptr, tag.ptr + n) is unchanged, and the status is IBV_WC_SUCCESS or
IBV_WC_TM_RNDV_INCOMPLETE, not a length error. In both cases no byte outside the buffer of the
tag is written. -/
theorem tm_inline_copy_bounded (K : Hdr) (E : Ext) (cq : Cq) (w : World) (slot : Slot)
    (pos srq : Nat) (tag : TagEntry) (n : Nat)
    (hop : TmFamily slot.cqe64.app_op)
    (hinl : slot.cqe64.op_own &&& K.MLX5_INLINE_SCATTER_64 ≠ 0)
    (htag : tag = (w.srq srq).tm_list (be16toh slot.cqe64.app_info))
    (hexp : tag.expect_cqe ≠ 0)
    (hn : n = be32toh slot.cqe64.byte_cnt) :
    (handle_tag_matching K E cq w slot pos srq).1 = CQ_OK ∧
      (n > tag.size →
        (handle_tag_matching K E cq w slot pos srq).2.1.status = K.IBV_WC_LOC_LEN_ERR ∧
        (handle_tag_matching K E cq w slot pos srq).2.2.mem = w.mem) ∧
      (n ≤ tag.size →
        (∀ i, i < n →
          (handle_tag_matching K E cq w slot pos srq).2.2.mem (tag.ptr + i) =
            slot.scatter64 i) ∧
        (∀ a, a < tag.ptr ∨ tag.ptr + n ≤ a →
          (handle_tag_matching K E cq w slot pos srq).2.2.mem a = w.mem a) ∧
        ((handle_tag_matching K E cq w slot pos srq).2.1.status = K.IBV_WC_SUCCESS ∨
          (handle_tag_matching K E cq w slot pos srq).2.1.status =
            K.IBV_WC_TM_RNDV_INCOMPLETE)) ∧
      (∀ a, a < tag.ptr ∨ tag.ptr + tag.size ≤ a →
        (handle_tag_matching K E cq w slot pos srq).2.2.mem a = w.mem a) := by
  subst htag hn
  rw [handle_tag_matching_expecting K E cq w slot pos srq hop hexp]
  refine ⟨rfl, fun hgt => ?_, fun hle => ⟨fun i hi => ?_, fun a ha => ?_, ?_⟩, fun a ha => ?_⟩
  · refine ⟨?_, ?_⟩
    · show (if _ then _ else _) = _
      rw [if_pos ⟨hinl, hgt⟩]
    · show (if _ then _ else _) = _
      rw [if_neg (fun h => absurd h.2 (by omega))]
  · show (if _ then _ else _ : Nat → Nat) _ = _
    rw [if_pos ⟨hinl, hle⟩]
    simp [World.memcpy, hi]
  · show (if _ then _ else _ : Nat → Nat) _ = _
    rw [if_pos ⟨hinl, hle⟩]
    simp only [World.memcpy]
    rw [if_neg]
    omega
  · show (if _ then _ else _) = _ ∨ (if _ then _ else _) = _
    rw [if_neg (fun h => absurd h.2 (by omega))]
    split
    · exact Or.inr rfl
    · exact Or.inl rfl
  · show (if _ then _ else _ : Nat → Nat) _ = _
    split
    · rename_i h
      simp only [World.memcpy]
      rw [if_neg]
      omega
    · rfl

/-- Witness for C22: the CONSUMED slot with 40 inline bytes for the tag with a buffer of 64 bytes at
address 1000. -/
theorem tm_inline_copy_bounded_witness :
    (handle_tag_matching hdr Ext.zero Cq.fresh4 World.ex_tm Slot.ex_tm_consumed 0 9).1 = CQ_OK ∧
      (40 > TagEntry.ex.size →
        (handle_tag_matching hdr Ext.zero Cq.fresh4 World.ex_tm Slot.ex_tm_consumed 0
          9).2.1.status = hdr.IBV_WC_LOC_LEN_ERR ∧
        (handle_tag_matching hdr Ext.zero Cq.fresh4 World.ex_tm Slot.ex_tm_consumed 0
          9).2.2.mem = World.ex_tm.mem) ∧
      (40 ≤ TagEntry.ex.size →
        (∀ i, i < 40 →
          (handle_tag_matching hdr Ext.zero Cq.fresh4 World.ex_tm Slot.ex_tm_consumed 0
            9).2.2.mem (TagEntry.ex.ptr + i) = Slot.ex_tm_consumed.scatter64 i) ∧
        (∀ a, a < TagEntry.ex.ptr ∨ TagEntry.ex.ptr + 40 ≤ a →
          (handle_tag_matching hdr Ext.zero Cq.fresh4 World.ex_tm Slot.ex_tm_consumed 0
            9).2.2.mem a = World.ex_tm.mem a) ∧
        ((handle_tag_matching hdr Ext.zero Cq.fresh4 World.ex_tm Slot.ex_tm_consumed 0
            9).2.1.status = hdr.IBV_WC_SUCCESS ∨
          (handle_tag_matching hdr Ext.zero Cq.fresh4 World.ex_tm Slot.ex_tm_consumed 0
            9).2.1.status = hdr.IBV_WC_TM_RNDV_INCOMPLETE)) ∧
      (∀ a, a < TagEntry.ex.ptr ∨ TagEntry.ex.ptr + TagEntry.ex.size ≤ a →
        (handle_tag_matching hdr Ext.zero Cq.fresh4 World.ex_tm Slot.ex_tm_consumed 0
          9).2.2.mem a = World.ex_tm.mem a) :=
  tm_inline_copy_bounded hdr Ext.zero Cq.fresh4 World.ex_tm Slot.ex_tm_consumed 0 9
    TagEntry.ex 40 (Or.inl (by decide)) (by decide) rfl (by decide) (by decide)

/-! ### Control acknowledgements, unexpected messages, completions without tag (C23 to C26) -/

/-- On a control acknowledgement (REMOVE, APPEND, NOOP) with a non-empty operation log, with o the
log entry at op_head & (wqe_cnt - 1) of the command queue-pair: the result code, wr_id, status,
flags and the calls made by handle_tag_matching, the new op_head, the unchanged op_tail and the
new tail of the send queue of the command queue-pair. -/
theorem handle_tag_matching_listop (K : Hdr) (E : Ext) (cq : Cq) (w : World) (slot : Slot)
    (pos srq : Nat) (o : SrqOp)
    (hop : TmListOp slot.cqe64.app_op)
    (hlog : (w.srq srq).op_tail ≠ (w.srq srq).op_head)
    (ho : o = (w.srq srq).op
      ((w.srq srq).op_head &&& decr32 (w.qp (w.srq srq).cmd_qp).sq.wqe_cnt)) :
    (handle_tag_matching K E cq w slot pos srq).1 = CQ_OK ∧
      (handle_tag_matching K E cq w slot pos srq).2.1.wr_id = o.wr_id ∧
      (handle_tag_matching K E cq w slot pos srq).2.1.status =
        (if slot.cqe64.app_op = MLX5_CQE_APP_OP_TM_REMOVE ∧
            be32toh slot.cqe64.tm_cqe_success &&& K.MLX5_TMC_SUCCESS = 0 then K.IBV_WC_TM_ERR
          else K.IBV_WC_SUCCESS) ∧
      (handle_tag_matching K E cq w slot pos srq).2.1.flags =
        (match o.tag with
          | none => cq.flags
          | some t =>
            if be16toh slot.cqe64.tm_cqe_hw_phase_cnt ≠ ((w.srq srq).tm_list t).phase_cnt then
              cq.flags ||| K.MLX5_CQ_FLAGS_TM_SYNC_REQ
            else cq.flags) ∧
      (handle_tag_matching K E cq w slot pos srq).2.2.log =
        (match o.tag with
          | none => w.log
          | some t =>
            if slot.cqe64.app_op = MLX5_CQE_APP_OP_TM_REMOVE ∧
                (if slot.cqe64.app_op = MLX5_CQE_APP_OP_TM_REMOVE ∧
                    be32toh slot.cqe64.tm_cqe_success &&& K.MLX5_TMC_SUCCESS = 0 then
                  K.IBV_WC_TM_ERR
                else K.IBV_WC_SUCCESS) = K.IBV_WC_SUCCESS then
              w.log ++ [ExtCall.tm_release_tag srq t, ExtCall.tm_release_tag srq t]
            else w.log ++ [ExtCall.tm_release_tag srq t]) ∧
      ((handle_tag_matching K E cq w slot pos srq).2.2.srq srq).op_head =
        ((w.srq srq).op_head + 1) % 2 ^ 32 ∧
      ((handle_tag_matching K E cq w slot pos srq).2.2.srq srq).op_tail = (w.srq srq).op_tail ∧
      ((handle_tag_matching K E cq w slot pos srq).2.2.qp (w.srq srq).cmd_qp).sq.tail =
        (o.wqe_head + 1) % 2 ^ 32 := by
  have hfam : ¬ (slot.cqe64.app_op = MLX5_CQE_APP_OP_TM_CONSUMED_MSG_SW_RDNV ∨
      slot.cqe64.app_op = MLX5_CQE_APP_OP_TM_CONSUMED_SW_RDNV ∨
      slot.cqe64.app_op = MLX5_CQE_APP_OP_TM_MSG_COMPLETION_CANCELED ∨
      slot.cqe64.app_op = MLX5_CQE_APP_OP_TM_CONSUMED_MSG ∨
      slot.cqe64.app_op = MLX5_CQE_APP_OP_TM_CONSUMED ∨
      slot.cqe64.app_op = MLX5_CQE_APP_OP_TM_EXPECTED) := by
    rcases hop with h | h | h <;> rw [h] <;> decide
  have hl : (w.srqLock srq true).srq srq = { w.srq srq with lock := true } := by
    simp [World.srqLock, World.setSrq, upd]
  have hq : (w.srqLock srq true).qp = w.qp := rfl
  have hdbg : ¬ (K.MLX5_DEBUG = true ∧
      ((w.srqLock srq true).srq srq).op_tail = ((w.srqLock srq true).srq srq).op_head) := by
    rw [hl]; exact fun h => hlog h.2
  have hop1 : slot.cqe64.app_op = MLX5_CQE_APP_OP_TM_REMOVE ∨
      slot.cqe64.app_op = MLX5_CQE_APP_OP_TM_APPEND ∨
      slot.cqe64.app_op = MLX5_CQE_APP_OP_TM_NOOP := hop
  unfold handle_tag_matching
  simp only [if_neg hfam, if_pos hop1, if_neg hdbg]
  rw [hl, hq]
  simp only []
  rw [← ho]
  cases ht : o.tag with
  | none =>
    simp [World.srqLock, World.setSrq, World.setQp, World.call, upd, apply_ite Cq.status,
      apply_ite Cq.flags]
  | some t =>
    simp [World.srqLock, World.setSrq, World.setQp, World.call, upd, apply_ite Cq.status,
      apply_ite Cq.flags, apply_ite World.log, apply_ite World.srq, apply_ite World.qp,
      apply_ite Prod.fst, apply_ite Prod.snd]

/-- Claim C23. For every REMOVE, APPEND or NOOP acknowledgement with a non-empty operation log, with
o the oldest pending log entry: if o carries no tag, no call is made (no tag is released); if o
carries tag t and the sub-opcode is APPEND or NOOP, the calls are exactly one
mlx5_tm_release_tag of t; if the sub-opcode is REMOVE and the hardware success bit is set, the
status is IBV_WC_SUCCESS and the calls are exactly two mlx5_tm_release_tag of t; if the sub-
opcode is REMOVE and the success bit is clear, the status is IBV_WC_TM_ERR and the calls are
exactly one mlx5_tm_release_tag of t. The header gives IBV_WC_TM_ERR and IBV_WC_SUCCESS distinct
values. -/
theorem tm_listop_release (K : Hdr) (hT : K.IBV_WC_TM_ERR ≠ K.IBV_WC_SUCCESS) (E : Ext)
    (cq : Cq) (w : World) (slot : Slot) (pos srq : Nat) (o : SrqOp)
    (hop : TmListOp slot.cqe64.app_op)
    (hlog : (w.srq srq).op_tail ≠ (w.srq srq).op_head)
    (ho : o = (w.srq srq).op
      ((w.srq srq).op_head &&& decr32 (w.qp (w.srq srq).cmd_qp).sq.wqe_cnt)) :
    (o.tag = none → (handle_tag_matching K E cq w slot pos srq).2.2.log = w.log) ∧
      (∀ t, o.tag = some t →
        slot.cqe64.app_op = MLX5_CQE_APP_OP_TM_APPEND ∨
          slot.cqe64.app_op = MLX5_CQE_APP_OP_TM_NOOP →
        (handle_tag_matching K E cq w slot pos srq).2.2.log =
          w.log ++ [ExtCall.tm_release_tag srq t]) ∧
      (∀ t, o.tag = some t → slot.cqe64.app_op = MLX5_CQE_APP_OP_TM_REMOVE →
        be32toh slot.cqe64.tm_cqe_success &&& K.MLX5_TMC_SUCCESS ≠ 0 →
        (handle_tag_matching K E cq w slot pos srq).2.1.status = K.IBV_WC_SUCCESS ∧
        (handle_tag_matching K E cq w slot pos srq).2.2.log =
          w.log ++ [ExtCall.tm_release_tag srq t, ExtCall.tm_release_tag srq t]) ∧
      (∀ t, o.tag = some t → slot.cqe64.app_op = MLX5_CQE_APP_OP_TM_REMOVE →
        be32toh slot.cqe64.tm_cqe_success &&& K.MLX5_TMC_SUCCESS = 0 →
        (handle_tag_matching K E cq w slot pos srq).2.1.status = K.IBV_WC_TM_ERR ∧
        (handle_tag_matching K E cq w slot pos srq).2.2.log =
          w.log ++ [ExtCall.tm_release_tag srq t]) := by
  obtain ⟨_, _, hst, _, hl, _⟩ := handle_tag_matching_listop K E cq w slot pos srq o hop hlog ho
  rw [hst, hl]
  refine ⟨fun h => ?_, fun t h h1 => ?_, fun t h h1 h2 => ?_, fun t h h1 h2 => ?_⟩
  · rw [h]
  · have hr : ¬ slot.cqe64.app_op = MLX5_CQE_APP_OP_TM_REMOVE := by
      rcases h1 with h1 | h1 <;> rw [h1] <;> decide
    rw [h]
    simp only [hr, false_and, if_false]
  · rw [h]
    simp only [h1, h2, true_and, if_false, if_true, and_self]
  · rw [h]
    simp only [h1, h2, true_and, if_true, hT, if_false, and_self]

/-- Claim C24. For every REMOVE, APPEND or NOOP acknowledgement with a non-empty operation log:
handle_tag_matching returns CQ_OK; it takes the log entry o at position op_head & (sq.wqe_cnt -
1) of the command queue-pair (in unsigned 32-bit arithmetic, which is op_head & (wqe_cnt - 1)
for a send queue of 1 to 2^32 entries); op_head increases by exactly 1 (modulo 2^32) and op_tail
is unchanged; wr_id is o.wr_id; sq.tail of the command queue-pair becomes o.wqe_head + 1 (modulo
2^32); and MLX5_CQ_FLAGS_TM_SYNC_REQ is or-ed into the flags if o carries a tag whose phase_cnt
differs from hw_phase_cnt of the slot, while the flags are unchanged if o carries no tag or a
tag with the same phase_cnt. -/
theorem tm_listop_pop (K : Hdr) (E : Ext) (cq : Cq) (w : World) (slot : Slot)
    (pos srq : Nat) (o : SrqOp)
    (hop : TmListOp slot.cqe64.app_op)
    (hlog : (w.srq srq).op_tail ≠ (w.srq srq).op_head)
    (ho : o = (w.srq srq).op
      ((w.srq srq).op_head &&& decr32 (w.qp (w.srq srq).cmd_qp).sq.wqe_cnt)) :
    (handle_tag_matching K E cq w slot pos srq).1 = CQ_OK ∧
      (0 < (w.qp (w.srq srq).cmd_qp).sq.wqe_cnt →
        (w.qp (w.srq srq).cmd_qp).sq.wqe_cnt ≤ 2 ^ 32 →
        o = (w.srq srq).op
          ((w.srq srq).op_head &&& ((w.qp (w.srq srq).cmd_qp).sq.wqe_cnt - 1))) ∧
      ((handle_tag_matching K E cq w slot pos srq).2.2.srq srq).op_head =
        ((w.srq srq).op_head + 1) % 2 ^ 32 ∧
      ((handle_tag_matching K E cq w slot pos srq).2.2.srq srq).op_tail = (w.srq srq).op_tail ∧
      (handle_tag_matching K E cq w slot pos srq).2.1.wr_id = o.wr_id ∧
      ((handle_tag_matching K E cq w slot pos srq).2.2.qp (w.srq srq).cmd_qp).sq.tail =
        (o.wqe_head + 1) % 2 ^ 32 ∧
      (∀ t, o.tag = some t →
        ((w.srq srq).tm_list t).phase_cnt ≠ be16toh slot.cqe64.tm_cqe_hw_phase_cnt →
        (handle_tag_matching K E cq w slot pos srq).2.1.flags =
          cq.flags ||| K.MLX5_CQ_FLAGS_TM_SYNC_REQ) ∧
      ((o.tag = none ∨ ∃ t, o.tag = some t ∧
          ((w.srq srq).tm_list t).phase_cnt = be16toh slot.cqe64.tm_cqe_hw_phase_cnt) →
        (handle_tag_matching K E cq w slot pos srq).2.1.flags = cq.flags) := by
  obtain ⟨h1, h2, _, h4, _, h6, h7, h8⟩ :=
    handle_tag_matching_listop K E cq w slot pos srq o hop hlog ho
  refine ⟨h1, fun hp hle => ?_, h6, h7, h2, h8, fun t ht hne => ?_, fun h => ?_⟩
  · have e : decr32 (w.qp (w.srq srq).cmd_qp).sq.wqe_cnt =
        (w.qp (w.srq srq).cmd_qp).sq.wqe_cnt - 1 := by
      unfold decr32; omega
    rw [← e]; exact ho
  · rw [h4, ht]
    simp only [ne_eq, Ne.symm hne, not_false_eq_true, if_true]
  · rw [h4]
    rcases h with h | ⟨t, ht, he⟩
    · rw [h]
    · rw [ht]
      simp only [ne_eq, he, not_true_eq_false, if_false]

/-- Witness for C23: the acknowledgement of a successful REMOVE whose log entry carries tag 3:
status IBV_WC_SUCCESS and two releases of tag 3. -/
theorem tm_listop_release_witness :
    Slot.ex_tm_remove.cqe64.app_op = MLX5_CQE_APP_OP_TM_REMOVE ∧
      (handle_tag_matching hdr Ext.zero Cq.fresh4 World.ex_tm_op Slot.ex_tm_remove 0
        9).2.1.status = hdr.IBV_WC_SUCCESS ∧
      (handle_tag_matching hdr Ext.zero Cq.fresh4 World.ex_tm_op Slot.ex_tm_remove 0 9).2.2.log =
        [ExtCall.tm_release_tag 9 3, ExtCall.tm_release_tag 9 3] :=
  ⟨rfl, (tm_listop_release hdr (by decide) Ext.zero Cq.fresh4 World.ex_tm_op Slot.ex_tm_remove
    0 9 { tag := some 3, wqe_head := 4, wr_id := 11 } (Or.inl rfl) (by decide) rfl).2.2.1 3 rfl
    rfl (by decide)⟩

/-- Witness for C24: on the same acknowledgement op_head goes from 0 to 1, op_tail stays 1, wr_id is
11, the tail of the command send queue is 5, and the flag TM_SYNC_REQ is set (phase 1 against
the phase 0 of the tag). -/
theorem tm_listop_pop_witness :
    ((handle_tag_matching hdr Ext.zero Cq.fresh4 World.ex_tm_op Slot.ex_tm_remove 0
        9).2.2.srq 9).op_head = 1 ∧
      ((handle_tag_matching hdr Ext.zero Cq.fresh4 World.ex_tm_op Slot.ex_tm_remove 0
        9).2.2.srq 9).op_tail = 1 ∧
      (handle_tag_matching hdr Ext.zero Cq.fresh4 World.ex_tm_op Slot.ex_tm_remove 0
        9).2.1.wr_id = 11 ∧
      ((handle_tag_matching hdr Ext.zero Cq.fresh4 World.ex_tm_op Slot.ex_tm_remove 0
        9).2.2.qp 1).sq.tail = 5 ∧
      (handle_tag_matching hdr Ext.zero Cq.fresh4 World.ex_tm_op Slot.ex_tm_remove 0
        9).2.1.flags = hdr.MLX5_CQ_FLAGS_TM_SYNC_REQ := by
  obtain ⟨_, _, h3, h4, h5, h6, h7, _⟩ :=
    tm_listop_pop hdr Ext.zero Cq.fresh4 World.ex_tm_op Slot.ex_tm_remove 0 9
      { tag := some 3, wqe_head := 4, wr_id := 11 } (Or.inl rfl) (by decide) rfl
  exact ⟨h3, h4, h5, h6, h7 3 rfl (by decide)⟩

/-- Claim C25. For every UNEXPECTED tag-matching slot: handle_tag_matching increases unexp_in of the
shared receive queue by exactly 1 and leaves unexp_out alone; it or-s MLX5_CQ_FLAGS_TM_SYNC_REQ
into the flags when the updated unexp_in minus unexp_out exceeds 16383 and leaves the flags
alone otherwise: at a skew of exactly 16384 the flag is set, at exactly 16383 it is not. -/
theorem tm_unexpected_skew (K : Hdr) (E : Ext) (cq : Cq) (w : World) (slot : Slot)
    (pos srq : Nat) (hop : slot.cqe64.app_op = MLX5_CQE_APP_OP_TM_UNEXPECTED) :
    ((handle_tag_matching K E cq w slot pos srq).2.2.srq srq).unexp_in =
        (w.srq srq).unexp_in + 1 ∧
      ((handle_tag_matching K E cq w slot pos srq).2.2.srq srq).unexp_out =
        (w.srq srq).unexp_out ∧
      ((w.srq srq).unexp_in + 1 - (w.srq srq).unexp_out > 16383 →
        (handle_tag_matching K E cq w slot pos srq).2.1.flags =
          cq.flags ||| K.MLX5_CQ_FLAGS_TM_SYNC_REQ) ∧
      ((w.srq srq).unexp_in + 1 - (w.srq srq).unexp_out ≤ 16383 →
        (handle_tag_matching K E cq w slot pos srq).2.1.flags = cq.flags) ∧
      ((w.srq srq).unexp_in + 1 - (w.srq srq).unexp_out = 16384 →
        (handle_tag_matching K E cq w slot pos srq).2.1.flags =
          cq.flags ||| K.MLX5_CQ_FLAGS_TM_SYNC_REQ) ∧
      ((w.srq srq).unexp_in + 1 - (w.srq srq).unexp_out = 16383 →
        (handle_tag_matching K E cq w slot pos srq).2.1.flags = cq.flags) := by
  suffices hs : ((handle_tag_matching K E cq w slot pos srq).2.2.srq srq).unexp_in =
        (w.srq srq).unexp_in + 1 ∧
      ((handle_tag_matching K E cq w slot pos srq).2.2.srq srq).unexp_out =
        (w.srq srq).unexp_out ∧
      ((w.srq srq).unexp_in + 1 - (w.srq srq).unexp_out > 16383 →
        (handle_tag_matching K E cq w slot pos srq).2.1.flags =
          cq.flags ||| K.MLX5_CQ_FLAGS_TM_SYNC_REQ) ∧
      ((w.srq srq).unexp_in + 1 - (w.srq srq).unexp_out ≤ 16383 →
        (handle_tag_matching K E cq w slot pos srq).2.1.flags = cq.flags) from
    ⟨hs.1, hs.2.1, hs.2.2.1, hs.2.2.2, fun h => hs.2.2.1 (by omega),
      fun h => hs.2.2.2 (by omega)⟩
  unfold handle_tag_matching
  simp only [hop, MLX5_CQE_APP_OP_TM_UNEXPECTED, MLX5_CQE_APP_OP_TM_CONSUMED_MSG_SW_RDNV,
    MLX5_CQE_APP_OP_TM_CONSUMED_SW_RDNV, MLX5_CQE_APP_OP_TM_MSG_COMPLETION_CANCELED,
    MLX5_CQE_APP_OP_TM_CONSUMED_MSG, MLX5_CQE_APP_OP_TM_CONSUMED, MLX5_CQE_APP_OP_TM_EXPECTED,
    MLX5_CQE_APP_OP_TM_REMOVE, MLX5_CQE_APP_OP_TM_APPEND, MLX5_CQE_APP_OP_TM_NOOP,
    MLX5_CQE_APP_OP_TM_NO_TAG, MLX5_TM_MAX_SYNC_DIFF]
  simp only [Nat.reduceEqDiff, or_self, or_false, false_or, if_false, if_true, true_or]
  refine ⟨?_, ?_, fun h => ?_, fun h => ?_⟩
  · split_ifs <;> simp [World.setSrq, World.call, upd]
  · split_ifs <;> simp [World.setSrq, World.call, upd]
  · have h' : (w.srq srq).unexp_in + 1 - (w.srq srq).unexp_out > ((0x3fff : Nat) : Int) := by
      norm_num; omega
    simp only [if_pos h']
    split_ifs <;> rfl
  · have h' : ¬ (w.srq srq).unexp_in + 1 - (w.srq srq).unexp_out > ((0x3fff : Nat) : Int) := by
      norm_num; omega
    simp only [if_neg h']
    split_ifs <;> rfl

/-- Witness for C25: with 16383 unexpected messages counted and none processed, the decode counts
16384 and sets the flag. -/
theorem tm_unexpected_skew_witness :
    ((handle_tag_matching hdr Ext.zero Cq.fresh4 World.ex_tm_unexp Slot.ex_tm_unexp 0
        9).2.2.srq 9).unexp_in = 16384 ∧
      (handle_tag_matching hdr Ext.zero Cq.fresh4 World.ex_tm_unexp Slot.ex_tm_unexp 0
        9).2.1.flags = hdr.MLX5_CQ_FLAGS_TM_SYNC_REQ := by
  obtain ⟨h1, _, _, _, h5, _⟩ :=
    tm_unexpected_skew hdr Ext.zero Cq.fresh4 World.ex_tm_unexp Slot.ex_tm_unexp 0 9 rfl
  exact ⟨h1, h5 (by decide)⟩

/-- Claim C26, amended. For every tag-matching slot with sub-opcode NO_TAG on the shared receive
queue at address srq: handle_tag_matching takes wr_id = srq.wrid[wqe_counter], the same as
handle_responder_lazy on the same slot; it leaves the same context as handle_responder_lazy (the
same calls: mlx5_free_srq_wqe of the slot, then the inline copy chosen by the scatter bits), and
its return value is the status that handle_responder_lazy returns; the store of shared receive
queues (tag tables, counters) and the flags are unchanged, and the current slot and the ring are
those before the call. The opcode that mlx5_cq_read_wc_opcode reports depends on the opcode of
the current slot: for RESP_SEND, RESP_SEND_IMM and RESP_SEND_INV it is IBV_WC_TM_NO_TAG when the
slot is marked tag matching with sub-opcode NO_TAG, and IBV_WC_RECV when it is not marked tag
matching; for RESP_WR_IMM it is IBV_WC_RECV_RDMA_WITH_IMM whatever the mark; and for NO_PACKET
with sub-opcode NO_TAG it is 0. -/
theorem tm_no_tag_as_recv (K : Hdr) (hK : K.Ok) (E : Ext) (cq : Cq) (w : World) (slot : Slot)
    (pos rsc srq : Nat)
    (hop : slot.cqe64.app_op = MLX5_CQE_APP_OP_TM_NO_TAG) (hsrq : srq ≠ 0) :
    (handle_tag_matching K E cq w slot pos srq).2.1.wr_id =
        (w.srq srq).wrid (be16toh slot.cqe64.wqe_counter) ∧
      (handle_tag_matching K E cq w slot pos srq).2.1.wr_id =
        (handle_responder_lazy K E cq w slot.cqe64 pos rsc srq).2.1.wr_id ∧
      (handle_tag_matching K E cq w slot pos srq).2.2 =
        (handle_responder_lazy K E cq w slot.cqe64 pos rsc srq).2.2 ∧
      (handle_tag_matching K E cq w slot pos srq).1 =
        ((handle_responder_lazy K E cq w slot.cqe64 pos rsc srq).1 : Int) ∧
      (∃ calls, (handle_tag_matching K E cq w slot pos srq).2.2.log =
          w.log ++ ExtCall.free_srq_wqe srq (be16toh slot.cqe64.wqe_counter) :: calls ∧
        (calls = [] ∨ ∃ src, calls =
          [ExtCall.copy_to_recv_srq srq (be16toh slot.cqe64.wqe_counter) src
            (be32toh slot.cqe64.byte_cnt)])) ∧
      (handle_tag_matching K E cq w slot pos srq).2.2.srq = w.srq ∧
      (handle_tag_matching K E cq w slot pos srq).2.1.flags = cq.flags ∧
      (handle_tag_matching K E cq w slot pos srq).2.1.cqe64 = cq.cqe64 ∧
      (handle_tag_matching K E cq w slot pos srq).2.1.active_buf = cq.active_buf ∧
      (∀ (cq1 : Cq) (p : Nat), cq1.cqe64 = some p →
        (mlx5dv_get_cqe_opcode (get_cqe cq1 p).cqe64 = K.MLX5_CQE_RESP_SEND ∨
          mlx5dv_get_cqe_opcode (get_cqe cq1 p).cqe64 = K.MLX5_CQE_RESP_SEND_IMM ∨
          mlx5dv_get_cqe_opcode (get_cqe cq1 p).cqe64 = K.MLX5_CQE_RESP_SEND_INV) →
        ((get_cqe cq1 p).cqe64.app = MLX5_CQE_APP_TAG_MATCHING →
          (get_cqe cq1 p).cqe64.app_op = MLX5_CQE_APP_OP_TM_NO_TAG →
          mlx5_cq_read_wc_opcode K cq1 = some K.IBV_WC_TM_NO_TAG) ∧
        ((get_cqe cq1 p).cqe64.app ≠ MLX5_CQE_APP_TAG_MATCHING →
          mlx5_cq_read_wc_opcode K cq1 = some K.IBV_WC_RECV)) ∧
      (∀ (cq1 : Cq) (p : Nat), cq1.cqe64 = some p →
        mlx5dv_get_cqe_opcode (get_cqe cq1 p).cqe64 = K.MLX5_CQE_RESP_WR_IMM →
        mlx5_cq_read_wc_opcode K cq1 = some K.IBV_WC_RECV_RDMA_WITH_IMM) ∧
      (∀ (cq1 : Cq) (p : Nat), cq1.cqe64 = some p →
        mlx5dv_get_cqe_opcode (get_cqe cq1 p).cqe64 = K.MLX5_CQE_NO_PACKET →
        (get_cqe cq1 p).cqe64.app_op = MLX5_CQE_APP_OP_TM_NO_TAG →
        mlx5_cq_read_wc_opcode K cq1 = some 0) := by
  have hn := hK.cqe_opcodes
  simp only [List.nodup_cons, List.mem_cons, List.mem_singleton, List.not_mem_nil, not_or,
    List.nodup_nil, or_false, and_true, not_false_eq_true] at hn
  have hrun : handle_tag_matching K E cq w slot pos srq =
      (((scatter_recv_srq K E (w.call (ExtCall.free_srq_wqe srq (be16toh slot.cqe64.wqe_counter)))
          slot.cqe64 pos srq (be16toh slot.cqe64.wqe_counter) (be32toh slot.cqe64.byte_cnt)
          K.IBV_WC_SUCCESS).1 : Int),
        { cq with status := K.IBV_WC_SUCCESS,
                  wr_id := (w.srq srq).wrid (be16toh slot.cqe64.wqe_counter) },
        (scatter_recv_srq K E (w.call (ExtCall.free_srq_wqe srq (be16toh slot.cqe64.wqe_counter)))
          slot.cqe64 pos srq (be16toh slot.cqe64.wqe_counter) (be32toh slot.cqe64.byte_cnt)
          K.IBV_WC_SUCCESS).2) := by
    unfold handle_tag_matching scatter_recv_srq
    simp only [hop, MLX5_CQE_APP_OP_TM_UNEXPECTED, MLX5_CQE_APP_OP_TM_CONSUMED_MSG_SW_RDNV,
      MLX5_CQE_APP_OP_TM_CONSUMED_SW_RDNV, MLX5_CQE_APP_OP_TM_MSG_COMPLETION_CANCELED,
      MLX5_CQE_APP_OP_TM_CONSUMED_MSG, MLX5_CQE_APP_OP_TM_CONSUMED, MLX5_CQE_APP_OP_TM_EXPECTED,
      MLX5_CQE_APP_OP_TM_REMOVE, MLX5_CQE_APP_OP_TM_APPEND, MLX5_CQE_APP_OP_TM_NOOP,
      MLX5_CQE_APP_OP_TM_NO_TAG]
    simp only [Nat.reduceEqDiff, or_self, or_false, false_or, if_false, if_true, true_or]
    split_ifs <;> simp [hK.success_zero, CQ_OK]
  have hplain : handle_responder_lazy K E cq w slot.cqe64 pos rsc srq =
      ((scatter_recv_srq K E (w.call (ExtCall.free_srq_wqe srq (be16toh slot.cqe64.wqe_counter)))
          slot.cqe64 pos srq (be16toh slot.cqe64.wqe_counter) (be32toh slot.cqe64.byte_cnt)
          K.IBV_WC_SUCCESS).1,
        { cq with wr_id := (w.srq srq).wrid (be16toh slot.cqe64.wqe_counter) },
        (scatter_recv_srq K E (w.call (ExtCall.free_srq_wqe srq (be16toh slot.cqe64.wqe_counter)))
          slot.cqe64 pos srq (be16toh slot.cqe64.wqe_counter) (be32toh slot.cqe64.byte_cnt)
          K.IBV_WC_SUCCESS).2) := by
    unfold handle_responder_lazy
    simp only [if_pos hsrq]
  rw [hrun, hplain]
  refine ⟨rfl, rfl, rfl, rfl, ?_, ?_, rfl, rfl, rfl, ?_, ?_, ?_⟩
  · unfold scatter_recv_srq
    split_ifs
    · exact ⟨[ExtCall.copy_to_recv_srq srq (be16toh slot.cqe64.wqe_counter) (CopySrc.cqe64 pos)
        (be32toh slot.cqe64.byte_cnt)], by simp [World.call], Or.inr ⟨_, rfl⟩⟩
    · exact ⟨[ExtCall.copy_to_recv_srq srq (be16toh slot.cqe64.wqe_counter)
        (CopySrc.cqe64_minus_1 pos) (be32toh slot.cqe64.byte_cnt)], by simp [World.call],
        Or.inr ⟨_, rfl⟩⟩
    · exact ⟨[], by simp [World.call], Or.inl rfl⟩
  · unfold scatter_recv_srq
    split_ifs <;> rfl
  · intro cq1 p hp hopc
    have h1 : ¬ mlx5dv_get_cqe_opcode (get_cqe cq1 p).cqe64 = K.MLX5_CQE_RESP_WR_IMM := by
      rcases hopc with h | h | h <;> rw [h] <;> simp [hn]
    unfold mlx5_cq_read_wc_opcode
    simp only [hp, if_neg h1, if_pos hopc]
    refine ⟨fun ha ho => ?_, fun ha => ?_⟩
    · simp [ha, ho, MLX5_CQE_APP_OP_TM_NO_TAG, MLX5_CQE_APP_OP_TM_CONSUMED_MSG_SW_RDNV,
        MLX5_CQE_APP_OP_TM_CONSUMED_MSG, MLX5_CQE_APP_OP_TM_CONSUMED_SW_RDNV,
        MLX5_CQE_APP_OP_TM_EXPECTED, MLX5_CQE_APP_OP_TM_UNEXPECTED]
    · simp [ha]
  · intro cq1 p hp hopc
    unfold mlx5_cq_read_wc_opcode
    simp only [hp, if_pos hopc]
  · intro cq1 p hp hopc ho
    have h1 : ¬ K.MLX5_CQE_NO_PACKET = K.MLX5_CQE_RESP_WR_IMM := fun e => by simp [e] at hn
    have h2 : ¬ (K.MLX5_CQE_NO_PACKET = K.MLX5_CQE_RESP_SEND ∨
        K.MLX5_CQE_NO_PACKET = K.MLX5_CQE_RESP_SEND_IMM ∨
        K.MLX5_CQE_NO_PACKET = K.MLX5_CQE_RESP_SEND_INV) := by
      rintro (e | e | e) <;> simp [e] at hn
    unfold mlx5_cq_read_wc_opcode
    simp only [hp, hopc, if_neg h1, if_neg h2, if_true, ho]
    simp [MLX5_CQE_APP_OP_TM_NO_TAG, MLX5_CQE_APP_OP_TM_REMOVE, MLX5_CQE_APP_OP_TM_APPEND,
      MLX5_CQE_APP_OP_TM_NOOP, MLX5_CQE_APP_OP_TM_CONSUMED]

/-- Witness for C26: a NO_TAG slot with 40 inline bytes on the shared receive queue at address 9:
wr_id 77, the calls are the free of slot 0 and the copy of 40 bytes, the same as for
handle_responder_lazy, and the accessor reports IBV_WC_TM_NO_TAG. -/
theorem tm_no_tag_as_recv_witness :
    (handle_tag_matching hdr Ext.zero Cq.fresh4 PState.ex_odp.w Slot.ex_tm_no_tag 0 9).2.1.wr_id
        = 77 ∧
      (handle_tag_matching hdr Ext.zero Cq.fresh4 PState.ex_odp.w Slot.ex_tm_no_tag 0 9).2.2.log
        = [ExtCall.free_srq_wqe 9 0, ExtCall.copy_to_recv_srq 9 0 (CopySrc.cqe64 0) 40] ∧
      (handle_responder_lazy hdr Ext.zero Cq.fresh4 PState.ex_odp.w Slot.ex_tm_no_tag.cqe64 0 0
        9).2.2.log
        = [ExtCall.free_srq_wqe 9 0, ExtCall.copy_to_recv_srq 9 0 (CopySrc.cqe64 0) 40] ∧
      mlx5_cq_read_wc_opcode hdr
        { Cq.fresh4 with active_buf := fun _ => Slot.ex_tm_no_tag, cqe64 := some 0 } =
          some hdr.IBV_WC_TM_NO_TAG := by
  obtain ⟨h1, _, h3, _, _, _, _, _, _, h10, _, _⟩ :=
    tm_no_tag_as_recv hdr hdr_ok Ext.zero Cq.fresh4 PState.ex_odp.w Slot.ex_tm_no_tag 0 0 9 rfl
      (by decide)
  refine ⟨h1, ?_, by decide, ?_⟩
  · rw [h3]; decide
  · exact (h10 { Cq.fresh4 with active_buf := fun _ => Slot.ex_tm_no_tag, cqe64 := some 0 } 0
      rfl (Or.inl (by decide))).1 (by decide) (by decide)

/-- Claim C26, counterexample: two NO_TAG slots for the shared receive queue number 5, decoded
lazily. A slot with the opcode RESP_WR_IMM is handled as a plain receive (CQ_OK, wr_id 77, the
free of slot 0 and the copy of 40 bytes), and mlx5_cq_read_wc_opcode reports
IBV_WC_RECV_RDMA_WITH_IMM, not IBV_WC_TM_NO_TAG. A slot with the opcode NO_PACKET is handled the
same way and the accessor reports 0. -/
theorem tm_no_tag_as_recv_counterexample :
    (mlx5dv_get_cqe_opcode Slot.ex_tm_no_tag_imm.cqe64 = hdr.MLX5_CQE_RESP_WR_IMM ∧
      Slot.ex_tm_no_tag_imm.cqe64.app = MLX5_CQE_APP_TAG_MATCHING ∧
      Slot.ex_tm_no_tag_imm.cqe64.app_op = MLX5_CQE_APP_OP_TM_NO_TAG ∧
      (mlx5_parse_cqe hdr Ext.zero (PState.ex_tm_slot Slot.ex_tm_no_tag_imm) 0 0 1).code =
        some CQ_OK ∧
      (mlx5_parse_cqe hdr Ext.zero (PState.ex_tm_slot Slot.ex_tm_no_tag_imm) 0 0 1).state.map
        (fun s => (s.cq.wr_id, s.w.log, mlx5_cq_read_wc_opcode hdr s.cq)) =
          some (77, [ExtCall.free_srq_wqe 9 0, ExtCall.copy_to_recv_srq 9 0 (CopySrc.cqe64 0) 40],
            some hdr.IBV_WC_RECV_RDMA_WITH_IMM) ∧
      hdr.IBV_WC_RECV_RDMA_WITH_IMM ≠ hdr.IBV_WC_TM_NO_TAG) ∧
    (mlx5dv_get_cqe_opcode Slot.ex_tm_no_tag_nopkt.cqe64 = hdr.MLX5_CQE_NO_PACKET ∧
      Slot.ex_tm_no_tag_nopkt.cqe64.app = MLX5_CQE_APP_TAG_MATCHING ∧
      Slot.ex_tm_no_tag_nopkt.cqe64.app_op = MLX5_CQE_APP_OP_TM_NO_TAG ∧
      (mlx5_parse_cqe hdr Ext.zero (PState.ex_tm_slot Slot.ex_tm_no_tag_nopkt) 0 0 1).code =
        some CQ_OK ∧
      (mlx5_parse_cqe hdr Ext.zero (PState.ex_tm_slot Slot.ex_tm_no_tag_nopkt) 0 0 1).state.map
        (fun s => (s.cq.wr_id, s.w.log, mlx5_cq_read_wc_opcode hdr s.cq)) =
          some (77, [ExtCall.free_srq_wqe 9 0, ExtCall.copy_to_recv_srq 9 0 (CopySrc.cqe64 0) 40],
            some 0) ∧
      hdr.IBV_WC_TM_NO_TAG ≠ 0) := by
  decide

/-! ### Sticky flags of the lazy decode (C27) -/

/-- The header values of the examples give the three sticky flags the bits 0, 6 and 7. -/
theorem hdr_cq_flags_ok : hdr.CqFlagsOk := ⟨rfl, rfl, rfl⟩

/-- A single-bit mask tests the bit of its position. -/
theorem flag_bit (x k : Nat) : x &&& 2 ^ k ≠ 0 ↔ x.testBit k = true := by
  rw [and_two_pow_ne_zero, Nat.testBit_to_div_mod]
  simp

/-- The bits of the 32-bit complement of a mask. -/
theorem testBit_not32 (m i : Nat) :
    (not32 m).testBit i = (decide (i < 32) && !m.testBit i) := by
  unfold not32
  have h : 2 ^ 32 - 1 - m % 2 ^ 32 = 2 ^ 32 - (m % 2 ^ 32 + 1) := by omega
  rw [h, Nat.testBit_two_pow_sub_succ (Nat.mod_lt _ (Nat.two_pow_pos 32)),
    Nat.testBit_mod_two_pow]
  cases decide (i < 32) <;> simp

/-- Claim C28. For every configuration (stall_enable, stall_adaptive_enable and flags of the queue,
cqe_version of the context, wc_flags of the attributes), the entry of ops that mlx5_cq_fill_pfns
selects is populated, and its three functions are: start_poll runs mlx5_start_poll with lock = 1
unless the queue is single-threaded, stall = POLLING_MODE_STALL_ADAPTIVE when stall_enable and
stall_adaptive_enable are set, POLLING_MODE_STALL when only stall_enable is set and none
otherwise, cqe_version = 1 or 0 as the version of the context is nonzero or zero, and
clock_update = 1 exactly when the wall-clock timestamp is requested; next_poll runs
mlx5_next_poll with POLLING_MODE_STALL_ADAPTIVE exactly in the adaptive case and the same
cqe_version; end_poll runs _mlx5_end_poll with the same lock and stall mode. -/
theorem fill_pfns_selects (K : Hdr) (X : VerbsEx) (cq : Cq) (wc_flags cqe_version : Nat) :
    (mlx5_cq_fill_pfns K X cq wc_flags cqe_version).start_poll =
        some (fun K1 E c w wc comp_mask =>
          mlx5_start_poll K1 E c w wc comp_mask
            (if cq.flags &&& K.MLX5_CQ_FLAGS_SINGLE_THREADED ≠ 0 then 0 else 1)
            (if cq.stall_enable ≠ 0 then
              (if cq.stall_adaptive_enable ≠ 0 then POLLING_MODE_STALL_ADAPTIVE
                else POLLING_MODE_STALL)
              else POLLING_MODE_NO_STALL)
            (if cqe_version ≠ 0 then 1 else 0)
            (if wc_flags &&& X.IBV_WC_EX_WITH_COMPLETION_TIMESTAMP_WALLCLOCK ≠ 0 then 1
              else 0)) ∧
      (mlx5_cq_fill_pfns K X cq wc_flags cqe_version).next_poll =
        some (fun K1 E c w wc =>
          mlx5_next_poll K1 E c w wc
            (if cq.stall_enable ≠ 0 ∧ cq.stall_adaptive_enable ≠ 0 then
              POLLING_MODE_STALL_ADAPTIVE else POLLING_MODE_NO_STALL)
            (if cqe_version ≠ 0 then 1 else 0)) ∧
      (mlx5_cq_fill_pfns K X cq wc_flags cqe_version).end_poll =
        some (fun K1 E c w =>
          _mlx5_end_poll K1 E c w
            (if cq.flags &&& K.MLX5_CQ_FLAGS_SINGLE_THREADED ≠ 0 then 0 else 1)
            (if cq.stall_enable ≠ 0 then
              (if cq.stall_adaptive_enable ≠ 0 then POLLING_MODE_STALL_ADAPTIVE
                else POLLING_MODE_STALL)
              else POLLING_MODE_NO_STALL)) := by
  unfold mlx5_cq_fill_pfns
  by_cases h1 : cq.stall_enable = 0 <;> by_cases h2 : cq.stall_adaptive_enable = 0 <;>
    by_cases h3 : cqe_version = 0 <;>
    by_cases h4 : cq.flags &&& K.MLX5_CQ_FLAGS_SINGLE_THREADED = 0 <;>
    by_cases h5 : wc_flags &&& X.IBV_WC_EX_WITH_COMPLETION_TIMESTAMP_WALLCLOCK = 0 <;>
    simp only [ne_eq, h1, h2, h3, h4, h5, and_self, and_true, and_false, not_true_eq_false,
      not_false_eq_true, if_true, if_false] <;>
    exact ⟨rfl, rfl, rfl⟩

/-- The table ops has entries without initialiser (ADAPTIVE without STALL); mlx5_cq_fill_pfns never
computes their index. -/
theorem ops_null_entries :
    (ops ADAPTIVE).start_poll.isNone = true ∧ (ops ADAPTIVE).next_poll.isNone = true ∧
      (ops ADAPTIVE).end_poll.isNone = true ∧
      (ops (ADAPTIVE ||| V1 ||| SINGLE_THREADED ||| CLOCK_UPDATE)).start_poll.isNone = true := by
  decide

/-! ### Adaptive stall (C29, C30) -/

/-- A pass keeps the stall state and the tunables, by cases on a test. -/
theorem StepKeep_ite (st : PState) (c : Prop) [Decidable c] (a b : Step)
    (ha : c → StepKeep st a) (hb : ¬ c → StepKeep st b) : StepKeep st (if c then a else b) := by
  split
  · exact ha ‹_›
  · exact hb ‹_›

/-- A pass that keeps the stall state and the tunables of a state keeps those of every state that
has the same. -/
theorem StepKeep_of (st0 st : PState) (s : Step) (hc : st.cq.stall = st0.cq.stall)
    (hw : st.w.tun = st0.w.tun) (h : StepKeep st s) : StepKeep st0 s := by
  cases s with
  | ret c st1 => exact ⟨h.1.trans hc, h.2.trans hw⟩
  | freeze st1 => exact ⟨h.1.trans hc, h.2.trans hw⟩
  | again st1 p => exact ⟨h.1.trans hc, h.2.trans hw⟩

/-- The inline-scatter copy to a shared receive queue leaves the tunables alone. -/
theorem scatter_recv_srq_tun (K : Hdr) (E : Ext) (w : World) (cqe : Cqe64)
    (pos srq ctr size err : Nat) :
    (scatter_recv_srq K E w cqe pos srq ctr size err).2.tun = w.tun := by
  unfold scatter_recv_srq
  split_ifs <;> rfl

/-- The inline-scatter copy to a receive queue leaves the tunables alone. -/
theorem scatter_recv_wqe_tun (K : Hdr) (E : Ext) (w : World) (cqe : Cqe64)
    (pos qp ctr size err : Nat) :
    (scatter_recv_wqe K E w cqe pos qp ctr size err).2.tun = w.tun := by
  unfold scatter_recv_wqe
  split_ifs <;> rfl

/-- The inline-scatter copy to a send queue leaves the tunables alone. -/
theorem scatter_send_wqe_tun (K : Hdr) (E : Ext) (w : World) (cqe : Cqe64)
    (pos qp ctr size err : Nat) :
    (scatter_send_wqe K E w cqe pos qp ctr size err).2.tun = w.tun := by
  unfold scatter_send_wqe
  split_ifs <;> rfl

/-- Advancing the receive tail leaves the tunables alone. -/
theorem resp_wq_advance_tun (K : Hdr) (w : World) (r : Nat) :
    (resp_wq_advance K w r).tun = w.tun := by
  unfold resp_wq_advance
  split_ifs <;> rfl

/-- The function handle_responder_lazy leaves the stall state and the tunables alone. -/
theorem handle_responder_lazy_keep (K : Hdr) (E : Ext) (cq : Cq) (w : World) (cqe : Cqe64)
    (pos r srq : Nat) :
    (handle_responder_lazy K E cq w cqe pos r srq).2.1.stall = cq.stall ∧
      (handle_responder_lazy K E cq w cqe pos r srq).2.2.tun = w.tun := by
  unfold handle_responder_lazy
  split
  · exact ⟨rfl, scatter_recv_srq_tun K E _ cqe pos srq _ _ _⟩
  · refine ⟨?_, (scatter_recv_wqe_tun K E _ cqe pos r _ _ _).trans (resp_wq_advance_tun K w r)⟩
    simp only []
    split <;> rfl

/-- The function handle_responder leaves the tunables alone. -/
theorem handle_responder_tun (K : Hdr) (E : Ext) (wc : Wc) (w : World) (cqe : Cqe64)
    (pos r srq : Nat) :
    (handle_responder K E wc w cqe pos r srq).2.2.tun = w.tun := by
  unfold handle_responder
  simp only []
  split_ifs <;>
    first
    | exact scatter_recv_srq_tun K E _ cqe pos srq _ _ _
    | exact (scatter_recv_wqe_tun K E _ cqe pos r _ _ _).trans (resp_wq_advance_tun K w r)

/-- The function handle_tag_matching leaves the tunables alone. -/
theorem handle_tag_matching_tun (K : Hdr) (E : Ext) (cq : Cq) (w : World) (slot : Slot)
    (pos srq : Nat) :
    (handle_tag_matching K E cq w slot pos srq).2.2.tun = w.tun := by
  have h4 : (handle_tag_matching K E cq w slot pos srq).2.2.mlx5_stall_cq_poll_min =
        w.mlx5_stall_cq_poll_min ∧
      (handle_tag_matching K E cq w slot pos srq).2.2.mlx5_stall_cq_poll_max =
        w.mlx5_stall_cq_poll_max ∧
      (handle_tag_matching K E cq w slot pos srq).2.2.mlx5_stall_cq_inc_step =
        w.mlx5_stall_cq_inc_step ∧
      (handle_tag_matching K E cq w slot pos srq).2.2.mlx5_stall_cq_dec_step =
        w.mlx5_stall_cq_dec_step := by
    unfold handle_tag_matching
    simp only [apply_ite Prod.snd, apply_ite Prod.fst, apply_ite World.mlx5_stall_cq_poll_min,
      apply_ite World.mlx5_stall_cq_poll_max, apply_ite World.mlx5_stall_cq_inc_step,
      apply_ite World.mlx5_stall_cq_dec_step,
      World.srqLock, World.setSrq, World.call, World.memcpy, World.setQp, ite_self]
    cases h : ((w.srq srq).op ((w.srq srq).op_head &&&
        decr32 (w.qp (w.srq srq).cmd_qp).sq.wqe_cnt)).tag <;>
      simp [upd, apply_ite Prod.snd, apply_ite Prod.fst,
        apply_ite World.mlx5_stall_cq_poll_min, apply_ite World.mlx5_stall_cq_poll_max,
        apply_ite World.mlx5_stall_cq_inc_step, apply_ite World.mlx5_stall_cq_dec_step, h]
  unfold World.tun
  rw [h4.1, h4.2.1, h4.2.2.1, h4.2.2.2]

/-- The function handle_tag_matching leaves the stall state alone. -/
theorem handle_tag_matching_stall (K : Hdr) (E : Ext) (cq : Cq) (w : World) (slot : Slot)
    (pos srq : Nat) :
    (handle_tag_matching K E cq w slot pos srq).2.1.stall = cq.stall := by
  have h4 : (handle_tag_matching K E cq w slot pos srq).2.1.stall_cycles = cq.stall_cycles ∧
      (handle_tag_matching K E cq w slot pos srq).2.1.stall_enable = cq.stall_enable ∧
      (handle_tag_matching K E cq w slot pos srq).2.1.stall_adaptive_enable =
        cq.stall_adaptive_enable ∧
      (handle_tag_matching K E cq w slot pos srq).2.1.stall_last_count =
        cq.stall_last_count := by
    unfold handle_tag_matching
    simp only [apply_ite Prod.snd, apply_ite Prod.fst, apply_ite Cq.stall_cycles,
      apply_ite Cq.stall_enable, apply_ite Cq.stall_adaptive_enable,
      apply_ite Cq.stall_last_count, ite_self]
    cases h : ((w.srqLock srq true).srq srq).op
        (((w.srqLock srq true).srq srq).op_head &&&
          decr32 ((w.srqLock srq true).qp ((w.srqLock srq true).srq srq).cmd_qp).sq.wqe_cnt)
        |>.tag <;>
      simp [apply_ite Prod.snd, apply_ite Prod.fst, apply_ite Cq.stall_cycles,
        apply_ite Cq.stall_enable, apply_ite Cq.stall_adaptive_enable,
        apply_ite Cq.stall_last_count, h]
  unfold Cq.stall
  rw [h4.1, h4.2.1, h4.2.2.1, h4.2.2.2]

/-- The function handle_tag_matching leaves the stall state and the tunables alone. -/
theorem handle_tag_matching_keep (K : Hdr) (E : Ext) (cq : Cq) (w : World) (slot : Slot)
    (pos srq : Nat) :
    (handle_tag_matching K E cq w slot pos srq).2.1.stall = cq.stall ∧
      (handle_tag_matching K E cq w slot pos srq).2.2.tun = w.tun :=
  ⟨handle_tag_matching_stall K E cq w slot pos srq, handle_tag_matching_tun K E cq w slot pos srq⟩

/-- The re-fetch of an absorbed slot leaves the stall state and the tunables alone. -/
theorem refetch_keep (K : Hdr) (st : PState) : StepKeep st (refetch K st) := by
  unfold refetch mlx5_get_next_cqe
  cases h : next_cqe_sw K st.cq with
  | none => exact ⟨rfl, rfl⟩
  | some p => exact ⟨rfl, rfl⟩

/-- The first statements of a pass leave the stall state and the tunables alone. -/
theorem parse_init_keep (K : Hdr) (st : PState) (pos lazy : Nat) :
    (parse_init K st pos lazy).cq.stall = st.cq.stall ∧
      (parse_init K st pos lazy).w.tun = st.w.tun := by
  unfold parse_init
  simp only []
  split <;> exact ⟨rfl, rfl⟩

/-- The case MLX5_CQE_REQ leaves the stall state and the tunables alone. -/
theorem parse_req_keep (K : Hdr) (E : Ext) (st : PState) (pos cqe_ver lazy : Nat) :
    StepKeep st (parse_req K E st pos cqe_ver lazy) := by
  unfold parse_req
  simp only []
  generalize get_req_context st.w st.cur_rsc _ cqe_ver = mqp
  refine StepKeep_ite st _ _ _ (fun _ => ⟨rfl, rfl⟩) (fun _ => ?_)
  refine StepKeep_ite st _ _ _ (fun _ => ?_) (fun _ => ?_)
  · refine ⟨?_, ?_⟩
    · show Cq.stall (if _ then _ else _) = _
      split_ifs <;> rfl
    · show World.tun (sq_set_tail (Prod.snd (if _ then _ else _)) _ _) = _
      split_ifs
      · rfl
      · exact scatter_send_wqe_tun K E _ _ _ _ _ _ _
      · exact scatter_send_wqe_tun K E _ _ _ _ _ _ _
      · rfl
  · exact ⟨rfl, scatter_send_wqe_tun K E _ _ _ _ _ _ _⟩

/-- The case of the receive opcodes leaves the stall state and the tunables alone. -/
theorem parse_resp_keep (K : Hdr) (E : Ext) (st : PState) (pos cqe_ver lazy : Nat) :
    StepKeep st (parse_resp K E st pos cqe_ver lazy) := by
  unfold parse_resp
  simp only []
  generalize get_cur_rsc K st.w cqe_ver _ _ _ = r
  refine StepKeep_ite st _ _ _ (fun _ => ⟨rfl, rfl⟩) (fun _ => ?_)
  refine StepKeep_ite st _ _ _ (fun _ => ?_) (fun _ => ?_)
  · refine StepKeep_ite st _ _ _ (fun _ => ?_) (fun _ => ?_)
    · exact handle_responder_lazy_keep K E st.cq st.w (get_cqe st.cq pos).cqe64 pos
        r.2.cur_rsc (if r.2.is_srq ≠ 0 then r.2.cur_srq else 0)
    · refine StepKeep_ite st _ _ _ (fun _ => ⟨rfl, rfl⟩) (fun _ => ?_)
      have h := handle_tag_matching_keep K E st.cq st.w (get_cqe st.cq pos) pos r.2.cur_srq
      exact StepKeep_ite st _ _ _ (fun _ => h) (fun _ => h)
  · exact ⟨rfl, handle_responder_tun K E _ st.w _ pos _ _⟩

/-- The case MLX5_CQE_NO_PACKET leaves the stall state and the tunables alone. -/
theorem parse_no_packet_keep (K : Hdr) (E : Ext) (st : PState) (pos cqe_ver : Nat) :
    StepKeep st (parse_no_packet K E st pos cqe_ver) := by
  unfold parse_no_packet
  simp only []
  generalize get_cur_rsc K st.w cqe_ver _ _ _ = r
  refine StepKeep_ite st _ _ _ (fun _ => ⟨rfl, rfl⟩) (fun _ => ?_)
  refine StepKeep_ite st _ _ _ (fun _ => ⟨rfl, rfl⟩) (fun _ => ?_)
  have h := handle_tag_matching_keep K E st.cq st.w (get_cqe st.cq pos) pos r.2.cur_srq
  exact StepKeep_ite st _ _ _ (fun _ => h) (fun _ => h)

/-- The case MLX5_CQE_SIG_ERR leaves the stall state and the tunables alone. -/
theorem parse_sig_err_keep (K : Hdr) (st : PState) (pos : Nat) :
    StepKeep st (parse_sig_err K st pos) := by
  unfold parse_sig_err
  simp only []
  refine StepKeep_ite st _ _ _ (fun _ => ⟨rfl, rfl⟩) (fun _ => ?_)
  exact StepKeep_of st _ _ rfl rfl (refetch_keep K _)

/-- The error cases leave the stall state and the tunables alone. -/
theorem parse_err_keep (K : Hdr) (st : PState) (pos cqe_ver lazy : Nat) :
    StepKeep st (parse_err K st pos cqe_ver lazy) := by
  unfold parse_err
  simp only []
  generalize hs1 : (if lazy ≠ 0 then
      ({ st with cq := { st.cq with status := mlx5_handle_error_cqe K (get_cqe st.cq pos).cqe64 } } :
        PState)
    else { st with wc := { st.wc with status := mlx5_handle_error_cqe K (get_cqe st.cq pos).cqe64,
                                      vendor_err := (get_cqe st.cq pos).cqe64.vendor_err_synd } }) = st1
  have hf1 : st1.cq.stall = st.cq.stall ∧ st1.w.tun = st.w.tun := by
    rw [← hs1]
    split <;> exact ⟨rfl, rfl⟩
  refine StepKeep_ite st _ _ _ (fun _ => hf1) (fun _ => ?_)
  refine StepKeep_ite st _ _ _ (fun _ => ?_) (fun _ => ?_)
  · generalize get_req_context st1.w st1.cur_rsc _ cqe_ver = mqp
    refine StepKeep_ite st _ _ _ (fun _ => hf1) (fun _ => ?_)
    refine ⟨?_, ?_⟩
    · simp only [apply_ite PState.cq]
      split
      · exact hf1.1
      · exact hf1.1
    · simp only [sq_set_tail, World.setQp, apply_ite PState.w, ite_self]
      exact hf1.2
  · generalize get_cur_rsc K st1.w cqe_ver _ _ _ = r
    refine StepKeep_ite st _ _ _ (fun _ => hf1) (fun _ => ?_)
    refine StepKeep_ite st _ _ _ (fun _ => ?_) (fun _ => ?_)
    · refine StepKeep_ite st _ _ _ (fun _ => ?_) (fun _ => ?_)
      · exact StepKeep_of st _ _ hf1.1 hf1.2 (refetch_keep K _)
      · refine ⟨?_, ?_⟩
        · simp only [apply_ite PState.cq]
          split
          · exact hf1.1
          · exact hf1.1
        · simp only [World.call, apply_ite PState.w, ite_self]
          exact hf1.2
    · refine ⟨?_, ?_⟩
      · simp only [apply_ite PState.cq]
        split
        · exact hf1.1
        · exact hf1.1
      · simp only [World.setRwq, World.setQp, apply_ite PState.w, ite_self]
        split
        · exact hf1.2
        · exact hf1.2

/-- Every pass of mlx5_parse_cqe leaves the stall state and the tunables alone. -/
theorem parse_step_keep (K : Hdr) (E : Ext) (st : PState) (pos cqe_ver lazy : Nat) :
    StepKeep st (parse_step K E st pos cqe_ver lazy) := by
  unfold parse_step
  simp only []
  have hi := parse_init_keep K st pos lazy
  refine StepKeep_ite st _ _ _
    (fun _ => StepKeep_of st _ _ hi.1 hi.2 (parse_req_keep K E _ _ _ _)) (fun _ => ?_)
  refine StepKeep_ite st _ _ _
    (fun _ => StepKeep_of st _ _ hi.1 hi.2 (parse_resp_keep K E _ _ _ _)) (fun _ => ?_)
  refine StepKeep_ite st _ _ _
    (fun _ => StepKeep_of st _ _ hi.1 hi.2 (parse_no_packet_keep K E _ _ _)) (fun _ => ?_)
  refine StepKeep_ite st _ _ _
    (fun _ => StepKeep_of st _ _ hi.1 hi.2 (parse_sig_err_keep K _ _)) (fun _ => ?_)
  refine StepKeep_ite st _ _ _ (fun _ => hi) (fun _ => ?_)
  refine StepKeep_ite st _ _ _
    (fun _ => StepKeep_of st _ _ hi.1 hi.2 (parse_err_keep K _ _ _ _)) (fun _ => ?_)
  exact hi

/-- The function mlx5_parse_cqe leaves the stall state and the tunables alone. -/
theorem parse_loop_keep (K : Hdr) (E : Ext) (cqe_ver lazy : Nat) :
    ∀ (fuel : Nat) (st : PState) (pos : Nat),
      ResKeep st.cq st.w PState.cq PState.w (mlx5_parse_cqe_loop K E cqe_ver lazy fuel st pos) := by
  intro fuel
  induction fuel with
  | zero => intro st pos; exact trivial
  | succ f ih =>
    intro st pos
    rw [mlx5_parse_cqe_loop]
    have hs := parse_step_keep K E st pos cqe_ver lazy
    cases hstep : parse_step K E st pos cqe_ver lazy with
    | ret c st1 => rw [hstep] at hs; exact hs
    | freeze st1 => rw [hstep] at hs; exact hs
    | again st1 p =>
      rw [hstep] at hs
      have hrec := ih st1 p
      simp only []
      cases hres : mlx5_parse_cqe_loop K E cqe_ver lazy f st1 p with
      | starved => exact trivial
      | freeze st2 => rw [hres] at hrec; exact ⟨hrec.1.trans hs.1, hrec.2.trans hs.2⟩
      | ret c st2 => rw [hres] at hrec; exact ⟨hrec.1.trans hs.1, hrec.2.trans hs.2⟩

/-- The function mlx5_poll_one leaves the stall state and the tunables alone. -/
theorem poll_one_keep (K : Hdr) (E : Ext) (cqe_ver : Nat) (st : PState) :
    ResKeep st.cq st.w PState.cq PState.w (mlx5_poll_one K E st cqe_ver) := by
  unfold mlx5_poll_one mlx5_get_next_cqe
  cases hn : next_cqe_sw K st.cq with
  | none => exact ⟨rfl, rfl⟩
  | some p =>
    exact parse_loop_keep K E cqe_ver 0 _
      { st with cq := { st.cq with cons_index := (st.cq.cons_index + 1) % 2 ^ 32 } } p

/-- The loop of poll_cq leaves the stall state and the tunables alone, and the count it ends with
lies between the count it started with and that count plus the iterations allowed. -/
theorem poll_loop_keep (K : Hdr) (E : Ext) (cqe_ver : Nat) :
    ∀ (k npolled : Nat) (s : PollSt),
      ResKeep s.cq s.w (fun x : Nat × PollSt => x.2.cq) (fun x : Nat × PollSt => x.2.w)
        (poll_cq_loop K E cqe_ver k npolled s) ∧
      ∀ err x, poll_cq_loop K E cqe_ver k npolled s = Res.ret err x →
        npolled ≤ x.1 ∧ x.1 ≤ npolled + k := by
  intro k
  induction k with
  | zero =>
    intro npolled s
    rw [poll_cq_loop]
    refine ⟨⟨rfl, rfl⟩, fun err x h => ?_⟩
    simp only [Res.ret.injEq] at h
    rw [← h.2]
    exact ⟨le_refl _, le_refl _⟩
  | succ k ih =>
    intro npolled s
    rw [poll_cq_loop]
    have h1 := poll_one_keep K E cqe_ver
      { cq := s.cq, w := s.w, cur_rsc := s.rsc, cur_srq := s.srq, wc := s.wc npolled }
    cases hres : mlx5_poll_one K E
        { cq := s.cq, w := s.w, cur_rsc := s.rsc, cur_srq := s.srq, wc := s.wc npolled }
        cqe_ver with
    | starved => exact ⟨trivial, fun err x h => Res.noConfusion h⟩
    | freeze st => rw [hres] at h1; exact ⟨h1, fun err x h => Res.noConfusion h⟩
    | ret err st =>
      rw [hres] at h1
      simp only []
      by_cases herr : err = CQ_OK
      · rw [if_neg (not_not.2 herr)]
        have hrec := ih (npolled + 1)
          { cq := st.cq, w := st.w, rsc := st.cur_rsc, srq := st.cur_srq,
            wc := upd s.wc npolled st.wc }
        refine ⟨?_, fun e x h => ?_⟩
        · cases hres2 : poll_cq_loop K E cqe_ver k (npolled + 1)
              { cq := st.cq, w := st.w, rsc := st.cur_rsc, srq := st.cur_srq,
                wc := upd s.wc npolled st.wc } with
          | starved => exact trivial
          | freeze x =>
            have := hrec.1
            rw [hres2] at this
            exact ⟨this.1.trans h1.1, this.2.trans h1.2⟩
          | ret err2 x =>
            have := hrec.1
            rw [hres2] at this
            exact ⟨this.1.trans h1.1, this.2.trans h1.2⟩
        · have := hrec.2 e x h
          omega
      · rw [if_pos herr]
        refine ⟨h1, fun e x h => ?_⟩
        simp only [Res.ret.injEq] at h
        rw [← h.2]
        exact ⟨le_refl _, by omega⟩

/-- The range of the delay carries over to a queue with the same stall state under the same
tunables. -/
theorem StallInRange_of (w w1 : World) (cq cq1 : Cq) (h : StallInRange w cq)
    (hc : cq1.stall = cq.stall) (hw : w1.tun = w.tun) : StallInRange w1 cq1 := by
  unfold Cq.stall at hc
  unfold World.tun at hw
  simp only [Prod.mk.injEq] at hc hw
  unfold StallInRange at h ⊢
  rw [hc.1, hw.1, hw.2.1]
  exact h

/-- The stall update that ends poll_cq keeps the delay in range, when min - dec_step and
max + inc_step are representable. -/
theorem poll_cq_stall_range (E : Ext) (w : World) (cq : Cq) (ne npolled : Nat) (err : Int)
    (hmm : w.mlx5_stall_cq_poll_min ≤ w.mlx5_stall_cq_poll_max)
    (hinc : 0 ≤ w.mlx5_stall_cq_inc_step) (hdec : 0 ≤ w.mlx5_stall_cq_dec_step)
    (hlo : -2147483648 ≤ w.mlx5_stall_cq_poll_min - w.mlx5_stall_cq_dec_step)
    (hhi : w.mlx5_stall_cq_poll_max + w.mlx5_stall_cq_inc_step ≤ 2147483647)
    (h : StallInRange w cq) : StallInRange w (poll_cq_stall E w cq ne npolled err) := by
  unfold StallInRange at h ⊢
  unfold poll_cq_stall int32
  simp only [apply_ite Cq.stall_cycles]
  split_ifs <;> omega

/-- The function _mlx5_end_poll keeps the delay in range, when min - dec_step and max + inc_step
are representable. -/
theorem end_poll_range (K : Hdr) (E : Ext) (w : World) (cq : Cq) (lock stall : Nat)
    (hmm : w.mlx5_stall_cq_poll_min ≤ w.mlx5_stall_cq_poll_max)
    (hinc : 0 ≤ w.mlx5_stall_cq_inc_step) (hdec : 0 ≤ w.mlx5_stall_cq_dec_step)
    (hlo : -2147483648 ≤ w.mlx5_stall_cq_poll_min - w.mlx5_stall_cq_dec_step)
    (hhi : w.mlx5_stall_cq_poll_max + w.mlx5_stall_cq_inc_step ≤ 2147483647)
    (h : StallInRange w cq) : StallInRange w (_mlx5_end_poll K E cq w lock stall) := by
  unfold StallInRange at h ⊢
  unfold _mlx5_end_poll update_cons_index int32
  simp only [apply_ite Cq.stall_cycles]
  split_ifs <;> omega

/-- The function mlx5_parse_lazy_cqe leaves the stall state and the tunables alone. -/
theorem parse_lazy_keep (K : Hdr) (E : Ext) (cq : Cq) (w : World) (wc : Wc)
    (pos cqe_ver : Nat) :
    ResKeep cq w PState.cq PState.w (mlx5_parse_lazy_cqe K E cq w wc pos cqe_ver) := by
  have h := parse_loop_keep K E cqe_ver 1 (cq.cqe + 2)
    { cq := cq, w := w, cur_rsc := cq.cur_rsc, cur_srq := cq.cur_srq, wc := wc } pos
  unfold mlx5_parse_lazy_cqe mlx5_parse_cqe
  cases hres : mlx5_parse_cqe_loop K E cqe_ver 1 (cq.cqe + 2)
      { cq := cq, w := w, cur_rsc := cq.cur_rsc, cur_srq := cq.cur_srq, wc := wc } pos with
  | starved => exact trivial
  | freeze st => rw [hres] at h; exact h
  | ret c st => rw [hres] at h; exact h

/-- The function poll_cq keeps the delay in range and leaves the tunables alone, when
min - dec_step and max + inc_step are representable. -/
theorem poll_cq_range (K : Hdr) (E : Ext) (cq : Cq) (w : World) (ne : Nat) (wc : Nat → Wc)
    (cqe_ver : Nat)
    (hmm : w.mlx5_stall_cq_poll_min ≤ w.mlx5_stall_cq_poll_max)
    (hinc : 0 ≤ w.mlx5_stall_cq_inc_step) (hdec : 0 ≤ w.mlx5_stall_cq_dec_step)
    (hlo : -2147483648 ≤ w.mlx5_stall_cq_poll_min - w.mlx5_stall_cq_dec_step)
    (hhi : w.mlx5_stall_cq_poll_max + w.mlx5_stall_cq_inc_step ≤ 2147483647)
    (h : StallInRange w cq) :
    ResAll (fun s : PollSt => StallInRange s.w s.cq ∧ s.w.tun = w.tun)
      (poll_cq K E cq w ne wc cqe_ver) := by
  have hk := (poll_loop_keep K E cqe_ver ne 0 (poll_cq_enter cq w wc)).1
  have he : (poll_cq_enter cq w wc).cq.stall = cq.stall := by
    unfold poll_cq_enter
    simp only []
    split <;> rfl
  rw [poll_cq_eq]
  cases hres : poll_cq_loop K E cqe_ver ne 0 (poll_cq_enter cq w wc) with
  | starved => exact trivial
  | freeze x =>
    rw [hres] at hk
    exact ⟨StallInRange_of w x.2.w cq x.2.cq h (hk.1.trans he) hk.2, hk.2⟩
  | ret err x =>
    rw [hres] at hk
    obtain ⟨np, s⟩ := x
    have hr : StallInRange s.w s.cq := StallInRange_of w s.w cq s.cq h (hk.1.trans he) hk.2
    have ht : s.w.tun = w.tun := hk.2
    have ht' := ht
    unfold World.tun at ht'
    simp only [Prod.mk.injEq] at ht'
    refine ⟨?_, ht⟩
    exact poll_cq_stall_range E s.w _ ne np err (by rw [ht'.1, ht'.2.1]; exact hmm)
      (by rw [ht'.2.2.1]; exact hinc) (by rw [ht'.2.2.2]; exact hdec)
      (by rw [ht'.1, ht'.2.2.2]; exact hlo) (by rw [ht'.2.1, ht'.2.2.1]; exact hhi) hr

/-- The function mlx5_start_poll keeps the delay in range and leaves the tunables alone, when
min - dec_step and max + inc_step are representable. -/
theorem start_poll_range (K : Hdr) (E : Ext) (cq : Cq) (w : World) (wc : Wc)
    (comp_mask lock stall cqe_version clock_update : Nat)
    (hmm : w.mlx5_stall_cq_poll_min ≤ w.mlx5_stall_cq_poll_max)
    (hinc : 0 ≤ w.mlx5_stall_cq_inc_step) (hdec : 0 ≤ w.mlx5_stall_cq_dec_step)
    (hlo : -2147483648 ≤ w.mlx5_stall_cq_poll_min - w.mlx5_stall_cq_dec_step)
    (hhi : w.mlx5_stall_cq_poll_max + w.mlx5_stall_cq_inc_step ≤ 2147483647)
    (h : StallInRange w cq) :
    ResAll (fun s : PState => StallInRange s.w s.cq ∧ s.w.tun = w.tun)
      (mlx5_start_poll K E cq w wc comp_mask lock stall cqe_version clock_update) := by
  unfold mlx5_start_poll int32
  simp only []
  split
  · exact ⟨h, rfl⟩
  · generalize hcq3 : ({ (if lock ≠ 0 then
        ({ (if stall ≠ 0 ∧ stall ≠ POLLING_MODE_STALL_ADAPTIVE ∧ cq.stall_next_poll ≠ 0 then
            { cq with stall_next_poll := 0 } else cq) with lock := true } : Cq)
        else (if stall ≠ 0 ∧ stall ≠ POLLING_MODE_STALL_ADAPTIVE ∧ cq.stall_next_poll ≠ 0 then
            { cq with stall_next_poll := 0 } else cq)) with cur_rsc := 0, cur_srq := 0 } : Cq) = cq3
    have h3 : cq3.stall = cq.stall := by
      rw [← hcq3]
      split_ifs <;> rfl
    unfold mlx5_get_next_cqe
    cases hn : next_cqe_sw K cq3 with
    | none =>
      simp only []
      have hr3 : StallInRange w cq3 := StallInRange_of w w cq cq3 h h3 rfl
      unfold StallInRange at hr3
      refine ⟨?_, rfl⟩
      unfold StallInRange
      simp only [apply_ite Cq.stall_cycles]
      split_ifs <;> omega
    | some p =>
      simp only []
      have hk := parse_lazy_keep K E
        (if stall ≠ 0 then
          { ({ cq3 with cons_index := (cq3.cons_index + 1) % 2 ^ 32 } : Cq) with
            flags := cq3.flags ||| K.MLX5_CQ_FLAGS_FOUND_CQES }
        else { cq3 with cons_index := (cq3.cons_index + 1) % 2 ^ 32 }) w wc p cqe_version
      have h5 : (if stall ≠ 0 then
          { ({ cq3 with cons_index := (cq3.cons_index + 1) % 2 ^ 32 } : Cq) with
            flags := cq3.flags ||| K.MLX5_CQ_FLAGS_FOUND_CQES }
        else { cq3 with cons_index := (cq3.cons_index + 1) % 2 ^ 32 }).stall = cq.stall := by
        split <;> exact h3
      cases hres : mlx5_parse_lazy_cqe K E
          (if stall ≠ 0 then
            { ({ cq3 with cons_index := (cq3.cons_index + 1) % 2 ^ 32 } : Cq) with
              flags := cq3.flags ||| K.MLX5_CQ_FLAGS_FOUND_CQES }
          else { cq3 with cons_index := (cq3.cons_index + 1) % 2 ^ 32 }) w wc p cqe_version with
      | starved => exact trivial
      | freeze st =>
        rw [hres] at hk
        exact ⟨StallInRange_of w st.w cq st.cq h (hk.1.trans h5) hk.2, hk.2⟩
      | ret err st =>
        rw [hres] at hk
        have hr : StallInRange st.w st.cq := StallInRange_of w st.w cq st.cq h (hk.1.trans h5) hk.2
        have ht' := hk.2
        unfold World.tun at ht'
        simp only [Prod.mk.injEq] at ht'
        unfold StallInRange at hr
        simp only []
        have a1 := ht'.1
        have a2 := ht'.2.1
        have a3 := ht'.2.2.2
        split_ifs <;> refine ⟨?_, hk.2⟩ <;> unfold StallInRange <;>
          simp only [apply_ite Cq.stall_cycles] <;> omega

/-- On a ring with at most cqe + 1 available slots poll_cq does not run out of passes. -/
theorem poll_cq_returns (K : Hdr) (E : Ext) (cq : Cq) (w : World) (ne : Nat) (wc : Nat → Wc)
    (cqe_ver r : Nat) (hav : Avail K cq r) (hr : r ≤ cq.cqe + 1) :
    poll_cq K E cq w ne wc cqe_ver ≠ Res.starved := by
  have hf : CqFrame cq (poll_cq_enter cq w wc).cq := by
    unfold poll_cq_enter CqFrame
    simp only []
    split <;> exact ⟨rfl, rfl, rfl⟩
  have hloop := poll_loop_ok K E cqe_ver ne 0 r (poll_cq_enter cq w wc) (hav.of_frame hf)
    (by rw [hf.2.1]; exact hr)
  rw [poll_cq_eq]
  cases hres : poll_cq_loop K E cqe_ver ne 0 (poll_cq_enter cq w wc) with
  | starved => rw [hres] at hloop; exact absurd hloop id
  | freeze x => exact fun h => Res.noConfusion h
  | ret err x => exact fun h => Res.noConfusion h

/-- On a ring with at most cqe + 1 available slots mlx5_start_poll does not run out of passes. -/
theorem start_poll_returns (K : Hdr) (E : Ext) (cq : Cq) (w : World) (wc : Wc)
    (comp_mask lock stall cqe_version clock_update r : Nat)
    (hav : Avail K cq r) (hr : r ≤ cq.cqe + 1) :
    mlx5_start_poll K E cq w wc comp_mask lock stall cqe_version clock_update ≠ Res.starved := by
  unfold mlx5_start_poll
  simp only []
  split
  · exact fun h => Res.noConfusion h
  · generalize hcq3 : ({ (if lock ≠ 0 then
        ({ (if stall ≠ 0 ∧ stall ≠ POLLING_MODE_STALL_ADAPTIVE ∧ cq.stall_next_poll ≠ 0 then
            { cq with stall_next_poll := 0 } else cq) with lock := true } : Cq)
        else (if stall ≠ 0 ∧ stall ≠ POLLING_MODE_STALL_ADAPTIVE ∧ cq.stall_next_poll ≠ 0 then
            { cq with stall_next_poll := 0 } else cq)) with cur_rsc := 0, cur_srq := 0 } : Cq) = cq3
    have h3 : CqFrame cq cq3 := by
      rw [← hcq3]
      unfold CqFrame
      split_ifs <;> exact ⟨rfl, rfl, rfl⟩
    have hav3 := hav.of_frame h3
    unfold mlx5_get_next_cqe
    cases hn : next_cqe_sw K cq3 with
    | none => exact fun h => Res.noConfusion h
    | some p =>
      simp only []
      have hpos : 0 < r := hav3.pos_of_visible (by rw [hn]; exact Option.some_ne_none p)
      generalize hcq5 : (if stall ≠ 0 then
          { ({ cq3 with cons_index := (cq3.cons_index + 1) % 2 ^ 32 } : Cq) with
            flags := cq3.flags ||| K.MLX5_CQ_FLAGS_FOUND_CQES }
        else { cq3 with cons_index := (cq3.cons_index + 1) % 2 ^ 32 }) = cq5
      have h5 : cq5.active_buf = cq3.active_buf ∧ cq5.cqe = cq3.cqe ∧
          cq5.cons_index = (cq3.cons_index + 1) % 2 ^ 32 := by
        rw [← hcq5]
        split <;> exact ⟨rfl, rfl, rfl⟩
      have hav5 : Avail K cq5 (r - 1) := hav3.step hpos h5.1 h5.2.1 h5.2.2
      have hdec := parse_loop_ok K E cqe_version 1 (cq5.cqe + 2) (r - 1)
        { cq := cq5, w := w, cur_rsc := cq5.cur_rsc, cur_srq := cq5.cur_srq, wc := wc } p hav5
        (by rw [h5.2.1, h3.2.1]; omega)
      have hl : mlx5_parse_lazy_cqe K E cq5 w wc p cqe_version ≠ Res.starved := by
        unfold mlx5_parse_lazy_cqe mlx5_parse_cqe
        cases hres : mlx5_parse_cqe_loop K E cqe_version 1 (cq5.cqe + 2)
            { cq := cq5, w := w, cur_rsc := cq5.cur_rsc, cur_srq := cq5.cur_srq, wc := wc } p with
        | starved => rw [hres] at hdec; exact absurd hdec id
        | freeze st => exact fun h => Res.noConfusion h
        | ret c st => exact fun h => Res.noConfusion h
      cases hres : mlx5_parse_lazy_cqe K E cq5 w wc p cqe_version with
      | starved => exact absurd hres hl
      | freeze st => exact fun h => Res.noConfusion h
      | ret err st =>
        simp only []
        split_ifs <;> exact fun h => Res.noConfusion h

/-- Claim C29, amended. With bounds min <= max, non-negative increment and decrement steps, and
min - dec_step and max + inc_step representable as int (no smaller than -2^31, no larger than
2^31 - 1), and min <= cq.stall_cycles <= max before the call: the delay lies in [min, max] in
the state in which every poll_cq and every mlx5_start_poll ends (whether it returns, with any
result and any count, or parks the thread in the freeze loop) and in the queue that every
_mlx5_end_poll leaves, for every stall mode; the tunables are unchanged by these calls; and on a
ring with at most cqe + 1 available slots poll_cq and mlx5_start_poll do end. -/
theorem stall_cycles_in_range (K : Hdr) (E : Ext) (cq : Cq) (w : World)
    (hmm : w.mlx5_stall_cq_poll_min ≤ w.mlx5_stall_cq_poll_max)
    (hinc : 0 ≤ w.mlx5_stall_cq_inc_step) (hdec : 0 ≤ w.mlx5_stall_cq_dec_step)
    (hlo : -2147483648 ≤ w.mlx5_stall_cq_poll_min - w.mlx5_stall_cq_dec_step)
    (hhi : w.mlx5_stall_cq_poll_max + w.mlx5_stall_cq_inc_step ≤ 2147483647)
    (h : StallInRange w cq) :
    (∀ (ne : Nat) (wc : Nat → Wc) (cqe_ver : Nat),
        ResAll (fun s : PollSt => StallInRange s.w s.cq ∧ s.w.tun = w.tun)
          (poll_cq K E cq w ne wc cqe_ver)) ∧
      (∀ (wc : Wc) (comp_mask lock stall cqe_version clock_update : Nat),
        ResAll (fun s : PState => StallInRange s.w s.cq ∧ s.w.tun = w.tun)
          (mlx5_start_poll K E cq w wc comp_mask lock stall cqe_version clock_update)) ∧
      (∀ (lock stall : Nat), StallInRange w (_mlx5_end_poll K E cq w lock stall)) ∧
      (∀ r, Avail K cq r → r ≤ cq.cqe + 1 →
        (∀ (ne : Nat) (wc : Nat → Wc) (cqe_ver : Nat),
          poll_cq K E cq w ne wc cqe_ver ≠ Res.starved) ∧
        (∀ (wc : Wc) (comp_mask lock stall cqe_version clock_update : Nat),
          mlx5_start_poll K E cq w wc comp_mask lock stall cqe_version clock_update ≠
            Res.starved)) :=
  ⟨fun ne wc cqe_ver => poll_cq_range K E cq w ne wc cqe_ver hmm hinc hdec hlo hhi h,
    fun wc comp_mask lock stall cqe_version clock_update =>
      start_poll_range K E cq w wc comp_mask lock stall cqe_version clock_update hmm hinc hdec
        hlo hhi h,
    fun lock stall => end_poll_range K E w cq lock stall hmm hinc hdec hlo hhi h,
    fun r hav hr =>
      ⟨fun ne wc cqe_ver => poll_cq_returns K E cq w ne wc cqe_ver r hav hr,
        fun wc comp_mask lock stall cqe_version clock_update =>
          start_poll_returns K E cq w wc comp_mask lock stall cqe_version clock_update r hav
            hr⟩⟩

/-- Witness for C29: a poll of the adaptive queue (delay 65, bounds 60 and 100000, steps 100 and
10) returns 2 with the delay within the bounds. -/
theorem stall_cycles_in_range_witness :
    ∃ s, poll_cq hdr Ext.ex_cycles Cq.ex_adaptive World.ex_send 4 (fun _ => Wc.zero) 0 =
        Res.ret 2 s ∧ 60 ≤ s.cq.stall_cycles ∧ s.cq.stall_cycles ≤ 100000 := by
  have h := (stall_cycles_in_range hdr Ext.ex_cycles Cq.ex_adaptive World.ex_send
    (by decide) (by decide) (by decide) (by decide) (by decide)
    ⟨by decide, by decide⟩).1 4 (fun _ => Wc.zero) 0
  have hrun : ∃ s, poll_cq hdr Ext.ex_cycles Cq.ex_adaptive World.ex_send 4 (fun _ => Wc.zero) 0 =
      Res.ret 2 s := ⟨_, rfl⟩
  obtain ⟨s, hs⟩ := hrun
  rw [hs] at h
  have ht := h.2
  unfold World.tun at ht
  simp only [Prod.mk.injEq] at ht
  refine ⟨s, hs, ?_, ?_⟩
  · have := h.1.1
    rw [ht.1] at this
    exact this
  · have := h.1.2
    rw [ht.2.1] at this
    exact this

/-- Claim C29, counterexample: the bounds 60 and INT_MAX = 2147483647 with the steps 100 and 10
(min <= max, steps not negative) and the delay 2147483600, which lies within the bounds. A
partial batch (2 completions of the 4 asked for) adds the step in int: the sum 2147483700 is not
representable, the delay becomes -2147483596 and is below the minimum after poll_cq. The same
holds for _mlx5_end_poll in adaptive mode after a poll that found the ring empty. -/
theorem stall_cycles_in_range_counterexample :
    (World.ex_stall_max.mlx5_stall_cq_poll_min ≤ World.ex_stall_max.mlx5_stall_cq_poll_max ∧
      0 ≤ World.ex_stall_max.mlx5_stall_cq_inc_step ∧
      0 ≤ World.ex_stall_max.mlx5_stall_cq_dec_step ∧
      World.ex_stall_max.mlx5_stall_cq_poll_max = 2147483647 ∧
      World.ex_stall_max.mlx5_stall_cq_poll_min ≤ Cq.ex_adaptive_high.stall_cycles ∧
      Cq.ex_adaptive_high.stall_cycles ≤ World.ex_stall_max.mlx5_stall_cq_poll_max) ∧
    ((poll_cq hdr Ext.ex_cycles Cq.ex_adaptive_high World.ex_stall_max 4 (fun _ => Wc.zero)
        0).code = some 2 ∧
      (poll_cq hdr Ext.ex_cycles Cq.ex_adaptive_high World.ex_stall_max 4 (fun _ => Wc.zero)
        0).state.map (fun s => (s.cq.stall_cycles, s.w.mlx5_stall_cq_poll_min)) =
          some (-2147483596, 60)) ∧
    (_mlx5_end_poll hdr Ext.ex_cycles
        { Cq.ex_adaptive_high with
          flags := hdr.MLX5_CQ_FLAGS_FOUND_CQES ||| hdr.MLX5_CQ_FLAGS_EMPTY_DURING_POLL }
        World.ex_stall_max 0 POLLING_MODE_STALL_ADAPTIVE).stall_cycles = -2147483596 := by
  decide

/-- An owner bit that equals the parity of pass n / 2^k differs from the parity of the pass of n +
2^k. -/
theorem owner_next_pass (n k own m : Nat)
    (h1 : own &&& m = n / 2 ^ k % 2) : ¬ own &&& m = (n + 2 ^ k) / 2 ^ k % 2 := by
  have hpos : 0 < 2 ^ k := Nat.two_pow_pos k
  rw [Nat.add_div_right n hpos, h1]
  omega

/-- Reduced to 32 bits, the index n + 2^k still names the ring position n mod 2^k and the pass
parity of n + 2^k, for a ring of at most 2^31 slots. -/
theorem wrap_next_pass (n k : Nat) (hk31 : k ≤ 31) :
    (n + 2 ^ k) % 2 ^ 32 % 2 ^ k = n % 2 ^ k ∧
      (n + 2 ^ k) % 2 ^ 32 / 2 ^ k % 2 = (n + 2 ^ k) / 2 ^ k % 2 := by
  have hpos : 0 < 2 ^ k := Nat.two_pow_pos k
  have hdvd : 2 ^ k ∣ 2 ^ 32 := Nat.pow_dvd_pow 2 (by omega)
  have hdvd2 : 2 ^ (k + 1) ∣ 2 ^ 32 := Nat.pow_dvd_pow 2 (by omega)
  refine ⟨?_, ?_⟩
  · rw [Nat.mod_mod_of_dvd _ hdvd, Nat.add_mod_right]
  · have e : ∀ x, x / 2 ^ k % 2 = x % 2 ^ (k + 1) / 2 ^ k := by
      intro x
      rw [pow_succ, Nat.mod_mul_right_div_self]
    rw [e, e (n + 2 ^ k), Nat.mod_mod_of_dvd _ hdvd2]

/-- On a ring of 2^k slots get_sw_cqe returns a slot at index n exactly when the slot at position n
mod 2^k has an opcode other than MLX5_CQE_INVALID and its owner bit is the parity of the pass n
/ 2^k. -/
theorem get_sw_cqe_pass (K : Hdr) (cq : Cq) (k n : Nat) (hk : cq.cqe = 2 ^ k - 1) :
    get_sw_cqe K cq n ≠ none ↔
      (mlx5dv_get_cqe_opcode (cq.active_buf (n % 2 ^ k)).cqe64 ≠ K.MLX5_CQE_INVALID ∧
        (cq.active_buf (n % 2 ^ k)).cqe64.op_own &&& K.MLX5_CQE_OWNER_MASK = n / 2 ^ k % 2) := by
  have hpos : 0 < 2 ^ k := Nat.two_pow_pos k
  have h1 : cq.cqe + 1 = 2 ^ k := by omega
  rw [get_sw_cqe_ne_none_iff, h1, parity_eq, Nat.xor_eq_zero, hk,
    Nat.and_pow_two_sub_one_eq_mod]

/-- A slot that get_sw_cqe returns at index n is not returned at index n + 2^k, nor at that index
reduced to 32 bits. -/
theorem get_sw_cqe_wrap_none (K : Hdr) (cq : Cq) (k n : Nat) (hk : cq.cqe = 2 ^ k - 1)
    (hk31 : k ≤ 31) (h : get_sw_cqe K cq n ≠ none) :
    get_sw_cqe K cq (n + 2 ^ k) = none ∧ get_sw_cqe K cq ((n + 2 ^ k) % 2 ^ 32) = none := by
  have hw := wrap_next_pass n k hk31
  have hno := owner_next_pass n k _ _ ((get_sw_cqe_pass K cq k n hk).1 h).2
  refine ⟨?_, ?_⟩
  · by_contra hc
    have := ((get_sw_cqe_pass K cq k _ hk).1 hc).2
    rw [Nat.add_mod_right] at this
    exact hno this
  · by_contra hc
    have := ((get_sw_cqe_pass K cq k _ hk).1 hc).2
    rw [hw.1, hw.2] at this
    exact hno this

/-- Claim C38. For every ring of N = 2^k slots (cq.cqe = N - 1, k at most 31 so that one pass fits a
32-bit index), every ring content and every index n: if get_sw_cqe(cq, n) returns a slot, then
on the same content get_sw_cqe(cq, n + N) returns no slot, also when n + N is reduced to 32 bits
as cons_index is, and mlx5_get_next_cqe at that consumer index reports CQ_EMPTY and leaves the
queue as it is. The slot is delivered again at n + N only from a ring content whose slot at that
position carries the other owner bit. -/
theorem get_sw_cqe_next_pass (K : Hdr) (cq : Cq) (k n : Nat) (hk : cq.cqe = 2 ^ k - 1)
    (hk31 : k ≤ 31) (h : get_sw_cqe K cq n ≠ none) :
    get_sw_cqe K cq (n + 2 ^ k) = none ∧
      get_sw_cqe K cq ((n + 2 ^ k) % 2 ^ 32) = none ∧
      mlx5_get_next_cqe K { cq with cons_index := (n + 2 ^ k) % 2 ^ 32 } =
        (CQ_EMPTY, { cq with cons_index := (n + 2 ^ k) % 2 ^ 32 }, none) ∧
      ∀ cq1 : Cq, cq1.cqe = cq.cqe → get_sw_cqe K cq1 ((n + 2 ^ k) % 2 ^ 32) ≠ none →
        (cq1.active_buf (n % 2 ^ k)).cqe64.op_own &&& K.MLX5_CQE_OWNER_MASK ≠
          (cq.active_buf (n % 2 ^ k)).cqe64.op_own &&& K.MLX5_CQE_OWNER_MASK := by
  have hw := wrap_next_pass n k hk31
  have hno := owner_next_pass n k _ _ ((get_sw_cqe_pass K cq k n hk).1 h).2
  obtain ⟨h1, h2⟩ := get_sw_cqe_wrap_none K cq k n hk hk31 h
  refine ⟨h1, h2, ?_, ?_⟩
  · have h3 : next_cqe_sw K { cq with cons_index := (n + 2 ^ k) % 2 ^ 32 } = none := h2
    unfold mlx5_get_next_cqe
    rw [h3]
  · intro cq1 hm hv heq
    have := ((get_sw_cqe_pass K cq1 k _ (hm.trans hk)).1 hv).2
    rw [hw.1, hw.2, heq] at this
    exact hno this

/-- Witness for C38: in the ring of the send example (4 slots) slot 0 is returned at index 0 and not
at index 4. -/
theorem get_sw_cqe_next_pass_witness :
    get_sw_cqe hdr Cq.ex_send 0 ≠ none ∧ get_sw_cqe hdr Cq.ex_send (0 + 2 ^ 2) = none :=
  ⟨by decide, (get_sw_cqe_next_pass hdr Cq.ex_send 2 0 (by decide) (by decide) (by decide)).1⟩

/-! ### Resource cache (C35) -/

/-- The traced get_req_context returns what get_req_context returns. -/
theorem get_req_context_traced_fst (w : World) (cur_rsc rsn cqe_ver : Nat) :
    (get_req_context_traced w cur_rsc rsn cqe_ver).1 = get_req_context w cur_rsc rsn cqe_ver := by
  unfold get_req_context_traced get_req_context
  split_ifs <;> rfl

/-- The traced get_resp_ctx_v1 returns what get_resp_ctx_v1 returns. -/
theorem get_resp_ctx_v1_traced_fst (K : Hdr) (w : World) (c : RscCtx) (uidx : Nat) :
    (get_resp_ctx_v1_traced K w c uidx).1 = get_resp_ctx_v1 K w c uidx := by
  unfold get_resp_ctx_v1_traced get_resp_ctx_v1
  split_ifs <;> rfl

/-- The traced get_qp_ctx returns what get_qp_ctx returns. -/
theorem get_qp_ctx_traced_fst (w : World) (c : RscCtx) (qpn : Nat) :
    (get_qp_ctx_traced w c qpn).1 = get_qp_ctx w c qpn := by
  unfold get_qp_ctx_traced get_qp_ctx
  split_ifs <;> rfl

/-- The traced get_srq_ctx returns what get_srq_ctx returns. -/
theorem get_srq_ctx_traced_fst (w : World) (c : RscCtx) (srqn : Nat) :
    (get_srq_ctx_traced w c srqn).1 = get_srq_ctx w c srqn := by
  unfold get_srq_ctx_traced get_srq_ctx
  split_ifs <;> rfl

/-- With a cache cell that is empty or holds a resource that mlx5_find_qp maps from its own number,
get_qp_ctx leaves in the cell what mlx5_find_qp gives for x and reports CQ_POLL_ERR exactly when
that is null. -/
theorem get_qp_ctx_direct (w : World) (c : RscCtx) (x : Nat)
    (h : c.cur_rsc = 0 ∨ mlx5_find_qp w (w.rsc c.cur_rsc).rsn = c.cur_rsc) :
    get_qp_ctx w c x =
      (if mlx5_find_qp w x = 0 then CQ_POLL_ERR else CQ_OK,
        { c with cur_rsc := mlx5_find_qp w x }) := by
  unfold get_qp_ctx
  by_cases hm : c.cur_rsc = 0 ∨ x ≠ (w.rsc c.cur_rsc).rsn
  · rw [if_pos hm]
    split_ifs <;> rfl
  · rw [if_neg hm]
    simp only [not_or, ne_eq, not_not] at hm
    have hc : mlx5_find_qp w x = c.cur_rsc := by
      rcases h with h | h
      · exact absurd h hm.1
      · rw [hm.2]; exact h
    rw [hc, if_neg hm.1]

/-- With a cache cell that is empty or holds a shared receive queue that mlx5_find_srq maps from its
own number, get_srq_ctx leaves in the cell what mlx5_find_srq gives for x and reports
CQ_POLL_ERR exactly when that is null. -/
theorem get_srq_ctx_direct (w : World) (c : RscCtx) (x : Nat)
    (h : c.cur_srq = 0 ∨ mlx5_find_srq w (w.srq c.cur_srq).srqn = c.cur_srq) :
    get_srq_ctx w c x =
      (if mlx5_find_srq w x = 0 then CQ_POLL_ERR else CQ_OK,
        { c with cur_srq := mlx5_find_srq w x }) := by
  unfold get_srq_ctx
  by_cases hm : c.cur_srq = 0 ∨ x ≠ (w.srq c.cur_srq).srqn
  · rw [if_pos hm]
    split_ifs <;> rfl
  · rw [if_neg hm]
    simp only [not_or, ne_eq, not_not] at hm
    have hc : mlx5_find_srq w x = c.cur_srq := by
      rcases h with h | h
      · exact absurd h hm.1
      · rw [hm.2]; exact h
    rw [hc, if_neg hm.1]

/-- With a cache cell that is empty or holds a resource that mlx5_find_uidx maps from its own index,
get_resp_ctx_v1 resolves x to what mlx5_find_uidx gives for x and then switches on the type of
that resource. -/
theorem get_resp_ctx_v1_direct (K : Hdr) (w : World) (c : RscCtx) (x : Nat)
    (h : c.cur_rsc = 0 ∨ mlx5_find_uidx w (w.rsc c.cur_rsc).rsn = c.cur_rsc) :
    get_resp_ctx_v1 K w c x =
      (if mlx5_find_uidx w x = 0 then (CQ_POLL_ERR, { c with cur_rsc := mlx5_find_uidx w x })
        else get_resp_ctx_v1_switch K w { c with cur_rsc := mlx5_find_uidx w x }) := by
  unfold get_resp_ctx_v1
  by_cases hm : c.cur_rsc = 0 ∨ x ≠ (w.rsc c.cur_rsc).rsn
  · rw [if_pos hm]
  · rw [if_neg hm]
    simp only [not_or, ne_eq, not_not] at hm
    have hc : mlx5_find_uidx w x = c.cur_rsc := by
      rcases h with h | h
      · exact absurd h hm.1
      · rw [hm.2]; exact h
    rw [hc, if_neg hm.1]

/-- With a cache cell that is empty or holds a resource that the table of the interface version maps
from its own identifier, get_req_context returns what that table gives for x. -/
theorem get_req_context_direct (w : World) (cur x cqe_ver : Nat)
    (h : cur = 0 ∨
      (if cqe_ver ≠ 0 then mlx5_find_uidx w (w.rsc cur).rsn else mlx5_find_qp w (w.rsc cur).rsn)
        = cur) :
    get_req_context w cur x cqe_ver =
      (if cqe_ver ≠ 0 then mlx5_find_uidx w x else mlx5_find_qp w x) := by
  unfold get_req_context
  by_cases hm : cur = 0 ∨ x ≠ (w.rsc cur).rsn
  · rw [if_pos hm]
  · rw [if_neg hm]
    simp only [not_or, ne_eq, not_not] at hm
    rcases h with h | h
    · exact absurd h hm.1
    · rw [hm.2]; exact h.symm

/-- The switch of get_resp_ctx_v1 on the resource type keeps the cell cur_rsc. -/
theorem switch_cur_rsc (K : Hdr) (w : World) (c : RscCtx) :
    (get_resp_ctx_v1_switch K w c).2.cur_rsc = c.cur_rsc := by
  unfold get_resp_ctx_v1_switch
  split_ifs <;> rfl

/-- Claim C35. For every lookup table, every identifier x and every cache state: when the cache cell
is empty or holds a resource that the table maps from the own identifier of that resource,
get_qp_ctx, get_srq_ctx, get_resp_ctx_v1 and get_req_context resolve x to exactly what the
direct table lookup of x gives and leave that resource in the cell; each function, traced,
returns what the untraced function returns and performs one table lookup of x when the cell is
empty or the cached identifier differs from x, and none otherwise; and when the cached
identifier differs from x the cell ends holding the resource of the table for x, so the cached
resource is not used for the slot. -/
theorem cache_resolves_as_lookup (K : Hdr) (w : World) (c : RscCtx) (x cqe_ver : Nat) :
    ((c.cur_rsc = 0 ∨ mlx5_find_qp w (w.rsc c.cur_rsc).rsn = c.cur_rsc) →
      get_qp_ctx w c x =
        (if mlx5_find_qp w x = 0 then CQ_POLL_ERR else CQ_OK,
          { c with cur_rsc := mlx5_find_qp w x }) ∧
      (get_qp_ctx w c x).2.cur_rsc = mlx5_find_qp w x) ∧
    ((c.cur_srq = 0 ∨ mlx5_find_srq w (w.srq c.cur_srq).srqn = c.cur_srq) →
      get_srq_ctx w c x =
        (if mlx5_find_srq w x = 0 then CQ_POLL_ERR else CQ_OK,
          { c with cur_srq := mlx5_find_srq w x }) ∧
      (get_srq_ctx w c x).2.cur_srq = mlx5_find_srq w x) ∧
    ((c.cur_rsc = 0 ∨ mlx5_find_uidx w (w.rsc c.cur_rsc).rsn = c.cur_rsc) →
      get_resp_ctx_v1 K w c x =
        (if mlx5_find_uidx w x = 0 then
          (CQ_POLL_ERR, { c with cur_rsc := mlx5_find_uidx w x })
        else get_resp_ctx_v1_switch K w { c with cur_rsc := mlx5_find_uidx w x }) ∧
      (get_resp_ctx_v1 K w c x).2.cur_rsc = mlx5_find_uidx w x) ∧
    ((c.cur_rsc = 0 ∨
        (if cqe_ver ≠ 0 then mlx5_find_uidx w (w.rsc c.cur_rsc).rsn
          else mlx5_find_qp w (w.rsc c.cur_rsc).rsn) = c.cur_rsc) →
      get_req_context w c.cur_rsc x cqe_ver =
        (if cqe_ver ≠ 0 then mlx5_find_uidx w x else mlx5_find_qp w x)) ∧
    ((get_qp_ctx_traced w c x).1 = get_qp_ctx w c x ∧
      (get_srq_ctx_traced w c x).1 = get_srq_ctx w c x ∧
      (get_resp_ctx_v1_traced K w c x).1 = get_resp_ctx_v1 K w c x ∧
      (get_req_context_traced w c.cur_rsc x cqe_ver).1 =
        get_req_context w c.cur_rsc x cqe_ver) ∧
    ((get_qp_ctx_traced w c x).2 =
        (if c.cur_rsc = 0 ∨ x ≠ (w.rsc c.cur_rsc).rsn then [TableLookup.find_qp x] else []) ∧
      (get_srq_ctx_traced w c x).2 =
        (if c.cur_srq = 0 ∨ x ≠ (w.srq c.cur_srq).srqn then [TableLookup.find_srq x] else []) ∧
      (get_resp_ctx_v1_traced K w c x).2 =
        (if c.cur_rsc = 0 ∨ x ≠ (w.rsc c.cur_rsc).rsn then [TableLookup.find_uidx x] else []) ∧
      (get_req_context_traced w c.cur_rsc x cqe_ver).2 =
        (if c.cur_rsc = 0 ∨ x ≠ (w.rsc c.cur_rsc).rsn then
          [if cqe_ver ≠ 0 then TableLookup.find_uidx x else TableLookup.find_qp x]
        else [])) ∧
    (x ≠ (w.rsc c.cur_rsc).rsn →
      (get_qp_ctx w c x).2.cur_rsc = mlx5_find_qp w x ∧
      (get_resp_ctx_v1 K w c x).2.cur_rsc = mlx5_find_uidx w x ∧
      get_req_context w c.cur_rsc x cqe_ver =
        (if cqe_ver ≠ 0 then mlx5_find_uidx w x else mlx5_find_qp w x)) ∧
    (x ≠ (w.srq c.cur_srq).srqn → (get_srq_ctx w c x).2.cur_srq = mlx5_find_srq w x) := by
  refine ⟨fun h => ?_, fun h => ?_, fun h => ?_, fun h => get_req_context_direct w _ x cqe_ver h,
    ⟨get_qp_ctx_traced_fst w c x, get_srq_ctx_traced_fst w c x,
      get_resp_ctx_v1_traced_fst K w c x, get_req_context_traced_fst w _ x cqe_ver⟩,
    ⟨?_, ?_, ?_, ?_⟩, fun hne => ⟨?_, ?_, ?_⟩, fun hne => ?_⟩
  · have e := get_qp_ctx_direct w c x h
    exact ⟨e, by rw [e]⟩
  · have e := get_srq_ctx_direct w c x h
    exact ⟨e, by rw [e]⟩
  · have e := get_resp_ctx_v1_direct K w c x h
    refine ⟨e, ?_⟩
    rw [e]
    split_ifs
    · rfl
    · exact switch_cur_rsc K w _
  · unfold get_qp_ctx_traced; split_ifs <;> rfl
  · unfold get_srq_ctx_traced; split_ifs <;> rfl
  · unfold get_resp_ctx_v1_traced; split_ifs <;> rfl
  · unfold get_req_context_traced; split_ifs <;> rfl
  · unfold get_qp_ctx
    rw [if_pos (Or.inr hne)]
    split_ifs <;> rfl
  · unfold get_resp_ctx_v1
    rw [if_pos (Or.inr hne)]
    split_ifs
    · rfl
    · exact switch_cur_rsc K w _
  · unfold get_req_context
    rw [if_pos (Or.inr hne)]
  · unfold get_srq_ctx
    rw [if_pos (Or.inr hne)]
    split_ifs <;> rfl

/-- Witness for C35: with the queue-pair of number 7 cached in the context of the send example,
get_qp_ctx resolves 7 with no lookup and keeps the cell, and resolves 8 with one mlx5_find_qp
lookup, which leaves the cell null. -/
theorem cache_resolves_as_lookup_witness :
    (mlx5_find_qp World.ex_send (World.ex_send.rsc RscCtx.ex_cached.cur_rsc).rsn =
        RscCtx.ex_cached.cur_rsc) ∧
      get_qp_ctx World.ex_send RscCtx.ex_cached 7 = (CQ_OK, RscCtx.ex_cached) ∧
      (get_qp_ctx_traced World.ex_send RscCtx.ex_cached 7).2 = [] ∧
      (get_qp_ctx World.ex_send RscCtx.ex_cached 8).2.cur_rsc = 0 ∧
      (get_qp_ctx_traced World.ex_send RscCtx.ex_cached 8).2 = [TableLookup.find_qp 8] :=
  ⟨by decide,
    ((cache_resolves_as_lookup hdr World.ex_send RscCtx.ex_cached 7 0).1
      (Or.inr (by decide))).1.trans rfl,
    by decide, by decide, by decide⟩

/-! ### Buffer allocation (C34) -/

/-- The stamping loop of mlx5_alloc_cq_buf, given enough passes, sets op_own of the record of every
slot from i up to nent to MLX5_CQE_INVALID << 4 and leaves every other slot and field as it was. -/
theorem alloc_stamp_spec (K : Hdr) (nent : Nat) :
    ∀ (fuel i : Nat) (buf : Nat → Slot), nent ≤ i + fuel →
      ∀ p, alloc_stamp K nent fuel i buf p =
        if i ≤ p ∧ p < nent then
          { buf p with
            cqe64 := { (buf p).cqe64 with op_own := (K.MLX5_CQE_INVALID <<< 4) % 256 } }
        else buf p := by
  intro fuel
  induction fuel with
  | zero =>
    intro i buf h p
    rw [alloc_stamp, if_neg (by omega)]
  | succ f ih =>
    intro i buf h p
    rw [alloc_stamp]
    by_cases hi : i < nent
    · rw [if_pos hi, ih (i + 1) _ (by omega) p]
      by_cases hp : p = i
      · subst hp
        rw [if_neg (by omega), if_pos ⟨le_refl _, hi⟩, upd_same]
      · rw [upd_other _ _ _ _ hp]
        by_cases hq : i + 1 ≤ p ∧ p < nent
        · rw [if_pos hq, if_pos ⟨by omega, hq.2⟩]
        · rw [if_neg hq, if_neg (by omega)]
    · rw [if_neg hi, if_neg (by omega)]

/-- The opcode of the byte v << 4 is v, for a 4-bit v. -/
theorem invalid_opcode (v : Nat) (hv : v < 16) : ((v <<< 4) % 256) >>> 4 = v := by
  rw [Nat.shiftLeft_eq, Nat.shiftRight_eq_div_pow]
  omega

/-- On a ring whose slot at the consumer index is not software-visible, poll_cq returns 0 and leaves
the consumer index, the ring and the work-completion array as they were. -/
theorem poll_cq_empty (K : Hdr) (E : Ext) (cq : Cq) (w : World) (ne : Nat) (wc : Nat → Wc)
    (cqe_ver : Nat) (h : get_sw_cqe K cq cq.cons_index = none) :
    ∃ s, poll_cq K E cq w ne wc cqe_ver = Res.ret 0 s ∧ s.cq.cons_index = cq.cons_index ∧
      s.cq.active_buf = cq.active_buf ∧ s.wc = wc := by
  rw [poll_cq_eq]
  cases ne with
  | zero =>
    refine ⟨_, rfl, ?_, ?_, rfl⟩
    · unfold poll_cq_stall update_cons_index poll_cq_enter
      simp only []
      split_ifs <;> rfl
    · unfold poll_cq_stall update_cons_index poll_cq_enter
      simp only []
      split_ifs <;> rfl
  | succ k =>
    have hn : next_cqe_sw K (poll_cq_enter cq w wc).cq = none := by
      have hf : CqFrame cq (poll_cq_enter cq w wc).cq := by
        unfold poll_cq_enter CqFrame
        simp only []
        split <;> exact ⟨rfl, rfl, rfl⟩
      rw [next_cqe_sw_frame K cq _ hf]
      exact h
    have hone : mlx5_poll_one K E
        { cq := (poll_cq_enter cq w wc).cq, w := (poll_cq_enter cq w wc).w,
          cur_rsc := (poll_cq_enter cq w wc).rsc, cur_srq := (poll_cq_enter cq w wc).srq,
          wc := (poll_cq_enter cq w wc).wc 0 } cqe_ver =
        Res.ret CQ_EMPTY
          { cq := (poll_cq_enter cq w wc).cq, w := (poll_cq_enter cq w wc).w,
            cur_rsc := (poll_cq_enter cq w wc).rsc, cur_srq := (poll_cq_enter cq w wc).srq,
            wc := (poll_cq_enter cq w wc).wc 0 } := by
      unfold mlx5_poll_one mlx5_get_next_cqe
      simp only [hn]
    rw [poll_cq_loop, hone]
    simp only [CQ_EMPTY, CQ_OK, CQ_POLL_ERR]
    refine ⟨_, rfl, ?_, ?_, ?_⟩
    · unfold poll_cq_stall update_cons_index poll_cq_enter
      simp only []
      split_ifs <;> rfl
    · unfold poll_cq_stall update_cons_index poll_cq_enter
      simp only []
      split_ifs <;> rfl
    · funext p
      unfold poll_cq_enter upd
      simp only []
      split_ifs with hp
      · rw [hp]
      · rfl

/-- Claim C34. After a successful mlx5_alloc_cq_buf for nent slots, with MLX5_CQE_INVALID a 4-bit
opcode: the completion record of every slot has op_own = MLX5_CQE_INVALID << 4 and so the opcode
MLX5_CQE_INVALID (for a buffer that is not of the custom type the rest of the record is zero);
hence on every queue that takes this buffer as its ring (cq.cqe < nent), get_sw_cqe(cq, n)
returns no slot for every index n, whatever the pass parity, mlx5_get_next_cqe reports CQ_EMPTY,
and poll_cq returns 0 completions and leaves the consumer index and the work-completion array
unchanged. -/
theorem alloc_cq_buf_invalid (K : Hdr) (A : AllocBuf) (nent cqe_sz : Nat)
    (hinv : K.MLX5_CQE_INVALID < 16)
    (hok : (mlx5_alloc_cq_buf K A nent cqe_sz).1 = 0) :
    (∀ p, p < nent →
      ((mlx5_alloc_cq_buf K A nent cqe_sz).2 p).cqe64.op_own =
        (K.MLX5_CQE_INVALID <<< 4) % 256 ∧
      mlx5dv_get_cqe_opcode ((mlx5_alloc_cq_buf K A nent cqe_sz).2 p).cqe64 =
        K.MLX5_CQE_INVALID) ∧
    (A.custom = false → ∀ p, p < nent →
      ((mlx5_alloc_cq_buf K A nent cqe_sz).2 p).cqe64 =
        { Cqe64.zero with op_own := (K.MLX5_CQE_INVALID <<< 4) % 256 }) ∧
    ∀ cq : Cq, cq.active_buf = (mlx5_alloc_cq_buf K A nent cqe_sz).2 → cq.cqe < nent →
      (∀ n, get_sw_cqe K cq n = none) ∧
      mlx5_get_next_cqe K cq = (CQ_EMPTY, cq, none) ∧
      ∀ (E : Ext) (w : World) (ne : Nat) (wc : Nat → Wc) (cqe_ver : Nat),
        ∃ s, poll_cq K E cq w ne wc cqe_ver = Res.ret 0 s ∧
          s.cq.cons_index = cq.cons_index ∧ s.wc = wc := by
  have hret : A.ret = 0 := by
    by_contra hc
    unfold mlx5_alloc_cq_buf at hok
    rw [if_pos hc] at hok
    exact absurd hok (by show ¬ (-1 : Int) = 0; decide)
  have hbuf : ∀ p, p < nent →
      (mlx5_alloc_cq_buf K A nent cqe_sz).2 p =
        { (if A.custom = false then alloc_memset A.buf nent cqe_sz else A.buf) p with
          cqe64 := { ((if A.custom = false then alloc_memset A.buf nent cqe_sz else A.buf) p).cqe64
            with op_own := (K.MLX5_CQE_INVALID <<< 4) % 256 } } := by
    intro p hp
    unfold mlx5_alloc_cq_buf
    rw [if_neg (by simp [hret])]
    show alloc_stamp K nent nent 0 _ p = _
    rw [alloc_stamp_spec K nent nent 0 _ (by omega) p, if_pos ⟨Nat.zero_le _, hp⟩]
  have hop : ∀ p, p < nent →
      ((mlx5_alloc_cq_buf K A nent cqe_sz).2 p).cqe64.op_own =
        (K.MLX5_CQE_INVALID <<< 4) % 256 ∧
      mlx5dv_get_cqe_opcode ((mlx5_alloc_cq_buf K A nent cqe_sz).2 p).cqe64 =
        K.MLX5_CQE_INVALID := by
    intro p hp
    rw [hbuf p hp]
    exact ⟨rfl, invalid_opcode _ hinv⟩
  refine ⟨hop, ?_, ?_⟩
  · intro hc p hp
    rw [hbuf p hp, if_pos hc]
    unfold alloc_memset
    simp only [if_pos hp]
  · intro cq hcq hmask
    have hnone : ∀ n, get_sw_cqe K cq n = none := by
      intro n
      have hlt : n &&& cq.cqe < nent := lt_of_le_of_lt Nat.and_le_right hmask
      unfold get_sw_cqe get_cqe
      rw [hcq, if_neg]
      intro hc
      exact hc.1 (hop _ hlt).2
    refine ⟨hnone, ?_, ?_⟩
    · unfold mlx5_get_next_cqe next_cqe_sw
      rw [hnone]
    · intro E w ne wc cqe_ver
      obtain ⟨s, h1, h2, _, h4⟩ := poll_cq_empty K E cq w ne wc cqe_ver (hnone _)
      exact ⟨s, h1, h2, h4⟩

/-- Witness for C34: the custom buffer of the examples, whose slots all held send completions before
the call, is allocated successfully for 4 slots, and the ring it gives returns no slot at index
0 nor at index 4. -/
theorem alloc_cq_buf_invalid_witness :
    (mlx5_alloc_cq_buf hdr AllocBuf.ex_custom 4 64).1 = 0 ∧
      mlx5dv_get_cqe_opcode (AllocBuf.ex_custom.buf 0).cqe64 = hdr.MLX5_CQE_REQ ∧
      get_sw_cqe hdr Cq.ex_alloc 4 = none ∧ get_sw_cqe hdr Cq.ex_alloc 0 = none :=
  ⟨by decide, by decide,
    ((alloc_cq_buf_invalid hdr AllocBuf.ex_custom 4 64 (by decide) (by decide)).2.2
      Cq.ex_alloc rfl (by decide)).1 4,
    ((alloc_cq_buf_invalid hdr AllocBuf.ex_custom 4 64 (by decide) (by decide)).2.2
      Cq.ex_alloc rfl (by decide)).1 0⟩

/-! ### Lazy and immediate decode of send completions (C37) -/

/-- With the flag values 1, 64 and 128, the raw-WQE flag reads as set after it is or-ed into the
cleared lazy flags, and as clear in the cleared lazy flags. -/
theorem raw_flag_bit (f : Nat) :
    ((f &&& not32 (1 ||| 64 ||| 128)) ||| 128) &&& 128 ≠ 0 ∧
      ¬ ((f &&& not32 (1 ||| 64 ||| 128)) &&& 128 ≠ 0) := by
  have h7 : (128 : Nat) = 2 ^ 7 := rfl
  have e1 : ∀ x : Nat, x &&& 128 ≠ 0 ↔ x.testBit 7 = true := fun x => by
    rw [h7]; exact flag_bit x 7
  rw [e1, e1]
  simp only [Nat.testBit_or, Nat.testBit_and, testBit_not32]
  generalize f.testBit 7 = p
  cases p <;> decide

/-- The collaborator call of scatter_send_wqe leaves the queue-pairs of the context as they are. -/
theorem scatter_send_wqe_qp (K : Hdr) (E : Ext) (w : World) (cqe64 : Cqe64)
    (pos mqp wqe_ctr size err : Nat) :
    (scatter_send_wqe K E w cqe64 pos mqp wqe_ctr size err).2.qp = w.qp := by
  unfold scatter_send_wqe World.call
  split_ifs <;> rfl

/-- The lazy decode of a send-success slot whose queue resolves returns CQ_OK; it keeps the current
slot and the ring, stores wr_id of the send queue entry in the queue, sets the raw-WQE flag
exactly when wr_data of the entry is IBV_WC_DRIVER2, stores wr_data as cached opcode for UMR,
SET_PSV, NOP and MMO, and sets sq.tail to wqe_head of the entry plus 1. -/
theorem parse_req_lazy_form (K : Hdr) (E : Ext) (st : PState) (pos cqe_ver : Nat)
    (hres : get_req_context st.w st.cur_rsc
      (if cqe_ver ≠ 0 then be32toh (get_cqe st.cq pos).cqe64.srqn_uidx &&& 0xffffff
        else be32toh (get_cqe st.cq pos).cqe64.sop_drop_qpn &&& 0xffffff) cqe_ver ≠ 0) :
    ∃ st1, parse_req K E st pos cqe_ver 1 = Step.ret CQ_OK st1 ∧
      ∀ mqp idx hw, mqp = get_req_context st.w st.cur_rsc
          (if cqe_ver ≠ 0 then be32toh (get_cqe st.cq pos).cqe64.srqn_uidx &&& 0xffffff
            else be32toh (get_cqe st.cq pos).cqe64.sop_drop_qpn &&& 0xffffff) cqe_ver →
        idx = be16toh (get_cqe st.cq pos).cqe64.wqe_counter &&& decr32 (st.w.qp mqp).sq.wqe_cnt →
        hw = be32toh (get_cqe st.cq pos).cqe64.sop_drop_qpn >>> 24 →
        st1.cq.cqe64 = st.cq.cqe64 ∧ st1.cq.active_buf = st.cq.active_buf ∧
        st1.cq.wr_id = (st.w.qp mqp).sq.wrid idx ∧
        st1.cq.flags =
          (if (st.w.qp mqp).sq.wr_data idx = K.IBV_WC_DRIVER2 then
            st.cq.flags ||| K.MLX5_CQ_FLAGS_RAW_WQE
          else st.cq.flags) ∧
        st1.cq.cached_opcode =
          (if hw = K.MLX5_OPCODE_UMR ∨ hw = K.MLX5_OPCODE_SET_PSV ∨ hw = K.MLX5_OPCODE_NOP ∨
              hw = K.MLX5_OPCODE_MMO then (st.w.qp mqp).sq.wr_data idx
            else st.cq.cached_opcode) ∧
        st1.w.qp = upd st.w.qp mqp { st.w.qp mqp with
          sq := { (st.w.qp mqp).sq with
            tail := ((st.w.qp mqp).sq.wqe_head idx + 1) % 2 ^ 32 } } := by
  unfold parse_req
  simp only [ne_eq, one_ne_zero, not_false_eq_true, if_true]
  rw [if_neg hres]
  refine ⟨_, rfl, ?_⟩
  intro mqp idx hw hm hi hh
  subst hm hi hh
  generalize get_req_context st.w st.cur_rsc _ cqe_ver = mqp
  generalize be16toh (get_cqe st.cq pos).cqe64.wqe_counter &&& decr32 (st.w.qp mqp).sq.wqe_cnt
    = idx
  generalize be32toh (get_cqe st.cq pos).cqe64.sop_drop_qpn >>> 24 = hw
  have hq : ∀ size, (scatter_send_wqe K E st.w (get_cqe st.cq pos).cqe64 pos mqp
      (be16toh (get_cqe st.cq pos).cqe64.wqe_counter) size 0).2.qp = st.w.qp :=
    fun size => scatter_send_wqe_qp K E _ _ _ _ _ _ _
  by_cases hraw : (st.w.qp mqp).sq.wr_data idx = K.IBV_WC_DRIVER2 <;>
    by_cases hg : hw = K.MLX5_OPCODE_UMR ∨ hw = K.MLX5_OPCODE_SET_PSV ∨
        hw = K.MLX5_OPCODE_NOP ∨ hw = K.MLX5_OPCODE_MMO <;>
    refine ⟨?_, ?_, ?_, ?_, ?_, ?_⟩ <;>
    first
      | (simp only [hraw, hg, if_true, if_false] <;> rfl)
      | (unfold sq_set_tail World.setQp
         simp only [hraw, hg, if_true, if_false, apply_ite Prod.snd, apply_ite World.qp, hq,
           ite_self])

/-- The lazy entry of the decode stores the slot as current slot and clears the lazy flags; the ring
and the cached opcode are kept. -/
theorem parse_init_lazy_fields (K : Hdr) (st : PState) (pos : Nat) :
    (parse_init K st pos 1).cq.cqe64 = some pos ∧
      (parse_init K st pos 1).cq.flags = st.cq.flags &&& not32 (MLX5_CQ_LAZY_FLAGS K) ∧
      (parse_init K st pos 1).cq.active_buf = st.cq.active_buf ∧
      (parse_init K st pos 1).cq.cached_opcode = st.cq.cached_opcode := by
  unfold parse_init
  simp only [ne_eq, one_ne_zero, not_false_eq_true, if_true, and_self]

/-- The accessor mlx5_cq_read_wc_opcode on a current slot with opcode MLX5_CQE_REQ: IBV_WC_DRIVER2
when the raw-WQE flag is set, else the table on the hardware opcode, with the cached opcode for
UMR, SET_PSV, NOP and MMO. -/
theorem read_wc_opcode_req (K : Hdr) (hK : K.Ok) (cq : Cq) (pos : Nat)
    (h64 : cq.cqe64 = some pos)
    (hop : mlx5dv_get_cqe_opcode (cq.active_buf pos).cqe64 = K.MLX5_CQE_REQ) :
    mlx5_cq_read_wc_opcode K cq = some (
      if cq.flags &&& K.MLX5_CQ_FLAGS_RAW_WQE ≠ 0 then K.IBV_WC_DRIVER2
      else if be32toh (cq.active_buf pos).cqe64.sop_drop_qpn >>> 24 = K.MLX5_OPCODE_RDMA_WRITE_IMM ∨
          be32toh (cq.active_buf pos).cqe64.sop_drop_qpn >>> 24 = K.MLX5_OPCODE_RDMA_WRITE then
        K.IBV_WC_RDMA_WRITE
      else if be32toh (cq.active_buf pos).cqe64.sop_drop_qpn >>> 24 = K.MLX5_OPCODE_SEND_IMM ∨
          be32toh (cq.active_buf pos).cqe64.sop_drop_qpn >>> 24 = K.MLX5_OPCODE_SEND ∨
          be32toh (cq.active_buf pos).cqe64.sop_drop_qpn >>> 24 = K.MLX5_OPCODE_SEND_INVAL then
        K.IBV_WC_SEND
      else if be32toh (cq.active_buf pos).cqe64.sop_drop_qpn >>> 24 = K.MLX5_OPCODE_RDMA_READ then
        K.IBV_WC_RDMA_READ
      else if be32toh (cq.active_buf pos).cqe64.sop_drop_qpn >>> 24 = K.MLX5_OPCODE_ATOMIC_CS then
        K.IBV_WC_COMP_SWAP
      else if be32toh (cq.active_buf pos).cqe64.sop_drop_qpn >>> 24 = K.MLX5_OPCODE_ATOMIC_FA then
        K.IBV_WC_FETCH_ADD
      else if be32toh (cq.active_buf pos).cqe64.sop_drop_qpn >>> 24 = K.MLX5_OPCODE_UMR ∨
          be32toh (cq.active_buf pos).cqe64.sop_drop_qpn >>> 24 = K.MLX5_OPCODE_SET_PSV ∨
          be32toh (cq.active_buf pos).cqe64.sop_drop_qpn >>> 24 = K.MLX5_OPCODE_NOP ∨
          be32toh (cq.active_buf pos).cqe64.sop_drop_qpn >>> 24 = K.MLX5_OPCODE_MMO then
        cq.cached_opcode
      else if be32toh (cq.active_buf pos).cqe64.sop_drop_qpn >>> 24 = K.MLX5_OPCODE_TSO then
        K.IBV_WC_TSO
      else 0) := by
  have h := hK.cqe_opcodes
  simp only [List.nodup_cons, List.mem_cons, List.mem_singleton, List.not_mem_nil, not_or,
    List.nodup_nil, or_false, and_true, not_false_eq_true] at h
  have h1 : ¬ K.MLX5_CQE_REQ = K.MLX5_CQE_RESP_WR_IMM := fun e => by simp [e] at h
  have h2 : ¬ (K.MLX5_CQE_REQ = K.MLX5_CQE_RESP_SEND ∨ K.MLX5_CQE_REQ = K.MLX5_CQE_RESP_SEND_IMM ∨
      K.MLX5_CQE_REQ = K.MLX5_CQE_RESP_SEND_INV) := by
    rintro (e | e | e) <;> simp [e] at h
  have h3 : ¬ K.MLX5_CQE_REQ = K.MLX5_CQE_NO_PACKET := fun e => by simp [e] at h
  unfold mlx5_cq_read_wc_opcode
  rw [h64]
  simp only [get_cqe, hop, if_neg h1, if_neg h2, if_neg h3, if_true]

/-- For a hardware opcode of the table and a send queue entry that is not a raw WQE, the table of
the accessor, read with the cached opcode that the lazy decode stores, gives the opcode that
handle_good_req writes. -/
theorem read_chain_eq_good_req (K : Hdr) (hK : K.Ok) (wc : Wc) (cqe : Cqe64) (wq : Wq)
    (idx cached : Nat)
    (hraw : wq.wr_data idx ≠ K.IBV_WC_DRIVER2)
    (hc : be32toh cqe.sop_drop_qpn >>> 24 = K.MLX5_OPCODE_UMR ∨
        be32toh cqe.sop_drop_qpn >>> 24 = K.MLX5_OPCODE_SET_PSV ∨
        be32toh cqe.sop_drop_qpn >>> 24 = K.MLX5_OPCODE_NOP ∨
        be32toh cqe.sop_drop_qpn >>> 24 = K.MLX5_OPCODE_MMO → cached = wq.wr_data idx)
    (hhw : be32toh cqe.sop_drop_qpn >>> 24 = K.MLX5_OPCODE_RDMA_WRITE_IMM ∨
      be32toh cqe.sop_drop_qpn >>> 24 = K.MLX5_OPCODE_RDMA_WRITE ∨
      be32toh cqe.sop_drop_qpn >>> 24 = K.MLX5_OPCODE_SEND_IMM ∨
      be32toh cqe.sop_drop_qpn >>> 24 = K.MLX5_OPCODE_SEND ∨
      be32toh cqe.sop_drop_qpn >>> 24 = K.MLX5_OPCODE_SEND_INVAL ∨
      be32toh cqe.sop_drop_qpn >>> 24 = K.MLX5_OPCODE_RDMA_READ ∨
      be32toh cqe.sop_drop_qpn >>> 24 = K.MLX5_OPCODE_ATOMIC_CS ∨
      be32toh cqe.sop_drop_qpn >>> 24 = K.MLX5_OPCODE_ATOMIC_FA ∨
      be32toh cqe.sop_drop_qpn >>> 24 = K.MLX5_OPCODE_UMR ∨
      be32toh cqe.sop_drop_qpn >>> 24 = K.MLX5_OPCODE_SET_PSV ∨
      be32toh cqe.sop_drop_qpn >>> 24 = K.MLX5_OPCODE_NOP ∨
      be32toh cqe.sop_drop_qpn >>> 24 = K.MLX5_OPCODE_MMO ∨
      be32toh cqe.sop_drop_qpn >>> 24 = K.MLX5_OPCODE_TSO) :
    (if be32toh cqe.sop_drop_qpn >>> 24 = K.MLX5_OPCODE_RDMA_WRITE_IMM ∨
          be32toh cqe.sop_drop_qpn >>> 24 = K.MLX5_OPCODE_RDMA_WRITE then
        K.IBV_WC_RDMA_WRITE
      else if be32toh cqe.sop_drop_qpn >>> 24 = K.MLX5_OPCODE_SEND_IMM ∨
          be32toh cqe.sop_drop_qpn >>> 24 = K.MLX5_OPCODE_SEND ∨
          be32toh cqe.sop_drop_qpn >>> 24 = K.MLX5_OPCODE_SEND_INVAL then
        K.IBV_WC_SEND
      else if be32toh cqe.sop_drop_qpn >>> 24 = K.MLX5_OPCODE_RDMA_READ then
        K.IBV_WC_RDMA_READ
      else if be32toh cqe.sop_drop_qpn >>> 24 = K.MLX5_OPCODE_ATOMIC_CS then
        K.IBV_WC_COMP_SWAP
      else if be32toh cqe.sop_drop_qpn >>> 24 = K.MLX5_OPCODE_ATOMIC_FA then
        K.IBV_WC_FETCH_ADD
      else if be32toh cqe.sop_drop_qpn >>> 24 = K.MLX5_OPCODE_UMR ∨
          be32toh cqe.sop_drop_qpn >>> 24 = K.MLX5_OPCODE_SET_PSV ∨
          be32toh cqe.sop_drop_qpn >>> 24 = K.MLX5_OPCODE_NOP ∨
          be32toh cqe.sop_drop_qpn >>> 24 = K.MLX5_OPCODE_MMO then
        cached
      else if be32toh cqe.sop_drop_qpn >>> 24 = K.MLX5_OPCODE_TSO then
        K.IBV_WC_TSO
      else 0) = (handle_good_req K wc cqe wq idx).opcode := by
  have ht := (handle_good_req_table K hK wc cqe wq idx).2.1 hraw
  have h := hK.wqe_opcodes
  simp only [List.nodup_cons, List.mem_cons, List.mem_singleton, List.not_mem_nil, not_or,
    List.nodup_nil, or_false, and_true, not_false_eq_true] at h
  generalize be32toh cqe.sop_drop_qpn >>> 24 = op at *
  rcases hhw with e | e | e | e | e | e | e | e | e | e | e | e | e
  · rw [ht.1 (Or.inr e)]; subst e; simp [h]
  · rw [ht.1 (Or.inl e)]; subst e; simp [h]
  · rw [ht.2.1 (Or.inr (Or.inl e))]; subst e; simp [h]
  · rw [ht.2.1 (Or.inl e)]; subst e; simp [h]
  · rw [ht.2.1 (Or.inr (Or.inr e))]; subst e; simp [h]
  · rw [ht.2.2.1 e]; subst e; simp [h]
  · rw [ht.2.2.2.1 e]; subst e; simp [h]
  · rw [ht.2.2.2.2.1 e]; subst e; simp [h]
  · rw [ht.2.2.2.2.2.2 (Or.inl e)]; subst e; simp [h] at hc ⊢; exact hc
  · rw [ht.2.2.2.2.2.2 (Or.inr (Or.inl e))]; subst e; simp [h] at hc ⊢; exact hc
  · rw [ht.2.2.2.2.2.2 (Or.inr (Or.inr (Or.inl e)))]; subst e; simp [h] at hc ⊢; exact hc
  · rw [ht.2.2.2.2.2.2 (Or.inr (Or.inr (Or.inr e)))]; subst e; simp [h] at hc ⊢; exact hc
  · rw [ht.2.2.2.2.2.1 e]; subst e; simp [h]

/-- Claim C37. For every send-success slot (opcode MLX5_CQE_REQ) whose queue resolves to Q and whose
hardware opcode is one of the thirteen opcodes of the table, and every state of the send queue
of Q: mlx5_parse_cqe returns CQ_OK with lazy = 1 and with lazy = 0; wc.opcode of the immediate
decode is the one handle_good_req produces, and mlx5_cq_read_wc_opcode after the lazy decode
returns the same opcode, which is IBV_WC_DRIVER2 when wr_data of the entry is IBV_WC_DRIVER2 and
otherwise the recorded wr_data for UMR, SET_PSV, NOP and MMO; both decodes report wr_id =
wrid[idx], both leave sq.tail = wqe_head[idx] + 1, and they leave the same queue-pairs. -/
theorem lazy_immediate_agree (K : Hdr) (hK : K.Ok) (hF : K.CqFlagsOk) (E : Ext) (st : PState)
    (pos cqe_ver Q idx : Nat)
    (hop : mlx5dv_get_cqe_opcode (get_cqe st.cq pos).cqe64 = K.MLX5_CQE_REQ)
    (hres : get_req_context st.w st.cur_rsc
      (if cqe_ver ≠ 0 then be32toh (get_cqe st.cq pos).cqe64.srqn_uidx &&& 0xffffff
        else be32toh (get_cqe st.cq pos).cqe64.sop_drop_qpn &&& 0xffffff) cqe_ver = Q)
    (hQ : Q ≠ 0)
    (hidx : idx = be16toh (get_cqe st.cq pos).cqe64.wqe_counter &&& decr32 (st.w.qp Q).sq.wqe_cnt)
    (hhw : be32toh (get_cqe st.cq pos).cqe64.sop_drop_qpn >>> 24 = K.MLX5_OPCODE_RDMA_WRITE_IMM ∨
      be32toh (get_cqe st.cq pos).cqe64.sop_drop_qpn >>> 24 = K.MLX5_OPCODE_RDMA_WRITE ∨
      be32toh (get_cqe st.cq pos).cqe64.sop_drop_qpn >>> 24 = K.MLX5_OPCODE_SEND_IMM ∨
      be32toh (get_cqe st.cq pos).cqe64.sop_drop_qpn >>> 24 = K.MLX5_OPCODE_SEND ∨
      be32toh (get_cqe st.cq pos).cqe64.sop_drop_qpn >>> 24 = K.MLX5_OPCODE_SEND_INVAL ∨
      be32toh (get_cqe st.cq pos).cqe64.sop_drop_qpn >>> 24 = K.MLX5_OPCODE_RDMA_READ ∨
      be32toh (get_cqe st.cq pos).cqe64.sop_drop_qpn >>> 24 = K.MLX5_OPCODE_ATOMIC_CS ∨
      be32toh (get_cqe st.cq pos).cqe64.sop_drop_qpn >>> 24 = K.MLX5_OPCODE_ATOMIC_FA ∨
      be32toh (get_cqe st.cq pos).cqe64.sop_drop_qpn >>> 24 = K.MLX5_OPCODE_UMR ∨
      be32toh (get_cqe st.cq pos).cqe64.sop_drop_qpn >>> 24 = K.MLX5_OPCODE_SET_PSV ∨
      be32toh (get_cqe st.cq pos).cqe64.sop_drop_qpn >>> 24 = K.MLX5_OPCODE_NOP ∨
      be32toh (get_cqe st.cq pos).cqe64.sop_drop_qpn >>> 24 = K.MLX5_OPCODE_MMO ∨
      be32toh (get_cqe st.cq pos).cqe64.sop_drop_qpn >>> 24 = K.MLX5_OPCODE_TSO) :
    ∃ sL sI, mlx5_parse_cqe K E st pos cqe_ver 1 = Res.ret CQ_OK sL ∧
      mlx5_parse_cqe K E st pos cqe_ver 0 = Res.ret CQ_OK sI ∧
      sI.wc.opcode = (handle_good_req K
        { st.wc with wc_flags := 0,
                     qp_num := be32toh (get_cqe st.cq pos).cqe64.sop_drop_qpn &&& 0xffffff }
        (get_cqe st.cq pos).cqe64 (st.w.qp Q).sq idx).opcode ∧
      mlx5_cq_read_wc_opcode K sL.cq = some sI.wc.opcode ∧
      ((st.w.qp Q).sq.wr_data idx = K.IBV_WC_DRIVER2 →
        mlx5_cq_read_wc_opcode K sL.cq = some K.IBV_WC_DRIVER2) ∧
      ((st.w.qp Q).sq.wr_data idx ≠ K.IBV_WC_DRIVER2 →
        (be32toh (get_cqe st.cq pos).cqe64.sop_drop_qpn >>> 24 = K.MLX5_OPCODE_UMR ∨
          be32toh (get_cqe st.cq pos).cqe64.sop_drop_qpn >>> 24 = K.MLX5_OPCODE_SET_PSV ∨
          be32toh (get_cqe st.cq pos).cqe64.sop_drop_qpn >>> 24 = K.MLX5_OPCODE_NOP ∨
          be32toh (get_cqe st.cq pos).cqe64.sop_drop_qpn >>> 24 = K.MLX5_OPCODE_MMO) →
        mlx5_cq_read_wc_opcode K sL.cq = some ((st.w.qp Q).sq.wr_data idx)) ∧
      sL.cq.wr_id = (st.w.qp Q).sq.wrid idx ∧ sI.wc.wr_id = (st.w.qp Q).sq.wrid idx ∧
      (sL.w.qp Q).sq.tail = ((st.w.qp Q).sq.wqe_head idx + 1) % 2 ^ 32 ∧
      (sI.w.qp Q).sq.tail = ((st.w.qp Q).sq.wqe_head idx + 1) % 2 ^ 32 ∧
      sL.w.qp = sI.w.qp := by
  have hres' : get_req_context st.w st.cur_rsc
      (if cqe_ver ≠ 0 then be32toh (get_cqe st.cq pos).cqe64.srqn_uidx &&& 0xffffff
        else be32toh (get_cqe st.cq pos).cqe64.sop_drop_qpn &&& 0xffffff) cqe_ver ≠ 0 := by
    rw [hres]; exact hQ
  -- the immediate pass
  have himm := parse_step_req_imm K E st pos cqe_ver hop hres'
  simp only [hres, ← hidx] at himm
  -- the lazy pass
  have hstep : parse_step K E st pos cqe_ver 1 =
      parse_req K E (parse_init K st pos 1) pos cqe_ver 1 := by
    unfold parse_step
    simp only [hop, if_true]
  have hl := parse_req_lazy_form K E (parse_init K st pos 1) pos cqe_ver
  simp only [parse_init_slot, parse_init_w, parse_init_cur_rsc] at hl
  obtain ⟨sL, hL, hfacts⟩ := hl hres'
  obtain ⟨f1, f2, f3, f4, f5, f6⟩ := hfacts Q idx _ hres.symm hidx rfl
  obtain ⟨i1, i2, i3, i4⟩ := parse_init_lazy_fields K st pos
  rw [i1] at f1
  rw [i3] at f2
  rw [i2] at f4
  rw [i4] at f5
  have hacc := read_wc_opcode_req K hK sL.cq pos f1 (by rw [f2]; exact hop)
  rw [f2, f4, f5] at hacc
  have htab := handle_good_req_table K hK
    { st.wc with wc_flags := 0,
                 qp_num := be32toh (get_cqe st.cq pos).cqe64.sop_drop_qpn &&& 0xffffff }
    (get_cqe st.cq pos).cqe64 (st.w.qp Q).sq idx
  have hLAZY : MLX5_CQ_LAZY_FLAGS K = 1 ||| 64 ||| 128 := by
    unfold MLX5_CQ_LAZY_FLAGS
    rw [hF.csum, hF.sync, hF.raw]
  have hbit := raw_flag_bit st.cq.flags
  have hacc_eq : mlx5_cq_read_wc_opcode K sL.cq = some (handle_good_req K
      { st.wc with wc_flags := 0,
                   qp_num := be32toh (get_cqe st.cq pos).cqe64.sop_drop_qpn &&& 0xffffff }
      (get_cqe st.cq pos).cqe64 (st.w.qp Q).sq idx).opcode := by
    rw [hacc]
    congr 1
    by_cases hraw : (st.w.qp Q).sq.wr_data idx = K.IBV_WC_DRIVER2
    · rw [if_pos hraw, hLAZY, hF.raw, if_pos hbit.1, htab.1 hraw]
    · rw [if_neg hraw, hLAZY, hF.raw, if_neg hbit.2]
      apply read_chain_eq_good_req K hK _ _ _ _ _ hraw _ hhw
      intro hg
      rw [if_pos hg]
  refine ⟨sL, _, mlx5_parse_cqe_of_ret K E _ _ pos cqe_ver 1 CQ_OK (hstep.trans hL),
    mlx5_parse_cqe_of_ret K E _ _ pos cqe_ver 0 CQ_OK himm, rfl, hacc_eq, ?_, ?_, f3, rfl,
    ?_, ?_, ?_⟩
  · intro hraw
    rw [hacc_eq, htab.1 hraw]
  · intro hraw hg
    rw [hacc_eq, (htab.2.1 hraw).2.2.2.2.2.2 hg]
  · rw [f6, upd_same]
  · simp only [sq_set_tail, World.setQp, scatter_send_wqe_qp, upd_same]
  · rw [f6]
    simp only [sq_set_tail, World.setQp, scatter_send_wqe_qp]

/-- Witness for C37: on the raw-WQE send example both decodes return CQ_OK, the accessor after the
lazy decode and wc.opcode of the immediate decode are IBV_WC_DRIVER2, wr_id is 42 and sq.tail is
1 in both. -/
theorem lazy_immediate_agree_witness :
    ∃ sL sI, mlx5_parse_cqe hdr Ext.zero PState.ex_send_raw 0 0 1 = Res.ret CQ_OK sL ∧
      mlx5_parse_cqe hdr Ext.zero PState.ex_send_raw 0 0 0 = Res.ret CQ_OK sI ∧
      mlx5_cq_read_wc_opcode hdr sL.cq = some sI.wc.opcode ∧
      mlx5_cq_read_wc_opcode hdr sL.cq = some hdr.IBV_WC_DRIVER2 ∧
      sL.cq.wr_id = 42 ∧ sI.wc.wr_id = 42 ∧ (sL.w.qp 1).sq.tail = 1 ∧ (sI.w.qp 1).sq.tail = 1 := by
  obtain ⟨sL, sI, h1, h2, _, h4, h5, _, h7, h8, h9, h10, _⟩ :=
    lazy_immediate_agree hdr hdr_ok hdr_cq_flags_ok Ext.zero PState.ex_send_raw 0 0 1 0
      (by decide) (by decide) (by decide) (by decide) (by decide)
  exact ⟨sL, sI, h1, h2, h4, h5 (by decide), h7, h8, h9, h10⟩

/-! ### Error slots and the freeze switch (C36) -/

/-- A pass that returns does not end in the freeze loop. -/
theorem parks_ret (c : Int) (st : PState) : (Step.ret c st).parks = false := rfl

/-- A pass that returns does not end in goto again. -/
theorem repeats_ret (c : Int) (st : PState) : (Step.ret c st).repeats = false := rfl

/-- A pass that ends in the freeze loop does not end in goto again. -/
theorem repeats_freeze (st : PState) : (Step.freeze st).repeats = false := rfl

/-- The refetch of the next slot never ends in the freeze loop. -/
theorem refetch_parks (K : Hdr) (st : PState) : (refetch K st).parks = false := by
  unfold refetch
  split <;> rfl

/-- A pass parks exactly when it is Step.freeze of some state. -/
theorem parks_iff (s : Step) : s.parks = true ↔ ∃ st, s = Step.freeze st := by
  cases s with
  | ret c st => exact ⟨fun h => Bool.noConfusion h, fun ⟨_, h⟩ => Step.noConfusion h⟩
  | freeze st => exact ⟨fun _ => ⟨st, rfl⟩, fun _ => rfl⟩
  | again st p => exact ⟨fun h => Bool.noConfusion h, fun ⟨_, h⟩ => Step.noConfusion h⟩

/-- The error cases of the decode end in the freeze loop exactly when the guard of the log-and-
freeze path holds and the freeze switch is on. -/
theorem parse_err_parks (K : Hdr) (st : PState) (pos cqe_ver lazy : Nat) :
    (parse_err K st pos cqe_ver lazy).parks = true ↔
      (logs_error K (get_cqe st.cq pos).cqe64 ∧ st.w.mlx5_freeze_on_error_cqe ≠ 0) := by
  have hw : ∀ (a : Cq) (b : Wc), (if lazy ≠ 0 then ({ st with cq := a } : PState)
      else { st with wc := b }).w = st.w := by
    intro a b; split <;> rfl
  unfold parse_err logs_error
  simp only [hw]
  by_cases hc : (get_cqe st.cq pos).cqe64.syndrome ≠ K.MLX5_CQE_SYNDROME_WR_FLUSH_ERR ∧
      (get_cqe st.cq pos).cqe64.syndrome ≠ K.MLX5_CQE_SYNDROME_TRANSPORT_RETRY_EXC_ERR ∧
      is_odp_pfault_err K (get_cqe st.cq pos).cqe64 = false ∧
      st.w.mlx5_freeze_on_error_cqe ≠ 0
  · rw [if_pos hc]
    exact ⟨fun _ => ⟨⟨hc.1, hc.2.1, hc.2.2.1⟩, hc.2.2.2⟩, fun _ => rfl⟩
  · rw [if_neg hc]
    constructor
    · intro h
      exfalso
      revert h
      simp only [apply_ite Step.parks, parks_ret, refetch_parks, ite_self, Bool.false_eq_true,
        not_false_eq_true, imp_self]
    · rintro ⟨⟨h1, h2, h3⟩, h4⟩
      exact absurd ⟨h1, h2, h3, h4⟩ hc

/-- The error cases of the decode end in goto again only on a page fault of a slot that is not a
requester error. -/
theorem parse_err_repeats (K : Hdr) (st : PState) (pos cqe_ver lazy : Nat)
    (h : (parse_err K st pos cqe_ver lazy).repeats = true) :
    is_odp_pfault_err K (get_cqe st.cq pos).cqe64 = true ∧
      mlx5dv_get_cqe_opcode (get_cqe st.cq pos).cqe64 ≠ K.MLX5_CQE_REQ_ERR := by
  unfold parse_err at h
  simp only [] at h
  refine ⟨?_, ?_⟩
  · by_contra hc
    have hf : is_odp_pfault_err K (get_cqe st.cq pos).cqe64 = false := by simpa using hc
    simp only [hf, apply_ite Step.repeats, repeats_ret, repeats_freeze, ite_self,
      Bool.false_eq_true, if_false] at h
  · intro hc
    simp only [hc, if_true, apply_ite Step.repeats, repeats_ret, repeats_freeze, ite_self,
      Bool.false_eq_true] at h

/-- A pass that returns hands no slot to a next pass. -/
theorem next_ret (c : Int) (st : PState) : (Step.ret c st).next = none := rfl

/-- A pass that ends in the freeze loop hands no slot to a next pass. -/
theorem next_freeze (st : PState) : (Step.freeze st).next = none := rfl

/-- The slot that the refetch hands to the next pass is the one next_cqe_sw finds. -/
theorem refetch_next (K : Hdr) (st : PState) : (refetch K st).next = next_cqe_sw K st.cq := by
  unfold refetch mlx5_get_next_cqe
  cases next_cqe_sw K st.cq <;> rfl

/-- The error cases of the decode hand to the next pass no slot or the one next_cqe_sw finds. -/
theorem parse_err_next (K : Hdr) (st : PState) (pos cqe_ver lazy : Nat) :
    (parse_err K st pos cqe_ver lazy).next = none ∨
      (parse_err K st pos cqe_ver lazy).next = next_cqe_sw K st.cq := by
  unfold parse_err
  simp only []
  generalize hs1 : (if lazy ≠ 0 then
      ({ st with cq := { st.cq with status := mlx5_handle_error_cqe K (get_cqe st.cq pos).cqe64 } } :
        PState)
    else { st with wc := { st.wc with status := mlx5_handle_error_cqe K (get_cqe st.cq pos).cqe64,
                                      vendor_err := (get_cqe st.cq pos).cqe64.vendor_err_synd } }) = st1
  have hf1 : next_cqe_sw K st1.cq = next_cqe_sw K st.cq := by
    rw [← hs1]; split <;> rfl
  simp only [apply_ite Step.next, next_ret, next_freeze, refetch_next, hf1, ite_self]
  split_ifs <;> simp

/-- When the error cases of the decode end in goto again with the slot p, next_cqe_sw finds p. -/
theorem parse_err_again_pos (K : Hdr) (st s : PState) (pos cqe_ver lazy p : Nat)
    (h : parse_err K st pos cqe_ver lazy = Step.again s p) : next_cqe_sw K st.cq = some p := by
  have hn : (parse_err K st pos cqe_ver lazy).next = some p := by rw [h]; rfl
  rcases parse_err_next K st pos cqe_ver lazy with h1 | h1
  · rw [h1] at hn; exact Option.noConfusion hn
  · rw [← h1]; exact hn

/-- On a ring of 2^k slots with k at most 31 some number r of at most one ring of slots is exactly
the run of software-visible slots from the consumer index. -/
theorem avail_exists (K : Hdr) (cq : Cq) (k : Nat) (hk : cq.cqe = 2 ^ k - 1) (hk31 : k ≤ 31)
    (hci : cq.cons_index < 2 ^ 32) : ∃ r, r ≤ cq.cqe + 1 ∧ Avail K cq r := by
  have hpos : 0 < 2 ^ k := Nat.two_pow_pos k
  have hex : ∃ j, get_sw_cqe K cq ((cq.cons_index + j) % 2 ^ 32) = none ∧ j ≤ cq.cqe + 1 := by
    by_cases h0 : get_sw_cqe K cq cq.cons_index = none
    · exact ⟨0, by rw [Nat.add_zero, Nat.mod_eq_of_lt hci]; exact h0, Nat.zero_le _⟩
    · exact ⟨2 ^ k, (get_sw_cqe_wrap_none K cq k _ hk hk31 h0).2, by omega⟩
  classical
  refine ⟨Nat.find hex, (Nat.find_spec hex).2, hci, ?_, (Nat.find_spec hex).1⟩
  intro j hj hn
  have hle : j ≤ cq.cqe + 1 := le_trans (le_of_lt hj) (Nat.find_spec hex).2
  exact Nat.find_min hex hj ⟨hn, hle⟩

/-- When the pass over a slot ends in goto again, mlx5_parse_cqe continues as mlx5_parse_cqe from
the state and the slot that the pass hands on; the passes that remain suffice. -/
theorem parse_cqe_again (K : Hdr) (E : Ext) (st s : PState) (pos p cqe_ver lazy r : Nat)
    (hstep : parse_step K E st pos cqe_ver lazy = Step.again s p)
    (hav : Avail K st.cq r) (hr : r ≤ st.cq.cqe + 1) :
    mlx5_parse_cqe K E st pos cqe_ver lazy = mlx5_parse_cqe K E s p cqe_ver lazy := by
  have hok := parse_step_ok K E st pos cqe_ver lazy
  rw [hstep] at hok
  obtain ⟨h1, h2, h3, _, hv⟩ := hok
  have hpos : 0 < r := hav.pos_of_visible hv
  have hav1 : Avail K s.cq (r - 1) := hav.step hpos h1 h2 h3
  have hlo := parse_loop_ok K E cqe_ver lazy (st.cq.cqe + 1) (r - 1) s p hav1 (by omega)
  have hne : mlx5_parse_cqe_loop K E cqe_ver lazy (st.cq.cqe + 1) s p ≠ Res.starved := by
    intro h
    rw [h] at hlo
    exact hlo
  have e1 : mlx5_parse_cqe K E st pos cqe_ver lazy =
      mlx5_parse_cqe_loop K E cqe_ver lazy (st.cq.cqe + 1) s p := by
    unfold mlx5_parse_cqe
    rw [show st.cq.cqe + 2 = (st.cq.cqe + 1) + 1 from rfl, mlx5_parse_cqe_loop, hstep]
  have e2 : mlx5_parse_cqe K E s p cqe_ver lazy =
      mlx5_parse_cqe_loop K E cqe_ver lazy ((st.cq.cqe + 1) + 1) s p := by
    unfold mlx5_parse_cqe
    rw [h2]
  rw [e1, e2]
  exact (parse_loop_fuel_succ K E cqe_ver lazy _ _ p hne).symm

/-- On a ring of 2^k slots mlx5_parse_cqe returns, or the freeze switch is on and it ends in the
freeze loop; it does not run out of passes. -/
theorem parse_cqe_ends (K : Hdr) (E : Ext) (st : PState) (pos cqe_ver lazy k : Nat)
    (hk : st.cq.cqe = 2 ^ k - 1) (hk31 : k ≤ 31) (hci : st.cq.cons_index < 2 ^ 32) :
    (∃ c s, mlx5_parse_cqe K E st pos cqe_ver lazy = Res.ret c s) ∨
      (st.w.mlx5_freeze_on_error_cqe ≠ 0 ∧
        ∃ s, mlx5_parse_cqe K E st pos cqe_ver lazy = Res.freeze s) := by
  obtain ⟨r, hr, hav⟩ := avail_exists K st.cq k hk hk31 hci
  have hlo := parse_loop_ok K E cqe_ver lazy (st.cq.cqe + 2) r st pos hav (by omega)
  unfold mlx5_parse_cqe
  cases hres : mlx5_parse_cqe_loop K E cqe_ver lazy (st.cq.cqe + 2) st pos with
  | ret c s => exact Or.inl ⟨c, s, rfl⟩
  | freeze s =>
    rw [hres] at hlo
    exact Or.inr ⟨hlo, s, rfl⟩
  | starved =>
    rw [hres] at hlo
    exact absurd hlo id

/-- Claim C36. For every error slot (opcode MLX5_CQE_REQ_ERR or MLX5_CQE_RESP_ERR) on a ring of 2^k
slots: the pass of mlx5_parse_cqe over the slot ends in the freeze loop if and only if the
syndrome is neither WR_FLUSH_ERR nor TRANSPORT_RETRY_EXC_ERR, the slot is not an ODP page fault
(REMOTE_ABORTED_ERR with vendor syndrome ODP_PFAULT), and the freeze switch is on. With the
switch on, mlx5_parse_cqe parks for every slot that passes this guard; for a slot that does not,
the pass returns and so does mlx5_parse_cqe, or the slot is a responder page fault, which the
pass absorbs: it takes the next software-visible slot, advances the consumer index and
mlx5_parse_cqe goes on as the decode of that slot. For WR_FLUSH_ERR and TRANSPORT_RETRY_EXC_ERR
mlx5_parse_cqe returns, and with the switch off it returns for every syndrome. -/
theorem error_slot_freeze_iff (K : Hdr) (hK : K.Ok) (E : Ext) (st : PState)
    (pos cqe_ver lazy k : Nat)
    (hop : mlx5dv_get_cqe_opcode (get_cqe st.cq pos).cqe64 = K.MLX5_CQE_REQ_ERR ∨
      mlx5dv_get_cqe_opcode (get_cqe st.cq pos).cqe64 = K.MLX5_CQE_RESP_ERR)
    (hk : st.cq.cqe = 2 ^ k - 1) (hk31 : k ≤ 31) (hci : st.cq.cons_index < 2 ^ 32) :
    ((∃ s, parse_step K E st pos cqe_ver lazy = Step.freeze s) ↔
      (logs_error K (get_cqe st.cq pos).cqe64 ∧ st.w.mlx5_freeze_on_error_cqe ≠ 0)) ∧
    (logs_error K (get_cqe st.cq pos).cqe64 ↔
      ((get_cqe st.cq pos).cqe64.syndrome ≠ K.MLX5_CQE_SYNDROME_WR_FLUSH_ERR ∧
        (get_cqe st.cq pos).cqe64.syndrome ≠ K.MLX5_CQE_SYNDROME_TRANSPORT_RETRY_EXC_ERR ∧
        ¬ ((get_cqe st.cq pos).cqe64.syndrome = K.MLX5_CQE_SYNDROME_REMOTE_ABORTED_ERR ∧
          (get_cqe st.cq pos).cqe64.vendor_err_synd =
            K.MLX5_CQE_VENDOR_SYNDROME_ODP_PFAULT))) ∧
    (st.w.mlx5_freeze_on_error_cqe ≠ 0 → logs_error K (get_cqe st.cq pos).cqe64 →
      ∃ s, mlx5_parse_cqe K E st pos cqe_ver lazy = Res.freeze s) ∧
    (¬ logs_error K (get_cqe st.cq pos).cqe64 →
      (∃ c s, parse_step K E st pos cqe_ver lazy = Step.ret c s ∧
        mlx5_parse_cqe K E st pos cqe_ver lazy = Res.ret c s) ∨
      (is_odp_pfault_err K (get_cqe st.cq pos).cqe64 = true ∧
        mlx5dv_get_cqe_opcode (get_cqe st.cq pos).cqe64 = K.MLX5_CQE_RESP_ERR ∧
        ∃ s p, parse_step K E st pos cqe_ver lazy = Step.again s p ∧
          next_cqe_sw K st.cq = some p ∧
          s.cq.cons_index = (st.cq.cons_index + 1) % 2 ^ 32 ∧
          mlx5_parse_cqe K E st pos cqe_ver lazy = mlx5_parse_cqe K E s p cqe_ver lazy)) ∧
    (((get_cqe st.cq pos).cqe64.syndrome = K.MLX5_CQE_SYNDROME_WR_FLUSH_ERR ∨
        (get_cqe st.cq pos).cqe64.syndrome = K.MLX5_CQE_SYNDROME_TRANSPORT_RETRY_EXC_ERR) →
      ∃ c s, mlx5_parse_cqe K E st pos cqe_ver lazy = Res.ret c s) ∧
    (st.w.mlx5_freeze_on_error_cqe = 0 →
      ∃ c s, mlx5_parse_cqe K E st pos cqe_ver lazy = Res.ret c s) := by
  have hs := parse_step_err K hK E st pos cqe_ver lazy hop
  have hpk := parse_err_parks K (parse_init K st pos lazy) pos cqe_ver lazy
  rw [← hs, parks_iff] at hpk
  simp only [parse_init_slot, parse_init_w] at hpk
  have hsy := hK.syndromes
  simp only [List.nodup_cons, List.mem_cons, List.mem_singleton, List.not_mem_nil, not_or,
    List.nodup_nil, or_false, and_true, not_false_eq_true] at hsy
  have hbenign : ¬ logs_error K (get_cqe st.cq pos).cqe64 →
      (∃ c s, parse_step K E st pos cqe_ver lazy = Step.ret c s ∧
        mlx5_parse_cqe K E st pos cqe_ver lazy = Res.ret c s) ∨
      (is_odp_pfault_err K (get_cqe st.cq pos).cqe64 = true ∧
        mlx5dv_get_cqe_opcode (get_cqe st.cq pos).cqe64 = K.MLX5_CQE_RESP_ERR ∧
        ∃ s p, parse_step K E st pos cqe_ver lazy = Step.again s p ∧
          next_cqe_sw K st.cq = some p ∧
          s.cq.cons_index = (st.cq.cons_index + 1) % 2 ^ 32 ∧
          mlx5_parse_cqe K E st pos cqe_ver lazy = mlx5_parse_cqe K E s p cqe_ver lazy) := by
    intro hb
    cases hstep : parse_step K E st pos cqe_ver lazy with
    | ret c s => exact Or.inl ⟨c, s, rfl, mlx5_parse_cqe_of_ret K E st s pos cqe_ver lazy c hstep⟩
    | freeze s => exact absurd (hpk.1 ⟨s, hstep⟩).1 hb
    | again s p =>
      right
      have hrep : (parse_err K (parse_init K st pos lazy) pos cqe_ver lazy).repeats = true := by
        rw [← hs, hstep]; rfl
      have h2 := parse_err_repeats K (parse_init K st pos lazy) pos cqe_ver lazy hrep
      simp only [parse_init_slot] at h2
      obtain ⟨r, hr, hav⟩ := avail_exists K st.cq k hk hk31 hci
      have hok := parse_step_ok K E st pos cqe_ver lazy
      rw [hstep] at hok
      have hnext : next_cqe_sw K st.cq = some p := by
        have hre : parse_err K (parse_init K st pos lazy) pos cqe_ver lazy = Step.again s p := by
          rw [← hs]; exact hstep
        rw [← next_cqe_sw_frame K st.cq _ (parse_init_frame K st pos lazy).1]
        exact parse_err_again_pos K (parse_init K st pos lazy) s pos cqe_ver lazy p hre
      refine ⟨h2.1, ?_, s, p, rfl, hnext, hok.2.2.1,
        parse_cqe_again K E st s pos p cqe_ver lazy r hstep hav hr⟩
      rcases hop with h | h
      · exact absurd h h2.2
      · exact h
  refine ⟨hpk, ?_, ?_, hbenign, ?_, ?_⟩
  · unfold logs_error is_odp_pfault_err
    simp only [decide_eq_false_iff_not]
  · intro hsw hlog
    obtain ⟨s, hstep⟩ := hpk.2 ⟨hlog, hsw⟩
    refine ⟨s, ?_⟩
    unfold mlx5_parse_cqe
    rw [show st.cq.cqe + 2 = (st.cq.cqe + 1) + 1 from rfl, mlx5_parse_cqe_loop, hstep]
  · intro hsyn
    have hb : ¬ logs_error K (get_cqe st.cq pos).cqe64 := by
      rintro ⟨h1, h2, _⟩
      rcases hsyn with h | h
      · exact h1 h
      · exact h2 h
    rcases hbenign hb with ⟨c, s, _, h⟩ | ⟨hodp, _, _⟩
    · exact ⟨c, s, h⟩
    · exfalso
      unfold is_odp_pfault_err at hodp
      simp only [decide_eq_true_eq] at hodp
      rcases hsyn with h | h
      · rw [hodp.1] at h; simp [h] at hsy
      · rw [hodp.1] at h; simp [h] at hsy
  · intro hsw
    rcases parse_cqe_ends K E st pos cqe_ver lazy k hk hk31 hci with h | ⟨h, _⟩
    · exact h
    · exact absurd hsw h

/-- Witness for C36: with the freeze switch on, the decode of the requester error with syndrome
LOCAL_LENGTH_ERR parks; the decode of the responder error with syndrome WR_FLUSH_ERR returns. -/
theorem error_slot_freeze_iff_witness :
    (∃ s, mlx5_parse_cqe hdr Ext.zero PState.ex_freeze 0 0 0 = Res.freeze s) ∧
      ∃ c s, mlx5_parse_cqe hdr Ext.zero PState.ex_resp_err 0 0 0 = Res.ret c s :=
  ⟨(error_slot_freeze_iff hdr hdr_ok Ext.zero PState.ex_freeze 0 0 0 2 (Or.inl (by decide))
      (by decide) (by decide) (by decide)).2.2.1 (by decide)
      ⟨by decide, by decide, by decide⟩,
    (error_slot_freeze_iff hdr hdr_ok Ext.zero PState.ex_resp_err 0 0 0 2 (Or.inr (by decide))
      (by decide) (by decide) (by decide)).2.2.2.2.1 (Or.inl (by decide))⟩

/-! ### Lock on the start of a poll (C39) -/

/-- Claim C39, failing input: lock = 1, clock_update = 1, comp_mask = 0, a ring whose first slot is
a good send completion, and mlx5dv_get_clock_info failing with EINVAL. mlx5_start_poll returns
22 and the lock is held on return, with cons_index advanced to 1. For comparison, on the same
ring with a working clock info it returns 0 with the lock held; on an empty ring it returns
ENOENT (2) with the lock released; on a slot whose queue does not resolve it returns CQ_POLL_ERR
with the lock released; and with comp_mask = 1 it returns EINVAL with the lock never taken and
cons_index untouched. -/
theorem start_poll_lock_leak :
    (get_sw_cqe hdr Cq.ex_send 0 = some 0 ∧
      (mlx5_start_poll hdr Ext.ex_clock_fail Cq.ex_send World.ex_send Wc.zero 0 1 0 0 1).code =
        some 22 ∧
      (mlx5_start_poll hdr Ext.ex_clock_fail Cq.ex_send World.ex_send Wc.zero 0 1 0 0 1).state.map
        (fun s => (s.cq.lock, s.cq.cons_index)) = some (true, 1)) ∧
    ((mlx5_start_poll hdr Ext.zero Cq.ex_send World.ex_send Wc.zero 0 1 0 0 1).code = some 0 ∧
      (mlx5_start_poll hdr Ext.zero Cq.ex_send World.ex_send Wc.zero 0 1 0 0 1).state.map
        (fun s => s.cq.lock) = some true) ∧
    ((mlx5_start_poll hdr Ext.ex_clock_fail Cq.fresh4 World.ex_send Wc.zero 0 1 0 0 1).code =
        some 2 ∧
      (mlx5_start_poll hdr Ext.ex_clock_fail Cq.fresh4 World.ex_send Wc.zero 0 1 0 0 1).state.map
        (fun s => s.cq.lock) = some false) ∧
    ((mlx5_start_poll hdr Ext.ex_clock_fail Cq.ex_send World.zero Wc.zero 0 1 0 0 1).code =
        some CQ_POLL_ERR ∧
      (mlx5_start_poll hdr Ext.ex_clock_fail Cq.ex_send World.zero Wc.zero 0 1 0 0 1).state.map
        (fun s => s.cq.lock) = some false) ∧
    ((mlx5_start_poll hdr Ext.ex_clock_fail Cq.ex_send World.ex_send Wc.zero 1 1 0 0 1).code =
        some 22 ∧
      (mlx5_start_poll hdr Ext.ex_clock_fail Cq.ex_send World.ex_send Wc.zero 1 1 0 0 1).state.map
        (fun s => (s.cq.lock, s.cq.cons_index)) = some (false, 0)) := by
  decide

/-! ### Resize copy: termination and owner bit (C32, C33) -/

/-- Masking with 2^k - 1 is reduction modulo 2^k. -/
theorem mask_mod (x k : Nat) : x &&& (2 ^ k - 1) = x % 2 ^ k :=
  Nat.and_pow_two_sub_one_eq_mod x k

/-- Reduction to 32 bits does not change the value modulo 2^k for k at most 32. -/
theorem mod32_mod (x k : Nat) (hk : k ≤ 32) : x % 2 ^ 32 % 2 ^ k = x % 2 ^ k :=
  Nat.mod_mod_of_dvd _ (Nat.pow_dvd_pow 2 hk)

/-- Stepping the 32-bit index once and then t times is stepping it t + 1 times. -/
theorem succ_mod32 (i t : Nat) : ((i + 1) % 2 ^ 32 + t) % 2 ^ 32 = (i + (t + 1)) % 2 ^ 32 := by
  omega

/-- The copy loop of mlx5_cq_resize_copy_cqes ends within d passes when the index d steps ahead
names the starting slot. -/
theorem resize_loop_terminates (K : Hdr) (L : Layout) (cq : Cq) (start : Nat) :
    ∀ (d fuel i : Nat) (rb : Nat → Slot), 1 ≤ d → d ≤ fuel →
      ((i + d) % 2 ^ 32) &&& cq.active_cqes = start →
      ∃ e, resize_copy_loop K L cq start fuel i rb = some e := by
  intro d
  induction d with
  | zero => intro fuel i rb h; omega
  | succ d ih =>
    intro fuel i rb _ hf hs
    cases fuel with
    | zero => omega
    | succ f =>
      rw [resize_copy_loop]
      simp only []
      split_ifs with h1 h2 h3
      · exact ⟨_, rfl⟩
      · exact ⟨_, rfl⟩
      · exact ⟨_, rfl⟩
      · by_cases hd : d = 0
        · subst hd
          exact absurd hs h3
        · apply ih f _ _ (by omega) (by omega)
          rw [succ_mod32]
          exact hs

/-- One pass of the copy loop of mlx5_cq_resize_copy_cqes: done at the marker; else the slot is
copied, and the loop is abandoned when the next slot is hardware-owned or is the starting slot,
and goes on with the next index otherwise. -/
theorem resize_loop_step (K : Hdr) (L : Layout) (cq : Cq) (start fuel i : Nat)
    (rb : Nat → Slot) :
    resize_copy_loop K L cq start (fuel + 1) i rb =
      if (get_buf_cqe cq.active_buf (i &&& cq.active_cqes)).cqe64.op_own >>> 4 =
          K.MLX5_CQE_RESIZE_CQ then some (ResizeEnd.done rb)
      else if is_hw K (get_buf_cqe cq.active_buf
          (((i + 1) % 2 ^ 32) &&& cq.active_cqes)).cqe64.op_own ((i + 1) % 2 ^ 32)
          cq.active_cqes ≠ 0 then
        some (ResizeEnd.failed (resize_copy_slot K L cq i rb))
      else if ((i + 1) % 2 ^ 32) &&& cq.active_cqes = start then
        some (ResizeEnd.failed (resize_copy_slot K L cq i rb))
      else resize_copy_loop K L cq start fuel ((i + 1) % 2 ^ 32) (resize_copy_slot K L cq i rb) := by
  rw [resize_copy_loop]
  rfl

/-- The 32-bit value 2^r - 1. -/
theorem decr32_pow (r : Nat) (hr : r ≤ 32) : decr32 (2 ^ r) = 2 ^ r - 1 := by
  have h1 : 2 ^ r ≤ 2 ^ 32 := Nat.pow_le_pow_right (by norm_num) hr
  have h2 : 0 < 2 ^ r := Nat.two_pow_pos r
  unfold decr32
  omega

/-- The owner bit of a byte whose bit 0 was cleared and then set to o is o. -/
theorem own_bit (x o : Nat) (ho : o < 2) : (((x &&& not32 1) ||| o) % 256) &&& 1 = o := by
  have h : ∀ y : Nat, y &&& 1 = if y.testBit 0 = true then 1 else 0 := by
    intro y
    rw [Nat.and_one_is_mod, Nat.testBit_zero]
    split_ifs with h <;> simp at h <;> omega
  have h8 : (256 : Nat) = 2 ^ 8 := rfl
  rw [h, h8, Nat.testBit_mod_two_pow, Nat.testBit_or, Nat.testBit_and, testBit_not32]
  interval_cases o <;> simp

/-- The value sw_ownership_bit is 0 or 1. -/
theorem sw_bit_lt (n nent : Nat) : sw_ownership_bit n nent < 2 := by
  unfold sw_ownership_bit
  split <;> omega

/-- The copy of one slot writes the destination slot and at most the slot after it. -/
theorem resize_memcpy_frame (L : Layout) (ss ds : Nat) (rb : Nat → Slot) (d : Nat) (src : Slot)
    (p : Nat) (h1 : p ≠ d) (h2 : p ≠ d + 1) : resize_memcpy L ss ds rb d src p = rb p := by
  unfold resize_memcpy
  split_ifs <;> simp [upd, h1, h2]

/-- Between slots of one size the copy puts the source record in the destination record. -/
theorem resize_memcpy_record (L : Layout) (ss : Nat) (rb : Nat → Slot) (d : Nat) (src : Slot) :
    (resize_memcpy L ss ss rb d src d).cqe64 = src.cqe64 := by
  unfold resize_memcpy
  split_ifs <;> simp [upd]

/-- One copy of the loop changes the destination slot and at most the slot after it. -/
theorem resize_copy_slot_frame (K : Hdr) (L : Layout) (cq : Cq) (i : Nat) (rb : Nat → Slot)
    (p : Nat) (h1 : p ≠ ((i + 1) % 2 ^ 32) &&& decr32 cq.resize_cqes)
    (h2 : p ≠ (((i + 1) % 2 ^ 32) &&& decr32 cq.resize_cqes) + 1) :
    resize_copy_slot K L cq i rb p = rb p := by
  unfold resize_copy_slot
  simp only []
  rw [upd_other _ _ _ _ h1]
  exact resize_memcpy_frame L _ _ rb _ _ p h1 h2

/-- After one copy of the loop the owner bit of the destination record is sw_ownership_bit of the
destination index and the size of the new ring. -/
theorem resize_copy_slot_owner (K : Hdr) (hK : K.Ok) (L : Layout) (cq : Cq) (i : Nat)
    (rb : Nat → Slot) :
    (resize_copy_slot K L cq i rb
        (((i + 1) % 2 ^ 32) &&& decr32 cq.resize_cqes)).cqe64.op_own &&&
      K.MLX5_CQE_OWNER_MASK = sw_ownership_bit ((i + 1) % 2 ^ 32) cq.resize_cqes := by
  unfold resize_copy_slot
  simp only []
  rw [upd_same, hK.owner_mask]
  exact own_bit _ _ (sw_bit_lt _ _)

/-- Between slots of one size, after one copy of the loop the destination record is the source
record with the owner bit rewritten. -/
theorem resize_copy_slot_record (K : Hdr) (L : Layout) (cq : Cq) (i : Nat)
    (rb : Nat → Slot) (hsz : cq.cqe_sz = cq.resize_cqe_sz) :
    (resize_copy_slot K L cq i rb (((i + 1) % 2 ^ 32) &&& decr32 cq.resize_cqes)).cqe64 =
      { (get_buf_cqe cq.active_buf (i &&& cq.active_cqes)).cqe64 with
        op_own := (((get_buf_cqe cq.active_buf (i &&& cq.active_cqes)).cqe64.op_own &&&
          not32 K.MLX5_CQE_OWNER_MASK) |||
            sw_ownership_bit ((i + 1) % 2 ^ 32) cq.resize_cqes) % 256 } := by
  unfold resize_copy_slot
  simp only []
  rw [upd_same, ← hsz, resize_memcpy_record]

/-- Two indices less than 2^r apart name different ring positions. -/
theorem mod_pow_ne (r a b : Nat) (hab : a < b) (hlt : b < a + 2 ^ r) :
    a % 2 ^ r ≠ b % 2 ^ r := by
  intro h
  have hd : 2 ^ r ∣ b - a := (Nat.modEq_iff_dvd' (le_of_lt hab)).1 h
  have := Nat.le_of_dvd (by omega) hd
  omega

/-- An index a and the position after that of b differ when b + 1 is less than 2^r ahead of a. -/
theorem mod_pow_ne_succ (r a b : Nat) (hab : a < b) (hlt : b + 1 < a + 2 ^ r) :
    a % 2 ^ r ≠ b % 2 ^ r + 1 := by
  intro h
  have hpos : 0 < 2 ^ r := Nat.two_pow_pos r
  have h1 : a % 2 ^ r < 2 ^ r := Nat.mod_lt _ hpos
  have h2 : (b + 1) % 2 ^ r = b % 2 ^ r + 1 := by
    rw [Nat.add_mod, Nat.mod_eq_of_lt (a := b % 2 ^ r + 1 % 2 ^ r)]
    · by_cases hr : r = 0
      · subst hr; omega
      · have : 1 < 2 ^ r := Nat.one_lt_two_pow hr
        rw [Nat.mod_eq_of_lt this]
    · by_cases hr : r = 0
      · subst hr; omega
      · have : 1 < 2 ^ r := Nat.one_lt_two_pow hr
        rw [Nat.mod_eq_of_lt this]
        omega
  exact mod_pow_ne r a (b + 1) (by omega) hlt (h.trans h2.symm)

/-- The destination position of index j in a new ring of 2^r slots is j mod 2^r. -/
theorem dpos_eq (cq : Cq) (r j : Nat) (hr : cq.resize_cqes = 2 ^ r) (hr32 : r ≤ 32) :
    (j % 2 ^ 32) &&& decr32 cq.resize_cqes = j % 2 ^ r := by
  rw [hr, decr32_pow r hr32, mask_mod, mod32_mod j r hr32]

/-- When the marker lies m slots ahead, with software-owned slots up to it, none of them the
starting slot, and m less than the size of the new ring, the copy loop ends at the marker; the
new buffer is changed only at the destination slots, each of which has the owner bit of its
index and, between slots of one size, the record of its source with that owner bit. -/
theorem resize_loop_done (K : Hdr) (hK : K.Ok) (L : Layout) (cq : Cq) (start r : Nat)
    (hr : cq.resize_cqes = 2 ^ r) (hr32 : r ≤ 32) :
    ∀ (m fuel i : Nat) (rb : Nat → Slot), i < 2 ^ 32 → m < fuel → m < 2 ^ r →
      (∀ t, t < m → (get_buf_cqe cq.active_buf
        (((i + t) % 2 ^ 32) &&& cq.active_cqes)).cqe64.op_own >>> 4 ≠ K.MLX5_CQE_RESIZE_CQ) →
      (get_buf_cqe cq.active_buf
        (((i + m) % 2 ^ 32) &&& cq.active_cqes)).cqe64.op_own >>> 4 = K.MLX5_CQE_RESIZE_CQ →
      (∀ t, 1 ≤ t → t ≤ m → is_hw K (get_buf_cqe cq.active_buf
        (((i + t) % 2 ^ 32) &&& cq.active_cqes)).cqe64.op_own ((i + t) % 2 ^ 32)
          cq.active_cqes = 0) →
      (∀ t, 1 ≤ t → t ≤ m → ((i + t) % 2 ^ 32) &&& cq.active_cqes ≠ start) →
      ∃ rb1, resize_copy_loop K L cq start fuel i rb = some (ResizeEnd.done rb1) ∧
        (∀ p, (∀ t, 1 ≤ t → t ≤ m → p ≠ (i + t) % 2 ^ r ∧ p ≠ (i + t) % 2 ^ r + 1) →
          rb1 p = rb p) ∧
        ∀ s, s < m →
          (rb1 ((i + (s + 1)) % 2 ^ r)).cqe64.op_own &&& K.MLX5_CQE_OWNER_MASK =
            sw_ownership_bit ((i + (s + 1)) % 2 ^ 32) cq.resize_cqes ∧
          (cq.cqe_sz = cq.resize_cqe_sz →
            (rb1 ((i + (s + 1)) % 2 ^ r)).cqe64 =
              { (get_buf_cqe cq.active_buf (((i + s) % 2 ^ 32) &&& cq.active_cqes)).cqe64 with
                op_own :=
                  (((get_buf_cqe cq.active_buf
                      (((i + s) % 2 ^ 32) &&& cq.active_cqes)).cqe64.op_own &&&
                    not32 K.MLX5_CQE_OWNER_MASK) |||
                    sw_ownership_bit ((i + (s + 1)) % 2 ^ 32) cq.resize_cqes) % 256 }) := by
  intro m
  induction m with
  | zero =>
    intro fuel i rb hi hf _ _ hm _ _
    cases fuel with
    | zero => omega
    | succ f =>
      rw [Nat.add_zero, Nat.mod_eq_of_lt hi] at hm
      rw [resize_loop_step, if_pos hm]
      exact ⟨rb, rfl, fun _ _ => rfl, fun s hs => absurd hs (Nat.not_lt_zero s)⟩
  | succ m ih =>
    intro fuel i rb hi hf hmr hno hm hsw hst
    cases fuel with
    | zero => omega
    | succ f =>
      have h0 := hno 0 (by omega)
      rw [Nat.add_zero, Nat.mod_eq_of_lt hi] at h0
      have h1 := hsw 1 (le_refl 1) (by omega)
      have h2 := hst 1 (le_refl 1) (by omega)
      rw [resize_loop_step, if_neg h0, if_neg (by rw [h1]; exact fun h => h rfl), if_neg h2]
      have hi1 : (i + 1) % 2 ^ 32 < 2 ^ 32 := Nat.mod_lt _ (Nat.two_pow_pos 32)
      obtain ⟨rb1, hloop, hframe, hcopy⟩ := ih f ((i + 1) % 2 ^ 32)
        (resize_copy_slot K L cq i rb) hi1 (by omega) (by omega)
        (fun t ht => by rw [succ_mod32]; exact hno (t + 1) (by omega))
        (by rw [succ_mod32]; exact hm)
        (fun t ht1 ht2 => by rw [succ_mod32]; exact hsw (t + 1) (by omega) (by omega))
        (fun t ht1 ht2 => by rw [succ_mod32]; exact hst (t + 1) (by omega) (by omega))
      have hsh : ∀ t, ((i + 1) % 2 ^ 32 + t) % 2 ^ r = (i + (t + 1)) % 2 ^ r := by
        intro t
        rw [← mod32_mod _ r hr32, succ_mod32, mod32_mod _ r hr32]
      have hd : ((i + 1) % 2 ^ 32) &&& decr32 cq.resize_cqes = (i + 1) % 2 ^ r := by
        have := dpos_eq cq r ((i + 1) % 2 ^ 32) hr hr32
        rw [Nat.mod_mod] at this
        rw [this, mod32_mod _ r hr32]
      refine ⟨rb1, hloop, ?_, ?_⟩
      · intro p hp
        rw [hframe p (fun t ht1 ht2 => by
          rw [hsh]; exact hp (t + 1) (by omega) (by omega))]
        apply resize_copy_slot_frame
        · rw [hd]; exact (hp 1 (le_refl 1) (by omega)).1
        · rw [hd]; exact (hp 1 (le_refl 1) (by omega)).2
      · intro s hs
        cases s with
        | zero =>
          have hfr : rb1 ((i + (0 + 1)) % 2 ^ r) =
              resize_copy_slot K L cq i rb ((i + 1) % 2 ^ r) := by
            rw [Nat.zero_add]
            apply hframe
            intro t ht1 ht2
            rw [hsh]
            exact ⟨mod_pow_ne r (i + 1) (i + (t + 1)) (by omega) (by omega),
              mod_pow_ne_succ r (i + 1) (i + (t + 1)) (by omega) (by omega)⟩
          have e0 : (i + 0) % 2 ^ 32 = i := by rw [Nat.add_zero, Nat.mod_eq_of_lt hi]
          simp only [Nat.zero_add, e0] at hfr ⊢
          rw [hfr, ← hd]
          exact ⟨resize_copy_slot_owner K hK L cq i rb,
            fun hsz => resize_copy_slot_record K L cq i rb hsz⟩
        | succ s =>
          have := hcopy s (by omega)
          rw [hsh, succ_mod32, succ_mod32] at this
          exact this

/-- When the marker lies m slots ahead, with software-owned slots up to it and none of them the
starting slot, the copy loop ends at the marker. -/
theorem resize_loop_done_of_marker (K : Hdr) (L : Layout) (cq : Cq) (start : Nat) :
    ∀ (m fuel i : Nat) (rb : Nat → Slot), i < 2 ^ 32 → m < fuel →
      (∀ t, t < m → (get_buf_cqe cq.active_buf
        (((i + t) % 2 ^ 32) &&& cq.active_cqes)).cqe64.op_own >>> 4 ≠ K.MLX5_CQE_RESIZE_CQ) →
      (get_buf_cqe cq.active_buf
        (((i + m) % 2 ^ 32) &&& cq.active_cqes)).cqe64.op_own >>> 4 = K.MLX5_CQE_RESIZE_CQ →
      (∀ t, 1 ≤ t → t ≤ m → is_hw K (get_buf_cqe cq.active_buf
        (((i + t) % 2 ^ 32) &&& cq.active_cqes)).cqe64.op_own ((i + t) % 2 ^ 32)
          cq.active_cqes = 0) →
      (∀ t, 1 ≤ t → t ≤ m → ((i + t) % 2 ^ 32) &&& cq.active_cqes ≠ start) →
      ∃ rb1, resize_copy_loop K L cq start fuel i rb = some (ResizeEnd.done rb1) := by
  intro m
  induction m with
  | zero =>
    intro fuel i rb hi hf _ hm _ _
    cases fuel with
    | zero => omega
    | succ f =>
      rw [Nat.add_zero, Nat.mod_eq_of_lt hi] at hm
      rw [resize_loop_step, if_pos hm]
      exact ⟨rb, rfl⟩
  | succ m ih =>
    intro fuel i rb hi hf hno hm hsw hst
    cases fuel with
    | zero => omega
    | succ f =>
      have h0 := hno 0 (by omega)
      rw [Nat.add_zero, Nat.mod_eq_of_lt hi] at h0
      have h1 := hsw 1 (le_refl 1) (by omega)
      have h2 := hst 1 (le_refl 1) (by omega)
      rw [resize_loop_step, if_neg h0, if_neg (by rw [h1]; exact fun h => h rfl), if_neg h2]
      exact ih f ((i + 1) % 2 ^ 32) _ (Nat.mod_lt _ (Nat.two_pow_pos 32)) (by omega)
        (fun t ht => by rw [succ_mod32]; exact hno (t + 1) (by omega))
        (by rw [succ_mod32]; exact hm)
        (fun t ht1 ht2 => by rw [succ_mod32]; exact hsw (t + 1) (by omega) (by omega))
        (fun t ht1 ht2 => by rw [succ_mod32]; exact hst (t + 1) (by omega) (by omega))

/-- When the copy loop ends at the marker, the marker lies some m slots ahead with software-owned
slots up to it, none of them the starting slot. -/
theorem resize_loop_done_inv (K : Hdr) (L : Layout) (cq : Cq) (start : Nat) :
    ∀ (fuel i : Nat) (rb rb1 : Nat → Slot), i < 2 ^ 32 →
      resize_copy_loop K L cq start fuel i rb = some (ResizeEnd.done rb1) →
      ∃ m, m < fuel ∧
        (∀ t, t < m → (get_buf_cqe cq.active_buf
          (((i + t) % 2 ^ 32) &&& cq.active_cqes)).cqe64.op_own >>> 4 ≠ K.MLX5_CQE_RESIZE_CQ) ∧
        (get_buf_cqe cq.active_buf
          (((i + m) % 2 ^ 32) &&& cq.active_cqes)).cqe64.op_own >>> 4 = K.MLX5_CQE_RESIZE_CQ ∧
        (∀ t, 1 ≤ t → t ≤ m → is_hw K (get_buf_cqe cq.active_buf
          (((i + t) % 2 ^ 32) &&& cq.active_cqes)).cqe64.op_own ((i + t) % 2 ^ 32)
            cq.active_cqes = 0) ∧
        (∀ t, 1 ≤ t → t ≤ m → ((i + t) % 2 ^ 32) &&& cq.active_cqes ≠ start) := by
  intro fuel
  induction fuel with
  | zero =>
    intro i rb rb1 _ h
    rw [resize_copy_loop] at h
    exact Option.noConfusion h
  | succ f ih =>
    intro i rb rb1 hi h
    have e0 : (i + 0) % 2 ^ 32 = i := by rw [Nat.add_zero, Nat.mod_eq_of_lt hi]
    rw [resize_loop_step] at h
    split_ifs at h with h1 h2 h3
    · exact ⟨0, by omega, fun t ht => absurd ht (Nat.not_lt_zero t), by rw [e0]; exact h1,
        fun t ht1 ht2 => by omega, fun t ht1 ht2 => by omega⟩
    · injection h with h; exact ResizeEnd.noConfusion h
    · injection h with h; exact ResizeEnd.noConfusion h
    · obtain ⟨m, hm, a1, a2, a3, a4⟩ := ih ((i + 1) % 2 ^ 32) _ rb1
        (Nat.mod_lt _ (Nat.two_pow_pos 32)) h
      have hsw1 : is_hw K (get_buf_cqe cq.active_buf
          (((i + 1) % 2 ^ 32) &&& cq.active_cqes)).cqe64.op_own ((i + 1) % 2 ^ 32)
          cq.active_cqes = 0 := by
        by_contra hc
        exact h2 hc
      refine ⟨m + 1, by omega, ?_, ?_, ?_, ?_⟩
      · intro t ht
        cases t with
        | zero => rw [e0]; exact h1
        | succ t => have := a1 t (by omega); rwa [succ_mod32] at this
      · rw [succ_mod32] at a2; exact a2
      · intro t ht1 ht2
        by_cases ht : t = 1
        · subst ht; exact hsw1
        · have := a3 (t - 1) (by omega) (by omega)
          rw [succ_mod32, show t - 1 + 1 = t by omega] at this
          exact this
      · intro t ht1 ht2
        by_cases ht : t = 1
        · subst ht; exact h3
        · have := a4 (t - 1) (by omega) (by omega)
          rw [succ_mod32, show t - 1 + 1 = t by omega] at this
          exact this

/-- One full ring after the consumer index the traversal is back at its starting slot. -/
theorem resize_start_back (cq : Cq) (k : Nat) (hk : cq.active_cqes = 2 ^ k - 1)
    (hk32 : k ≤ 32) :
    ((cq.cons_index + (cq.active_cqes + 1)) % 2 ^ 32) &&& cq.active_cqes =
      cq.cons_index &&& cq.active_cqes := by
  have hpos : 0 < 2 ^ k := Nat.two_pow_pos k
  rw [hk, mask_mod, mask_mod, mod32_mod _ k hk32, show 2 ^ k - 1 + 1 = 2 ^ k by omega,
    Nat.add_mod_right]

/-- Less than one full ring after the consumer index the traversal is not at its starting slot. -/
theorem resize_start_away (cq : Cq) (k t : Nat) (hk : cq.active_cqes = 2 ^ k - 1)
    (hk32 : k ≤ 32) (ht1 : 1 ≤ t) (ht2 : t ≤ cq.active_cqes) :
    ((cq.cons_index + t) % 2 ^ 32) &&& cq.active_cqes ≠ cq.cons_index &&& cq.active_cqes := by
  have hpos : 0 < 2 ^ k := Nat.two_pow_pos k
  rw [hk, mask_mod, mask_mod, mod32_mod _ k hk32]
  exact (mod_pow_ne k cq.cons_index (cq.cons_index + t) (by omega) (by omega)).symm

/-- When the copy loop started at the consumer index ends at the marker, the marker is found in the
sense of MarkerAt. -/
theorem marker_of_done (K : Hdr) (L : Layout) (cq : Cq) (k : Nat)
    (hk : cq.active_cqes = 2 ^ k - 1) (hk32 : k ≤ 32) (hci : cq.cons_index < 2 ^ 32)
    (fuel : Nat) (rb rb1 : Nat → Slot)
    (h0 : is_hw K (get_buf_cqe cq.active_buf (cq.cons_index &&& cq.active_cqes)).cqe64.op_own
      cq.cons_index cq.active_cqes = 0)
    (h : resize_copy_loop K L cq (cq.cons_index &&& cq.active_cqes) fuel cq.cons_index rb =
      some (ResizeEnd.done rb1)) : ∃ m, MarkerAt K cq m := by
  obtain ⟨m, _, a1, a2, a3, a4⟩ := resize_loop_done_inv K L cq _ fuel _ rb rb1 hci h
  have e0 : (cq.cons_index + 0) % 2 ^ 32 = cq.cons_index := by
    rw [Nat.add_zero, Nat.mod_eq_of_lt hci]
  have hm : m ≤ cq.active_cqes := by
    by_contra hc
    exact a4 (cq.active_cqes + 1) (by omega) (by omega) (resize_start_back cq k hk hk32)
  refine ⟨m, hm, ?_, a1, a2⟩
  intro t ht
  cases t with
  | zero =>
    show is_hw K (get_buf_cqe cq.active_buf
      (((cq.cons_index + 0) % 2 ^ 32) &&& cq.active_cqes)).cqe64.op_own
      ((cq.cons_index + 0) % 2 ^ 32) cq.active_cqes = 0
    rw [e0]; exact h0
  | succ t => exact a3 (t + 1) (by omega) ht

/-- Claim C33. For every content of the old ring of 2^k slots: the copy loop of
mlx5_cq_resize_copy_cqes ends within the active_cqes + 1 passes of one full ring, and the
function returns. When the resize marker is found among the software-owned slots starting at
cons_index, cons_index is increased by 1 (in 32-bit arithmetic); when it is not found (a
hardware-owned slot is met or the traversal returns to its starting slot) the function returns
with every field other than the new buffer unchanged, cons_index among them; when the slot at
cons_index is hardware-owned the queue is returned as it was. -/
theorem resize_copy_terminates (K : Hdr) (L : Layout) (cq : Cq) (k : Nat)
    (hk : cq.active_cqes = 2 ^ k - 1) (hk32 : k ≤ 32) (hci : cq.cons_index < 2 ^ 32) :
    (∀ rb, ∃ e, resize_copy_loop K L cq (cq.cons_index &&& cq.active_cqes)
      (cq.active_cqes + 1) cq.cons_index rb = some e) ∧
    (∃ cq1, mlx5_cq_resize_copy_cqes K L cq = some cq1) ∧
    ((∃ m, MarkerAt K cq m) →
      ∃ rb, mlx5_cq_resize_copy_cqes K L cq =
        some { cq with resize_buf := rb, cons_index := (cq.cons_index + 1) % 2 ^ 32 }) ∧
    ((¬ ∃ m, MarkerAt K cq m) →
      ∃ rb, mlx5_cq_resize_copy_cqes K L cq = some { cq with resize_buf := rb }) ∧
    (is_hw K (get_buf_cqe cq.active_buf (cq.cons_index &&& cq.active_cqes)).cqe64.op_own
        cq.cons_index cq.active_cqes ≠ 0 →
      mlx5_cq_resize_copy_cqes K L cq = some cq) := by
  have hterm : ∀ fuel rb, cq.active_cqes + 1 ≤ fuel →
      ∃ e, resize_copy_loop K L cq (cq.cons_index &&& cq.active_cqes) fuel cq.cons_index rb =
        some e :=
    fun fuel rb hf => resize_loop_terminates K L cq _ (cq.active_cqes + 1) fuel _ rb (by omega)
      hf (resize_start_back cq k hk hk32)
  have e0 : (cq.cons_index + 0) % 2 ^ 32 = cq.cons_index := by
    rw [Nat.add_zero, Nat.mod_eq_of_lt hci]
  have hmark : (∃ m, MarkerAt K cq m) →
      ∃ rb, mlx5_cq_resize_copy_cqes K L cq =
        some { cq with resize_buf := rb, cons_index := (cq.cons_index + 1) % 2 ^ 32 } := by
    rintro ⟨m, hm, a1, a2, a3⟩
    have h0 := a1 0 (Nat.zero_le _)
    unfold resize_src at h0 a1 a2 a3
    simp only [e0] at h0
    obtain ⟨rb1, hl⟩ := resize_loop_done_of_marker K L cq (cq.cons_index &&& cq.active_cqes) m
      (cq.active_cqes + 2) cq.cons_index cq.resize_buf hci (by omega) a2 a3
      (fun t _ ht2 => a1 t ht2)
      (fun t ht1 ht2 => resize_start_away cq k t hk hk32 ht1 (by omega))
    refine ⟨rb1, ?_⟩
    unfold mlx5_cq_resize_copy_cqes
    simp only []
    rw [if_neg (by rw [h0]; exact fun h => h rfl), hl]
  have hnomark : (¬ ∃ m, MarkerAt K cq m) →
      ∃ rb, mlx5_cq_resize_copy_cqes K L cq = some { cq with resize_buf := rb } := by
    intro hno
    unfold mlx5_cq_resize_copy_cqes
    simp only []
    by_cases h0 : is_hw K (get_buf_cqe cq.active_buf
        (cq.cons_index &&& cq.active_cqes)).cqe64.op_own cq.cons_index cq.active_cqes ≠ 0
    · rw [if_pos h0]
      exact ⟨cq.resize_buf, rfl⟩
    · rw [if_neg h0]
      have h0' : is_hw K (get_buf_cqe cq.active_buf
          (cq.cons_index &&& cq.active_cqes)).cqe64.op_own cq.cons_index cq.active_cqes = 0 := by
        by_contra hc
        exact h0 hc
      obtain ⟨e, he⟩ := hterm (cq.active_cqes + 2) cq.resize_buf (by omega)
      rw [he]
      cases e with
      | failed rb => exact ⟨rb, rfl⟩
      | done rb => exact absurd (marker_of_done K L cq k hk hk32 hci _ _ rb h0' he) hno
  refine ⟨fun rb => hterm _ rb (le_refl _), ?_, hmark, hnomark, ?_⟩
  · by_cases hm : ∃ m, MarkerAt K cq m
    · obtain ⟨rb, h⟩ := hmark hm
      exact ⟨_, h⟩
    · obtain ⟨rb, h⟩ := hnomark hm
      exact ⟨_, h⟩
  · intro h0
    unfold mlx5_cq_resize_copy_cqes
    simp only []
    rw [if_pos h0]

/-- Witness for C33: in the resize example the marker is found one slot after the consumer index and
cons_index becomes 1; in the ring of the send example there is no marker and the queue is
returned with cons_index unchanged. -/
theorem resize_copy_terminates_witness :
    MarkerAt hdr Cq.ex_resize 1 ∧
      (∃ rb, mlx5_cq_resize_copy_cqes hdr Layout.ex Cq.ex_resize =
        some { Cq.ex_resize with resize_buf := rb, cons_index := 1 }) ∧
      (¬ ∃ m, MarkerAt hdr Cq.ex_send m) ∧
      ∃ rb, mlx5_cq_resize_copy_cqes hdr Layout.ex Cq.ex_send =
        some { Cq.ex_send with resize_buf := rb } := by
  have h1 : MarkerAt hdr Cq.ex_resize 1 :=
    ⟨by decide, fun t ht => by interval_cases t <;> decide,
      fun t ht => by interval_cases t; decide, by decide⟩
  have h2 : ¬ ∃ m, MarkerAt hdr Cq.ex_send m := by
    rintro ⟨m, hm, _, _, h⟩
    have hm3 : m ≤ 3 := hm
    interval_cases m <;> revert h <;> decide
  exact ⟨h1,
    (resize_copy_terminates hdr Layout.ex Cq.ex_resize 2 (by decide) (by decide)
      (by decide)).2.2.1 ⟨1, h1⟩,
    h2,
    (resize_copy_terminates hdr Layout.ex Cq.ex_send 2 (by decide) (by decide)
      (by decide)).2.2.2.1 h2⟩

set_option maxRecDepth 100000 in
/-- Rewriting the owner bit of a byte keeps its opcode. -/
theorem own_opcode (c : Nat) (hc : c < 256) (o : Nat) (ho : o < 2) :
    (((c &&& not32 1) ||| o) % 256) >>> 4 = c >>> 4 := by
  have h : ∀ c, c < 256 → ∀ o, o < 2 → (((c &&& not32 1) ||| o) % 256) >>> 4 = c >>> 4 := by
    unfold not32
    decide
  exact h c hc o ho

/-- For a ring of 2^r slots sw_ownership_bit of index j is (j / 2^r) mod 2. -/
theorem sw_bit_parity (j r : Nat) : sw_ownership_bit j (2 ^ r) = j / 2 ^ r % 2 := by
  unfold sw_ownership_bit
  exact parity_eq j r

/-- A slot whose owner bit is sw_ownership_bit of its index is software-owned by the test is_hw with
the mask of the ring. -/
theorem is_hw_of_sw_bit (K : Hdr) (own j r : Nat)
    (h : own &&& K.MLX5_CQE_OWNER_MASK = sw_ownership_bit j (2 ^ r)) :
    is_hw K own j (2 ^ r - 1) = 0 := by
  have hpos : 0 < 2 ^ r := Nat.two_pow_pos r
  unfold is_hw
  rw [h, show 2 ^ r - 1 + 1 = 2 ^ r by omega]
  unfold sw_ownership_bit
  exact Nat.xor_self _

/-- Claim C32. For old and new rings of 2^k and R = 2^r slots: every copy that the loop of
mlx5_cq_resize_copy_cqes makes to the destination index j = i + 1 leaves the destination record
with the owner bit (j / R) mod 2, so is_hw with the mask of the new ring reports it software-
owned at index j. When the marker is found m < R slots after cons_index, the function succeeds
with cons_index increased by 1, and in the new buffer the s-th copied slot, at index j =
cons_index + s + 1, has the owner bit (j / R) mod 2 and is software-owned at j; between slots of
one size it holds the source record except for the owner bit, and get_sw_cqe on the new ring
returns it at index j when the source is not invalid. For s = 0 this is the slot at the new
consumer index. -/
theorem resize_copy_owner (K : Hdr) (hK : K.Ok) (L : Layout) (cq : Cq) (k r m : Nat)
    (hk : cq.active_cqes = 2 ^ k - 1) (hk32 : k ≤ 32) (hci : cq.cons_index < 2 ^ 32)
    (hr : cq.resize_cqes = 2 ^ r) (hr32 : r ≤ 32)
    (hm : MarkerAt K cq m) (hmr : m < 2 ^ r) :
    (∀ (i : Nat) (rb : Nat → Slot),
      (resize_copy_slot K L cq i rb (((i + 1) % 2 ^ 32) % 2 ^ r)).cqe64.op_own &&&
          K.MLX5_CQE_OWNER_MASK = ((i + 1) % 2 ^ 32) / 2 ^ r % 2 ∧
        is_hw K (resize_copy_slot K L cq i rb (((i + 1) % 2 ^ 32) % 2 ^ r)).cqe64.op_own
          ((i + 1) % 2 ^ 32) (cq.resize_cqes - 1) = 0) ∧
    ∃ rb, mlx5_cq_resize_copy_cqes K L cq =
        some { cq with resize_buf := rb, cons_index := (cq.cons_index + 1) % 2 ^ 32 } ∧
      ∀ s j, s < m → j = (cq.cons_index + (s + 1)) % 2 ^ 32 →
        (rb (j % 2 ^ r)).cqe64.op_own &&& K.MLX5_CQE_OWNER_MASK = j / 2 ^ r % 2 ∧
        is_hw K (rb (j % 2 ^ r)).cqe64.op_own j (cq.resize_cqes - 1) = 0 ∧
        (cq.cqe_sz = cq.resize_cqe_sz →
          (resize_src cq s).2.cqe64.op_own < 256 →
          (rb (j % 2 ^ r)).cqe64 =
            { (resize_src cq s).2.cqe64 with op_own := (rb (j % 2 ^ r)).cqe64.op_own } ∧
          (rb (j % 2 ^ r)).cqe64.op_own >>> 4 = (resize_src cq s).2.cqe64.op_own >>> 4 ∧
          (mlx5dv_get_cqe_opcode (resize_src cq s).2.cqe64 ≠ K.MLX5_CQE_INVALID →
            get_sw_cqe K { cq with active_buf := rb, cqe := cq.resize_cqes - 1 } j =
              some (j % 2 ^ r))) := by
  have hpos : 0 < 2 ^ r := Nat.two_pow_pos r
  have e0 : (cq.cons_index + 0) % 2 ^ 32 = cq.cons_index := by
    rw [Nat.add_zero, Nat.mod_eq_of_lt hci]
  refine ⟨fun i rb => ?_, ?_⟩
  · have ho := resize_copy_slot_owner K hK L cq i rb
    have hd := dpos_eq cq r ((i + 1) % 2 ^ 32) hr hr32
    rw [Nat.mod_mod] at hd
    rw [hd, mod32_mod _ r hr32] at ho
    rw [mod32_mod _ r hr32]
    rw [hr] at ho
    refine ⟨by rw [ho, sw_bit_parity], ?_⟩
    rw [hr]
    exact is_hw_of_sw_bit K _ _ r ho
  · obtain ⟨hm1, a1, a2, a3⟩ := hm
    have h0 := a1 0 (Nat.zero_le _)
    unfold resize_src at h0 a1 a2 a3
    simp only [e0] at h0
    obtain ⟨rb1, hl, _, hcopy⟩ := resize_loop_done K hK L cq (cq.cons_index &&& cq.active_cqes) r
      hr hr32 m (cq.active_cqes + 2) cq.cons_index cq.resize_buf hci (by omega) hmr a2 a3
      (fun t _ ht2 => a1 t ht2)
      (fun t ht1 ht2 => resize_start_away cq k t hk hk32 ht1 (by omega))
    refine ⟨rb1, ?_, ?_⟩
    · unfold mlx5_cq_resize_copy_cqes
      simp only []
      rw [if_neg (by rw [h0]; exact fun h => h rfl), hl]
    · intro s j hs hj
      obtain ⟨c1, c2⟩ := hcopy s hs
      have hjr : j % 2 ^ r = (cq.cons_index + (s + 1)) % 2 ^ r := by
        rw [hj, mod32_mod _ r hr32]
      rw [← hjr, ← hj, hr] at c1
      rw [← hjr, ← hj, hr] at c2
      have hown : (rb1 (j % 2 ^ r)).cqe64.op_own &&& K.MLX5_CQE_OWNER_MASK = j / 2 ^ r % 2 := by
        rw [c1, sw_bit_parity]
      refine ⟨hown, by rw [hr]; exact is_hw_of_sw_bit K _ _ r c1, ?_⟩
      intro hsz hbyte
      have c3 := c2 hsz
      unfold resize_src
      simp only []
      have hop : (rb1 (j % 2 ^ r)).cqe64.op_own >>> 4 =
          (get_buf_cqe cq.active_buf
            (((cq.cons_index + s) % 2 ^ 32) &&& cq.active_cqes)).cqe64.op_own >>> 4 := by
        rw [c3]
        show (((_ &&& not32 K.MLX5_CQE_OWNER_MASK) ||| _) % 256) >>> 4 = _
        rw [hK.owner_mask]
        exact own_opcode _ hbyte _ (sw_bit_lt _ _)
      refine ⟨?_, hop, ?_⟩
      · rw [c3]
      · intro hval
        unfold get_sw_cqe get_cqe
        simp only []
        have hmask : j &&& (cq.resize_cqes - 1) = j % 2 ^ r := by rw [hr, mask_mod]
        rw [hmask, if_pos]
        refine ⟨?_, ?_⟩
        · unfold mlx5dv_get_cqe_opcode at hval ⊢
          rw [hop]
          exact hval
        · rw [hown, hr, show 2 ^ r - 1 + 1 = 2 ^ r by omega, parity_eq, Nat.xor_self]

/-- Witness for C32: in the resize example across a wrap the live slot at index 3 (owner bit 0) is
copied to index 4 of the new ring of 4 slots, where its owner bit is 1; cons_index becomes 4 and
get_sw_cqe on the new ring returns the slot at index 4. -/
theorem resize_copy_owner_witness :
    (Cq.ex_resize_wrap.active_buf 3).cqe64.op_own &&& 1 = 0 ∧
      ∃ rb, mlx5_cq_resize_copy_cqes hdr Layout.ex Cq.ex_resize_wrap =
          some { Cq.ex_resize_wrap with resize_buf := rb, cons_index := 4 } ∧
        (rb 0).cqe64.op_own &&& 1 = 1 ∧
        get_sw_cqe hdr { Cq.ex_resize_wrap with active_buf := rb, cqe := 3 } 4 = some 0 := by
  have hm : MarkerAt hdr Cq.ex_resize_wrap 1 :=
    ⟨by decide, fun t ht => by interval_cases t <;> decide,
      fun t ht => by interval_cases t; decide, by decide⟩
  obtain ⟨rb, h1, h2⟩ := (resize_copy_owner hdr hdr_ok Layout.ex Cq.ex_resize_wrap 2 2 1
    (by decide) (by decide) (by decide) (by decide) (by decide) hm (by decide)).2
  obtain ⟨a, _, c⟩ := h2 0 4 (by decide) (by decide)
  exact ⟨by decide, rb, h1, a, (c rfl (by decide)).2.2 (by decide)⟩

/-! ### Frame of the clean (C31) -/

/-- The owner bit of a byte made of the bit o and the other bits of c is o. -/
theorem own_bit_dest (c o : Nat) (ho : o < 2) : ((o ||| (c &&& not32 1)) % 256) &&& 1 = o := by
  have h : ∀ y : Nat, y &&& 1 = if y.testBit 0 = true then 1 else 0 := by
    intro y
    rw [Nat.and_one_is_mod, Nat.testBit_zero]
    split_ifs with h <;> simp at h <;> omega
  have h8 : (256 : Nat) = 2 ^ 8 := rfl
  rw [h, h8, Nat.testBit_mod_two_pow, Nat.testBit_or, Nat.testBit_and, testBit_not32]
  interval_cases o <;> simp

/-- One pass of the sweep of the clean keeps the owner bit of every ring position. -/
theorem clean_body_owner (K : Hdr) (hK : K.Ok) (s : CleanSt) (rsn srq ver prod_index p : Nat) :
    ((clean_body K s rsn srq ver prod_index).cq.active_buf p).cqe64.op_own &&&
        K.MLX5_CQE_OWNER_MASK =
      (s.cq.active_buf p).cqe64.op_own &&& K.MLX5_CQE_OWNER_MASK := by
  unfold clean_body
  simp only []
  split_ifs with h1 h2
  · rfl
  · show (upd _ _ _ p : Slot).cqe64.op_own &&& _ = _
    by_cases hp : p = ((prod_index + s.nfreed) % 2 ^ 32) &&& s.cq.cqe
    · rw [hp, upd_same]
      simp only [get_cqe, hK.owner_mask]
      exact own_bit_dest _ _ (by rw [Nat.and_one_is_mod]; omega)
    · rw [upd_other _ _ _ _ hp]
  · rfl

/-- One pass of the sweep of the clean keeps the ring mask, the consumer index and the doorbell
record, does not lower the count of freed slots, and leaves the queue as it was while that count
is 0. -/
theorem clean_body_frame (K : Hdr) (s : CleanSt) (rsn srq ver prod_index : Nat) :
    (clean_body K s rsn srq ver prod_index).cq.cqe = s.cq.cqe ∧
      (clean_body K s rsn srq ver prod_index).cq.cons_index = s.cq.cons_index ∧
      (clean_body K s rsn srq ver prod_index).cq.dbrec = s.cq.dbrec ∧
      s.nfreed ≤ (clean_body K s rsn srq ver prod_index).nfreed ∧
      ((clean_body K s rsn srq ver prod_index).nfreed = 0 →
        (clean_body K s rsn srq ver prod_index).cq = s.cq) := by
  unfold clean_body
  simp only []
  split_ifs with h1 h2
  · exact ⟨rfl, rfl, rfl, Nat.le_succ _, fun h => absurd h (Nat.succ_ne_zero _)⟩
  · exact ⟨rfl, rfl, rfl, le_refl _, fun h => absurd h h2⟩
  · exact ⟨rfl, rfl, rfl, le_refl _, fun _ => rfl⟩

/-- The sweep of the clean keeps the owner bit of every ring position, the ring mask, the consumer
index and the doorbell record, does not lower the count of freed slots, and leaves the queue as
it was when that count ends as 0. -/
theorem clean_sweep_frame (K : Hdr) (hK : K.Ok) (rsn srq ver : Nat) :
    ∀ (fuel prod_index : Nat) (s : CleanSt),
      (∀ p, ((clean_sweep K rsn srq ver fuel prod_index s).cq.active_buf p).cqe64.op_own &&&
          K.MLX5_CQE_OWNER_MASK =
        (s.cq.active_buf p).cqe64.op_own &&& K.MLX5_CQE_OWNER_MASK) ∧
      (clean_sweep K rsn srq ver fuel prod_index s).cq.cqe = s.cq.cqe ∧
      (clean_sweep K rsn srq ver fuel prod_index s).cq.cons_index = s.cq.cons_index ∧
      (clean_sweep K rsn srq ver fuel prod_index s).cq.dbrec = s.cq.dbrec ∧
      s.nfreed ≤ (clean_sweep K rsn srq ver fuel prod_index s).nfreed ∧
      ((clean_sweep K rsn srq ver fuel prod_index s).nfreed = 0 →
        (clean_sweep K rsn srq ver fuel prod_index s).cq = s.cq) := by
  intro fuel
  induction fuel with
  | zero =>
    intro prod_index s
    exact ⟨fun _ => rfl, rfl, rfl, rfl, le_refl _, fun _ => rfl⟩
  | succ f ih =>
    intro prod_index s
    rw [clean_sweep]
    split_ifs with h
    · obtain ⟨a1, a2, a3, a4, a5, a6⟩ := ih (decr32 prod_index)
        (clean_body K s rsn srq ver (decr32 prod_index))
      obtain ⟨b1, b2, b3, b4, b5⟩ := clean_body_frame K s rsn srq ver (decr32 prod_index)
      refine ⟨fun p => (a1 p).trans (clean_body_owner K hK s _ _ _ _ p), a2.trans b1,
        a3.trans b2, a4.trans b3, le_trans b4 a5, fun h0 => ?_⟩
      have hb0 : (clean_body K s rsn srq ver (decr32 prod_index)).nfreed = 0 := by omega
      rw [a6 h0, b5 hb0]
    · exact ⟨fun _ => rfl, rfl, rfl, rfl, le_refl _, fun _ => rfl⟩

/-- One pass of the sweep keeps the ring made of original slots and moved surviving slots. -/
theorem clean_body_moved (K : Hdr) (hK : K.Ok) (cq : Cq) (w : World) (rsn srq L i : Nat)
    (hi : i < L) (s : CleanSt)
    (h : SweepInv K cq w rsn L (i + 1) s) (hm : Moved K cq w rsn L s.cq.active_buf) :
    Moved K cq w rsn L
      (clean_body K s rsn srq w.cqe_version ((cq.cons_index + i) % 2 ^ 32)).cq.active_buf := by
  have hslot : s.cq.active_buf ((cq.cons_index + i) % 2 ^ 32 &&& s.cq.cqe) =
      cq.active_buf (live_pos cq i) := by
    rw [h.mask]
    exact h.below i (by omega)
  unfold clean_body
  simp only [get_cqe, hslot, free_res_cqe_fst]
  by_cases hmt : res_match (cq.active_buf (live_pos cq i)).cqe64 rsn w.cqe_version = true
  · rw [if_pos hmt]
    exact hm
  · rw [if_neg hmt]
    have hmf : res_match (cq.active_buf (live_pos cq i)).cqe64 rsn w.cqe_version = false := by
      simpa using hmt
    by_cases hn : s.nfreed ≠ 0
    · rw [if_pos hn]
      intro p
      show (upd _ _ _ p : Slot) = _ ∨ ∃ j, j < L ∧ _ ∧ (upd _ _ _ p : Slot).payload K = _
      by_cases hp : p = ((cq.cons_index + i) % 2 ^ 32 + s.nfreed) % 2 ^ 32 &&& s.cq.cqe
      · right
        refine ⟨i, hi, hmf, ?_⟩
        rw [hp, upd_same]
        have hob := owner_bits (cq.active_buf (live_pos cq i)).cqe64.op_own
          (by have := h.bytes (live_pos cq i); rwa [h.below i (by omega)] at this)
          ((s.cq.active_buf (((cq.cons_index + i) % 2 ^ 32 + s.nfreed) % 2 ^ 32 &&&
            s.cq.cqe)).cqe64.op_own &&& 1)
          (by rw [Nat.and_one_is_mod]; omega)
        unfold Slot.payload
        simp only [hK.owner_mask]
        rw [hob.2]
      · rw [upd_other _ _ _ _ hp]
        exact hm p
    · rw [if_neg hn]
      exact hm

/-- The sweep keeps the ring made of original slots and moved surviving slots. -/
theorem clean_sweep_moved (K : Hdr) (hK : K.Ok) (cq : Cq) (w : World) (rsn srq L k : Nat)
    (hk : cq.cqe = 2 ^ k - 1) (hk31 : k ≤ 31) (hL : L ≤ cq.cqe) (hci : cq.cons_index < 2 ^ 32) :
    ∀ i fuel s, i ≤ L → i ≤ fuel → SweepInv K cq w rsn L i s →
      Moved K cq w rsn L s.cq.active_buf →
      Moved K cq w rsn L
        (clean_sweep K rsn srq w.cqe_version fuel ((cq.cons_index + i) % 2 ^ 32) s).cq.active_buf := by
  have hpow : 2 ^ k ≤ 2 ^ 31 := Nat.pow_le_pow_right (by norm_num) hk31
  intro i
  induction i with
  | zero =>
    intro fuel s _ _ h hm
    cases fuel with
    | zero => exact hm
    | succ f =>
      unfold clean_sweep
      rw [h.cons, if_neg]
      · exact hm
      · rw [sweep_test _ _ hci (by omega)]
        omega
  | succ i ih =>
    intro fuel s hi hf h hm
    cases fuel with
    | zero => omega
    | succ f =>
      unfold clean_sweep
      rw [h.cons, if_pos ((sweep_test _ _ hci (by omega)).2 (by omega)), sweep_prev]
      exact ih f _ (by omega) (by omega)
        (clean_body_inv K hK cq w rsn srq L k i hk (by omega) hL (by omega) s h)
        (clean_body_moved K hK cq w rsn srq L i (by omega) s h hm)

/-- On a ring whose slots are all software-visible the first loop of the clean stops one slot short
of a full ring. -/
theorem clean_find_prod_full (K : Hdr) (cq : Cq) (hc : cq.cqe < 2 ^ 32)
    (hv : ∀ j, j ≤ cq.cqe → get_sw_cqe K cq ((cq.cons_index + j) % 2 ^ 32) ≠ none) :
    ∀ d i fuel, i + d = cq.cqe → d < fuel →
      clean_find_prod K cq fuel ((cq.cons_index + i) % 2 ^ 32) =
        (cq.cons_index + cq.cqe) % 2 ^ 32 := by
  intro d
  induction d with
  | zero =>
    intro i fuel hi hf
    have hie : i = cq.cqe := by omega
    subst hie
    cases fuel with
    | zero => omega
    | succ f =>
      unfold clean_find_prod
      rw [if_neg (hv _ (le_refl _)), if_pos rfl]
  | succ d ih =>
    intro i fuel hi hf
    cases fuel with
    | zero => omega
    | succ f =>
      unfold clean_find_prod
      rw [if_neg (hv i (by omega)), if_neg]
      · have h1 : ((cq.cons_index + i) % 2 ^ 32 + 1) % 2 ^ 32 =
            (cq.cons_index + (i + 1)) % 2 ^ 32 := by
          omega
        rw [h1]
        exact ih (i + 1) f (by omega) (by omega)
      · omega

/-- The first loop of the clean stops after the L software-visible slots, or one slot short of a
full ring when all are visible. -/
theorem clean_find_prod_gen (K : Hdr) (cq : Cq) (L : Nat) (hlive : Avail K cq L)
    (hc : cq.cqe < 2 ^ 32) :
    clean_find_prod K cq (cq.cqe + 1) cq.cons_index =
      (cq.cons_index + min L cq.cqe) % 2 ^ 32 := by
  have hci := hlive.1
  have e0 : (cq.cons_index + 0) % 2 ^ 32 = cq.cons_index := by
    rw [Nat.add_zero, Nat.mod_eq_of_lt hci]
  by_cases hL : L ≤ cq.cqe
  · have := clean_find_prod_eq K cq L hlive hL hc L 0 (cq.cqe + 1) (by omega) (by omega)
    rw [e0] at this
    rw [this, Nat.min_eq_left hL]
  · have hv : ∀ j, j ≤ cq.cqe → get_sw_cqe K cq ((cq.cons_index + j) % 2 ^ 32) ≠ none :=
      fun j hj => hlive.2.1 j (by omega)
    have := clean_find_prod_full K cq hc hv cq.cqe 0 (cq.cqe + 1) (by omega) (by omega)
    rw [e0] at this
    rw [this, Nat.min_eq_right (by omega)]

/-- On a queue that is not DV-owned the clean returns the queue of the sweep, with the consumer
index advanced by the count of freed slots and the doorbell record written when that count is
not 0. -/
theorem cq_clean_result (K : Hdr) (cq : Cq) (w : World) (rsn srq : Nat)
    (hdv : cq.flags &&& K.MLX5_CQ_FLAGS_DV_OWNED = 0) :
    (__mlx5_cq_clean K cq w rsn srq).1 =
      (if (clean_sweep K rsn srq w.cqe_version (cq.cqe + 1)
          (clean_find_prod K cq (cq.cqe + 1) cq.cons_index)
          { cq := cq, w := w, nfreed := 0 }).nfreed ≠ 0 then
        update_cons_index K
          { (clean_sweep K rsn srq w.cqe_version (cq.cqe + 1)
              (clean_find_prod K cq (cq.cqe + 1) cq.cons_index)
              { cq := cq, w := w, nfreed := 0 }).cq with
            cons_index :=
              ((clean_sweep K rsn srq w.cqe_version (cq.cqe + 1)
                (clean_find_prod K cq (cq.cqe + 1) cq.cons_index)
                { cq := cq, w := w, nfreed := 0 }).cq.cons_index +
              (clean_sweep K rsn srq w.cqe_version (cq.cqe + 1)
                (clean_find_prod K cq (cq.cqe + 1) cq.cons_index)
                { cq := cq, w := w, nfreed := 0 }).nfreed) % 2 ^ 32 }
      else
        (clean_sweep K rsn srq w.cqe_version (cq.cqe + 1)
          (clean_find_prod K cq (cq.cqe + 1) cq.cons_index)
          { cq := cq, w := w, nfreed := 0 }).cq) := by
  unfold __mlx5_cq_clean
  rw [if_neg (by simp [hdv])]
  simp only []
  split_ifs <;> rfl

/-- Claim C31, amended. For every ring of 2^k slots (k at most 31, op_own a byte) with L live slots
from cons_index, of which __mlx5_cq_clean examines n = min(L, 2^k - 1): every ring position
keeps the owner bit it had; every position holds after the clean what it held before or, in
every bit except the owner bit, an examined slot that does not match rsn; and when no live slot
matches rsn, or the queue is DV-owned, the whole queue is unchanged (ring, cons_index, doorbell
record). On a queue that is not DV-owned, with K the number of examined slots that match:
cons_index advances by K, the n - K surviving slots are the non-matching examined slots in their
order, equal to them except for the owner bit, positions outside the examined window are
untouched, for K = 0 the queue is unchanged, and for K > 0 the doorbell record is the old one
with the entry MLX5_CQ_SET_CI set to the big-endian encoding of (new cons_index) & 0xffffff. -/
theorem cq_clean_frame (K : Hdr) (hK : K.Ok) (cq : Cq) (w : World) (rsn srq k L n : Nat)
    (res : Cq) (hk : cq.cqe = 2 ^ k - 1) (hk31 : k ≤ 31)
    (hbyte : ∀ p, (cq.active_buf p).cqe64.op_own < 256)
    (hlive : Avail K cq L) (hn : n = min L cq.cqe)
    (hres : res = (__mlx5_cq_clean K cq w rsn srq).1) :
    (∀ p, (res.active_buf p).cqe64.op_own &&& K.MLX5_CQE_OWNER_MASK =
      (cq.active_buf p).cqe64.op_own &&& K.MLX5_CQE_OWNER_MASK) ∧
    Moved K cq w rsn n res.active_buf ∧
    res.cqe = cq.cqe ∧
    (cq.flags &&& K.MLX5_CQ_FLAGS_DV_OWNED ≠ 0 → res = cq) ∧
    ((∀ j, j < L → res_match (cq.active_buf (live_pos cq j)).cqe64 rsn w.cqe_version = false) →
      res = cq) ∧
    (cq.flags &&& K.MLX5_CQ_FLAGS_DV_OWNED = 0 →
      res.cons_index = (cq.cons_index + clean_count cq n rsn w.cqe_version) % 2 ^ 32 ∧
      (live_slots res (n - clean_count cq n rsn w.cqe_version)).map (Slot.payload K) =
        ((live_slots cq n).filter (fun s => !res_match s.cqe64 rsn w.cqe_version)).map
          (Slot.payload K) ∧
      (∀ p, (∀ j, j < n → p ≠ live_pos cq j) → res.active_buf p = cq.active_buf p) ∧
      (clean_count cq n rsn w.cqe_version = 0 → res = cq) ∧
      (0 < clean_count cq n rsn w.cqe_version →
        res.dbrec = upd cq.dbrec K.MLX5_CQ_SET_CI (htobe32 (res.cons_index &&& 0xffffff)))) := by
  have hci := hlive.1
  have hpow : 2 ^ k ≤ 2 ^ 31 := Nat.pow_le_pow_right (by norm_num) hk31
  have hposk : 0 < 2 ^ k := Nat.two_pow_pos k
  have hnle : n ≤ cq.cqe := by rw [hn]; exact Nat.min_le_right _ _
  have hnL : n ≤ L := by rw [hn]; exact Nat.min_le_left _ _
  by_cases hdv : cq.flags &&& K.MLX5_CQ_FLAGS_DV_OWNED = 0
  · -- the queue is swept
    have hprod := clean_find_prod_gen K cq L hlive (by omega)
    rw [← hn] at hprod
    have hr := cq_clean_result K cq w rsn srq hdv
    rw [hprod, ← hres] at hr
    have hini := SweepInv_init K cq w rsn n hbyte
    have hinv := clean_sweep_inv K hK cq w rsn srq n k hk hk31 hnle hci n (cq.cqe + 1) _
      (le_refl n) (by omega) hini
    have hmov := clean_sweep_moved K hK cq w rsn srq n k hk hk31 hnle hci n (cq.cqe + 1) _
      (le_refl n) (by omega) hini (fun p => Or.inl rfl)
    have hfr := clean_sweep_frame K hK rsn srq w.cqe_version (cq.cqe + 1)
      ((cq.cons_index + n) % 2 ^ 32) { cq := cq, w := w, nfreed := 0 }
    generalize clean_sweep K rsn srq w.cqe_version (cq.cqe + 1) ((cq.cons_index + n) % 2 ^ 32)
      { cq := cq, w := w, nfreed := 0 } = s at hr hinv hmov hfr
    obtain ⟨f1, f2, f3, f4, _, f6⟩ := hfr
    have hcount : s.nfreed = clean_count cq n rsn w.cqe_version := by
      rw [hinv.freed, seg_zero]; rfl
    have hbuf : res.active_buf = s.cq.active_buf := by
      rw [hr]; split_ifs <;> rfl
    have hmask : res.cqe = cq.cqe := by
      rw [hr]; split_ifs
      · exact f2
      · exact f2
    have hcons : res.cons_index = (cq.cons_index + s.nfreed) % 2 ^ 32 := by
      rw [hr]
      split_ifs with h0
      · show (s.cq.cons_index + s.nfreed) % 2 ^ 32 = _
        rw [f3]
      · have h0' : s.nfreed = 0 := by simpa using h0
        rw [h0', Nat.add_zero, Nat.mod_eq_of_lt hci]
        exact f3
    have hzero : s.nfreed = 0 → res = cq := by
      intro h0
      rw [hr, if_neg (by simp [h0])]
      exact f6 h0
    have hle : s.nfreed ≤ n := by have := SweepInv_freed_le hinv; omega
    refine ⟨fun p => by rw [hbuf]; exact f1 p, by rw [hbuf]; exact hmov, hmask,
      fun h => absurd hdv h, ?_, fun _ => ⟨by rw [hcons, hcount], ?_, ?_,
        fun h0 => hzero (hcount.trans h0), ?_⟩⟩
    · intro hno
      apply hzero
      rw [hinv.freed]
      rw [List.length_eq_zero, List.filter_eq_nil_iff]
      intro c hc
      unfold seg at hc
      rw [List.mem_map] at hc
      obtain ⟨j, hj, hje⟩ := hc
      rw [List.mem_range'_1] at hj
      rw [← hje, hno j (by omega)]
      exact Bool.false_ne_true
    · rw [← hcount]
      have hpos : ∀ j, live_pos res j = live_pos cq (s.nfreed + j) := by
        intro j
        unfold live_pos
        rw [hmask, hcons]
        congr 1
        omega
      have hw := hinv.window
      rw [Nat.zero_add, seg_zero] at hw
      have e : n = s.nfreed + (n - s.nfreed) := by omega
      rw [e, seg_shift, ← e] at hw
      unfold live_slots
      rw [List.map_map, ← hw]
      apply List.map_congr_left
      intro j _
      show (res.active_buf (live_pos res j)).payload K = _
      rw [hpos, hbuf]
    · intro p hp
      rw [hbuf]
      exact hinv.outside p hp
    · intro hpos
      have h0 : s.nfreed ≠ 0 := by omega
      rw [hr, if_pos h0]
      show upd _ _ _ = upd _ _ _
      rw [f4]
      rfl
  · -- a queue owned through the direct-verbs interface is returned as it is
    have hr : res = cq := by
      rw [hres]
      unfold __mlx5_cq_clean
      rw [if_pos hdv]
    exact ⟨fun p => by rw [hr], fun p => Or.inl (by rw [hr]), by rw [hr], fun _ => hr,
      fun _ => hr, fun h => absurd h hdv⟩

/-- Witness for C31: in the clean example (4 slots, live slots for the queues 7, 5, 7) every
position keeps its owner bit, cons_index becomes 2, the one surviving slot is the slot of queue
5, and the doorbell record holds 2. -/
theorem cq_clean_frame_witness :
    Avail hdr Cq.ex_clean 3 ∧ clean_count Cq.ex_clean 3 7 World.zero.cqe_version = 2 ∧
      (∀ p, ((__mlx5_cq_clean hdr Cq.ex_clean World.zero 7 0).1.active_buf p).cqe64.op_own &&&
          hdr.MLX5_CQE_OWNER_MASK =
        (Cq.ex_clean.active_buf p).cqe64.op_own &&& hdr.MLX5_CQE_OWNER_MASK) ∧
      (__mlx5_cq_clean hdr Cq.ex_clean World.zero 7 0).1.cons_index = 2 ∧
      (live_slots (__mlx5_cq_clean hdr Cq.ex_clean World.zero 7 0).1 1).map (Slot.payload hdr) =
        [(Slot.of (Cqe64.ex_req 5)).payload hdr] ∧
      (__mlx5_cq_clean hdr Cq.ex_clean World.zero 7 0).1.dbrec =
        upd Cq.ex_clean.dbrec hdr.MLX5_CQ_SET_CI (htobe32 2) := by
  have hav : Avail hdr Cq.ex_clean 3 := by
    refine ⟨by decide, ?_, by decide⟩
    intro j hj
    interval_cases j <;> decide
  have hb : ∀ p, (Cq.ex_clean.active_buf p).cqe64.op_own < 256 := by
    intro p
    unfold Cq.ex_clean upd
    simp only
    split_ifs <;> decide
  have h := cq_clean_frame hdr hdr_ok Cq.ex_clean World.zero 7 0 2 3 3
    (__mlx5_cq_clean hdr Cq.ex_clean World.zero 7 0).1 (by decide) (by decide) hb hav
    (by decide) rfl
  have hc : clean_count Cq.ex_clean 3 7 World.zero.cqe_version = 2 := by decide
  obtain ⟨h1, -, -, -, -, h6⟩ := h
  obtain ⟨g1, g2, -, -, g5⟩ := h6 (by decide)
  rw [hc] at g1 g2 g5
  have g5' := g5 (by decide)
  rw [g1] at g5'
  exact ⟨hav, hc, h1, g1, g2.trans rfl, g5'.trans rfl⟩

/-- Claim C31, counterexample: on a DV-owned queue whose live slot at cons_index 0 matches rsn 7,
and whose doorbell record holds 8 as the application wrote it, __mlx5_cq_clean returns at once:
cons_index stays 0 and the doorbell record still holds 8, not (new cons_index) & 0xffffff. On a
full ring of 2 slots that is not DV-owned, whose newest slot matches rsn 7, the slot is not
examined: cons_index stays 0 and the doorbell record is not written. -/
theorem cq_clean_frame_counterexample :
    (get_sw_cqe hdr Cq.ex_dv_stale Cq.ex_dv_stale.cons_index = some 0 ∧
      res_match (Cq.ex_dv_stale.active_buf 0).cqe64 7 World.zero.cqe_version = true ∧
      Cq.ex_dv_stale.flags &&& hdr.MLX5_CQ_FLAGS_DV_OWNED ≠ 0 ∧
      (__mlx5_cq_clean hdr Cq.ex_dv_stale World.zero 7 0).1.cons_index = 0 ∧
      (__mlx5_cq_clean hdr Cq.ex_dv_stale World.zero 7 0).1.dbrec hdr.MLX5_CQ_SET_CI =
        htobe32 8 ∧
      (__mlx5_cq_clean hdr Cq.ex_dv_stale World.zero 7 0).1.dbrec hdr.MLX5_CQ_SET_CI ≠
        htobe32 ((__mlx5_cq_clean hdr Cq.ex_dv_stale World.zero 7 0).1.cons_index &&&
          0xffffff)) ∧
    (get_sw_cqe hdr Cq.ex_full 1 = some 1 ∧
      res_match (Cq.ex_full.active_buf 1).cqe64 7 World.zero.cqe_version = true ∧
      Cq.ex_full.flags &&& hdr.MLX5_CQ_FLAGS_DV_OWNED = 0 ∧
      (__mlx5_cq_clean hdr Cq.ex_full World.zero 7 0).1.cons_index = 0 ∧
      (__mlx5_cq_clean hdr Cq.ex_full World.zero 7 0).1.dbrec hdr.MLX5_CQ_SET_CI =
        Cq.ex_full.dbrec hdr.MLX5_CQ_SET_CI) := by
  decide

end Mlx5
